import Mathlib

/-!
Connection establishment core of libcouchbase (src/lcbio/connect.cc), and the
header callbacks of its HTTP response parser (src/lcbht/lcbht.c), which are
embedded at the end of the definitions.

A shallow embedding of `lcb::io::Connstart` and of the functions of
`connect.cc` as state-passing functions on a `World`: the attempt object, the
socket object it points to, the I/O table (with the scripted answers of the
operating system and a log of the calls made through the table), and the list
of invocations of the user callback.

Pointers are modelled by flags: `Connstart.sock` says whether the `sock`
pointer is non-NULL and the pointed-to object is `World.sock`; `delete this`
sets `World.cs_deleted`; `free(s)` sets `lcbio_SOCKET.freed`.

The `goto` loops of the drivers are functions from a label, recursive on a
bound on the number of jumps; the bound each driver is run with is computed
from the cursor and the script (`driver_fuel`) and is shown to be sufficient
(`E_conncb_fuel`, `C_connect_fuel`). The mutual calls of `handler` and
`cancel` are recursive on a depth bound, shown to be sufficient as well
(`handler_fuel`, `cancel_fuel`).

Headers that are not part of the sources (`ioutils.h`, `iotable.h`,
`connect.h`, `timer-cxx.h`, `settings.h`) are modelled from the specification
or taken as parameters (`Env`); every such definition says so. The `assert` of
`lcbio_wrap_fd` depends on the build (`NDEBUG`) and on the value of an
enumerator declared in such a header; both are parameters of the function.
-/

namespace Lcbio

/-! ## Data model -/

/-- The enumeration `Connstart::State`. -/
inductive State where
  | CS_PENDING
  | CS_CANCELLED
  | CS_CONNECTED
  | CS_ERROR
  deriving DecidableEq, Repr

/-- Modelled from the spec: `lcb_error_t` is declared in a header that is not
part of the sources; the constants used by `connect.cc`, the `NETWORK_ERROR`
of the error taxonomy and a numeric passthrough for every other code. -/
inductive lcb_error_t where
  | LCB_SUCCESS
  | LCB_ETIMEDOUT
  | LCB_CONNECT_ERROR
  | LCB_UNKNOWN_HOST
  | LCB_NETWORK_ERROR
  | LCB_OTHER (code : Nat)
  deriving DecidableEq, Repr

/-- Modelled from the spec: the connect-status categories `lcbio_CSERR`
(declared in `ioutils.h`, not part of the sources). -/
inductive lcbio_CSERR where
  | LCBIO_CSERR_INTR
  | LCBIO_CSERR_CONNECTED
  | LCBIO_CSERR_BUSY
  | LCBIO_CSERR_EINVAL
  | LCBIO_CSERR_EFAIL
  deriving DecidableEq, Repr

/-- The dispatch tag of the I/O table (`IOT_IS_EVENT`). -/
inductive lcb_iomodel where
  | LCB_IOMODEL_EVENT
  | LCB_IOMODEL_COMPLETION
  deriving DecidableEq, Repr

/-- The `ipv6` setting. -/
inductive lcb_ipv6_t where
  | LCB_IPV6_DISABLED
  | LCB_IPV6_ONLY
  | LCB_IPV6_ALLOW
  deriving DecidableEq, Repr

/-- Address families used for the `hints` of name resolution. -/
inductive ai_family_t where
  | AF_UNSPEC
  | AF_INET
  | AF_INET6
  deriving DecidableEq, Repr

/-- The fields of `lcb_settings` that `connect.cc` reads. -/
structure lcb_settings where
  ipv6 : lcb_ipv6_t
  tcp_nodelay : Bool
  deriving DecidableEq, Repr

/-- One node of the resolved address list. The list itself is a Lean list, the
`ai_next` pointer is the tail, and a NULL cursor is the empty list. -/
structure addrinfo where
  ai_family : ai_family_t
  ai_addr : Nat
  deriving DecidableEq, Repr

/-- The value `INVALID_SOCKET` of a raw descriptor. -/
def INVALID_SOCKET : Int := -1

/-- Bit of `LCB_WRITE_EVENT` in the `events` mask of a watch callback. -/
def LCB_WRITE_EVENT : Nat := 4

/-- Bit of `LCB_ERROR_EVENT` in the `events` mask of a watch callback. -/
def LCB_ERROR_EVENT : Nat := 8

/-- The socket handle `lcbio_SOCKET`. The union `u` is kept as two fields,
`fd` for the readiness model and `sd` for the completion model (`none` is the
NULL descriptor object); `protos` is the list of the attached protocol
contexts, the most recently attached first. -/
structure lcbio_SOCKET where
  fd : Int
  sd : Option Nat
  refcount : Nat
  settings : lcb_settings
  freed : Bool
  protos : List Nat
  deriving DecidableEq, Repr

/-- A call made through the I/O table (or to the operating system), in the
order in which `connect.cc` makes them. -/
inductive IOCall where
  | create_event
  | destroy_event
  | watch (fd : Int)
  | cancel_watch (fd : Int)
  | E_socket (a : addrinfo) (fd : Int)
  | C_socket (a : addrinfo) (sd : Option Nat)
  | connect0 (fd : Int) (a : Option addrinfo) (rv : Int)
  | C_connect (sd : Option Nat) (a : Option addrinfo) (rv : Int)
  | E_close (fd : Int)
  | C_close (sd : Option Nat)
  | getsockopt (fd : Int) (sockerr : Int)
  | load_socknames
  | disable_nagle
  deriving DecidableEq, Repr

/-- Modelled from the spec: the I/O table `lcbio_TABLE` (declared in
`iotable.h`, not part of the sources) as a scripted stub. `connects` holds the
pairs (return value, errno) that the successive connect calls answer, and a
connect issued after the script is used up returns 0; `sockerrs` holds the
successive values of `SO_ERROR` (0 once used up); `calls` is the log of the
calls made, oldest first. -/
structure lcbio_TABLE where
  model : lcb_iomodel
  errno : Int
  connects : List (Int × Int)
  sockerrs : List Int
  calls : List IOCall
  deriving DecidableEq, Repr

/-- Modelled from the spec: the one-shot timer of an attempt (`timer-cxx.h` is
not part of the sources): armed for a duration by `rearm`, scheduled for the
next loop turn by `signal`, cancelled by `release`. -/
inductive Timer where
  | idle
  | armed (usec : Nat)
  | signalled
  | released
  deriving DecidableEq, Repr

/-- What the user supplied callback does with the attempt while it runs: how
many times it calls `lcbio_connect_cancel` on the attempt, and whether it takes
a reference on the socket it is handed. -/
structure UserHandler where
  cancels : Nat
  refs : Bool
  deriving DecidableEq, Repr

/-- One invocation of the user callback:
`user_handler(socket_or_null, user_arg, err, syserr)`. -/
structure UserCall where
  sock : Bool
  user_arg : Nat
  err : lcb_error_t
  syserr : Int
  deriving DecidableEq, Repr

/-- The attempt object `Connstart`. -/
structure Connstart where
  user_handler : UserHandler
  user_arg : Nat
  sock : Bool
  syserr : Int
  event : Bool
  ev_active : Bool
  in_uhandler : Bool
  ai_root : List addrinfo
  ai : List addrinfo
  state : State
  last_error : lcb_error_t
  timer : Timer
  deriving DecidableEq, Repr

/-- The attempt, its socket, the I/O table, the invocations of the user
callback so far (oldest first), and the number of submitted completion
connects of the attempt whose completion callback has not been delivered
yet. -/
structure World where
  cs : Connstart
  cs_deleted : Bool
  sock : lcbio_SOCKET
  iot : lcbio_TABLE
  ucalls : List UserCall
  pending : Nat
  deriving DecidableEq, Repr

/-- The helpers of `ioutils` and the descriptor factories of the I/O table,
which are not part of the sources, as parameters: `mkcserr` is
`lcbio_mkcserr`, `mklcberr` is `lcbio_mklcberr`, `E_socket` and `C_socket`
create a descriptor for one address (`INVALID_SOCKET`, `none` on failure) and
`socket_errno` is the errno a failed creation leaves in the table. -/
structure Env where
  mkcserr : Int → lcbio_CSERR
  mklcberr : Int → lcb_settings → lcb_error_t
  E_socket : addrinfo → Int
  C_socket : addrinfo → Option Nat
  socket_errno : addrinfo → Int

/-! ## Helpers that are not part of the sources -/

/-- Log one call on the I/O table. -/
def World.log (w : World) (c : IOCall) : World :=
  { w with iot := { w.iot with calls := w.iot.calls ++ [c] } }

/-- The macro `IOT_IS_EVENT`. -/
def IOT_IS_EVENT (t : lcbio_TABLE) : Bool :=
  decide (t.model = lcb_iomodel.LCB_IOMODEL_EVENT)

/-- Modelled from the spec: `lcbio_mksyserr` (not part of the sources)
captures the given errno into `syserr`. -/
def lcbio_mksyserr (err : Int) (w : World) : World :=
  { w with cs := { w.cs with syserr := err } }

/-- Modelled from the spec: `lcbio_E_ai2sock` (not part of the sources) asks
the I/O table for a descriptor for the address under the cursor and moves the
cursor on after a failure; it stops at the first success, with the cursor on
the address the descriptor was created for. Returns the descriptor, the
cursor, the table errno and the calls made. -/
def lcbio_E_ai2sock (env : Env) :
    List addrinfo → Int → List IOCall → Int × List addrinfo × Int × List IOCall
  | [], errno, log => (INVALID_SOCKET, [], errno, log)
  | a :: rest, errno, log =>
    if env.E_socket a ≠ INVALID_SOCKET then
      (env.E_socket a, a :: rest, errno, log ++ [IOCall.E_socket a (env.E_socket a)])
    else
      lcbio_E_ai2sock env rest (env.socket_errno a)
        (log ++ [IOCall.E_socket a INVALID_SOCKET])

/-- Modelled from the spec: `lcbio_C_ai2sock` (not part of the sources), the
completion counterpart of `lcbio_E_ai2sock`. -/
def lcbio_C_ai2sock (env : Env) :
    List addrinfo → Int → List IOCall → Option Nat × List addrinfo × Int × List IOCall
  | [], errno, log => (none, [], errno, log)
  | a :: rest, errno, log =>
    match env.C_socket a with
    | some sd => (some sd, a :: rest, errno, log ++ [IOCall.C_socket a (some sd)])
    | none =>
      lcbio_C_ai2sock env rest (env.socket_errno a) (log ++ [IOCall.C_socket a none])

/-- Modelled from the spec: `lcbio_ref` (a macro of `connect.h`, not part of
the sources) increments the reference count. -/
def lcbio_ref (w : World) : World :=
  { w with sock := { w.sock with refcount := w.sock.refcount + 1 } }

/-- Modelled from the spec: the descriptor close of the I/O table in the
readiness flavor; only the call is recorded. -/
def E_close (w : World) : World :=
  w.log (IOCall.E_close w.sock.fd)

/-- Modelled from the spec: the descriptor close of the I/O table in the
completion flavor; only the call is recorded. -/
def C_close (w : World) : World :=
  w.log (IOCall.C_close w.sock.sd)

/-- Modelled from the spec: the readiness connect `connect0` of the I/O table.
The next scripted answer is consumed; a failing answer sets the table errno.
The address argument is the head of the local cursor `ai`. -/
def IOT_connect0 (ai : List addrinfo) (w : World) : Int × World :=
  match w.iot.connects with
  | [] => (0, w.log (IOCall.connect0 w.sock.fd ai.head? 0))
  | (rv, e) :: rest =>
    (rv, { w with iot := { w.iot with
              connects := rest
              errno := if rv = 0 then w.iot.errno else e
              calls := w.iot.calls ++ [IOCall.connect0 w.sock.fd ai.head? rv] } })

/-- Modelled from the spec: the completion connect of the I/O table, scripted
as `IOT_connect0`. -/
def IOT_connect (w : World) : Int × World :=
  match w.iot.connects with
  | [] => (0, w.log (IOCall.C_connect w.sock.sd w.cs.ai.head? 0))
  | (rv, e) :: rest =>
    (rv, { w with iot := { w.iot with
              connects := rest
              errno := if rv = 0 then w.iot.errno else e
              calls := w.iot.calls ++ [IOCall.C_connect w.sock.sd w.cs.ai.head? rv] } })

/-- Modelled from the spec: `getsockopt(fd, SOL_SOCKET, SO_ERROR, ...)`; the
next scripted value is consumed, and `sockerr` keeps its initial 0 when there
is none. -/
def getsockopt (w : World) : Int × World :=
  match w.iot.sockerrs with
  | [] => (0, w.log (IOCall.getsockopt w.sock.fd 0))
  | e :: rest =>
    (e, { w with iot := { w.iot with
              sockerrs := rest
              calls := w.iot.calls ++ [IOCall.getsockopt w.sock.fd e] } })

/-- Modelled from the spec: `timer.signal()` schedules `handler()` for the
next turn of the loop. -/
def timer_signal (w : World) : World :=
  { w with cs := { w.cs with timer := Timer.signalled } }

/-- Modelled from the spec: `timer.release()` cancels a pending fire. -/
def timer_release (w : World) : World :=
  { w with cs := { w.cs with timer := Timer.released } }

/-! ## The functions of `connect.cc` -/

/-- The function `Connstart::unwatch`. -/
def unwatch (w : World) : World :=
  if w.cs.sock && w.cs.ev_active then
    let w1 := w.log (IOCall.cancel_watch w.sock.fd)
    { w1 with cs := { w1.cs with ev_active := false } }
  else w

/-- Modelled from the spec: `lcbio__protoctx_delall` (not part of the sources)
detaches every protocol context of the socket. -/
def lcbio__protoctx_delall (w : World) : World :=
  { w with sock := { w.sock with protos := [] } }

/-- The function `lcbio_shutdown`. -/
def lcbio_shutdown (w : World) : World :=
  let w0 := lcbio__protoctx_delall w
  if IOT_IS_EVENT w0.iot then
    if w0.sock.fd ≠ INVALID_SOCKET then
      let w1 := E_close w0
      { w1 with sock := { w1.sock with fd := INVALID_SOCKET } }
    else w0
  else
    if w0.sock.sd ≠ none then
      let w1 := C_close w0
      { w1 with sock := { w1.sock with sd := none } }
    else w0

/-- The function `lcbio__destroy`: shut the socket down and free it. -/
def lcbio__destroy (w : World) : World :=
  let w1 := lcbio_shutdown w
  { w1 with sock := { w1.sock with freed := true } }

/-- Modelled from the spec: `lcbio_unref` (a macro of `connect.h`, not part of
the sources) decrements the reference count and destroys the socket when it
reaches zero. -/
def lcbio_unref (w : World) : World :=
  let w1 := { w with sock := { w.sock with refcount := w.sock.refcount - 1 } }
  if w1.sock.refcount = 0 then lcbio__destroy w1 else w1

/-- The destructor `Connstart::~Connstart` followed by the release of the
object (`delete this`). -/
def Connstart_dtor (w : World) : World :=
  let w1 := timer_release w
  let w2 := if w1.cs.sock then lcbio_unref w1 else w1
  { w2 with cs_deleted := true }

/-- The function `Connstart::state_signal`. -/
def state_signal (next_state : State) (err : lcb_error_t) (w : World) : World :=
  if w.cs.state ≠ State.CS_PENDING then w
  else
    let w1 :=
      if w.cs.state = State.CS_CONNECTED then
        { w with cs := { w.cs with last_error := lcb_error_t.LCB_SUCCESS } }
      else if w.cs.last_error = lcb_error_t.LCB_SUCCESS then
        { w with cs := { w.cs with last_error := err } }
      else w
    timer_signal { w1 with cs := { w1.cs with state := next_state } }

/-- The function `Connstart::notify_success`. -/
def notify_success (w : World) : World :=
  state_signal State.CS_CONNECTED lcb_error_t.LCB_SUCCESS w

/-- The function `Connstart::notify_error`. -/
def notify_error (err : lcb_error_t) (w : World) : World :=
  state_signal State.CS_ERROR err w

/-- The library error computed by `Connstart::handler` from the final
state. -/
def handler_err (env : Env) (w : World) : lcb_error_t :=
  if w.cs.state = State.CS_PENDING then lcb_error_t.LCB_ETIMEDOUT
  else if w.cs.state = State.CS_CONNECTED then lcb_error_t.LCB_SUCCESS
  else if w.cs.sock ∧ w.cs.last_error = lcb_error_t.LCB_CONNECT_ERROR then
    env.mklcberr w.cs.syserr w.sock.settings
  else w.cs.last_error

/-- The user callback calling `lcbio_connect_cancel` on the attempt `k`
times. -/
def user_cancels (cancel : World → World) : Nat → World → World
  | 0, w => w
  | k + 1, w => user_cancels cancel k (cancel w)

/-- The call `user_handler(err == LCB_SUCCESS ? sock : NULL, user_arg, err,
syserr)`: the invocation is recorded and the callback runs (it may take a
reference on the socket it was handed, and may call cancel). -/
def call_user_handler (cancel : World → World) (err : lcb_error_t) (w : World) : World :=
  let sockarg : Bool := if err = lcb_error_t.LCB_SUCCESS then w.cs.sock else false
  let w1 := { w with ucalls := w.ucalls ++ [UserCall.mk sockarg w.cs.user_arg err w.cs.syserr] }
  let w2 := if w.cs.user_handler.refs && sockarg then lcbio_ref w1 else w1
  user_cancels cancel w.cs.user_handler.cancels w2

mutual
/-- The function `Connstart::handler`. The first argument bounds the depth of
the calls between `handler` and `cancel` (the callback may call `cancel`,
which may call `handler`). -/
def handler_go (env : Env) : Nat → World → World
  | 0, w => w
  | n + 1, w =>
    let w1 :=
      if w.cs.sock && w.cs.event then (unwatch w).log IOCall.destroy_event else w
    let err := handler_err env w1
    if w1.cs.state = State.CS_CANCELLED then Connstart_dtor w1
    else
      let w2 :=
        if w1.cs.sock then
          let w3 := w1.log IOCall.load_socknames
          if err = lcb_error_t.LCB_SUCCESS then
            if w3.sock.settings.tcp_nodelay then w3.log IOCall.disable_nagle else w3
          else w3
        else w1
      let w4 := { w2 with cs := { w2.cs with in_uhandler := true } }
      let w5 := call_user_handler (cancel_go env n) err w4
      let w6 := { w5 with cs := { w5.cs with in_uhandler := false } }
      Connstart_dtor w6
/-- The function `Connstart::cancel`. -/
def cancel_go (env : Env) : Nat → World → World
  | 0, w => w
  | n + 1, w =>
    if w.cs.in_uhandler then w
    else handler_go env n { w with cs := { w.cs with state := State.CS_CANCELLED } }
end

/-- The function `Connstart::handler`. -/
def handler (env : Env) (w : World) : World := handler_go env 3 w

/-- The function `Connstart::cancel` (`lcbio_connect_cancel`). -/
def cancel (env : Env) (w : World) : World := cancel_go env 4 w

/-- The loop `while (sock->u.fd == INVALID_SOCKET && ai != NULL)` of
`ensure_sock` in the readiness flavor. The boolean tells whether the loop was
left by its `return true`. The first argument bounds the number of
iterations. -/
def ensure_sock_E_while (env : Env) : Nat → World → World × Bool
  | 0, w => (w, false)
  | n + 1, w =>
    if w.sock.fd = INVALID_SOCKET ∧ w.cs.ai ≠ [] then
      let r := lcbio_E_ai2sock env w.cs.ai w.iot.errno w.iot.calls
      let w1 : World :=
        { w with
            sock := { w.sock with fd := r.1 }
            cs := { w.cs with ai := r.2.1 }
            iot := { w.iot with errno := r.2.2.1, calls := r.2.2.2 } }
      if w1.sock.fd ≠ INVALID_SOCKET then (w1, true)
      else ensure_sock_E_while env n w1
    else (w, false)

/-- The loop `while (sock->u.sd == NULL && ai != NULL)` of `ensure_sock` in
the completion flavor. -/
def ensure_sock_C_while (env : Env) : Nat → World → World × Bool
  | 0, w => (w, false)
  | n + 1, w =>
    if w.sock.sd = none ∧ w.cs.ai ≠ [] then
      let r := lcbio_C_ai2sock env w.cs.ai w.iot.errno w.iot.calls
      let w1 : World :=
        { w with
            sock := { w.sock with sd := r.1 }
            cs := { w.cs with ai := r.2.1 }
            iot := { w.iot with errno := r.2.2.1, calls := r.2.2.2 } }
      if w1.sock.sd ≠ none then (w1, true)
      else ensure_sock_C_while env n w1
    else (w, false)

/-- The function `Connstart::ensure_sock`. -/
def ensure_sock (env : Env) (w : World) : World × Bool :=
  if w.cs.ai = [] then (w, false)
  else
    let r :=
      if IOT_IS_EVENT w.iot then
        if w.sock.fd ≠ INVALID_SOCKET then (w, true)
        else ensure_sock_E_while env (w.cs.ai.length + 1) w
      else
        if w.sock.sd ≠ none then (w, true)
        else ensure_sock_C_while env (w.cs.ai.length + 1) w
    if r.2 then r
    else if r.1.cs.ai = [] then (lcbio_mksyserr r.1.iot.errno r.1, false)
    else (r.1, true)

/-- The function `Connstart::clear_sock`. -/
def clear_sock (w : World) : World :=
  let w1 := if w.cs.ai ≠ [] then { w with cs := { w.cs with ai := w.cs.ai.tail } } else w
  if w1.cs.ai = [] then w1
  else if IOT_IS_EVENT w1.iot then
    let w2 := E_close (unwatch w1)
    { w2 with sock := { w2.sock with fd := INVALID_SOCKET } }
  else
    if w1.sock.sd ≠ none then
      let w2 := C_close w1
      { w2 with sock := { w2.sock with sd := none } }
    else w1

/-- The two labels of the drivers `E_conncb` and `C_connect`. -/
inductive Label where
  | GT_NEXTSOCK
  | GT_CONNECT
  deriving DecidableEq, Repr

/-- The body of `E_conncb` from a label on, with the local variables
`retry_once` and `ai`; `events` is the mask the callback was entered with. The
first argument bounds the number of jumps. -/
def E_conncb_go (env : Env) (events : Nat) :
    Nat → Label → Bool → List addrinfo → World → World
  | 0, _, _, _, w => w
  | n + 1, Label.GT_NEXTSOCK, retry_once, ai, w =>
    let r := ensure_sock env w
    if !r.2 then notify_error lcb_error_t.LCB_CONNECT_ERROR r.1
    else if events &&& LCB_ERROR_EVENT ≠ 0 then
      let g := getsockopt r.1
      let w1 := lcbio_mksyserr g.1 g.2
      E_conncb_go env events n Label.GT_NEXTSOCK retry_once ai (clear_sock w1)
    else
      E_conncb_go env events n Label.GT_CONNECT retry_once r.1.cs.ai r.1
  | n + 1, Label.GT_CONNECT, retry_once, ai, w =>
    let c := IOT_connect0 ai w
    if c.1 = 0 then notify_success (unwatch c.2)
    else
      let connstatus := env.mkcserr c.2.iot.errno
      let w1 := lcbio_mksyserr c.2.iot.errno c.2
      match connstatus with
      | lcbio_CSERR.LCBIO_CSERR_INTR =>
        E_conncb_go env events n Label.GT_CONNECT retry_once ai w1
      | lcbio_CSERR.LCBIO_CSERR_CONNECTED => notify_success (unwatch w1)
      | lcbio_CSERR.LCBIO_CSERR_BUSY =>
        let w2 := w1.log (IOCall.watch w1.sock.fd)
        { w2 with cs := { w2.cs with ev_active := true } }
      | lcbio_CSERR.LCBIO_CSERR_EINVAL =>
        if !retry_once then E_conncb_go env events n Label.GT_CONNECT true ai w1
        else E_conncb_go env events n Label.GT_NEXTSOCK retry_once ai (clear_sock w1)
      | lcbio_CSERR.LCBIO_CSERR_EFAIL =>
        E_conncb_go env events n Label.GT_NEXTSOCK retry_once ai (clear_sock w1)

/-- A bound on the number of jumps a driver makes: every jump back to
`GT_CONNECT` consumes a scripted connect answer and every jump back to
`GT_NEXTSOCK` moves the cursor. -/
def driver_fuel (w : World) : Nat :=
  2 * w.cs.ai.length + w.iot.connects.length + 3

/-- The function `E_conncb`, the driver of the readiness flavor. -/
def E_conncb (env : Env) (events : Nat) (w : World) : World :=
  E_conncb_go env events (driver_fuel w) Label.GT_NEXTSOCK false [] w

/-- The body of `Connstart::C_connect` from a label on, with the local
variable `retry_once`. -/
def C_connect_go (env : Env) : Nat → Label → Bool → World → World
  | 0, _, _, w => w
  | n + 1, Label.GT_NEXTSOCK, retry_once, w =>
    let r := ensure_sock env w
    if !r.2 then
      notify_error lcb_error_t.LCB_CONNECT_ERROR (lcbio_mksyserr r.1.iot.errno r.1)
    else C_connect_go env n Label.GT_CONNECT retry_once r.1
  | n + 1, Label.GT_CONNECT, retry_once, w =>
    let c := IOT_connect w
    if c.1 = 0 then
      let w1 := lcbio_ref c.2
      { w1 with pending := w1.pending + 1 }
    else
      let w1 := lcbio_mksyserr c.2.iot.errno c.2
      let status := env.mkcserr c.2.iot.errno
      match status with
      | lcbio_CSERR.LCBIO_CSERR_INTR => C_connect_go env n Label.GT_CONNECT retry_once w1
      | lcbio_CSERR.LCBIO_CSERR_CONNECTED => notify_success w1
      | lcbio_CSERR.LCBIO_CSERR_BUSY =>
        { w1 with pending := w1.pending + 1 }
      | lcbio_CSERR.LCBIO_CSERR_EINVAL =>
        if !retry_once then C_connect_go env n Label.GT_CONNECT true w1
        else C_connect_go env n Label.GT_NEXTSOCK retry_once (clear_sock w1)
      | lcbio_CSERR.LCBIO_CSERR_EFAIL =>
        C_connect_go env n Label.GT_NEXTSOCK retry_once (clear_sock w1)

/-- The function `Connstart::C_connect`, the driver of the completion
flavor. -/
def C_connect (env : Env) (w : World) : World :=
  C_connect_go env (driver_fuel w) Label.GT_NEXTSOCK false w

/-- The function `C_conncb`, the completion callback. -/
def C_conncb (env : Env) (status : Int) (w : World) : World :=
  let w1 := { w with sock := { w.sock with refcount := w.sock.refcount - 1 } }
  if w1.sock.refcount = 0 then lcbio__destroy w1
  else if status = 0 then
    let w2 :=
      if w1.cs.state = State.CS_PENDING then
        { w1 with cs := { w1.cs with state := State.CS_CONNECTED } }
      else w1
    handler env w2
  else
    C_connect env (clear_sock (lcbio_mksyserr w1.iot.errno w1))

/-- The address family the constructor puts in the `hints` of name
resolution. -/
def hints_ai_family (settings : lcb_settings) : ai_family_t :=
  if settings.ipv6 = lcb_ipv6_t.LCB_IPV6_DISABLED then ai_family_t.AF_INET
  else if settings.ipv6 = lcb_ipv6_t.LCB_IPV6_ONLY then ai_family_t.AF_INET6
  else ai_family_t.AF_UNSPEC

/-- The constructor `Connstart::Connstart` (the public `lcbio_connect`).
`getaddrinfo` is the resolver applied to the destination: from the family of
the hints to the return value and the address list. -/
def Connstart_new (env : Env) (iot_ : lcbio_TABLE) (settings_ : lcb_settings)
    (getaddrinfo : ai_family_t → Int × List addrinfo) (timeout : Nat)
    (handler_ : UserHandler) (arg : Nat) : World :=
  let cs0 : Connstart :=
    { user_handler := handler_, user_arg := arg, sock := false, syserr := 0,
      event := false, ev_active := false, in_uhandler := false,
      ai_root := [], ai := [], state := State.CS_PENDING,
      last_error := lcb_error_t.LCB_SUCCESS, timer := Timer.idle }
  let sock0 : lcbio_SOCKET :=
    { fd := 0, sd := none, refcount := 1, settings := settings_, freed := false,
      protos := [] }
  let w0 : World :=
    { cs := { cs0 with sock := true }, cs_deleted := false, sock := sock0,
      iot := iot_, ucalls := [], pending := 0 }
  let w1 : World :=
    if IOT_IS_EVENT iot_ then
      let w := { w0 with sock := { w0.sock with fd := INVALID_SOCKET } }
      let w := w.log IOCall.create_event
      { w with cs := { w.cs with event := true } }
    else w0
  let w2 : World := { w1 with cs := { w1.cs with timer := Timer.armed timeout } }
  let res := getaddrinfo (hints_ai_family settings_)
  if res.1 ≠ 0 then notify_error lcb_error_t.LCB_UNKNOWN_HOST w2
  else
    let w3 : World := { w2 with cs := { w2.cs with ai_root := res.2 } }
    let w4 : World := { w3 with cs := { w3.cs with ai := w3.cs.ai_root } }
    if IOT_IS_EVENT iot_ then E_conncb env LCB_WRITE_EVENT w4
    else C_connect env w4

/-- The outcome of a function whose body contains an `assert`: the assertion
failed and the process was aborted, or the function returned. -/
inductive Asserted (α : Type) where
  | aborted
  | returned (a : α)
  deriving DecidableEq, Repr

/-- The function `lcbio_wrap_fd`. The statement
`assert(iot->model = LCB_IOMODEL_EVENT)` depends on two things that the
sources do not fix: whether the build defines `NDEBUG` (then `assert` expands
to nothing and its argument is not evaluated), and the integer value of the
enumerator `LCB_IOMODEL_EVENT` (declared in a header that is not part of the
sources), which is the value of the assignment expression that the assertion
tests. `ret_ok` and `ci_ok` tell whether the two `calloc` succeed. The result
is the returned socket (`none` for NULL) and the table. -/
def lcbio_wrap_fd (ndebug : Bool) (event_value : Int) (ret_ok ci_ok : Bool)
    (iot : lcbio_TABLE) (settings : lcb_settings) (fd : Int) :
    Asserted (Option lcbio_SOCKET × lcbio_TABLE) :=
  if !ret_ok || !ci_ok then Asserted.returned (none, iot)
  else
    let iot1 : lcbio_TABLE :=
      if ndebug then iot else { iot with model := lcb_iomodel.LCB_IOMODEL_EVENT }
    if !ndebug && decide (event_value = 0) then Asserted.aborted
    else
      let ret : lcbio_SOCKET :=
        { fd := fd, sd := none, refcount := 1, settings := settings, freed := false,
          protos := [] }
      Asserted.returned
        (some ret, { iot1 with calls := iot1.calls ++ [IOCall.load_socknames] })

/-! ## The event loop around an attempt -/

/-- What the event loop and the application can do to an attempt once it is
constructed: deliver a watch callback with an event mask, deliver a completion
callback with a status (the table errno at that time is `err`), fire the timer
(expiry of the timeout or the deferred dispatch of `timer.signal()`), and call
`lcbio_connect_cancel` from outside of the user callback. -/
inductive Event where
  | watch_cb (events : Nat)
  | completion_cb (status : Int) (err : Int)
  | timer_cb
  | cancel_call
  deriving DecidableEq, Repr

/-- One event applied to the world. An event that the loop cannot deliver
leaves the world as it is: a watch callback needs a registered watch of a live
attempt on a readiness table, the timer and the cancel call need a live
attempt, and a completion callback needs a submitted connect on a socket that
was not freed. -/
def step (env : Env) (e : Event) (w : World) : World :=
  match e with
  | Event.watch_cb events =>
    if !w.cs_deleted && w.cs.ev_active && IOT_IS_EVENT w.iot then E_conncb env events w
    else w
  | Event.completion_cb status err =>
    if decide (0 < w.pending) && !w.sock.freed then
      C_conncb env status
        { w with pending := w.pending - 1, iot := { w.iot with errno := err } }
    else w
  | Event.timer_cb =>
    if !w.cs_deleted then handler env w else w
  | Event.cancel_call =>
    if !w.cs_deleted then cancel env w else w

/-- A sequence of events applied in order. -/
def run (env : Env) : List Event → World → World
  | [], w => w
  | e :: es, w => run env es (step env e w)


/-! ## Auxiliary definitions for the proofs -/

/-- The part of the world that the descriptor level operations never write. -/
def ioFrame (w : World) : World :=
  { w with
      cs := { w.cs with ai := [], syserr := 0, ev_active := false }
      sock := { w.sock with fd := 0, sd := none }
      iot := { w.iot with errno := 0, connects := [], sockerrs := [], calls := [] } }

/-- The submission of a completion connect that returned 0: one more
reference, one more awaited callback. -/
def submit_ref (w : World) : World :=
  let w1 := lcbio_ref w
  { w1 with pending := w1.pending + 1 }

/-- The submission of a completion connect that answered BUSY: one more
awaited callback. -/
def submit_busy (w : World) : World :=
  { w with pending := w.pending + 1 }

/-- The user callback as it runs inside `handler`, where every cancel it calls
returns at once. -/
def call_user (err : lcb_error_t) (w : World) : World :=
  let sockarg : Bool := if err = lcb_error_t.LCB_SUCCESS then w.cs.sock else false
  let w1 := { w with ucalls := w.ucalls ++ [UserCall.mk sockarg w.cs.user_arg err w.cs.syserr] }
  if w.cs.user_handler.refs && sockarg then lcbio_ref w1 else w1

/-- The world in which `handler` invokes the user callback: the watch is
cancelled, the event destroyed, the socket names loaded. -/
def handler_pre (env : Env) (w : World) : World :=
  let w1 :=
    if w.cs.sock && w.cs.event then (unwatch w).log IOCall.destroy_event else w
  if w1.cs.sock then
    let w3 := w1.log IOCall.load_socknames
    if handler_err env w1 = lcb_error_t.LCB_SUCCESS then
      if w3.sock.settings.tcp_nodelay then w3.log IOCall.disable_nagle else w3
    else w3
  else w1

/-! ## Concrete tables, settings and addresses -/

/-- Modelled from the spec: the classification `lcbio_mkcserr` on the Linux
errno values (EINTR 4, EAGAIN 11, EINVAL 22, EISCONN 106, EALREADY 114,
EINPROGRESS 115, everything else EFAIL). -/
def spec_mkcserr (e : Int) : lcbio_CSERR :=
  if e = 4 then lcbio_CSERR.LCBIO_CSERR_INTR
  else if e = 106 then lcbio_CSERR.LCBIO_CSERR_CONNECTED
  else if e = 11 ∨ e = 114 ∨ e = 115 then lcbio_CSERR.LCBIO_CSERR_BUSY
  else if e = 22 then lcbio_CSERR.LCBIO_CSERR_EINVAL
  else lcbio_CSERR.LCBIO_CSERR_EFAIL

/-- Modelled from the spec: the translation `lcbio_mklcberr` of the error
taxonomy, on the Linux errno values: NETWORK_ERROR for network unreachable
(101), connection refused (111) and host unreachable (113), ETIMEDOUT for 110
and CONNECT_ERROR for everything else. -/
def spec_mklcberr (e : Int) (_settings : lcb_settings) : lcb_error_t :=
  if e = 101 ∨ e = 111 ∨ e = 113 then lcb_error_t.LCB_NETWORK_ERROR
  else if e = 110 then lcb_error_t.LCB_ETIMEDOUT
  else lcb_error_t.LCB_CONNECT_ERROR

/-- An environment in which every descriptor creation succeeds: the
descriptor of address `a` is `a.ai_addr + 10`. -/
def exEnv : Env :=
  { mkcserr := spec_mkcserr
    mklcberr := spec_mklcberr
    E_socket := fun a => (a.ai_addr : Int) + 10
    C_socket := fun a => some (a.ai_addr + 10)
    socket_errno := fun _ => 24 }

/-- Settings of the examples. -/
def exSettings : lcb_settings :=
  { ipv6 := lcb_ipv6_t.LCB_IPV6_ALLOW, tcp_nodelay := true }

/-- First address of the examples. -/
def exA : addrinfo := { ai_family := ai_family_t.AF_INET, ai_addr := 1 }

/-- Second address of the examples. -/
def exB : addrinfo := { ai_family := ai_family_t.AF_INET, ai_addr := 2 }

/-- A readiness table with the given connect script. -/
def exTableE (script : List (Int × Int)) : lcbio_TABLE :=
  { model := lcb_iomodel.LCB_IOMODEL_EVENT, errno := 0, connects := script,
    sockerrs := [], calls := [] }

/-- A completion table with the given connect script. -/
def exTableC (script : List (Int × Int)) : lcbio_TABLE :=
  { model := lcb_iomodel.LCB_IOMODEL_COMPLETION, errno := 0, connects := script,
    sockerrs := [], calls := [] }

/-- A readiness attempt on the addresses A and B with the given connect
script, timeout 1000, a callback that calls cancel once, user argument 7. -/
def exAttemptE (script : List (Int × Int)) : World :=
  Connstart_new exEnv (exTableE script) exSettings (fun _ => (0, [exA, exB])) 1000
    { cancels := 1, refs := false } 7

/-- A completion attempt on the addresses A and B with the given connect
script. -/
def exAttemptC (script : List (Int × Int)) : World :=
  Connstart_new exEnv (exTableC script) exSettings (fun _ => (0, [exA, exB])) 1000
    { cancels := 1, refs := false } 7

/-! ## Definitions used in the statements and proofs of the claims -/

/-- What a driver started on a fresh attempt leaves: no callback, a live
attempt, and a terminal state only together with a signalled timer. -/
def Deferred (timeout : Nat) (w : World) : Prop :=
  w.ucalls = [] ∧ w.cs_deleted = false ∧
  ((w.cs.state = State.CS_PENDING ∧ w.cs.timer = Timer.armed timeout) ∨
   ((w.cs.state = State.CS_CONNECTED ∨ w.cs.state = State.CS_ERROR) ∧
     w.cs.timer = Timer.signalled))

/-- The attempt as the constructor hands it to a driver. -/
def Fresh (timeout : Nat) (w : World) : Prop :=
  w.ucalls = [] ∧ w.cs_deleted = false ∧ w.cs.state = State.CS_PENDING ∧
  w.cs.timer = Timer.armed timeout

/-- The close that `clear_sock` issues in the readiness flavor: none when the
cursor has moved past the last address. -/
def close_if_more (fd : Int) : List addrinfo → List IOCall
  | [] => []
  | _ :: _ => [IOCall.E_close fd]

/-- The calls of a readiness driver that goes through the address list with a
connect that fails on every address: a descriptor and one connect per address,
and a close before the next address. -/
def exhaust_calls (env : Env) : List addrinfo → List (Int × Int) → List IOCall
  | a :: rest, p :: ps =>
    [IOCall.E_socket a (env.E_socket a), IOCall.connect0 (env.E_socket a) (some a) p.1] ++
      close_if_more (env.E_socket a) rest ++ exhaust_calls env rest ps
  | _, _ => []

/-- The errno of the last scripted answer, or `d` when there is none. -/
def last_errno (d : Int) : List (Int × Int) → Int
  | [] => d
  | p :: ps => last_errno p.2 ps

/-- The world after one pass of the readiness driver over an address whose
connect fails: descriptor ensured, connect issued, errno captured, cursor
advanced. -/
def E_fail_step (env : Env) (w : World) : World :=
  clear_sock
    (lcbio_mksyserr (IOT_connect0 (ensure_sock env w).1.cs.ai (ensure_sock env w).1).2.iot.errno
      (IOT_connect0 (ensure_sock env w).1.cs.ai (ensure_sock env w).1).2)

/-- Erase the fields written by `state_signal`. -/
def sigErase (w : World) : World :=
  { w with cs := { w.cs with state := State.CS_PENDING,
                             last_error := lcb_error_t.LCB_SUCCESS, timer := Timer.idle } }

/-- The part of the world that the readiness driver never writes. -/
def sigFrame (w : World) : World := sigErase (ioFrame w)

/-- The attempt as the constructor hands it to the driver when name
resolution gave the list `as`. -/
def Connstart_resolved (iot_ : lcbio_TABLE) (settings_ : lcb_settings) (as : List addrinfo)
    (timeout : Nat) (handler_ : UserHandler) (arg : Nat) : World :=
  { cs :=
      { user_handler := handler_, user_arg := arg, sock := true, syserr := 0,
        event := IOT_IS_EVENT iot_, ev_active := false, in_uhandler := false,
        ai_root := as, ai := as, state := State.CS_PENDING,
        last_error := lcb_error_t.LCB_SUCCESS, timer := Timer.armed timeout }
    cs_deleted := false
    sock :=
      { fd := if IOT_IS_EVENT iot_ then INVALID_SOCKET else 0, sd := none, refcount := 1,
        settings := settings_, freed := false, protos := [] }
    iot :=
      if IOT_IS_EVENT iot_ then { iot_ with calls := iot_.calls ++ [IOCall.create_event] }
      else iot_
    ucalls := []
    pending := 0 }

/-- The addresses of the connect calls of a log, in order. -/
def connect_addrs : List IOCall → List addrinfo
  | [] => []
  | IOCall.connect0 _ (some a) _ :: cs => a :: connect_addrs cs
  | IOCall.C_connect _ (some a) _ :: cs => a :: connect_addrs cs
  | _ :: cs => connect_addrs cs

/-- The calls of a readiness driver over addresses whose connect fails and
that are followed by another address: descriptor, connect, close. -/
def failed_calls (env : Env) : List addrinfo → List (Int × Int) → List IOCall
  | a :: rest, p :: ps =>
    [IOCall.E_socket a (env.E_socket a), IOCall.connect0 (env.E_socket a) (some a) p.1,
      IOCall.E_close (env.E_socket a)] ++ failed_calls env rest ps
  | _, _ => []

/-- The descriptor the readiness driver works on when it is entered with the
cursor on `a`: the one the socket has, or a new one for `a`. -/
def E_entry_fd (env : Env) (w : World) (a : addrinfo) : Int :=
  if w.sock.fd ≠ INVALID_SOCKET then w.sock.fd else env.E_socket a

/-- The calls `ensure_sock` makes on entry of the readiness driver. -/
def E_entry_calls (env : Env) (w : World) (a : addrinfo) : List IOCall :=
  if w.sock.fd ≠ INVALID_SOCKET then [] else [IOCall.E_socket a (env.E_socket a)]

/-- The descriptor object the completion driver works on when it is entered
with the cursor on `a`. -/
def C_entry_sd (env : Env) (w : World) (a : addrinfo) : Option Nat :=
  if w.sock.sd ≠ none then w.sock.sd else env.C_socket a

/-- The calls `ensure_sock` makes on entry of the completion driver. -/
def C_entry_calls (env : Env) (w : World) (a : addrinfo) : List IOCall :=
  if w.sock.sd ≠ none then [] else [IOCall.C_socket a (env.C_socket a)]

/-- The cancel of the watch that `unwatch` issues. -/
def unwatch_calls (w : World) : List IOCall :=
  if w.cs.sock && w.cs.ev_active then [IOCall.cancel_watch w.sock.fd] else []

/-- The calls of `clear_sock` in the readiness flavor when the cursor moves
from an address to the list `rest`: nothing when `rest` is empty, otherwise
the cancel of a live watch and the close of the descriptor. -/
def E_clear_calls (w : World) : List addrinfo → List IOCall
  | [] => []
  | _ :: _ => unwatch_calls w ++ [IOCall.E_close w.sock.fd]

/-- The calls of `clear_sock` in the completion flavor. -/
def C_clear_calls (w : World) : List addrinfo → List IOCall
  | [] => []
  | _ :: _ => if w.sock.sd ≠ none then [IOCall.C_close w.sock.sd] else []

/-- Invariant of the event loop around an attempt. While the attempt is alive
no callback was made, at most one submitted connect is awaited, and an awaited
connect means the state is PENDING and the socket has at most two references.
Once the attempt is deleted, a socket that is not freed and still awaits a
completion has exactly one reference left (that of the submission). A
readiness table never has a submitted connect. -/
def Inv (w : World) : Prop :=
  w.ucalls.length ≤ 1 ∧
  (w.cs_deleted = false →
    w.ucalls = [] ∧ w.cs.sock = true ∧ w.pending ≤ 1 ∧
    (w.pending = 1 → w.cs.state = State.CS_PENDING ∧ w.sock.refcount ≤ 2)) ∧
  (w.cs_deleted = true → 0 < w.pending → w.sock.freed = false → w.sock.refcount = 1) ∧
  (IOT_IS_EVENT w.iot = true → w.pending = 0)

/-- A live attempt on a completion table that has no submitted connect, is
PENDING and whose socket has at most one reference. -/
def Idle (w : World) : Prop :=
  w.ucalls = [] ∧ w.cs_deleted = false ∧ w.cs.sock = true ∧ w.pending = 0 ∧
  w.cs.state = State.CS_PENDING ∧ w.sock.refcount ≤ 1 ∧ IOT_IS_EVENT w.iot = false

/-- A bound on the number of jumps a driver still makes from a label: the
cursor moves on at every jump back to `GT_NEXTSOCK` and a scripted answer is
consumed at every jump back to `GT_CONNECT`. -/
def jumps_left (l : Label) (w : World) : Nat :=
  match l with
  | Label.GT_NEXTSOCK =>
    if w.cs.ai = [] then 1 else 2 * w.cs.ai.length + w.iot.connects.length + 2
  | Label.GT_CONNECT => 2 * w.cs.ai.length + w.iot.connects.length + 1

/-- Whether some cancel call of the sequence reaches the attempt while it is
alive (not yet destroyed by its handler). -/
def cancel_reaches (env : Env) : List Event → World → Bool
  | [], _ => false
  | e :: es, w =>
    (decide (e = Event.cancel_call) && !w.cs_deleted) || cancel_reaches env es (step env e w)

/-- Between two events a live attempt is outside of its user callback and its
state is not CANCELLED. -/
def Quiet (w : World) : Prop :=
  w.cs_deleted = false → w.cs.in_uhandler = false ∧ w.cs.state ≠ State.CS_CANCELLED

/-- What a driver keeps of a live attempt: alive, outside of the user
callback, not CANCELLED. -/
def Calm (w : World) : Prop :=
  w.cs_deleted = false ∧ w.cs.in_uhandler = false ∧ w.cs.state ≠ State.CS_CANCELLED

/-- Invariant of the event loop around a readiness attempt: while the attempt
is alive, the state CONNECTED comes with a cancelled watch and the state ERROR
with a null cursor. -/
def Unwatched (w : World) : Prop :=
  IOT_IS_EVENT w.iot = true ∧
  (w.cs_deleted = false →
    (w.cs.state = State.CS_CONNECTED → w.cs.ev_active = false) ∧
    (w.cs.state = State.CS_ERROR → w.cs.ai = []))

/-- The second world has the address list of the first and its cursor is a
suffix of the cursor of the first. -/
def Narrows (w w1 : World) : Prop :=
  w1.cs.ai_root = w.cs.ai_root ∧ List.IsSuffix w1.cs.ai w.cs.ai

/-- Settings with IPv6 disabled. -/
def exSettings4 : lcb_settings :=
  { ipv6 := lcb_ipv6_t.LCB_IPV6_DISABLED, tcp_nodelay := false }

/-- A resolver that honours the family of the hints: the host has the two
IPv4 addresses A and B and no IPv6 address. -/
def exResolver (f : ai_family_t) : Int × List addrinfo :=
  (0, if f = ai_family_t.AF_INET6 then [] else [exA, exB])

/-- The socket that `lcbio_wrap_fd` builds around the descriptor 5 with the
settings of the examples. -/
def exWrapped : lcbio_SOCKET :=
  { fd := 5, sd := none, refcount := 1, settings := exSettings, freed := false, protos := [] }

/-- A readiness attempt on the addresses A and B whose first connect is in
progress (the watch is registered on the descriptor of A) and whose next
`SO_ERROR` is 111. -/
def exAttemptErr : World :=
  Connstart_new exEnv { exTableE [(-1, 115)] with sockerrs := [111] } exSettings
    (fun _ => (0, [exA, exB])) 1000 { cancels := 1, refs := false } 7

/-- A completion attempt as the constructor hands it to the driver when name
resolution succeeded with an empty list: the cursor is NULL and `syserr` is 0.
The errno of the table is 111, left there by an earlier call. -/
def exNullC : World :=
  Connstart_resolved { exTableC [] with errno := 111 } exSettings [] 1000
    { cancels := 1, refs := false } 7

/-- Whether a call on the I/O table is a connect. -/
def is_connect : IOCall → Bool
  | IOCall.connect0 _ _ _ => true
  | IOCall.C_connect _ _ _ => true
  | _ => false

/-- Whether a call on the I/O table is not a connect. -/
def not_connect (c : IOCall) : Bool := !is_connect c

/-- Whether a call on the I/O table is neither a connect nor the cancel of a
watch. -/
def plain_call : IOCall → Bool
  | IOCall.connect0 _ _ _ => false
  | IOCall.C_connect _ _ _ => false
  | IOCall.cancel_watch _ => false
  | _ => true

/-- A connect call is safe when it is made on a valid descriptor (a raw
descriptor other than `INVALID_SOCKET`, a non-NULL descriptor object) and with
an address (a non-NULL cursor); every other call counts as safe. -/
def connect_safe : IOCall → Bool
  | IOCall.connect0 fd a _ => decide (fd ≠ INVALID_SOCKET) && a.isSome
  | IOCall.C_connect sd a _ => sd.isSome && a.isSome
  | _ => true

/-- The second world has the table model of the first and its call log is the
log of the first followed by calls that all satisfy `q`. -/
def GrowsBy (q : IOCall → Bool) (w w1 : World) : Prop :=
  w1.iot.model = w.iot.model ∧
  ∃ new : List IOCall, w1.iot.calls = w.iot.calls ++ new ∧ ∀ c ∈ new, q c = true

/-- A cancel of a watch is safe when it is made on a valid descriptor, which
is what the assertion of `unwatch` checks; every other call counts as
safe. -/
def watch_safe : IOCall → Bool
  | IOCall.cancel_watch fd => decide (fd ≠ INVALID_SOCKET)
  | _ => true

/-- Invariant of a readiness attempt: the table is a readiness table, the
attempt has its socket and its event, a registered watch comes with a valid
descriptor, and every cancel of a watch issued so far was on a valid
descriptor. -/
def Armed (w : World) : Prop :=
  IOT_IS_EVENT w.iot = true ∧ w.cs.sock = true ∧ w.cs.event = true ∧
  (w.cs.ev_active = true → w.sock.fd ≠ INVALID_SOCKET) ∧
  ∀ c ∈ w.iot.calls, watch_safe c = true

/-- The invariant with the watch cancelled. -/
def Disarmed (w : World) : Prop := Armed w ∧ w.cs.ev_active = false

/-! ## The header callbacks of the HTTP response parser (`src/lcbht/lcbht.c`) -/

/-- The enumeration `last_call_type` of `lcbht.c`. -/
inductive last_call_type where
  | CB_NONE
  | CB_HDR_KEY
  | CB_HDR_VALUE
  | CB_HDR_DONE
  | CB_BODY
  | CB_MSG_DONE
  deriving DecidableEq, Repr

/-- Modelled from the spec: a header `lcbht_MIMEHDR` (declared in `lcbht.h`,
not part of the sources). `buf_` holds the bytes of the `lcb_string` without
its terminating NUL; `key` and `value` are the C strings that the two pointers
designate, `none` for the NULL that `calloc` leaves. -/
structure lcbht_MIMEHDR where
  buf_ : List Nat
  key : Option (List Nat)
  value : Option (List Nat)
  deriving DecidableEq, Repr

/-- Modelled from the spec: the flags of `lcbht_RESPSTATE` (declared in
`lcbht.h`, not part of the sources), one boolean per bit. -/
structure lcbht_RESPSTATE where
  LCBHT_S_HTSTATUS : Bool
  LCBHT_S_HEADER : Bool
  LCBHT_S_BODY : Bool
  LCBHT_S_DONE : Bool
  LCBHT_S_ERROR : Bool
  deriving DecidableEq, Repr

/-- Modelled from the spec: the response `lcbht_RESPONSE` (declared in
`lcbht.h`, not part of the sources): the list of headers in the order of the
`sllist`, the state flags, the status and the body. -/
structure lcbht_RESPONSE where
  headers : List lcbht_MIMEHDR
  state : lcbht_RESPSTATE
  status : Nat
  body : List Nat
  deriving DecidableEq, Repr

/-- The structure `lcbht_PARSER`, with the field `status_code` of the embedded
HTTP parser and without the fields of `parse_ex`. -/
structure lcbht_PARSER where
  status_code : Nat
  resp : lcbht_RESPONSE
  lastcall : last_call_type
  deriving DecidableEq, Repr

/-- The byte of the character `:`. -/
def COLON : Nat := 58

/-- The C string at the start of a buffer: the bytes before the first NUL. -/
def cstr : List Nat → List Nat
  | [] => []
  | b :: rest => if b = 0 then [] else b :: cstr rest

/-- The call `strstr(base, ":")`: the offset of the first `:` of the C string,
`none` for NULL. -/
def strstr_colon : List Nat → Option Nat
  | [] => none
  | b :: rest =>
    if b = 0 then none
    else if b = COLON then some 0
    else (strstr_colon rest).map (fun d => d + 1)

/-- Modelled from the spec: `lcb_string_append` (not part of the sources)
appends `n` bytes to the string of a header and keeps it NUL-terminated. -/
def lcb_string_append (hdr : lcbht_MIMEHDR) (s : List Nat) : lcbht_MIMEHDR :=
  { hdr with buf_ := hdr.buf_ ++ s }

/-- The header that `SLLIST_ITEM(resp->headers.last, ...)` designates, replaced
by its image under `f`; `none` when the list is empty, where the source
dereferences a pointer computed from NULL. -/
def with_last_header (f : lcbht_MIMEHDR → lcbht_MIMEHDR) :
    List lcbht_MIMEHDR → Option (List lcbht_MIMEHDR)
  | [] => none
  | [h] => some [f h]
  | h :: rest => (with_last_header f rest).map (fun r => h :: r)

/-- The callback `on_hdr_key` for the fragment `s` (the `n` bytes at `s`). -/
def on_hdr_key (p : lcbht_PARSER) (s : List Nat) : Option lcbht_PARSER :=
  if p.lastcall ≠ last_call_type.CB_HDR_KEY then
    let hdr : lcbht_MIMEHDR := { buf_ := [], key := none, value := none }
    some { p with
      resp := { p.resp with headers := p.resp.headers ++ [lcb_string_append hdr s] }
      lastcall := last_call_type.CB_HDR_KEY }
  else
    match with_last_header (fun hdr => lcb_string_append hdr s) p.resp.headers with
    | none => none
    | some hs =>
      some { p with
        resp := { p.resp with headers := hs }
        lastcall := last_call_type.CB_HDR_KEY }

/-- The callback `on_hdr_value` for the fragment `s`. -/
def on_hdr_value (p : lcbht_PARSER) (s : List Nat) : Option lcbht_PARSER :=
  match with_last_header
      (fun hdr =>
        let hdr1 :=
          if p.lastcall = last_call_type.CB_HDR_KEY then lcb_string_append hdr [COLON]
          else hdr
        lcb_string_append hdr1 s)
      p.resp.headers with
  | none => none
  | some hs =>
    some { p with
      resp := { p.resp with headers := hs }
      lastcall := last_call_type.CB_HDR_VALUE }

/-- The body of the loop of `on_hdr_done` for one header. -/
def format_header (hdr : lcbht_MIMEHDR) : lcbht_MIMEHDR :=
  match strstr_colon hdr.buf_ with
  | some delim =>
    { buf_ := hdr.buf_.set delim 0
      key := some (cstr (hdr.buf_.set delim 0))
      value := some (cstr ((hdr.buf_.set delim 0).drop (delim + 1))) }
  | none => { hdr with key := some (cstr hdr.buf_), value := some [] }

/-- The callback `on_hdr_done`. -/
def on_hdr_done (p : lcbht_PARSER) : lcbht_PARSER :=
  { p with
    resp :=
      { p.resp with
        state := { p.resp.state with LCBHT_S_HTSTATUS := true, LCBHT_S_HEADER := true }
        status := p.status_code
        headers := p.resp.headers.map format_header }
    lastcall := last_call_type.CB_HDR_DONE }

/-- The function `lcbht_new`: a zeroed parser with a cleared response. -/
def lcbht_new : lcbht_PARSER :=
  { status_code := 0
    resp :=
      { headers := []
        state :=
          { LCBHT_S_HTSTATUS := false, LCBHT_S_HEADER := false, LCBHT_S_BODY := false,
            LCBHT_S_DONE := false, LCBHT_S_ERROR := false }
        status := 0
        body := [] }
    lastcall := last_call_type.CB_NONE }

/-- The callbacks `on_hdr_key` for the successive fragments of one key. -/
def feed_key : List (List Nat) → lcbht_PARSER → Option lcbht_PARSER
  | [], p => some p
  | s :: rest, p =>
    match on_hdr_key p s with
    | none => none
    | some p1 => feed_key rest p1

/-- The callbacks `on_hdr_value` for the successive fragments of one value. -/
def feed_value : List (List Nat) → lcbht_PARSER → Option lcbht_PARSER
  | [], p => some p
  | s :: rest, p =>
    match on_hdr_value p s with
    | none => none
    | some p1 => feed_value rest p1

/-- The callbacks for a sequence of headers, each given by the fragments of
its key and the fragments of its value. -/
def feed_headers : List (List (List Nat) × List (List Nat)) → lcbht_PARSER →
    Option lcbht_PARSER
  | [], p => some p
  | h :: rest, p =>
    match feed_key h.1 p with
    | none => none
    | some p1 =>
      match feed_value h.2 p1 with
      | none => none
      | some p2 => feed_headers rest p2

/-- A fragmented header as the claim admits it: at least one fragment for the
key and for the value, no `:` and no NUL in the key, no NUL in the value. -/
def well_formed (h : List (List Nat) × List (List Nat)) : Prop :=
  h.1 ≠ [] ∧ h.2 ≠ [] ∧ COLON ∉ h.1.flatten ∧ 0 ∉ h.1.flatten ∧ 0 ∉ h.2.flatten

/-- The pair of C strings of a header. -/
def header_pair (hdr : lcbht_MIMEHDR) : Option (List Nat) × Option (List Nat) :=
  (hdr.key, hdr.value)

/-- The string that the callbacks build for one header. -/
def raw_header (h : List (List Nat) × List (List Nat)) : lcbht_MIMEHDR :=
  { buf_ := h.1.flatten ++ COLON :: h.2.flatten, key := none, value := none }

/-- A header `Ho: 1:2` whose key arrives as `H`, `o` and whose value arrives
as `1:`, `2`, followed by a header `a:` with an empty value. -/
def exHeaders : List (List (List Nat) × List (List Nat)) :=
  [([[72], [111]], [[49, 58], [50]]), ([[97]], [[]])]

/-! ## Frame lemmas -/


@[simp] theorem ioFrame_log (w : World) (c : IOCall) : ioFrame (w.log c) = ioFrame w := rfl

@[simp] theorem ioFrame_mksyserr (e : Int) (w : World) :
    ioFrame (lcbio_mksyserr e w) = ioFrame w := rfl

@[simp] theorem ioFrame_unwatch (w : World) : ioFrame (unwatch w) = ioFrame w := by
  unfold unwatch
  split <;> rfl

@[simp] theorem ioFrame_clear_sock (w : World) : ioFrame (clear_sock w) = ioFrame w := by
  unfold clear_sock
  simp only []
  split_ifs <;> simp [ioFrame, E_close, C_close, World.log, unwatch] <;> split_ifs <;> simp

@[simp] theorem ioFrame_getsockopt (w : World) : ioFrame (getsockopt w).2 = ioFrame w := by
  unfold getsockopt
  split <;> rfl

@[simp] theorem ioFrame_connect0 (ai : List addrinfo) (w : World) :
    ioFrame (IOT_connect0 ai w).2 = ioFrame w := by
  unfold IOT_connect0
  split <;> rfl

@[simp] theorem ioFrame_connect (w : World) : ioFrame (IOT_connect w).2 = ioFrame w := by
  unfold IOT_connect
  split <;> rfl

theorem ioFrame_ensure_sock_E_while (env : Env) (n : Nat) (w : World) :
    ioFrame (ensure_sock_E_while env n w).1 = ioFrame w := by
  induction n generalizing w with
  | zero => rfl
  | succ n ih =>
    unfold ensure_sock_E_while
    simp only []
    split_ifs
    · rfl
    · rw [ih]; rfl
    · rfl

theorem ioFrame_ensure_sock_C_while (env : Env) (n : Nat) (w : World) :
    ioFrame (ensure_sock_C_while env n w).1 = ioFrame w := by
  induction n generalizing w with
  | zero => rfl
  | succ n ih =>
    unfold ensure_sock_C_while
    simp only []
    split_ifs
    · rfl
    · rw [ih]; rfl
    · rfl

@[simp] theorem ioFrame_ensure_sock (env : Env) (w : World) :
    ioFrame (ensure_sock env w).1 = ioFrame w := by
  unfold ensure_sock
  simp only []
  split_ifs <;>
    simp [ioFrame_ensure_sock_E_while, ioFrame_ensure_sock_C_while]

theorem state_signal_of_ne (s : State) (e : lcb_error_t) (w : World)
    (h : w.cs.state ≠ State.CS_PENDING) : state_signal s e w = w := by
  unfold state_signal
  rw [if_pos h]

theorem ioFrame_state {w w1 : World} (h : ioFrame w1 = ioFrame w) :
    w1.cs.state = w.cs.state :=
  congrArg (fun x => x.cs.state) h

/-- Induction principle of the readiness driver. Let `P` be a property of the
world that does not depend on the descriptor level fields. Every way in which
the driver returns is one of: `notify_success`, `notify_error(CONNECT_ERROR)`,
or a plain return (after registering the watch), from a world that has `P`. -/
theorem E_conncb_go_induct (env : Env) (events : Nat) (P Q : World → Prop)
    (hio : ∀ w w1 : World, ioFrame w1 = ioFrame w → P w → P w1)
    (hret : ∀ w : World, P w → Q w)
    (hok : ∀ w : World, P w → Q (notify_success w))
    (herr : ∀ w : World, P w → Q (notify_error lcb_error_t.LCB_CONNECT_ERROR w))
    (n : Nat) :
    ∀ (l : Label) (r : Bool) (ai : List addrinfo) (w : World),
      P w → Q (E_conncb_go env events n l r ai w) := by
  induction n with
  | zero => intro l r ai w hw; exact hret w hw
  | succ n ih =>
    intro l r ai w hw
    cases l with
    | GT_NEXTSOCK =>
      unfold E_conncb_go
      simp only []
      split
      · exact herr _ (hio w _ (by simp) hw)
      · split
        · exact ih _ _ _ _ (hio w _ (by simp) hw)
        · exact ih _ _ _ _ (hio w _ (by simp) hw)
    | GT_CONNECT =>
      unfold E_conncb_go
      simp only []
      split
      · exact hok _ (hio w _ (by simp) hw)
      · split
        · exact ih _ _ _ _ (hio w _ (by simp) hw)
        · exact hok _ (hio w _ (by simp) hw)
        · refine hret _ (hio w _ ?_ hw)
          show ioFrame ((lcbio_mksyserr _ (IOT_connect0 ai w).2).log _) = _
          simp
        · split
          · exact ih _ _ _ _ (hio w _ (by simp) hw)
          · exact ih _ _ _ _ (hio w _ (by simp) hw)
        · exact ih _ _ _ _ (hio w _ (by simp) hw)

/-- Induction principle of the completion driver: every way in which the
driver returns is one of `notify_success`, `notify_error(CONNECT_ERROR)`, a
submission with or without a reference, from a world that has `P`. -/
theorem C_connect_go_induct (env : Env) (P Q : World → Prop)
    (hio : ∀ w w1 : World, ioFrame w1 = ioFrame w → P w → P w1)
    (hret : ∀ w : World, P w → Q w)
    (hok : ∀ w : World, P w → Q (notify_success w))
    (herr : ∀ w : World, P w → Q (notify_error lcb_error_t.LCB_CONNECT_ERROR w))
    (href : ∀ w : World, P w → Q (submit_ref w))
    (hbusy : ∀ w : World, P w → Q (submit_busy w))
    (n : Nat) :
    ∀ (l : Label) (r : Bool) (w : World), P w → Q (C_connect_go env n l r w) := by
  induction n with
  | zero => intro l r w hw; exact hret w hw
  | succ n ih =>
    intro l r w hw
    cases l with
    | GT_NEXTSOCK =>
      unfold C_connect_go
      simp only []
      split
      · exact herr _ (hio w _ (by simp) hw)
      · exact ih _ _ _ (hio w _ (by simp) hw)
    | GT_CONNECT =>
      unfold C_connect_go
      simp only []
      split
      · exact href _ (hio w _ (by simp) hw)
      · split
        · exact ih _ _ _ (hio w _ (by simp) hw)
        · exact hok _ (hio w _ (by simp) hw)
        · exact hbusy _ (hio w _ (by simp) hw)
        · split
          · exact ih _ _ _ (hio w _ (by simp) hw)
          · exact ih _ _ _ (hio w _ (by simp) hw)
        · exact ih _ _ _ (hio w _ (by simp) hw)

theorem cancel_go_in_uhandler (env : Env) (n : Nat) (w : World)
    (h : w.cs.in_uhandler = true) : cancel_go env n w = w := by
  cases n with
  | zero => rfl
  | succ n => unfold cancel_go; rw [if_pos h]

theorem user_cancels_fix (c : World → World) (k : Nat) (w : World) (h : c w = w) :
    user_cancels c k w = w := by
  induction k with
  | zero => rfl
  | succ k ih => unfold user_cancels; rw [h, ih]

theorem call_user_handler_in_uhandler (env : Env) (n : Nat) (err : lcb_error_t) (w : World)
    (h : w.cs.in_uhandler = true) :
    call_user_handler (cancel_go env n) err w = call_user err w := by
  unfold call_user_handler call_user
  simp only []
  apply user_cancels_fix
  apply cancel_go_in_uhandler
  split_ifs <;> exact h

theorem ioFrame_handler_pre (env : Env) (w : World) :
    ioFrame (handler_pre env w) = ioFrame w := by
  unfold handler_pre
  simp only []
  split_ifs <;> simp

theorem handler_err_congr (env : Env) (w w1 : World)
    (h1 : ioFrame w1 = ioFrame w) (h2 : w1.cs.syserr = w.cs.syserr) :
    handler_err env w1 = handler_err env w := by
  have hs : w1.cs.state = w.cs.state := congrArg (fun x => x.cs.state) h1
  have hk : w1.cs.sock = w.cs.sock := congrArg (fun x => x.cs.sock) h1
  have hl : w1.cs.last_error = w.cs.last_error := congrArg (fun x => x.cs.last_error) h1
  have ht : w1.sock.settings = w.sock.settings := congrArg (fun x => x.sock.settings) h1
  unfold handler_err
  rw [hs, hk, hl, ht, h2]

@[simp] theorem syserr_unwatch (w : World) : (unwatch w).cs.syserr = w.cs.syserr := by
  unfold unwatch
  split <;> rfl

theorem syserr_handler_pre (env : Env) (w : World) :
    (handler_pre env w).cs.syserr = w.cs.syserr := by
  unfold handler_pre
  simp only []
  split_ifs <;> simp [World.log]

/-- The function `handler` in closed form. -/
theorem handler_go_succ (env : Env) (n : Nat) (w : World) :
    handler_go env (n + 1) w =
      if w.cs.state = State.CS_CANCELLED then
        Connstart_dtor
          (if w.cs.sock && w.cs.event then (unwatch w).log IOCall.destroy_event else w)
      else
        let w4 := handler_pre env w
        let w5 := call_user (handler_err env w) { w4 with cs := { w4.cs with in_uhandler := true } }
        Connstart_dtor { w5 with cs := { w5.cs with in_uhandler := false } } := by
  have hpre : ∀ w1 : World,
      w1 = (if w.cs.sock && w.cs.event then (unwatch w).log IOCall.destroy_event else w) →
      ioFrame w1 = ioFrame w ∧ w1.cs.syserr = w.cs.syserr := by
    intro w1 h1
    subst h1
    constructor
    · split <;> simp
    · split <;> simp [World.log]
  have hst := ioFrame_state (hpre _ rfl).1
  have herr := handler_err_congr env w _ (hpre _ rfl).1 (hpre _ rfl).2
  unfold handler_go
  simp only []
  rw [hst]
  split
  · rfl
  · rw [call_user_handler_in_uhandler env n _ _ rfl, herr]
    simp only [handler_pre, herr]

/-! ## The final handler -/

theorem dtor_ucalls (w : World) : (Connstart_dtor w).ucalls = w.ucalls := by
  simp only [Connstart_dtor, timer_release, lcbio_unref, lcbio__destroy, lcbio_shutdown, lcbio__protoctx_delall,
    E_close, C_close, World.log]
  split_ifs <;> rfl

theorem dtor_cs (w : World) :
    (Connstart_dtor w).cs = { w.cs with timer := Timer.released } := by
  simp only [Connstart_dtor, timer_release, lcbio_unref, lcbio__destroy, lcbio_shutdown, lcbio__protoctx_delall,
    E_close, C_close, World.log]
  split_ifs <;> rfl

theorem dtor_deleted (w : World) : (Connstart_dtor w).cs_deleted = true := rfl

theorem dtor_refcount (w : World) (h : w.cs.sock = true) :
    (Connstart_dtor w).sock.refcount = w.sock.refcount - 1 := by
  simp only [Connstart_dtor, timer_release, lcbio_unref, lcbio__destroy, lcbio_shutdown, lcbio__protoctx_delall,
    E_close, C_close, World.log, h]
  split_ifs <;> rfl

theorem call_user_ucalls (err : lcb_error_t) (w : World) :
    (call_user err w).ucalls =
      w.ucalls ++ [UserCall.mk (if err = lcb_error_t.LCB_SUCCESS then w.cs.sock else false)
        w.cs.user_arg err w.cs.syserr] := by
  unfold call_user
  simp only []
  split_ifs <;> rfl

theorem call_user_cs (err : lcb_error_t) (w : World) : (call_user err w).cs = w.cs := by
  unfold call_user
  simp only []
  split_ifs <;> rfl

/-- The invocation of the user callback that `handler` makes when the state
is not CANCELLED. -/
theorem handler_ucalls (env : Env) (w : World) (hc : w.cs.state ≠ State.CS_CANCELLED) :
    (handler env w).ucalls =
      w.ucalls ++ [UserCall.mk
        (if handler_err env w = lcb_error_t.LCB_SUCCESS then w.cs.sock else false)
        w.cs.user_arg (handler_err env w) w.cs.syserr] := by
  have h1 := ioFrame_handler_pre env w
  have hu : (handler_pre env w).ucalls = w.ucalls := congrArg (fun x => x.ucalls) h1
  have hk : (handler_pre env w).cs.sock = w.cs.sock := congrArg (fun x => x.cs.sock) h1
  have ha : (handler_pre env w).cs.user_arg = w.cs.user_arg :=
    congrArg (fun x => x.cs.user_arg) h1
  have hy := syserr_handler_pre env w
  unfold handler
  rw [handler_go_succ, if_neg hc]
  simp only [dtor_ucalls, call_user_ucalls, hu, hk, ha, hy]

/-- A cancelled attempt: `handler` invokes no callback. -/
theorem handler_ucalls_cancelled (env : Env) (w : World)
    (hc : w.cs.state = State.CS_CANCELLED) : (handler env w).ucalls = w.ucalls := by
  unfold handler
  rw [handler_go_succ, if_pos hc, dtor_ucalls]
  split
  · exact congrArg (fun x => x.ucalls)
      (show ioFrame ((unwatch w).log IOCall.destroy_event) = ioFrame w by simp)
  · rfl

theorem handler_deleted (env : Env) (w : World) : (handler env w).cs_deleted = true := by
  unfold handler
  rw [handler_go_succ]
  split <;> exact dtor_deleted _

theorem handler_state (env : Env) (w : World) : (handler env w).cs.state = w.cs.state := by
  unfold handler
  rw [handler_go_succ]
  split
  · rw [dtor_cs]
    split
    · exact congrArg (fun x => x.cs.state)
        (show ioFrame ((unwatch w).log IOCall.destroy_event) = ioFrame w by simp)
    · rfl
  · simp only [dtor_cs, call_user_cs]
    exact congrArg (fun x => x.cs.state) (ioFrame_handler_pre env w)

theorem cancel_eq (env : Env) (w : World) :
    cancel env w =
      if w.cs.in_uhandler then w
      else handler env { w with cs := { w.cs with state := State.CS_CANCELLED } } := by
  unfold cancel handler
  rw [cancel_go]


theorem C_connect_go_state (env : Env) (n : Nat) (l : Label) (r : Bool) (w : World)
    (h : w.cs.state ≠ State.CS_PENDING) :
    (C_connect_go env n l r w).cs.state = w.cs.state := by
  refine C_connect_go_induct env (fun x => x.cs.state = w.cs.state)
    (fun x => x.cs.state = w.cs.state) ?_ ?_ ?_ ?_ ?_ ?_ n l r w rfl
  · intro x x1 h1 hx; rw [ioFrame_state h1]; exact hx
  · intro x hx; exact hx
  · intro x hx; rw [notify_success, state_signal_of_ne _ _ _ (by rw [hx]; exact h)]; exact hx
  · intro x hx; rw [notify_error, state_signal_of_ne _ _ _ (by rw [hx]; exact h)]; exact hx
  · intro x hx; exact hx
  · intro x hx; exact hx

theorem C_conncb_state (env : Env) (status : Int) (w : World)
    (h : w.cs.state ≠ State.CS_PENDING) :
    (C_conncb env status w).cs.state = w.cs.state := by
  unfold C_conncb
  simp only []
  split
  · simp only [lcbio__destroy, lcbio_shutdown, lcbio__protoctx_delall, E_close, C_close, World.log]
    split_ifs <;> rfl
  · split
    · rw [handler_state]
    · unfold C_connect
      have h1 : ioFrame (clear_sock (lcbio_mksyserr
          ({ w with sock := { w.sock with refcount := w.sock.refcount - 1 } } : World).iot.errno
          { w with sock := { w.sock with refcount := w.sock.refcount - 1 } })) =
          ioFrame { w with sock := { w.sock with refcount := w.sock.refcount - 1 } } := by
        simp
      have h2 := ioFrame_state h1
      rw [C_connect_go_state env _ _ _ _ (by rw [h2]; exact h), h2]

/-! ## C2: the two behaviours of cancel -/

/-- C2: `cancel()` has exactly two behaviours. Called while the user callback
runs (`in_uhandler`) it returns the world unchanged. Otherwise it is
`handler()` run on the attempt with the state set to CANCELLED: the state is
CANCELLED, the user callback is not invoked, the attempt is destroyed with its
timer released, the socket loses one reference when the attempt has one, and a
live watch is cancelled through the I/O table. -/
theorem cancel_two_behaviours (env : Env) (w : World) :
    (w.cs.in_uhandler = true → cancel env w = w) ∧
    (w.cs.in_uhandler = false →
      cancel env w = handler env { w with cs := { w.cs with state := State.CS_CANCELLED } } ∧
      (cancel env w).cs.state = State.CS_CANCELLED ∧
      (cancel env w).ucalls = w.ucalls ∧
      (cancel env w).cs_deleted = true ∧
      (cancel env w).cs.timer = Timer.released ∧
      (w.cs.sock = true →
        (cancel env w).sock.refcount = w.sock.refcount - 1 ∧
        (w.cs.event = true →
          (cancel env w).cs.ev_active = false ∧
          (w.cs.ev_active = true →
            IOCall.cancel_watch w.sock.fd ∈ (cancel env w).iot.calls)))) := by
  constructor
  · intro h
    rw [cancel_eq, if_pos h]
  · intro h
    have hc : cancel env w =
        handler env { w with cs := { w.cs with state := State.CS_CANCELLED } } := by
      rw [cancel_eq]; simp [h]
    refine ⟨hc, ?_, ?_, ?_, ?_, ?_⟩
    · rw [hc, handler_state]
    · rw [hc, handler_ucalls_cancelled env _ rfl]
    · rw [hc, handler_deleted]
    · rw [hc]; unfold handler
      rw [handler_go_succ, if_pos rfl, dtor_cs]
    · intro hs
      rw [hc]; unfold handler
      rw [handler_go_succ, if_pos rfl]
      refine ⟨?_, ?_⟩
      · rw [dtor_refcount]
        · split
          · simp only [World.log, unwatch]
            split <;> rfl
          · rfl
        · split
          · simp only [World.log, unwatch]
            split <;> exact hs
          · exact hs
      · intro he
        simp only [hs, he, Bool.and_self, if_true]
        refine ⟨?_, ?_⟩
        · rw [dtor_cs]
          simp only [World.log, unwatch, hs, Bool.true_and]
          split <;> simp_all
        · intro ha
          simp only [Connstart_dtor, timer_release, lcbio_unref, lcbio__destroy, lcbio_shutdown, lcbio__protoctx_delall,
            E_close, C_close, World.log, unwatch, hs, ha, Bool.and_self, if_true]
          split_ifs <;> simp



/-- Witness of C2: cancel from inside the user callback on one world, and an
external cancel of an attempt that waits for writability on the other. -/
theorem cancel_two_behaviours_witness :
    cancel exEnv { exAttemptE [(-1, 115)] with
        cs := { (exAttemptE [(-1, 115)]).cs with in_uhandler := true } } =
      { exAttemptE [(-1, 115)] with
        cs := { (exAttemptE [(-1, 115)]).cs with in_uhandler := true } } ∧
    (cancel exEnv (exAttemptE [(-1, 115)])).cs.state = State.CS_CANCELLED ∧
    (cancel exEnv (exAttemptE [(-1, 115)])).ucalls = [] ∧
    (cancel exEnv (exAttemptE [(-1, 115)])).sock.refcount = 0 ∧
    IOCall.cancel_watch 11 ∈ (cancel exEnv (exAttemptE [(-1, 115)])).iot.calls :=
  ⟨(cancel_two_behaviours exEnv _).1 (by decide),
   ((cancel_two_behaviours exEnv (exAttemptE [(-1, 115)])).2 (by decide)).2.1,
   ((cancel_two_behaviours exEnv (exAttemptE [(-1, 115)])).2 (by decide)).2.2.1,
   (((cancel_two_behaviours exEnv (exAttemptE [(-1, 115)])).2 (by decide)).2.2.2.2.2
      (by decide)).1,
   ((((cancel_two_behaviours exEnv (exAttemptE [(-1, 115)])).2 (by decide)).2.2.2.2.2
      (by decide)).2 (by decide)).2 (by decide)⟩

/-- The attempt that the constructor leaves when name resolution fails. -/
theorem Connstart_new_unresolved (env : Env) (iot_ : lcbio_TABLE) (settings_ : lcb_settings)
    (getaddrinfo : ai_family_t → Int × List addrinfo) (timeout : Nat)
    (handler_ : UserHandler) (arg : Nat)
    (hr : (getaddrinfo (hints_ai_family settings_)).1 ≠ 0) :
    (Connstart_new env iot_ settings_ getaddrinfo timeout handler_ arg).cs.state =
      State.CS_ERROR ∧
    (Connstart_new env iot_ settings_ getaddrinfo timeout handler_ arg).cs.last_error =
      lcb_error_t.LCB_UNKNOWN_HOST ∧
    (Connstart_new env iot_ settings_ getaddrinfo timeout handler_ arg).cs.timer =
      Timer.signalled ∧
    (Connstart_new env iot_ settings_ getaddrinfo timeout handler_ arg).cs_deleted = false ∧
    (Connstart_new env iot_ settings_ getaddrinfo timeout handler_ arg).ucalls = [] := by
  simp only [Connstart_new, if_pos hr, notify_error, state_signal, timer_signal, World.log]
  split_ifs <;> simp_all

/-! ## C3, C4: what the handler passes to the user callback -/

/-- C3: the library error that `handler()` passes to the user callback is a
function of the final state: ETIMEDOUT when the state is still PENDING,
SUCCESS when it is CONNECTED, and for ERROR the translation
`lcbio_mklcberr(syserr, settings)` when `last_error` is CONNECT_ERROR and
`last_error` itself otherwise. In particular a failed name resolution is
delivered as UNKNOWN_HOST by the dispatch that follows the construction. -/
theorem handler_error_of_final_state (env : Env) (w : World)
    (hs : w.cs.sock = true) (hc : w.cs.state ≠ State.CS_CANCELLED) :
    (handler env w).ucalls.map UserCall.err =
      w.ucalls.map UserCall.err ++
        [match w.cs.state with
          | State.CS_PENDING => lcb_error_t.LCB_ETIMEDOUT
          | State.CS_CONNECTED => lcb_error_t.LCB_SUCCESS
          | _ =>
            if w.cs.last_error = lcb_error_t.LCB_CONNECT_ERROR then
              env.mklcberr w.cs.syserr w.sock.settings
            else w.cs.last_error] ∧
    ∀ (iot_ : lcbio_TABLE) (settings_ : lcb_settings)
      (getaddrinfo : ai_family_t → Int × List addrinfo) (timeout : Nat)
      (handler_ : UserHandler) (arg : Nat),
      (getaddrinfo (hints_ai_family settings_)).1 ≠ 0 →
      ((run env [Event.timer_cb]
          (Connstart_new env iot_ settings_ getaddrinfo timeout handler_ arg)).ucalls.map
        UserCall.err) = [lcb_error_t.LCB_UNKNOWN_HOST] := by
  constructor
  · rw [handler_ucalls env w hc, List.map_append]
    congr 1
    simp only [List.map_cons, List.map_nil, handler_err, hs, true_and]
    cases hst : w.cs.state <;> simp_all
  · intro iot_ settings_ getaddrinfo timeout handler_ arg hr
    obtain ⟨h1, h2, _, h4, h5⟩ :=
      Connstart_new_unresolved env iot_ settings_ getaddrinfo timeout handler_ arg hr
    simp only [run, step, h4, Bool.not_false, if_true]
    rw [handler_ucalls env _ (by rw [h1]; decide), h5]
    simp [handler_err, h1, h2]


/-- Witness of C3: both addresses refuse the connection (errno 111), the state
is ERROR with CONNECT_ERROR recorded, and the callback receives the
translation of 111. -/
theorem handler_error_of_final_state_witness :
    (exAttemptE [(-1, 111), (-1, 111)]).cs.sock = true ∧
    (exAttemptE [(-1, 111), (-1, 111)]).cs.state = State.CS_ERROR ∧
    (exAttemptE [(-1, 111), (-1, 111)]).cs.last_error = lcb_error_t.LCB_CONNECT_ERROR ∧
    (handler exEnv (exAttemptE [(-1, 111), (-1, 111)])).ucalls.map UserCall.err =
      [spec_mklcberr 111 exSettings] :=
  ⟨by decide, by decide, by decide,
   (handler_error_of_final_state exEnv (exAttemptE [(-1, 111), (-1, 111)])
      (by decide) (by decide)).1⟩

/-- C4: whenever `handler()` invokes the user callback, the socket argument
is the socket of the attempt exactly when the delivered library error is
SUCCESS and NULL for every other error, and the `os_errno` argument is the
`syserr` of the attempt. -/
theorem handler_socket_argument (env : Env) (w : World)
    (hs : w.cs.sock = true) (hc : w.cs.state ≠ State.CS_CANCELLED) :
    ∃ c : UserCall, (handler env w).ucalls = w.ucalls ++ [c] ∧
      (c.sock = true ↔ c.err = lcb_error_t.LCB_SUCCESS) ∧
      c.syserr = w.cs.syserr := by
  refine ⟨_, handler_ucalls env w hc, ?_, rfl⟩
  simp only [hs]
  split <;> simp_all

/-- Witness of C4: a timeout (state PENDING) delivers a NULL socket, and an
immediate success delivers the socket; both deliver `syserr`. -/
theorem handler_socket_argument_witness :
    (∃ c : UserCall, (handler exEnv (exAttemptE [(-1, 115)])).ucalls =
        (exAttemptE [(-1, 115)]).ucalls ++ [c] ∧
      (c.sock = true ↔ c.err = lcb_error_t.LCB_SUCCESS) ∧
      c.syserr = (exAttemptE [(-1, 115)]).cs.syserr) ∧
    (handler exEnv (exAttemptE [(-1, 115)])).ucalls =
      [UserCall.mk false 7 lcb_error_t.LCB_ETIMEDOUT 115] ∧
    (handler exEnv (exAttemptE [(0, 0)])).ucalls =
      [UserCall.mk true 7 lcb_error_t.LCB_SUCCESS 0] :=
  ⟨handler_socket_argument exEnv (exAttemptE [(-1, 115)]) (by decide) (by decide),
   by decide, by decide⟩

/-! ## C10: terminal states -/

/-- C10, as stated, fails: an attempt whose connect succeeded at once is
CONNECTED, and an external cancel before the dispatch of the handler changes
its state to CANCELLED. -/
theorem cancel_overrides_terminal_state :
    (exAttemptE [(0, 0)]).cs.state = State.CS_CONNECTED ∧
    (exAttemptE [(0, 0)]).cs_deleted = false ∧
    (exAttemptE [(0, 0)]).cs.in_uhandler = false ∧
    (cancel exEnv (exAttemptE [(0, 0)])).cs.state = State.CS_CANCELLED ∧
    (cancel exEnv (exAttemptE [(0, 0)])).cs.state ≠ (exAttemptE [(0, 0)]).cs.state := by
  decide

/-- C10, amended: under `notify_success`, `notify_error` and the completion
callback a state that is not PENDING never changes (CONNECTED, ERROR and
CANCELLED are absorbing); `cancel()` called from inside the user callback
changes nothing, and `cancel()` called outside of it sets the state to
CANCELLED whatever it was. -/
theorem terminal_state_absorbing (env : Env) (w : World)
    (h : w.cs.state ≠ State.CS_PENDING) :
    (notify_success w).cs.state = w.cs.state ∧
    (∀ err : lcb_error_t, (notify_error err w).cs.state = w.cs.state) ∧
    (∀ status : Int, (C_conncb env status w).cs.state = w.cs.state) ∧
    (w.cs.in_uhandler = true → (cancel env w).cs.state = w.cs.state) ∧
    (w.cs.in_uhandler = false → (cancel env w).cs.state = State.CS_CANCELLED) := by
  refine ⟨?_, ?_, ?_, ?_, ?_⟩
  · rw [notify_success, state_signal_of_ne _ _ _ h]
  · intro err; rw [notify_error, state_signal_of_ne _ _ _ h]
  · intro status; exact C_conncb_state env status w h
  · intro hu; rw [cancel_eq, if_pos hu]
  · intro hu; rw [cancel_eq]; simp only [hu, Bool.false_eq_true, if_false]; rw [handler_state]

/-- Witness of C10 (amended) on the attempt whose connect succeeded at
once. -/
theorem terminal_state_absorbing_witness :
    (exAttemptE [(0, 0)]).cs.state ≠ State.CS_PENDING ∧
    (notify_error lcb_error_t.LCB_CONNECT_ERROR (exAttemptE [(0, 0)])).cs.state =
      (exAttemptE [(0, 0)]).cs.state ∧
    (C_conncb exEnv 0 (exAttemptE [(0, 0)])).cs.state = (exAttemptE [(0, 0)]).cs.state ∧
    (cancel exEnv (exAttemptE [(0, 0)])).cs.state = State.CS_CANCELLED :=
  ⟨by decide,
   (terminal_state_absorbing exEnv (exAttemptE [(0, 0)]) (by decide)).2.1 _,
   (terminal_state_absorbing exEnv (exAttemptE [(0, 0)]) (by decide)).2.2.1 0,
   (terminal_state_absorbing exEnv (exAttemptE [(0, 0)]) (by decide)).2.2.2.2 (by decide)⟩

/-! ## C5: the constructor defers the callback -/

theorem ioFrame_ucalls {w w1 : World} (h : ioFrame w1 = ioFrame w) : w1.ucalls = w.ucalls :=
  congrArg (fun x => x.ucalls) h

theorem ioFrame_deleted {w w1 : World} (h : ioFrame w1 = ioFrame w) :
    w1.cs_deleted = w.cs_deleted :=
  congrArg (fun x => x.cs_deleted) h

theorem ioFrame_timer {w w1 : World} (h : ioFrame w1 = ioFrame w) :
    w1.cs.timer = w.cs.timer :=
  congrArg (fun x => x.cs.timer) h

theorem Fresh_ioFrame (timeout : Nat) (w w1 : World) (h : ioFrame w1 = ioFrame w)
    (hw : Fresh timeout w) : Fresh timeout w1 := by
  obtain ⟨a, b, c, d⟩ := hw
  exact ⟨(ioFrame_ucalls h).trans a, (ioFrame_deleted h).trans b, (ioFrame_state h).trans c,
    (ioFrame_timer h).trans d⟩

theorem Fresh_state_signal (timeout : Nat) (s : State) (e : lcb_error_t) (w : World)
    (hs : s = State.CS_CONNECTED ∨ s = State.CS_ERROR) (hw : Fresh timeout w) :
    Deferred timeout (state_signal s e w) := by
  obtain ⟨a, b, c, d⟩ := hw
  simp only [Deferred, state_signal, timer_signal, c]
  split_ifs <;> simp_all

theorem Connstart_new_deferred (env : Env) (iot_ : lcbio_TABLE) (settings_ : lcb_settings)
    (getaddrinfo : ai_family_t → Int × List addrinfo) (timeout : Nat)
    (handler_ : UserHandler) (arg : Nat) :
    Deferred timeout (Connstart_new env iot_ settings_ getaddrinfo timeout handler_ arg) := by
  have hret : ∀ w : World, Fresh timeout w → Deferred timeout w := by
    intro w ⟨a, b, c, d⟩
    exact ⟨a, b, Or.inl ⟨c, d⟩⟩
  have hok : ∀ w : World, Fresh timeout w → Deferred timeout (notify_success w) :=
    fun w hw => Fresh_state_signal timeout _ _ w (Or.inl rfl) hw
  have herr : ∀ (e : lcb_error_t) (w : World),
      Fresh timeout w → Deferred timeout (notify_error e w) :=
    fun e w hw => Fresh_state_signal timeout _ _ w (Or.inr rfl) hw
  unfold Connstart_new
  simp only []
  split
  · apply herr
    split <;> exact ⟨rfl, rfl, rfl, rfl⟩
  · split
    · apply E_conncb_go_induct env _ (Fresh timeout) (Deferred timeout)
        (Fresh_ioFrame timeout) hret hok (herr _)
      exact ⟨rfl, rfl, rfl, rfl⟩
    · apply C_connect_go_induct env (Fresh timeout) (Deferred timeout)
        (Fresh_ioFrame timeout) hret hok (herr _)
      · intro w ⟨a, b, c, d⟩
        exact ⟨a, b, Or.inl ⟨c, d⟩⟩
      · intro w ⟨a, b, c, d⟩
        exact ⟨a, b, Or.inl ⟨c, d⟩⟩
      · exact ⟨rfl, rfl, rfl, rfl⟩

/-- The arguments of the callback of an attempt whose name resolution
failed. -/
theorem Connstart_new_unresolved_args (env : Env) (iot_ : lcbio_TABLE)
    (settings_ : lcb_settings) (getaddrinfo : ai_family_t → Int × List addrinfo)
    (timeout : Nat) (handler_ : UserHandler) (arg : Nat)
    (hr : (getaddrinfo (hints_ai_family settings_)).1 ≠ 0) :
    (Connstart_new env iot_ settings_ getaddrinfo timeout handler_ arg).cs.syserr = 0 ∧
    (Connstart_new env iot_ settings_ getaddrinfo timeout handler_ arg).cs.user_arg = arg := by
  simp only [Connstart_new, if_pos hr, notify_error, state_signal, timer_signal, World.log]
  split_ifs <;> simp_all

/-- C5: constructing an attempt (the public `lcbio_connect`) never invokes the
user callback, whatever name resolution and the first pass of the driver give:
the attempt is alive, and when its state is terminal (CONNECTED after an
immediate success, ERROR after a failed resolution or the exhaustion of the
addresses) the handler is only scheduled through `timer.signal()`. The
callback is delivered by the dispatch that follows; after a failed resolution
it is `(NULL, UNKNOWN_HOST, 0)`. -/
theorem connect_defers_callback (env : Env) (iot_ : lcbio_TABLE) (settings_ : lcb_settings)
    (getaddrinfo : ai_family_t → Int × List addrinfo) (timeout : Nat)
    (handler_ : UserHandler) (arg : Nat) :
    (Connstart_new env iot_ settings_ getaddrinfo timeout handler_ arg).ucalls = [] ∧
    (Connstart_new env iot_ settings_ getaddrinfo timeout handler_ arg).cs_deleted = false ∧
    ((Connstart_new env iot_ settings_ getaddrinfo timeout handler_ arg).cs.state ≠
        State.CS_PENDING →
      ((Connstart_new env iot_ settings_ getaddrinfo timeout handler_ arg).cs.state =
          State.CS_CONNECTED ∨
        (Connstart_new env iot_ settings_ getaddrinfo timeout handler_ arg).cs.state =
          State.CS_ERROR) ∧
      (Connstart_new env iot_ settings_ getaddrinfo timeout handler_ arg).cs.timer =
        Timer.signalled) ∧
    (∃ c : UserCall,
      (run env [Event.timer_cb]
        (Connstart_new env iot_ settings_ getaddrinfo timeout handler_ arg)).ucalls = [c]) ∧
    ((getaddrinfo (hints_ai_family settings_)).1 ≠ 0 →
      (Connstart_new env iot_ settings_ getaddrinfo timeout handler_ arg).cs.state =
        State.CS_ERROR ∧
      (Connstart_new env iot_ settings_ getaddrinfo timeout handler_ arg).cs.timer =
        Timer.signalled ∧
      (run env [Event.timer_cb]
        (Connstart_new env iot_ settings_ getaddrinfo timeout handler_ arg)).ucalls =
        [UserCall.mk false arg lcb_error_t.LCB_UNKNOWN_HOST 0]) := by
  obtain ⟨hu, hd, hst⟩ :=
    Connstart_new_deferred env iot_ settings_ getaddrinfo timeout handler_ arg
  have hnc : (Connstart_new env iot_ settings_ getaddrinfo timeout handler_ arg).cs.state ≠
      State.CS_CANCELLED := by
    rcases hst with ⟨h, _⟩ | ⟨h | h, _⟩ <;> rw [h] <;> decide
  refine ⟨hu, hd, ?_, ?_, ?_⟩
  · intro hne
    rcases hst with ⟨h, _⟩ | h
    · exact absurd h hne
    · exact h
  · have hrun := handler_ucalls env _ hnc
    rw [hu, List.nil_append] at hrun
    simp only [run, step, hd, Bool.not_false, if_true]
    exact ⟨_, hrun⟩
  · intro hr
    obtain ⟨h1, h2, h3, _, _⟩ :=
      Connstart_new_unresolved env iot_ settings_ getaddrinfo timeout handler_ arg hr
    obtain ⟨h6, h7⟩ :=
      Connstart_new_unresolved_args env iot_ settings_ getaddrinfo timeout handler_ arg hr
    refine ⟨h1, h3, ?_⟩
    simp only [run, step, hd, Bool.not_false, if_true]
    rw [handler_ucalls env _ hnc, hu, List.nil_append]
    simp [handler_err, h1, h2, h6, h7]

/-- Witness of C5: a resolver that fails (return value -2), in the readiness
flavor. -/
theorem connect_defers_callback_witness :
    (Connstart_new exEnv (exTableE []) exSettings (fun _ => (-2, [])) 1000
        { cancels := 0, refs := false } 7).ucalls = [] ∧
    (Connstart_new exEnv (exTableE []) exSettings (fun _ => (-2, [])) 1000
        { cancels := 0, refs := false } 7).cs.state = State.CS_ERROR ∧
    (run exEnv [Event.timer_cb]
        (Connstart_new exEnv (exTableE []) exSettings (fun _ => (-2, [])) 1000
          { cancels := 0, refs := false } 7)).ucalls =
      [UserCall.mk false 7 lcb_error_t.LCB_UNKNOWN_HOST 0] :=
  ⟨(connect_defers_callback exEnv (exTableE []) exSettings (fun _ => (-2, [])) 1000
      { cancels := 0, refs := false } 7).1,
   ((connect_defers_callback exEnv (exTableE []) exSettings (fun _ => (-2, [])) 1000
      { cancels := 0, refs := false } 7).2.2.2.2 (by decide)).1,
   ((connect_defers_callback exEnv (exTableE []) exSettings (fun _ => (-2, [])) 1000
      { cancels := 0, refs := false } 7).2.2.2.2 (by decide)).2.2⟩

/-! ## Single steps of the readiness driver -/

theorem ensure_sock_null (env : Env) (w : World) (h : w.cs.ai = []) :
    ensure_sock env w = (w, false) := by
  unfold ensure_sock
  rw [if_pos h]

theorem ensure_sock_have_E (env : Env) (w : World) (hE : w.iot.model = lcb_iomodel.LCB_IOMODEL_EVENT)
    (hai : w.cs.ai ≠ []) (hfd : w.sock.fd ≠ INVALID_SOCKET) :
    ensure_sock env w = (w, true) := by
  unfold ensure_sock
  simp [hai, hfd, IOT_IS_EVENT, hE]

theorem ensure_sock_create_E (env : Env) (w : World) (a : addrinfo) (rest : List addrinfo)
    (hE : w.iot.model = lcb_iomodel.LCB_IOMODEL_EVENT)
    (hai : w.cs.ai = a :: rest) (hfd : w.sock.fd = INVALID_SOCKET)
    (hs : env.E_socket a ≠ INVALID_SOCKET) :
    ensure_sock env w =
      ({ w with
          sock := { w.sock with fd := env.E_socket a }
          iot := { w.iot with
            calls := w.iot.calls ++ [IOCall.E_socket a (env.E_socket a)] } }, true) := by
  unfold ensure_sock
  simp only [hai, hfd, IOT_IS_EVENT, hE, List.length_cons]
  simp [ensure_sock_E_while, hai, hfd, lcbio_E_ai2sock, hs]
  cases w with
  | mk cs d sock iot u pd =>
    cases cs
    simp_all

theorem clear_sock_last (w : World) (a : addrinfo) (hai : w.cs.ai = [a]) :
    clear_sock w = { w with cs := { w.cs with ai := [] } } := by
  unfold clear_sock
  simp [hai]

theorem clear_sock_next_E (w : World) (a b : addrinfo) (rest : List addrinfo)
    (hE : w.iot.model = lcb_iomodel.LCB_IOMODEL_EVENT)
    (hai : w.cs.ai = a :: b :: rest) (hev : w.cs.ev_active = false) :
    clear_sock w =
      { w with
          cs := { w.cs with ai := b :: rest }
          sock := { w.sock with fd := INVALID_SOCKET }
          iot := { w.iot with calls := w.iot.calls ++ [IOCall.E_close w.sock.fd] } } := by
  unfold clear_sock
  simp [hai, IOT_IS_EVENT, hE, unwatch, hev, E_close, World.log]

theorem IOT_connect0_script (ai : List addrinfo) (w : World) (rv e : Int)
    (more : List (Int × Int)) (h : w.iot.connects = (rv, e) :: more) :
    IOT_connect0 ai w =
      (rv, { w with iot := { w.iot with
              connects := more
              errno := if rv = 0 then w.iot.errno else e
              calls := w.iot.calls ++ [IOCall.connect0 w.sock.fd ai.head? rv] } }) := by
  unfold IOT_connect0
  rw [h]

theorem E_go_next_fail (env : Env) (events n : Nat) (r : Bool) (ai : List addrinfo)
    (w w1 : World) (h : ensure_sock env w = (w1, false)) :
    E_conncb_go env events (n + 1) Label.GT_NEXTSOCK r ai w =
      notify_error lcb_error_t.LCB_CONNECT_ERROR w1 := by
  conv_lhs => rw [E_conncb_go]
  simp [h]

theorem E_go_next_connect (env : Env) (events n : Nat) (r : Bool) (ai : List addrinfo)
    (w w1 : World) (h : ensure_sock env w = (w1, true))
    (hev : events &&& LCB_ERROR_EVENT = 0) :
    E_conncb_go env events (n + 1) Label.GT_NEXTSOCK r ai w =
      E_conncb_go env events n Label.GT_CONNECT r w1.cs.ai w1 := by
  conv_lhs => rw [E_conncb_go]
  simp [h, hev]

theorem E_go_next_error_event (env : Env) (events n : Nat) (r : Bool) (ai : List addrinfo)
    (w w1 : World) (h : ensure_sock env w = (w1, true))
    (hev : events &&& LCB_ERROR_EVENT ≠ 0) :
    E_conncb_go env events (n + 1) Label.GT_NEXTSOCK r ai w =
      E_conncb_go env events n Label.GT_NEXTSOCK r ai
        (clear_sock (lcbio_mksyserr (getsockopt w1).1 (getsockopt w1).2)) := by
  conv_lhs => rw [E_conncb_go]
  simp [h, hev]

theorem E_go_connect_ok (env : Env) (events n : Nat) (r : Bool) (ai : List addrinfo)
    (w w1 : World) (h : IOT_connect0 ai w = (0, w1)) :
    E_conncb_go env events (n + 1) Label.GT_CONNECT r ai w =
      notify_success (unwatch w1) := by
  conv_lhs => rw [E_conncb_go]
  simp [h]

theorem E_go_connect_efail (env : Env) (events n : Nat) (r : Bool) (ai : List addrinfo)
    (w w1 : World) (rv : Int) (h : IOT_connect0 ai w = (rv, w1)) (hrv : rv ≠ 0)
    (hc : env.mkcserr w1.iot.errno = lcbio_CSERR.LCBIO_CSERR_EFAIL) :
    E_conncb_go env events (n + 1) Label.GT_CONNECT r ai w =
      E_conncb_go env events n Label.GT_NEXTSOCK r ai
        (clear_sock (lcbio_mksyserr w1.iot.errno w1)) := by
  conv_lhs => rw [E_conncb_go]
  simp [h, hrv, hc]

theorem E_go_connect_intr (env : Env) (events n : Nat) (r : Bool) (ai : List addrinfo)
    (w w1 : World) (rv : Int) (h : IOT_connect0 ai w = (rv, w1)) (hrv : rv ≠ 0)
    (hc : env.mkcserr w1.iot.errno = lcbio_CSERR.LCBIO_CSERR_INTR) :
    E_conncb_go env events (n + 1) Label.GT_CONNECT r ai w =
      E_conncb_go env events n Label.GT_CONNECT r ai (lcbio_mksyserr w1.iot.errno w1) := by
  conv_lhs => rw [E_conncb_go]
  simp [h, hrv, hc]

theorem E_go_connect_connected (env : Env) (events n : Nat) (r : Bool) (ai : List addrinfo)
    (w w1 : World) (rv : Int) (h : IOT_connect0 ai w = (rv, w1)) (hrv : rv ≠ 0)
    (hc : env.mkcserr w1.iot.errno = lcbio_CSERR.LCBIO_CSERR_CONNECTED) :
    E_conncb_go env events (n + 1) Label.GT_CONNECT r ai w =
      notify_success (unwatch (lcbio_mksyserr w1.iot.errno w1)) := by
  conv_lhs => rw [E_conncb_go]
  simp [h, hrv, hc]

theorem E_go_connect_einval_first (env : Env) (events n : Nat) (ai : List addrinfo)
    (w w1 : World) (rv : Int) (h : IOT_connect0 ai w = (rv, w1)) (hrv : rv ≠ 0)
    (hc : env.mkcserr w1.iot.errno = lcbio_CSERR.LCBIO_CSERR_EINVAL) :
    E_conncb_go env events (n + 1) Label.GT_CONNECT false ai w =
      E_conncb_go env events n Label.GT_CONNECT true ai (lcbio_mksyserr w1.iot.errno w1) := by
  conv_lhs => rw [E_conncb_go]
  simp [h, hrv, hc]

theorem E_go_connect_einval_again (env : Env) (events n : Nat) (ai : List addrinfo)
    (w w1 : World) (rv : Int) (h : IOT_connect0 ai w = (rv, w1)) (hrv : rv ≠ 0)
    (hc : env.mkcserr w1.iot.errno = lcbio_CSERR.LCBIO_CSERR_EINVAL) :
    E_conncb_go env events (n + 1) Label.GT_CONNECT true ai w =
      E_conncb_go env events n Label.GT_NEXTSOCK true ai
        (clear_sock (lcbio_mksyserr w1.iot.errno w1)) := by
  conv_lhs => rw [E_conncb_go]
  simp [h, hrv, hc]

theorem ioFrame_E_fail_step (env : Env) (w : World) :
    ioFrame (E_fail_step env w) = ioFrame w := by
  simp [E_fail_step]

theorem ensure_sock_create_E_fields (env : Env) (w : World) (a : addrinfo)
    (rest : List addrinfo) (hE : w.iot.model = lcb_iomodel.LCB_IOMODEL_EVENT)
    (hai : w.cs.ai = a :: rest) (hfd : w.sock.fd = INVALID_SOCKET)
    (hs : env.E_socket a ≠ INVALID_SOCKET) :
    (ensure_sock env w).2 = true ∧
    (ensure_sock env w).1.cs = w.cs ∧
    (ensure_sock env w).1.sock.fd = env.E_socket a ∧
    (ensure_sock env w).1.iot.model = w.iot.model ∧
    (ensure_sock env w).1.iot.connects = w.iot.connects ∧
    (ensure_sock env w).1.iot.calls =
      w.iot.calls ++ [IOCall.E_socket a (env.E_socket a)] := by
  rw [ensure_sock_create_E env w a rest hE hai hfd hs]
  exact ⟨rfl, rfl, rfl, rfl, rfl, rfl⟩

theorem IOT_connect0_fields (ai : List addrinfo) (w : World) (rv e : Int)
    (more : List (Int × Int)) (h : w.iot.connects = (rv, e) :: more) (hrv : rv ≠ 0) :
    (IOT_connect0 ai w).1 = rv ∧
    (IOT_connect0 ai w).2.cs = w.cs ∧
    (IOT_connect0 ai w).2.sock = w.sock ∧
    (IOT_connect0 ai w).2.iot.model = w.iot.model ∧
    (IOT_connect0 ai w).2.iot.errno = e ∧
    (IOT_connect0 ai w).2.iot.connects = more ∧
    (IOT_connect0 ai w).2.iot.calls = w.iot.calls ++ [IOCall.connect0 w.sock.fd ai.head? rv] := by
  rw [IOT_connect0_script ai w rv e more h]
  exact ⟨rfl, rfl, rfl, rfl, if_neg hrv, rfl, rfl⟩

theorem clear_sock_fields_E (w : World) (a : addrinfo) (rest : List addrinfo)
    (hE : w.iot.model = lcb_iomodel.LCB_IOMODEL_EVENT)
    (hai : w.cs.ai = a :: rest) (hev : w.cs.ev_active = false) :
    (clear_sock w).cs = { w.cs with ai := rest } ∧
    (rest ≠ [] → (clear_sock w).sock.fd = INVALID_SOCKET) ∧
    (clear_sock w).iot.connects = w.iot.connects ∧
    (clear_sock w).iot.calls =
      w.iot.calls ++
        close_if_more w.sock.fd rest := by
  cases rest with
  | nil =>
    rw [clear_sock_last w a hai]
    simp [close_if_more]
  | cons b rest2 =>
    rw [clear_sock_next_E w a b rest2 hE hai hev]
    simp [close_if_more]

/-- One pass of the readiness driver over an address for which a descriptor
can be created and whose connect fails with an errno classified EFAIL. -/
theorem E_go_fail_step (env : Env) (events : Nat) (hev : events &&& LCB_ERROR_EVENT = 0)
    (w : World) (a : addrinfo) (rest : List addrinfo) (rv e : Int) (more : List (Int × Int))
    (n : Nat) (r : Bool) (ai0 : List addrinfo)
    (hE : w.iot.model = lcb_iomodel.LCB_IOMODEL_EVENT)
    (hai : w.cs.ai = a :: rest) (hfd : w.sock.fd = INVALID_SOCKET)
    (hev0 : w.cs.ev_active = false)
    (hs : env.E_socket a ≠ INVALID_SOCKET)
    (hcon : w.iot.connects = (rv, e) :: more) (hrv : rv ≠ 0)
    (hc : env.mkcserr e = lcbio_CSERR.LCBIO_CSERR_EFAIL) :
    E_conncb_go env events (n + 2) Label.GT_NEXTSOCK r ai0 w =
      E_conncb_go env events n Label.GT_NEXTSOCK r (a :: rest) (E_fail_step env w) ∧
    (E_fail_step env w).cs.ai = rest ∧
    (E_fail_step env w).cs.syserr = e ∧
    (E_fail_step env w).cs.ev_active = false ∧
    (rest ≠ [] → (E_fail_step env w).sock.fd = INVALID_SOCKET) ∧
    (E_fail_step env w).iot.connects = more ∧
    (E_fail_step env w).iot.calls =
      w.iot.calls ++
        ([IOCall.E_socket a (env.E_socket a), IOCall.connect0 (env.E_socket a) (some a) rv] ++
          close_if_more (env.E_socket a) rest) := by
  obtain ⟨a1, a2, a3, a4, a5, a6⟩ := ensure_sock_create_E_fields env w a rest hE hai hfd hs
  have hai1 : (ensure_sock env w).1.cs.ai = a :: rest := by rw [a2]; exact hai
  have hgo1 := E_go_next_connect env events (n + 1) r ai0 w (ensure_sock env w).1
    (Prod.ext rfl a1) hev
  unfold E_fail_step
  rw [hgo1, hai1]
  generalize (ensure_sock env w).1 = w1 at *
  obtain ⟨b1, b2, b3, b4, b5, b6, b7⟩ :=
    IOT_connect0_fields (a :: rest) w1 rv e more (by rw [a5]; exact hcon) hrv
  have hgo2 := E_go_connect_efail env events n r (a :: rest) w1
    (IOT_connect0 (a :: rest) w1).2 rv (Prod.ext b1 rfl) hrv (by rw [b5]; exact hc)
  rw [hgo2, b5]
  generalize (IOT_connect0 (a :: rest) w1).2 = w2 at *
  obtain ⟨c1, c2, c3, c4⟩ := clear_sock_fields_E (lcbio_mksyserr e w2) a rest
    (by simp [lcbio_mksyserr, b4, a4, hE]) (by simp [lcbio_mksyserr, b2, a2, hai])
    (by simp [lcbio_mksyserr, b2, a2, hev0])
  refine ⟨rfl, ?_, ?_, ?_, c2, ?_, ?_⟩
  · rw [c1]
  · rw [c1]; rfl
  · rw [c1]; simp [lcbio_mksyserr, b2, a2, hev0]
  · rw [c3]; simp [lcbio_mksyserr, b6]
  · rw [c4]; simp [lcbio_mksyserr, b7, b3, a3, a6]

theorem E_exhaust (env : Env) (events : Nat) (hev : events &&& LCB_ERROR_EVENT = 0) :
    ∀ (as : List addrinfo) (script more : List (Int × Int)) (w : World) (n : Nat) (r : Bool)
      (ai0 : List addrinfo),
      w.iot.model = lcb_iomodel.LCB_IOMODEL_EVENT → w.cs.ai = as →
      (as ≠ [] → w.sock.fd = INVALID_SOCKET) → w.cs.ev_active = false →
      w.cs.state = State.CS_PENDING → w.cs.last_error = lcb_error_t.LCB_SUCCESS →
      script.length = as.length →
      (∀ p ∈ script, p.1 ≠ 0 ∧ env.mkcserr p.2 = lcbio_CSERR.LCBIO_CSERR_EFAIL) →
      (∀ a ∈ as, env.E_socket a ≠ INVALID_SOCKET) →
      w.iot.connects = script ++ more →
      2 * as.length + 1 ≤ n →
      (E_conncb_go env events n Label.GT_NEXTSOCK r ai0 w).cs.state = State.CS_ERROR ∧
      (E_conncb_go env events n Label.GT_NEXTSOCK r ai0 w).cs.last_error =
        lcb_error_t.LCB_CONNECT_ERROR ∧
      (E_conncb_go env events n Label.GT_NEXTSOCK r ai0 w).cs.timer = Timer.signalled ∧
      (E_conncb_go env events n Label.GT_NEXTSOCK r ai0 w).cs.syserr =
        last_errno w.cs.syserr script ∧
      (E_conncb_go env events n Label.GT_NEXTSOCK r ai0 w).cs.ai = [] ∧
      (E_conncb_go env events n Label.GT_NEXTSOCK r ai0 w).iot.calls =
        w.iot.calls ++ exhaust_calls env as script := by
  intro as
  induction as with
  | nil =>
    intro script more w n r ai0 hE hai _ _ hst hle hlen _ _ _ hn
    obtain ⟨n, rfl⟩ : ∃ m, n = m + 1 := ⟨n - 1, by omega⟩
    have hs : script = [] := List.length_eq_zero.mp hlen
    subst hs
    rw [E_go_next_fail env events n r ai0 w w (ensure_sock_null env w hai)]
    simp [notify_error, state_signal, timer_signal, hst, hle, hai, exhaust_calls, last_errno]
  | cons a rest ih =>
    intro script more w n r ai0 hE hai hfd hev0 hst hle hlen hscr hsock hcon hn
    obtain ⟨n, rfl⟩ : ∃ m, n = m + 2 := ⟨n - 2, by simp at hn; omega⟩
    cases script with
    | nil => simp at hlen
    | cons p ps =>
      obtain ⟨rv, e⟩ := p
      have hp := hscr (rv, e) (List.mem_cons_self _ _)
      simp only at hp
      obtain ⟨hgo, h1, h2, h3, h4, h5, h6⟩ :=
        E_go_fail_step env events hev w a rest rv e (ps ++ more) n r ai0 hE hai
          (hfd (by simp)) hev0 (hsock a (List.mem_cons_self _ _)) (by simpa using hcon)
          hp.1 hp.2
      have hio := ioFrame_E_fail_step env w
      have := ih ps more (E_fail_step env w) n r (a :: rest)
        ((congrArg (fun x => x.iot.model) hio).trans hE) h1 h4 h3
        ((ioFrame_state hio).trans hst)
        ((congrArg (fun x => x.cs.last_error) hio).trans hle)
        (by simpa using hlen)
        (fun p hp => hscr p (List.mem_cons_of_mem _ hp))
        (fun x hx => hsock x (List.mem_cons_of_mem _ hx))
        h5 (by simp at hn ⊢; omega)
      rw [hgo]
      rw [h2, h6] at this
      simpa [exhaust_calls, last_errno, List.append_assoc] using this

theorem sigFrame_E_conncb_go (env : Env) (events : Nat) (n : Nat) (l : Label) (r : Bool)
    (ai : List addrinfo) (w : World) :
    sigFrame (E_conncb_go env events n l r ai w) = sigFrame w := by
  refine E_conncb_go_induct env events (fun x => sigFrame x = sigFrame w)
    (fun x => sigFrame x = sigFrame w) ?_ ?_ ?_ ?_ n l r ai w rfl
  · intro x x1 h1 hx; unfold sigFrame at *; rw [h1]; exact hx
  · intro x hx; exact hx
  · intro x hx; rw [← hx]; unfold notify_success state_signal; split_ifs <;> rfl
  · intro x hx; rw [← hx]; unfold notify_error state_signal; split_ifs <;> rfl

theorem Connstart_new_resolved (env : Env) (iot_ : lcbio_TABLE) (settings_ : lcb_settings)
    (getaddrinfo : ai_family_t → Int × List addrinfo) (timeout : Nat)
    (handler_ : UserHandler) (arg : Nat) (as : List addrinfo)
    (hres : getaddrinfo (hints_ai_family settings_) = (0, as)) :
    Connstart_new env iot_ settings_ getaddrinfo timeout handler_ arg =
      if IOT_IS_EVENT iot_ then
        E_conncb env LCB_WRITE_EVENT
          (Connstart_resolved iot_ settings_ as timeout handler_ arg)
      else C_connect env (Connstart_resolved iot_ settings_ as timeout handler_ arg) := by
  unfold Connstart_new Connstart_resolved
  simp only [hres]
  split_ifs <;> simp_all [World.log]

theorem connect_addrs_exhaust_calls (env : Env) :
    ∀ (as : List addrinfo) (script : List (Int × Int)), script.length = as.length →
      connect_addrs (exhaust_calls env as script) = as := by
  intro as
  induction as with
  | nil => intro script _; cases script <;> rfl
  | cons a rest ih =>
    intro script hlen
    cases script with
    | nil => simp at hlen
    | cons p ps =>
      have := ih ps (by simpa using hlen)
      cases rest with
      | nil => simp [exhaust_calls, connect_addrs, close_if_more]
      | cons b rest2 => simpa [exhaust_calls, connect_addrs, close_if_more] using this

/-! ## C6: exhaustion of the address list -/

/-- The readiness driver on a cursor whose addresses all fail with an errno
classified EFAIL. -/
theorem E_conncb_exhaust (env : Env) (events : Nat) (hev : events &&& LCB_ERROR_EVENT = 0)
    (as : List addrinfo) (script : List (Int × Int)) (w : World)
    (hE : w.iot.model = lcb_iomodel.LCB_IOMODEL_EVENT) (hai : w.cs.ai = as)
    (hfd : as ≠ [] → w.sock.fd = INVALID_SOCKET) (hev0 : w.cs.ev_active = false)
    (hst : w.cs.state = State.CS_PENDING) (hle : w.cs.last_error = lcb_error_t.LCB_SUCCESS)
    (hlen : script.length = as.length)
    (hfail : ∀ p ∈ script, p.1 ≠ 0 ∧ env.mkcserr p.2 = lcbio_CSERR.LCBIO_CSERR_EFAIL)
    (hsock : ∀ a ∈ as, env.E_socket a ≠ INVALID_SOCKET)
    (hcon : w.iot.connects = script) :
    (E_conncb env events w).cs.state = State.CS_ERROR ∧
    (E_conncb env events w).cs.last_error = lcb_error_t.LCB_CONNECT_ERROR ∧
    (E_conncb env events w).cs.timer = Timer.signalled ∧
    (E_conncb env events w).cs.syserr = last_errno w.cs.syserr script ∧
    (E_conncb env events w).cs.ai = [] ∧
    (E_conncb env events w).iot.calls = w.iot.calls ++ exhaust_calls env as script :=
  E_exhaust env events hev as script [] w (driver_fuel w) false [] hE hai hfd hev0 hst hle
    hlen hfail hsock (by simpa using hcon) (by simp [driver_fuel, hai]; omega)

theorem write_event_no_error : LCB_WRITE_EVENT &&& LCB_ERROR_EVENT = 0 := by decide

/-- C6, as stated, fails: with the translation of the error taxonomy, two
addresses that both refuse the connection (errno 111) deliver NETWORK_ERROR
with errno 111, not CONNECT_ERROR. -/
theorem exhaustion_delivers_translation :
    (exAttemptE [(-1, 111), (-1, 111)]).cs.state = State.CS_ERROR ∧
    (run exEnv [Event.timer_cb] (exAttemptE [(-1, 111), (-1, 111)])).ucalls =
      [UserCall.mk false 7 lcb_error_t.LCB_NETWORK_ERROR 111] ∧
    (run exEnv [Event.timer_cb] (exAttemptE [(-1, 111), (-1, 111)])).ucalls ≠
      [UserCall.mk false 7 lcb_error_t.LCB_CONNECT_ERROR 111] := by
  decide

/-- C6, amended: in the readiness flavor, for a resolved list of
addresses for which descriptor creation succeeds and whose connects all fail
with an errno classified EFAIL, the construction issues one connect per
address in list order (closing the descriptor of an address before the next is
created), ends in state ERROR with CONNECT_ERROR recorded, and the dispatch
that follows invokes the callback exactly once, with the errno of the last
failed connect, the translation `lcbio_mklcberr` of that errno as library
error, and a NULL socket unless that translation is SUCCESS. -/
theorem address_exhaustion (env : Env) (iot_ : lcbio_TABLE) (settings_ : lcb_settings)
    (getaddrinfo : ai_family_t → Int × List addrinfo) (timeout : Nat)
    (handler_ : UserHandler) (arg : Nat) (as : List addrinfo) (script : List (Int × Int))
    (hE : iot_.model = lcb_iomodel.LCB_IOMODEL_EVENT)
    (hres : getaddrinfo (hints_ai_family settings_) = (0, as))
    (hsock : ∀ a ∈ as, env.E_socket a ≠ INVALID_SOCKET)
    (hscript : iot_.connects = script) (hlen : script.length = as.length)
    (hfail : ∀ p ∈ script, p.1 ≠ 0 ∧ env.mkcserr p.2 = lcbio_CSERR.LCBIO_CSERR_EFAIL) :
    (Connstart_new env iot_ settings_ getaddrinfo timeout handler_ arg).cs.state =
      State.CS_ERROR ∧
    (Connstart_new env iot_ settings_ getaddrinfo timeout handler_ arg).cs.last_error =
      lcb_error_t.LCB_CONNECT_ERROR ∧
    (Connstart_new env iot_ settings_ getaddrinfo timeout handler_ arg).iot.calls =
      iot_.calls ++ IOCall.create_event :: exhaust_calls env as script ∧
    connect_addrs (exhaust_calls env as script) = as ∧
    (run env [Event.timer_cb]
        (Connstart_new env iot_ settings_ getaddrinfo timeout handler_ arg)).ucalls =
      [UserCall.mk
        (decide (env.mklcberr (last_errno 0 script) settings_ = lcb_error_t.LCB_SUCCESS))
        arg (env.mklcberr (last_errno 0 script) settings_) (last_errno 0 script)] := by
  have hEv : IOT_IS_EVENT iot_ = true := by simp [IOT_IS_EVENT, hE]
  rw [Connstart_new_resolved env iot_ settings_ getaddrinfo timeout handler_ arg as hres,
    if_pos hEv]
  have hfr : sigFrame (E_conncb env LCB_WRITE_EVENT
      (Connstart_resolved iot_ settings_ as timeout handler_ arg)) =
      sigFrame (Connstart_resolved iot_ settings_ as timeout handler_ arg) :=
    sigFrame_E_conncb_go env LCB_WRITE_EVENT _ Label.GT_NEXTSOCK false [] _
  have hex := E_conncb_exhaust env LCB_WRITE_EVENT write_event_no_error as script
    (Connstart_resolved iot_ settings_ as timeout handler_ arg)
    (by simp [Connstart_resolved, hEv, hE]) rfl
    (by intro _; simp [Connstart_resolved, hEv]) rfl rfl rfl hlen hfail hsock
    (by simp [Connstart_resolved, hEv, hscript])
  obtain ⟨h1, h2, _, h4, _, h6⟩ := hex
  have hu : (E_conncb env LCB_WRITE_EVENT
      (Connstart_resolved iot_ settings_ as timeout handler_ arg)).ucalls = [] :=
    congrArg (fun x => x.ucalls) hfr
  have hd : (E_conncb env LCB_WRITE_EVENT
      (Connstart_resolved iot_ settings_ as timeout handler_ arg)).cs_deleted = false :=
    congrArg (fun x => x.cs_deleted) hfr
  have hk : (E_conncb env LCB_WRITE_EVENT
      (Connstart_resolved iot_ settings_ as timeout handler_ arg)).cs.sock = true :=
    congrArg (fun x => x.cs.sock) hfr
  have ha : (E_conncb env LCB_WRITE_EVENT
      (Connstart_resolved iot_ settings_ as timeout handler_ arg)).cs.user_arg = arg :=
    congrArg (fun x => x.cs.user_arg) hfr
  have hs : (E_conncb env LCB_WRITE_EVENT
      (Connstart_resolved iot_ settings_ as timeout handler_ arg)).sock.settings = settings_ :=
    congrArg (fun x => x.sock.settings) hfr
  refine ⟨h1, h2, ?_, connect_addrs_exhaust_calls env as script hlen, ?_⟩
  · rw [h6]; simp [Connstart_resolved, hEv]
  · simp only [run, step, hd, Bool.not_false, if_true]
    rw [handler_ucalls env _ (by rw [h1]; decide), hu, ha, h4]
    simp only [handler_err, h1, h2, hk, hs, h4]
    simp [Connstart_resolved]

/-- Witness of C6 (amended): the addresses A and B, both refusing the
connection. -/
theorem address_exhaustion_witness :
    (exAttemptE [(-1, 111), (-1, 111)]).cs.state = State.CS_ERROR ∧
    (exAttemptE [(-1, 111), (-1, 111)]).iot.calls =
      [IOCall.create_event, IOCall.E_socket exA 11, IOCall.connect0 11 (some exA) (-1),
        IOCall.E_close 11, IOCall.E_socket exB 12, IOCall.connect0 12 (some exB) (-1)] ∧
    (run exEnv [Event.timer_cb] (exAttemptE [(-1, 111), (-1, 111)])).ucalls =
      [UserCall.mk false 7 lcb_error_t.LCB_NETWORK_ERROR 111] :=
  ⟨(address_exhaustion exEnv (exTableE [(-1, 111), (-1, 111)]) exSettings
      (fun _ => (0, [exA, exB])) 1000 { cancels := 1, refs := false } 7 [exA, exB]
      [(-1, 111), (-1, 111)] rfl rfl (by decide) rfl rfl (by decide)).1,
   (address_exhaustion exEnv (exTableE [(-1, 111), (-1, 111)]) exSettings
      (fun _ => (0, [exA, exB])) 1000 { cancels := 1, refs := false } 7 [exA, exB]
      [(-1, 111), (-1, 111)] rfl rfl (by decide) rfl rfl (by decide)).2.2.1,
   (address_exhaustion exEnv (exTableE [(-1, 111), (-1, 111)]) exSettings
      (fun _ => (0, [exA, exB])) 1000 { cancels := 1, refs := false } 7 [exA, exB]
      [(-1, 111), (-1, 111)] rfl rfl (by decide) rfl rfl (by decide)).2.2.2.2⟩

/-! ## C7: fallback to the next address -/

theorem IOT_connect0_fields_ok (ai : List addrinfo) (w : World) (e : Int)
    (more : List (Int × Int)) (h : w.iot.connects = (0, e) :: more) :
    (IOT_connect0 ai w).1 = 0 ∧
    (IOT_connect0 ai w).2.cs = w.cs ∧
    (IOT_connect0 ai w).2.sock = w.sock ∧
    (IOT_connect0 ai w).2.iot.model = w.iot.model ∧
    (IOT_connect0 ai w).2.iot.errno = w.iot.errno ∧
    (IOT_connect0 ai w).2.iot.connects = more ∧
    (IOT_connect0 ai w).2.iot.calls = w.iot.calls ++ [IOCall.connect0 w.sock.fd ai.head? 0] := by
  rw [IOT_connect0_script ai w 0 e more h]
  exact ⟨rfl, rfl, rfl, rfl, rfl, rfl, rfl⟩

theorem notify_success_pending (w : World) (hst : w.cs.state = State.CS_PENDING)
    (hle : w.cs.last_error = lcb_error_t.LCB_SUCCESS) :
    notify_success w =
      { w with cs := { w.cs with state := State.CS_CONNECTED, timer := Timer.signalled } } := by
  unfold notify_success state_signal timer_signal
  simp [hst, hle]

theorem unwatch_inactive (w : World) (h : w.cs.ev_active = false) : unwatch w = w := by
  unfold unwatch
  simp [h]

/-- One pass of the readiness driver over an address for which a descriptor
can be created and whose connect returns 0. -/
theorem E_go_success_step (env : Env) (events : Nat) (hev : events &&& LCB_ERROR_EVENT = 0)
    (w : World) (a : addrinfo) (rest : List addrinfo) (e : Int) (more : List (Int × Int))
    (n : Nat) (r : Bool) (ai0 : List addrinfo)
    (hE : w.iot.model = lcb_iomodel.LCB_IOMODEL_EVENT)
    (hai : w.cs.ai = a :: rest) (hfd : w.sock.fd = INVALID_SOCKET)
    (hev0 : w.cs.ev_active = false)
    (hst : w.cs.state = State.CS_PENDING) (hle : w.cs.last_error = lcb_error_t.LCB_SUCCESS)
    (hs : env.E_socket a ≠ INVALID_SOCKET)
    (hcon : w.iot.connects = (0, e) :: more) :
    (E_conncb_go env events (n + 2) Label.GT_NEXTSOCK r ai0 w).cs =
      { w.cs with state := State.CS_CONNECTED, timer := Timer.signalled } ∧
    (E_conncb_go env events (n + 2) Label.GT_NEXTSOCK r ai0 w).sock.fd = env.E_socket a ∧
    (E_conncb_go env events (n + 2) Label.GT_NEXTSOCK r ai0 w).iot.connects = more ∧
    (E_conncb_go env events (n + 2) Label.GT_NEXTSOCK r ai0 w).iot.calls =
      w.iot.calls ++
        [IOCall.E_socket a (env.E_socket a), IOCall.connect0 (env.E_socket a) (some a) 0] := by
  obtain ⟨a1, a2, a3, a4, a5, a6⟩ := ensure_sock_create_E_fields env w a rest hE hai hfd hs
  have hai1 : (ensure_sock env w).1.cs.ai = a :: rest := by rw [a2]; exact hai
  have hgo1 := E_go_next_connect env events (n + 1) r ai0 w (ensure_sock env w).1
    (Prod.ext rfl a1) hev
  rw [hgo1, hai1]
  generalize (ensure_sock env w).1 = w1 at *
  obtain ⟨b1, b2, b3, b4, b5, b6, b7⟩ :=
    IOT_connect0_fields_ok (a :: rest) w1 e more (by rw [a5]; exact hcon)
  have hgo2 := E_go_connect_ok env events n r (a :: rest) w1
    (IOT_connect0 (a :: rest) w1).2 (Prod.ext b1 rfl)
  rw [hgo2]
  generalize (IOT_connect0 (a :: rest) w1).2 = w2 at *
  rw [unwatch_inactive w2 (by rw [b2, a2]; exact hev0),
    notify_success_pending w2 (by rw [b2, a2]; exact hst) (by rw [b2, a2]; exact hle)]
  refine ⟨?_, ?_, ?_, ?_⟩
  · simp [b2, a2]
  · simp [b3, a3]
  · simp [b6]
  · simp [b7, b3, a3, a6]

theorem E_fallback (env : Env) (events : Nat) (hev : events &&& LCB_ERROR_EVENT = 0)
    (good : addrinfo) (rest : List addrinfo) (e0 : Int) (more : List (Int × Int)) :
    ∀ (fails : List addrinfo) (script : List (Int × Int)) (w : World) (n : Nat) (r : Bool)
      (ai0 : List addrinfo),
      w.iot.model = lcb_iomodel.LCB_IOMODEL_EVENT → w.cs.ai = fails ++ good :: rest →
      w.sock.fd = INVALID_SOCKET → w.cs.ev_active = false →
      w.cs.state = State.CS_PENDING → w.cs.last_error = lcb_error_t.LCB_SUCCESS →
      script.length = fails.length →
      (∀ p ∈ script, p.1 ≠ 0 ∧ env.mkcserr p.2 = lcbio_CSERR.LCBIO_CSERR_EFAIL) →
      (∀ a ∈ fails, env.E_socket a ≠ INVALID_SOCKET) →
      env.E_socket good ≠ INVALID_SOCKET →
      w.iot.connects = script ++ (0, e0) :: more →
      2 * fails.length + 2 ≤ n →
      (E_conncb_go env events n Label.GT_NEXTSOCK r ai0 w).cs =
        { w.cs with state := State.CS_CONNECTED, timer := Timer.signalled,
                    ai := good :: rest, syserr := last_errno w.cs.syserr script } ∧
      (E_conncb_go env events n Label.GT_NEXTSOCK r ai0 w).sock.fd = env.E_socket good ∧
      (E_conncb_go env events n Label.GT_NEXTSOCK r ai0 w).iot.calls =
        w.iot.calls ++ failed_calls env fails script ++
          [IOCall.E_socket good (env.E_socket good),
            IOCall.connect0 (env.E_socket good) (some good) 0] := by
  intro fails
  induction fails with
  | nil =>
    intro script w n r ai0 hE hai hfd hev0 hst hle hlen _ _ hg hcon hn
    obtain ⟨n, rfl⟩ : ∃ m, n = m + 2 := ⟨n - 2, by omega⟩
    have hs : script = [] := List.length_eq_zero.mp hlen
    subst hs
    obtain ⟨c1, c2, _, c4⟩ := E_go_success_step env events hev w good rest e0 _ n r ai0 hE
      (by simpa using hai) hfd hev0 hst hle hg (by simpa using hcon)
    refine ⟨?_, c2, ?_⟩
    · rw [c1]
      simp only [last_errno]
      cases w with
      | mk cs d sock iot u pd =>
        cases cs
        simp_all
    · rw [c4]; simp [failed_calls]
  | cons a fails ih =>
    intro script w n r ai0 hE hai hfd hev0 hst hle hlen hscr hsock hg hcon hn
    obtain ⟨n, rfl⟩ : ∃ m, n = m + 2 := ⟨n - 2, by simp at hn; omega⟩
    cases script with
    | nil => simp at hlen
    | cons p ps =>
      obtain ⟨rv, e⟩ := p
      have hp := hscr (rv, e) (List.mem_cons_self _ _)
      simp only at hp
      obtain ⟨hgo, h1, h2, h3, h4, h5, h6⟩ :=
        E_go_fail_step env events hev w a (fails ++ good :: rest) rv e
          (ps ++ (0, e0) :: more) n r ai0 hE (by simpa using hai) hfd hev0
          (hsock a (List.mem_cons_self _ _)) (by simpa using hcon) hp.1 hp.2
      have hio := ioFrame_E_fail_step env w
      obtain ⟨i1, i2, i3⟩ := ih ps (E_fail_step env w) n r (a :: (fails ++ good :: rest))
        ((congrArg (fun x => x.iot.model) hio).trans hE) h1 (h4 (by simp)) h3
        ((ioFrame_state hio).trans hst)
        ((congrArg (fun x => x.cs.last_error) hio).trans hle)
        (by simpa using hlen)
        (fun p hp => hscr p (List.mem_cons_of_mem _ hp))
        (fun x hx => hsock x (List.mem_cons_of_mem _ hx))
        hg h5 (by simp at hn ⊢; omega)
      rw [hgo]
      refine ⟨?_, i2, ?_⟩
      · rw [i1, h2]
        have hcs : (ioFrame (E_fail_step env w)).cs = (ioFrame w).cs := by rw [hio]
        simp only [ioFrame] at hcs
        simp only [last_errno]
        generalize (E_fail_step env w).cs = c1 at *
        generalize w.cs = c0 at *
        cases c1
        cases c0
        simp_all
      · rw [i3, h6]
        simp [failed_calls, close_if_more, List.append_assoc]
        cases fails <;> simp [close_if_more]

/-- The readiness driver on a cursor whose first addresses fail with an errno
classified EFAIL and whose next address connects at once. -/
theorem E_conncb_fallback (env : Env) (events : Nat) (hev : events &&& LCB_ERROR_EVENT = 0)
    (fails : List addrinfo) (good : addrinfo) (rest : List addrinfo)
    (script : List (Int × Int)) (e0 : Int) (more : List (Int × Int)) (w : World)
    (hE : w.iot.model = lcb_iomodel.LCB_IOMODEL_EVENT)
    (hai : w.cs.ai = fails ++ good :: rest)
    (hfd : w.sock.fd = INVALID_SOCKET) (hev0 : w.cs.ev_active = false)
    (hst : w.cs.state = State.CS_PENDING) (hle : w.cs.last_error = lcb_error_t.LCB_SUCCESS)
    (hlen : script.length = fails.length)
    (hfail : ∀ p ∈ script, p.1 ≠ 0 ∧ env.mkcserr p.2 = lcbio_CSERR.LCBIO_CSERR_EFAIL)
    (hsock : ∀ a ∈ fails, env.E_socket a ≠ INVALID_SOCKET)
    (hg : env.E_socket good ≠ INVALID_SOCKET)
    (hcon : w.iot.connects = script ++ (0, e0) :: more) :
    (E_conncb env events w).cs =
      { w.cs with state := State.CS_CONNECTED, timer := Timer.signalled,
                  ai := good :: rest, syserr := last_errno w.cs.syserr script } ∧
    (E_conncb env events w).sock.fd = env.E_socket good ∧
    (E_conncb env events w).iot.calls =
      w.iot.calls ++ failed_calls env fails script ++
        [IOCall.E_socket good (env.E_socket good),
          IOCall.connect0 (env.E_socket good) (some good) 0] :=
  E_fallback env events hev good rest e0 more fails script w (driver_fuel w) false [] hE hai
    hfd hev0 hst hle hlen hfail hsock hg hcon
    (by simp [driver_fuel, hai, hcon]; omega)

/-- C7, as stated, fails: A refuses the connection (errno 111), B connects,
and the success callback carries the errno 111 of A, not 0. -/
theorem fallback_keeps_errno :
    (exAttemptE [(-1, 111), (0, 0)]).cs.state = State.CS_CONNECTED ∧
    (run exEnv [Event.timer_cb] (exAttemptE [(-1, 111), (0, 0)])).ucalls =
      [UserCall.mk true 7 lcb_error_t.LCB_SUCCESS 111] ∧
    ((run exEnv [Event.timer_cb] (exAttemptE [(-1, 111), (0, 0)])).ucalls.map
      UserCall.syserr) ≠ [0] := by
  decide

/-- C7, amended: in the readiness flavor, when the first k >= 0 addresses
fail with an errno classified EFAIL and the connect of the next address
returns 0, the descriptor of each failed address is closed before the next
descriptor is created, the state becomes CONNECTED and the single callback of
the dispatch that follows is `(socket, SUCCESS, os_errno)`, where `os_errno`
is the errno of the last failed connect (0 only when k = 0): `syserr` is not
cleared by a success. -/
theorem fallback_success (env : Env) (iot_ : lcbio_TABLE) (settings_ : lcb_settings)
    (getaddrinfo : ai_family_t → Int × List addrinfo) (timeout : Nat)
    (handler_ : UserHandler) (arg : Nat) (fails : List addrinfo) (good : addrinfo)
    (rest : List addrinfo) (script : List (Int × Int)) (e0 : Int) (more : List (Int × Int))
    (hE : iot_.model = lcb_iomodel.LCB_IOMODEL_EVENT)
    (hres : getaddrinfo (hints_ai_family settings_) = (0, fails ++ good :: rest))
    (hsock : ∀ a ∈ fails, env.E_socket a ≠ INVALID_SOCKET)
    (hg : env.E_socket good ≠ INVALID_SOCKET)
    (hscript : iot_.connects = script ++ (0, e0) :: more)
    (hlen : script.length = fails.length)
    (hfail : ∀ p ∈ script, p.1 ≠ 0 ∧ env.mkcserr p.2 = lcbio_CSERR.LCBIO_CSERR_EFAIL) :
    (Connstart_new env iot_ settings_ getaddrinfo timeout handler_ arg).cs.state =
      State.CS_CONNECTED ∧
    (Connstart_new env iot_ settings_ getaddrinfo timeout handler_ arg).cs.ai =
      good :: rest ∧
    (Connstart_new env iot_ settings_ getaddrinfo timeout handler_ arg).iot.calls =
      iot_.calls ++ IOCall.create_event :: (failed_calls env fails script ++
        [IOCall.E_socket good (env.E_socket good),
          IOCall.connect0 (env.E_socket good) (some good) 0]) ∧
    (run env [Event.timer_cb]
        (Connstart_new env iot_ settings_ getaddrinfo timeout handler_ arg)).ucalls =
      [UserCall.mk true arg lcb_error_t.LCB_SUCCESS (last_errno 0 script)] ∧
    (script = [] → last_errno 0 script = 0) ∧
    (∀ (ps : List (Int × Int)) (p : Int × Int), script = ps ++ [p] →
      last_errno 0 script = p.2) := by
  have hEv : IOT_IS_EVENT iot_ = true := by simp [IOT_IS_EVENT, hE]
  rw [Connstart_new_resolved env iot_ settings_ getaddrinfo timeout handler_ arg _ hres,
    if_pos hEv]
  have hfr : sigFrame (E_conncb env LCB_WRITE_EVENT
      (Connstart_resolved iot_ settings_ (fails ++ good :: rest) timeout handler_ arg)) =
      sigFrame (Connstart_resolved iot_ settings_ (fails ++ good :: rest) timeout
        handler_ arg) :=
    sigFrame_E_conncb_go env LCB_WRITE_EVENT _ Label.GT_NEXTSOCK false [] _
  obtain ⟨h1, _, h3⟩ := E_conncb_fallback env LCB_WRITE_EVENT write_event_no_error fails good
    rest script e0 more
    (Connstart_resolved iot_ settings_ (fails ++ good :: rest) timeout handler_ arg)
    (by simp [Connstart_resolved, hEv, hE]) rfl
    (by simp [Connstart_resolved, hEv]) rfl rfl rfl hlen hfail hsock hg
    (by simp [Connstart_resolved, hEv, hscript])
  have hu : (E_conncb env LCB_WRITE_EVENT
      (Connstart_resolved iot_ settings_ (fails ++ good :: rest) timeout handler_
        arg)).ucalls = [] :=
    congrArg (fun x => x.ucalls) hfr
  have hd : (E_conncb env LCB_WRITE_EVENT
      (Connstart_resolved iot_ settings_ (fails ++ good :: rest) timeout handler_
        arg)).cs_deleted = false :=
    congrArg (fun x => x.cs_deleted) hfr
  have h3' : (E_conncb env LCB_WRITE_EVENT
      (Connstart_resolved iot_ settings_ (fails ++ good :: rest) timeout handler_
        arg)).iot.calls = iot_.calls ++ IOCall.create_event :: (failed_calls env fails script ++
        [IOCall.E_socket good (env.E_socket good),
          IOCall.connect0 (env.E_socket good) (some good) 0]) := by
    rw [h3]; simp [Connstart_resolved, hEv]
  generalize E_conncb env LCB_WRITE_EVENT
    (Connstart_resolved iot_ settings_ (fails ++ good :: rest) timeout handler_ arg) = W at *
  have hstate : W.cs.state = State.CS_CONNECTED := by rw [h1]
  have hai : W.cs.ai = good :: rest := by rw [h1]
  have hsys : W.cs.syserr = last_errno 0 script := by rw [h1]; rfl
  have hk : W.cs.sock = true := by rw [h1]; rfl
  have ha : W.cs.user_arg = arg := by rw [h1]; rfl
  refine ⟨hstate, hai, h3', ?_, ?_, ?_⟩
  · simp only [run, step, hd, Bool.not_false, if_true]
    rw [handler_ucalls env _ (by rw [hstate]; decide), hu, ha, hsys]
    simp only [handler_err, hstate, hk]
    simp
  · intro h; rw [h]; rfl
  · intro ps p h
    rw [h]
    clear h hfail hlen hscript
    generalize (0 : Int) = d
    induction ps generalizing d with
    | nil => rfl
    | cons q qs ih => exact ih q.2

/-- Witness of C7 (amended): A refuses the connection, B connects. -/
theorem fallback_success_witness :
    (exAttemptE [(-1, 111), (0, 0)]).cs.state = State.CS_CONNECTED ∧
    (exAttemptE [(-1, 111), (0, 0)]).iot.calls =
      [IOCall.create_event, IOCall.E_socket exA 11, IOCall.connect0 11 (some exA) (-1),
        IOCall.E_close 11, IOCall.E_socket exB 12, IOCall.connect0 12 (some exB) 0] ∧
    (run exEnv [Event.timer_cb] (exAttemptE [(-1, 111), (0, 0)])).ucalls =
      [UserCall.mk true 7 lcb_error_t.LCB_SUCCESS 111] :=
  ⟨(fallback_success exEnv (exTableE [(-1, 111), (0, 0)]) exSettings
      (fun _ => (0, [exA, exB])) 1000 { cancels := 1, refs := false } 7 [exA] exB []
      [(-1, 111)] 0 [] rfl rfl (by decide) (by decide) rfl rfl (by decide)).1,
   (fallback_success exEnv (exTableE [(-1, 111), (0, 0)]) exSettings
      (fun _ => (0, [exA, exB])) 1000 { cancels := 1, refs := false } 7 [exA] exB []
      [(-1, 111)] 0 [] rfl rfl (by decide) (by decide) rfl rfl (by decide)).2.2.1,
   (fallback_success exEnv (exTableE [(-1, 111), (0, 0)]) exSettings
      (fun _ => (0, [exA, exB])) 1000 { cancels := 1, refs := false } 7 [exA] exB []
      [(-1, 111)] 0 [] rfl rfl (by decide) (by decide) rfl rfl (by decide)).2.2.2.1⟩

/-! ## Entry of a driver on an address whose descriptor exists or can be created -/

theorem ensure_sock_entry_E (env : Env) (w : World) (a : addrinfo) (rest : List addrinfo)
    (hE : w.iot.model = lcb_iomodel.LCB_IOMODEL_EVENT) (hai : w.cs.ai = a :: rest)
    (hfd : E_entry_fd env w a ≠ INVALID_SOCKET) :
    (ensure_sock env w).2 = true ∧
    (ensure_sock env w).1.cs = w.cs ∧
    (ensure_sock env w).1.sock = { w.sock with fd := E_entry_fd env w a } ∧
    (ensure_sock env w).1.iot =
      { w.iot with calls := w.iot.calls ++ E_entry_calls env w a } := by
  unfold E_entry_fd at hfd
  unfold E_entry_fd E_entry_calls
  by_cases h : w.sock.fd ≠ INVALID_SOCKET
  · rw [ensure_sock_have_E env w hE (by rw [hai]; simp) h]
    simp [h]
  · rw [if_neg h] at hfd
    rw [ensure_sock_create_E env w a rest hE hai (not_not.mp h) hfd]
    simp [h]

theorem ensure_sock_entry_C (env : Env) (w : World) (a : addrinfo) (rest : List addrinfo)
    (hC : w.iot.model = lcb_iomodel.LCB_IOMODEL_COMPLETION) (hai : w.cs.ai = a :: rest)
    (hsd : C_entry_sd env w a ≠ none) :
    (ensure_sock env w).2 = true ∧
    (ensure_sock env w).1.cs = w.cs ∧
    (ensure_sock env w).1.sock = { w.sock with sd := C_entry_sd env w a } ∧
    (ensure_sock env w).1.iot =
      { w.iot with calls := w.iot.calls ++ C_entry_calls env w a } := by
  have hEv : IOT_IS_EVENT w.iot = false := by simp [IOT_IS_EVENT, hC]
  unfold C_entry_sd at hsd
  unfold C_entry_sd C_entry_calls
  by_cases h : w.sock.sd ≠ none
  · unfold ensure_sock
    simp [hai, hEv, h]
  · rw [if_neg h] at hsd
    have hn : w.sock.sd = none := not_not.mp h
    obtain ⟨sd0, hsd0⟩ := Option.ne_none_iff_exists'.mp hsd
    unfold ensure_sock
    simp only [hai, hEv, List.length_cons]
    simp [ensure_sock_C_while, hai, hn, lcbio_C_ai2sock, hsd0]
    cases w with
    | mk cs d sock iot u pd =>
      cases cs
      cases sock
      simp_all

/-! ## C9: interrupted connects -/

theorem notify_success_of_pending (w : World) (hst : w.cs.state = State.CS_PENDING) :
    notify_success w =
      { w with cs := { w.cs with state := State.CS_CONNECTED, timer := Timer.signalled } } := by
  unfold notify_success state_signal timer_signal
  simp only [hst]
  by_cases hle : w.cs.last_error = lcb_error_t.LCB_SUCCESS
  · simp [hle]
  · simp [hle]

theorem unwatch_fields (w : World) :
    (unwatch w).cs = { w.cs with ev_active := w.cs.ev_active && !w.cs.sock } ∧
    (unwatch w).sock = w.sock ∧
    (unwatch w).iot =
      { w.iot with calls := w.iot.calls ++
          (if w.cs.sock && w.cs.ev_active then [IOCall.cancel_watch w.sock.fd] else []) } := by
  obtain ⟨cs, d, sock, iot, u, pd⟩ := w
  obtain ⟨uh, ua, sk, sy, evt, eva, inu, air, ai, st, le, tm⟩ := cs
  cases sk <;> cases eva <;> simp [unwatch, World.log]

/-- The connects that the INTR loop of the readiness driver re-issues: every
answer classified INTR is followed by another connect on the same descriptor
and address. -/
theorem E_intr_loop (env : Env) (events : Nat) (r : Bool) (ai : List addrinfo)
    (more : List (Int × Int)) :
    ∀ (intrs : List (Int × Int)) (w : World) (n : Nat),
      w.iot.connects = intrs ++ more →
      (∀ p ∈ intrs, p.1 ≠ 0 ∧ env.mkcserr p.2 = lcbio_CSERR.LCBIO_CSERR_INTR) →
      ∃ W : World,
        E_conncb_go env events (n + intrs.length) Label.GT_CONNECT r ai w =
          E_conncb_go env events n Label.GT_CONNECT r ai W ∧
        W.cs = { w.cs with syserr := last_errno w.cs.syserr intrs } ∧
        W.sock = w.sock ∧
        W.iot.connects = more ∧
        W.iot.calls = w.iot.calls ++ intrs.map (fun p => IOCall.connect0 w.sock.fd ai.head? p.1) ∧
        ioFrame W = ioFrame w := by
  intro intrs
  induction intrs with
  | nil =>
    intro w n hcon _
    exact ⟨w, rfl, rfl, rfl, by simpa using hcon, by simp, rfl⟩
  | cons p ps ih =>
    intro w n hcon hintr
    obtain ⟨rv, e⟩ := p
    have hp := hintr (rv, e) (List.mem_cons_self _ _)
    simp only at hp
    obtain ⟨b1, b2, b3, b4, b5, b6, b7⟩ :=
      IOT_connect0_fields ai w rv e (ps ++ more) (by simpa using hcon) hp.1
    have hgo := E_go_connect_intr env events (n + ps.length) r ai w (IOT_connect0 ai w).2 rv
      (Prod.ext b1 rfl) hp.1 (by rw [b5]; exact hp.2)
    rw [b5] at hgo
    obtain ⟨W, i1, i2, i3, i4, i5, i6⟩ := ih (lcbio_mksyserr e (IOT_connect0 ai w).2) n
      (by simp [lcbio_mksyserr, b6])
      (fun q hq => hintr q (List.mem_cons_of_mem _ hq))
    refine ⟨W, ?_, ?_, ?_, i4, ?_, ?_⟩
    · rw [← i1, ← hgo]; rfl
    · rw [i2]; simp [lcbio_mksyserr, b2, last_errno]
    · rw [i3]; simp [lcbio_mksyserr, b3]
    · rw [i5]; simp [lcbio_mksyserr, b7, b3]
    · rw [i6]; simp

/-! ## Single steps of the completion driver -/

theorem C_go_next_fail (env : Env) (n : Nat) (r : Bool) (w w1 : World)
    (h : ensure_sock env w = (w1, false)) :
    C_connect_go env (n + 1) Label.GT_NEXTSOCK r w =
      notify_error lcb_error_t.LCB_CONNECT_ERROR (lcbio_mksyserr w1.iot.errno w1) := by
  conv_lhs => rw [C_connect_go]
  simp [h]

theorem C_go_next_connect (env : Env) (n : Nat) (r : Bool) (w w1 : World)
    (h : ensure_sock env w = (w1, true)) :
    C_connect_go env (n + 1) Label.GT_NEXTSOCK r w =
      C_connect_go env n Label.GT_CONNECT r w1 := by
  conv_lhs => rw [C_connect_go]
  simp [h]

theorem C_go_connect_submit (env : Env) (n : Nat) (r : Bool) (w w1 : World)
    (h : IOT_connect w = (0, w1)) :
    C_connect_go env (n + 1) Label.GT_CONNECT r w = submit_ref w1 := by
  conv_lhs => rw [C_connect_go]
  simp [h, submit_ref]

theorem C_go_connect_intr (env : Env) (n : Nat) (r : Bool) (w w1 : World) (rv : Int)
    (h : IOT_connect w = (rv, w1)) (hrv : rv ≠ 0)
    (hc : env.mkcserr w1.iot.errno = lcbio_CSERR.LCBIO_CSERR_INTR) :
    C_connect_go env (n + 1) Label.GT_CONNECT r w =
      C_connect_go env n Label.GT_CONNECT r (lcbio_mksyserr w1.iot.errno w1) := by
  conv_lhs => rw [C_connect_go]
  simp [h, hrv, hc]

theorem C_go_connect_connected (env : Env) (n : Nat) (r : Bool) (w w1 : World) (rv : Int)
    (h : IOT_connect w = (rv, w1)) (hrv : rv ≠ 0)
    (hc : env.mkcserr w1.iot.errno = lcbio_CSERR.LCBIO_CSERR_CONNECTED) :
    C_connect_go env (n + 1) Label.GT_CONNECT r w =
      notify_success (lcbio_mksyserr w1.iot.errno w1) := by
  conv_lhs => rw [C_connect_go]
  simp [h, hrv, hc]

theorem C_go_connect_busy (env : Env) (n : Nat) (r : Bool) (w w1 : World) (rv : Int)
    (h : IOT_connect w = (rv, w1)) (hrv : rv ≠ 0)
    (hc : env.mkcserr w1.iot.errno = lcbio_CSERR.LCBIO_CSERR_BUSY) :
    C_connect_go env (n + 1) Label.GT_CONNECT r w =
      submit_busy (lcbio_mksyserr w1.iot.errno w1) := by
  conv_lhs => rw [C_connect_go]
  simp [h, hrv, hc, submit_busy]

theorem C_go_connect_efail (env : Env) (n : Nat) (r : Bool) (w w1 : World) (rv : Int)
    (h : IOT_connect w = (rv, w1)) (hrv : rv ≠ 0)
    (hc : env.mkcserr w1.iot.errno = lcbio_CSERR.LCBIO_CSERR_EFAIL) :
    C_connect_go env (n + 1) Label.GT_CONNECT r w =
      C_connect_go env n Label.GT_NEXTSOCK r (clear_sock (lcbio_mksyserr w1.iot.errno w1)) := by
  conv_lhs => rw [C_connect_go]
  simp [h, hrv, hc]

theorem C_go_connect_einval_first (env : Env) (n : Nat) (w w1 : World) (rv : Int)
    (h : IOT_connect w = (rv, w1)) (hrv : rv ≠ 0)
    (hc : env.mkcserr w1.iot.errno = lcbio_CSERR.LCBIO_CSERR_EINVAL) :
    C_connect_go env (n + 1) Label.GT_CONNECT false w =
      C_connect_go env n Label.GT_CONNECT true (lcbio_mksyserr w1.iot.errno w1) := by
  conv_lhs => rw [C_connect_go]
  simp [h, hrv, hc]

theorem C_go_connect_einval_again (env : Env) (n : Nat) (w w1 : World) (rv : Int)
    (h : IOT_connect w = (rv, w1)) (hrv : rv ≠ 0)
    (hc : env.mkcserr w1.iot.errno = lcbio_CSERR.LCBIO_CSERR_EINVAL) :
    C_connect_go env (n + 1) Label.GT_CONNECT true w =
      C_connect_go env n Label.GT_NEXTSOCK true
        (clear_sock (lcbio_mksyserr w1.iot.errno w1)) := by
  conv_lhs => rw [C_connect_go]
  simp [h, hrv, hc]

theorem IOT_connect_fields (w : World) (rv e : Int) (more : List (Int × Int))
    (h : w.iot.connects = (rv, e) :: more) :
    (IOT_connect w).1 = rv ∧
    (IOT_connect w).2.cs = w.cs ∧
    (IOT_connect w).2.sock = w.sock ∧
    (IOT_connect w).2.iot.errno = (if rv = 0 then w.iot.errno else e) ∧
    (IOT_connect w).2.iot.connects = more ∧
    (IOT_connect w).2.iot.calls =
      w.iot.calls ++ [IOCall.C_connect w.sock.sd w.cs.ai.head? rv] ∧
    (IOT_connect w).2.pending = w.pending ∧
    ioFrame (IOT_connect w).2 = ioFrame w := by
  refine ⟨?_, ?_, ?_, ?_, ?_, ?_, ?_, ioFrame_connect w⟩ <;>
    (unfold IOT_connect; rw [h])

/-- The connects that the INTR loop of the completion driver re-issues. -/
theorem C_intr_loop (env : Env) (r : Bool) (more : List (Int × Int)) :
    ∀ (intrs : List (Int × Int)) (w : World) (n : Nat),
      w.iot.connects = intrs ++ more →
      (∀ p ∈ intrs, p.1 ≠ 0 ∧ env.mkcserr p.2 = lcbio_CSERR.LCBIO_CSERR_INTR) →
      ∃ W : World,
        C_connect_go env (n + intrs.length) Label.GT_CONNECT r w =
          C_connect_go env n Label.GT_CONNECT r W ∧
        W.cs = { w.cs with syserr := last_errno w.cs.syserr intrs } ∧
        W.sock = w.sock ∧
        W.iot.connects = more ∧
        W.pending = w.pending ∧
        W.iot.calls =
          w.iot.calls ++ intrs.map (fun p => IOCall.C_connect w.sock.sd w.cs.ai.head? p.1) ∧
        ioFrame W = ioFrame w := by
  intro intrs
  induction intrs with
  | nil =>
    intro w n hcon _
    exact ⟨w, rfl, rfl, rfl, by simpa using hcon, rfl, by simp, rfl⟩
  | cons p ps ih =>
    intro w n hcon hintr
    obtain ⟨rv, e⟩ := p
    have hp := hintr (rv, e) (List.mem_cons_self _ _)
    simp only at hp
    obtain ⟨b1, b2, b3, b4, b5, b6, b7, b8⟩ :=
      IOT_connect_fields w rv e (ps ++ more) (by simpa using hcon)
    rw [if_neg hp.1] at b4
    have hgo := C_go_connect_intr env (n + ps.length) r w (IOT_connect w).2 rv
      (Prod.ext b1 rfl) hp.1 (by rw [b4]; exact hp.2)
    rw [b4] at hgo
    obtain ⟨W, i1, i2, i3, i4, i5, i6, i7⟩ := ih (lcbio_mksyserr e (IOT_connect w).2) n
      (by simp [lcbio_mksyserr, b5])
      (fun q hq => hintr q (List.mem_cons_of_mem _ hq))
    refine ⟨W, ?_, ?_, ?_, i4, ?_, ?_, ?_⟩
    · rw [← i1, ← hgo]; rfl
    · rw [i2]; simp [lcbio_mksyserr, b2, last_errno]
    · rw [i3]; simp [lcbio_mksyserr, b3]
    · rw [i5]; simp [lcbio_mksyserr, b7]
    · rw [i6]; simp [lcbio_mksyserr, b6, b3, b2]
    · rw [i7]; simp

/-- The last connect of the readiness driver when it returns 0 or fails with
an errno classified CONNECTED: the watch is cancelled and success is
signalled. -/
theorem E_go_connect_final (env : Env) (events n : Nat) (r : Bool) (ai : List addrinfo)
    (w : World) (fin : Int × Int) (more : List (Int × Int))
    (hst : w.cs.state = State.CS_PENDING)
    (hcon : w.iot.connects = fin :: more)
    (hfin : fin.1 = 0 ∨ (fin.1 ≠ 0 ∧ env.mkcserr fin.2 = lcbio_CSERR.LCBIO_CSERR_CONNECTED)) :
    (E_conncb_go env events (n + 1) Label.GT_CONNECT r ai w).cs.state = State.CS_CONNECTED ∧
    (E_conncb_go env events (n + 1) Label.GT_CONNECT r ai w).cs.timer = Timer.signalled ∧
    (E_conncb_go env events (n + 1) Label.GT_CONNECT r ai w).cs.ai = w.cs.ai ∧
    (E_conncb_go env events (n + 1) Label.GT_CONNECT r ai w).sock = w.sock ∧
    (E_conncb_go env events (n + 1) Label.GT_CONNECT r ai w).iot.calls =
      w.iot.calls ++ [IOCall.connect0 w.sock.fd ai.head? fin.1] ++ unwatch_calls w := by
  obtain ⟨rv, e⟩ := fin
  rcases hfin with h0 | ⟨hrv, hc⟩
  · simp only at h0
    subst h0
    obtain ⟨b1, b2, b3, _, _, _, b7⟩ := IOT_connect0_fields_ok ai w e more hcon
    rw [E_go_connect_ok env events n r ai w (IOT_connect0 ai w).2 (Prod.ext b1 rfl)]
    generalize (IOT_connect0 ai w).2 = w2 at *
    obtain ⟨u1, u2, u3⟩ := unwatch_fields w2
    rw [notify_success_of_pending _ (by rw [u1, b2]; exact hst)]
    simp [u1, u2, u3, b2, b3, b7, unwatch_calls]
  · simp only at hrv hc
    obtain ⟨b1, b2, b3, _, b5, _, b7⟩ := IOT_connect0_fields ai w rv e more hcon hrv
    rw [E_go_connect_connected env events n r ai w (IOT_connect0 ai w).2 rv (Prod.ext b1 rfl)
      hrv (by rw [b5]; exact hc)]
    rw [b5]
    have m1 : (lcbio_mksyserr e (IOT_connect0 ai w).2).cs = { w.cs with syserr := e } := by
      simp [lcbio_mksyserr, b2]
    have m2 : (lcbio_mksyserr e (IOT_connect0 ai w).2).sock = w.sock := b3
    have m3 : (lcbio_mksyserr e (IOT_connect0 ai w).2).iot.calls =
        w.iot.calls ++ [IOCall.connect0 w.sock.fd ai.head? rv] := b7
    generalize lcbio_mksyserr e (IOT_connect0 ai w).2 = m at *
    obtain ⟨u1, u2, u3⟩ := unwatch_fields m
    rw [notify_success_of_pending _ (by rw [u1, m1]; exact hst)]
    simp [u1, u2, u3, m1, m2, m3, unwatch_calls]

/-- The readiness driver entered on an address whose connect is interrupted
K times and then succeeds. -/
theorem E_conncb_intr_success (env : Env) (events : Nat)
    (hev : events &&& LCB_ERROR_EVENT = 0) (w : World) (a : addrinfo) (rest : List addrinfo)
    (intrs : List (Int × Int)) (fin : Int × Int) (more : List (Int × Int))
    (hE : w.iot.model = lcb_iomodel.LCB_IOMODEL_EVENT) (hai : w.cs.ai = a :: rest)
    (hfd : E_entry_fd env w a ≠ INVALID_SOCKET)
    (hst : w.cs.state = State.CS_PENDING)
    (hcon : w.iot.connects = intrs ++ fin :: more)
    (hintr : ∀ p ∈ intrs, p.1 ≠ 0 ∧ env.mkcserr p.2 = lcbio_CSERR.LCBIO_CSERR_INTR)
    (hfin : fin.1 = 0 ∨ (fin.1 ≠ 0 ∧ env.mkcserr fin.2 = lcbio_CSERR.LCBIO_CSERR_CONNECTED)) :
    (E_conncb env events w).cs.state = State.CS_CONNECTED ∧
    (E_conncb env events w).cs.timer = Timer.signalled ∧
    (E_conncb env events w).cs.ai = a :: rest ∧
    (E_conncb env events w).sock.fd = E_entry_fd env w a ∧
    (E_conncb env events w).iot.calls =
      w.iot.calls ++ E_entry_calls env w a ++
        (intrs ++ [fin]).map (fun p => IOCall.connect0 (E_entry_fd env w a) (some a) p.1) ++
        (if w.cs.sock && w.cs.ev_active then [IOCall.cancel_watch (E_entry_fd env w a)]
         else []) := by
  obtain ⟨n, hn⟩ : ∃ n, driver_fuel w = (n + 1 + intrs.length) + 1 :=
    ⟨driver_fuel w - intrs.length - 2, by simp [driver_fuel, hai, hcon]; omega⟩
  unfold E_conncb
  rw [hn]
  obtain ⟨a1, a2, a3, a4⟩ := ensure_sock_entry_E env w a rest hE hai hfd
  rw [E_go_next_connect env events _ false [] w (ensure_sock env w).1 (Prod.ext rfl a1) hev]
  have hai1 : (ensure_sock env w).1.cs.ai = a :: rest := by rw [a2]; exact hai
  rw [hai1]
  generalize (ensure_sock env w).1 = w1 at *
  obtain ⟨W, i1, i2, i3, i4, i5, i6⟩ := E_intr_loop env events false (a :: rest)
    (fin :: more) intrs w1 (n + 1) (by rw [a4]; exact hcon) hintr
  rw [i1]
  obtain ⟨f1, f2, f3, f4, f5⟩ := E_go_connect_final env events n false (a :: rest) W fin more
    (by rw [i2, a2]; exact hst) i4 hfin
  refine ⟨f1, f2, ?_, ?_, ?_⟩
  · rw [f3, i2, a2]; exact hai
  · rw [f4, i3, a3]
  · rw [f5, i5, i3, a3, a4]
    simp [unwatch_calls, i2, i3, a2, a3, List.append_assoc]

/-- The completion driver entered on an address whose connect is interrupted
K times and then either fails with an errno classified CONNECTED (success is
signalled) or returns 0 (the connect is submitted: one more reference, one
more awaited callback, and the state is left as it was). -/
theorem C_connect_intr_success (env : Env) (w : World) (a : addrinfo) (rest : List addrinfo)
    (intrs : List (Int × Int)) (fin : Int × Int) (more : List (Int × Int))
    (hC : w.iot.model = lcb_iomodel.LCB_IOMODEL_COMPLETION) (hai : w.cs.ai = a :: rest)
    (hsd : C_entry_sd env w a ≠ none)
    (hst : w.cs.state = State.CS_PENDING)
    (hcon : w.iot.connects = intrs ++ fin :: more)
    (hintr : ∀ p ∈ intrs, p.1 ≠ 0 ∧ env.mkcserr p.2 = lcbio_CSERR.LCBIO_CSERR_INTR)
    (hfin : fin.1 = 0 ∨ (fin.1 ≠ 0 ∧ env.mkcserr fin.2 = lcbio_CSERR.LCBIO_CSERR_CONNECTED)) :
    (C_connect env w).cs.ai = a :: rest ∧
    (C_connect env w).sock.sd = C_entry_sd env w a ∧
    (C_connect env w).iot.calls =
      w.iot.calls ++ C_entry_calls env w a ++
        (intrs ++ [fin]).map (fun p => IOCall.C_connect (C_entry_sd env w a) (some a) p.1) ∧
    (fin.1 ≠ 0 →
      (C_connect env w).cs.state = State.CS_CONNECTED ∧
      (C_connect env w).cs.timer = Timer.signalled ∧
      (C_connect env w).sock.refcount = w.sock.refcount ∧
      (C_connect env w).pending = w.pending) ∧
    (fin.1 = 0 →
      (C_connect env w).cs.state = State.CS_PENDING ∧
      (C_connect env w).cs.timer = w.cs.timer ∧
      (C_connect env w).sock.refcount = w.sock.refcount + 1 ∧
      (C_connect env w).pending = w.pending + 1) := by
  obtain ⟨n, hn⟩ : ∃ n, driver_fuel w = (n + 1 + intrs.length) + 1 :=
    ⟨driver_fuel w - intrs.length - 2, by simp [driver_fuel, hai, hcon]; omega⟩
  unfold C_connect
  rw [hn]
  obtain ⟨a1, a2, a3, a4⟩ := ensure_sock_entry_C env w a rest hC hai hsd
  have a5 : (ensure_sock env w).1.pending = w.pending :=
    congrArg (fun x => x.pending) (ioFrame_ensure_sock env w)
  rw [C_go_next_connect env _ false w (ensure_sock env w).1 (Prod.ext rfl a1)]
  generalize (ensure_sock env w).1 = w1 at *
  obtain ⟨W, i1, i2, i3, i4, i5, i6, _⟩ := C_intr_loop env false (fin :: more) intrs w1
    (n + 1) (by rw [a4]; exact hcon) hintr
  rw [i1]
  obtain ⟨rv, e⟩ := fin
  obtain ⟨b1, b2, b3, b4, _, b6, b7, _⟩ := IOT_connect_fields W rv e more i4
  have hWst : W.cs.state = State.CS_PENDING := by rw [i2, a2]; exact hst
  have hWai : W.cs.ai = a :: rest := by rw [i2, a2]; exact hai
  have hcalls : (IOT_connect W).2.iot.calls =
      w.iot.calls ++ C_entry_calls env w a ++
        (intrs ++ [(rv, e)]).map
          (fun p => IOCall.C_connect (C_entry_sd env w a) (some a) p.1) := by
    rw [b6, i6, i3, a3, a4, a2, hWai, hai]
    simp [List.append_assoc]
  rcases hfin with h0 | ⟨hrv, hc⟩
  · simp only at h0
    subst h0
    rw [C_go_connect_submit env n false W (IOT_connect W).2 (Prod.ext b1 rfl)]
    refine ⟨?_, ?_, ?_, fun h => absurd rfl h, fun _ => ⟨?_, ?_, ?_, ?_⟩⟩
    · show (IOT_connect W).2.cs.ai = _
      rw [b2, hWai]
    · show (IOT_connect W).2.sock.sd = _
      rw [b3, i3, a3]
    · exact hcalls
    · show (IOT_connect W).2.cs.state = _
      rw [b2, hWst]
    · show (IOT_connect W).2.cs.timer = _
      rw [b2, i2, a2]
    · show (IOT_connect W).2.sock.refcount + 1 = _
      rw [b3, i3, a3]
    · show (IOT_connect W).2.pending + 1 = _
      rw [b7, i5, a5]
  · simp only at hrv hc
    rw [if_neg hrv] at b4
    rw [C_go_connect_connected env n false W (IOT_connect W).2 rv (Prod.ext b1 rfl) hrv
      (by rw [b4]; exact hc)]
    rw [notify_success_of_pending _ (by simp [lcbio_mksyserr, b2, hWst])]
    refine ⟨?_, ?_, ?_, fun _ => ⟨rfl, rfl, ?_, ?_⟩, fun h => absurd h hrv⟩
    · show (IOT_connect W).2.cs.ai = _
      rw [b2, hWai]
    · show (IOT_connect W).2.sock.sd = _
      rw [b3, i3, a3]
    · exact hcalls
    · show (IOT_connect W).2.sock.refcount = _
      rw [b3, i3, a3]
    · show (IOT_connect W).2.pending = _
      rw [b7, i5, a5]

/-- C9, as stated, fails in the completion driver: the connect on A is
interrupted once (errno 4) and then returns 0; two connects are issued on A,
but the return of 0 only submits the connect: the state stays PENDING, the
timer stays armed, and the socket has gained a reference. -/
theorem submission_is_not_success :
    (exAttemptC [(-1, 4), (0, 0)]).iot.calls =
      [IOCall.C_socket exA (some 11), IOCall.C_connect (some 11) (some exA) (-1),
        IOCall.C_connect (some 11) (some exA) 0] ∧
    (exAttemptC [(-1, 4), (0, 0)]).cs.state = State.CS_PENDING ∧
    (exAttemptC [(-1, 4), (0, 0)]).cs.state ≠ State.CS_CONNECTED ∧
    (exAttemptC [(-1, 4), (0, 0)]).cs.timer = Timer.armed 1000 ∧
    (exAttemptC [(-1, 4), (0, 0)]).sock.refcount = 2 ∧
    (exAttemptC [(-1, 4), (0, 0)]).pending = 1 := by
  decide

/-- C9, amended: when the connect on the current address fails K >= 0 times
with an errno classified INTR and then returns 0 or fails with an errno
classified CONNECTED, the driver issues exactly K+1 connects, all on the same
address and descriptor, and neither advances the cursor nor closes the
descriptor. The readiness driver then cancels the watch and signals success
(state CONNECTED, timer signalled) in both cases. The completion driver
signals success for the errno classified CONNECTED; a return of 0 is a
submission: the socket takes one reference, one completion callback is
awaited and the state stays PENDING. -/
theorem intr_idempotence (env : Env) (w : World) (a : addrinfo) (rest : List addrinfo)
    (intrs : List (Int × Int)) (fin : Int × Int) (more : List (Int × Int))
    (hai : w.cs.ai = a :: rest) (hst : w.cs.state = State.CS_PENDING)
    (hcon : w.iot.connects = intrs ++ fin :: more)
    (hintr : ∀ p ∈ intrs, p.1 ≠ 0 ∧ env.mkcserr p.2 = lcbio_CSERR.LCBIO_CSERR_INTR)
    (hfin : fin.1 = 0 ∨ (fin.1 ≠ 0 ∧ env.mkcserr fin.2 = lcbio_CSERR.LCBIO_CSERR_CONNECTED)) :
    (∀ events : Nat, w.iot.model = lcb_iomodel.LCB_IOMODEL_EVENT →
      events &&& LCB_ERROR_EVENT = 0 → E_entry_fd env w a ≠ INVALID_SOCKET →
      (E_conncb env events w).cs.state = State.CS_CONNECTED ∧
      (E_conncb env events w).cs.timer = Timer.signalled ∧
      (E_conncb env events w).cs.ai = a :: rest ∧
      (E_conncb env events w).sock.fd = E_entry_fd env w a ∧
      (E_conncb env events w).iot.calls =
        w.iot.calls ++ E_entry_calls env w a ++
          (intrs ++ [fin]).map (fun p => IOCall.connect0 (E_entry_fd env w a) (some a) p.1) ++
          (if w.cs.sock && w.cs.ev_active then [IOCall.cancel_watch (E_entry_fd env w a)]
           else [])) ∧
    (w.iot.model = lcb_iomodel.LCB_IOMODEL_COMPLETION → C_entry_sd env w a ≠ none →
      (C_connect env w).cs.ai = a :: rest ∧
      (C_connect env w).sock.sd = C_entry_sd env w a ∧
      (C_connect env w).iot.calls =
        w.iot.calls ++ C_entry_calls env w a ++
          (intrs ++ [fin]).map (fun p => IOCall.C_connect (C_entry_sd env w a) (some a) p.1) ∧
      (fin.1 ≠ 0 →
        (C_connect env w).cs.state = State.CS_CONNECTED ∧
        (C_connect env w).cs.timer = Timer.signalled ∧
        (C_connect env w).sock.refcount = w.sock.refcount ∧
        (C_connect env w).pending = w.pending) ∧
      (fin.1 = 0 →
        (C_connect env w).cs.state = State.CS_PENDING ∧
        (C_connect env w).cs.timer = w.cs.timer ∧
        (C_connect env w).sock.refcount = w.sock.refcount + 1 ∧
        (C_connect env w).pending = w.pending + 1)) :=
  ⟨fun events hE hev hfd =>
      E_conncb_intr_success env events hev w a rest intrs fin more hE hai hfd hst hcon hintr
        hfin,
   fun hC hsd => C_connect_intr_success env w a rest intrs fin more hC hai hsd hst hcon hintr
      hfin⟩

/-- Witness of C9 (amended): a watch callback on an attempt that waits for
writability on A, interrupted twice (errno 4) before the connect reports
EISCONN (errno 106). -/
theorem intr_idempotence_witness :
    (exAttemptE [(-1, 115), (-1, 4), (-1, 4), (-1, 106)]).cs.ai = [exA, exB] ∧
    (exAttemptE [(-1, 115), (-1, 4), (-1, 4), (-1, 106)]).cs.state = State.CS_PENDING ∧
    (E_conncb exEnv LCB_WRITE_EVENT
      (exAttemptE [(-1, 115), (-1, 4), (-1, 4), (-1, 106)])).cs.state = State.CS_CONNECTED ∧
    (E_conncb exEnv LCB_WRITE_EVENT
      (exAttemptE [(-1, 115), (-1, 4), (-1, 4), (-1, 106)])).cs.ai = [exA, exB] ∧
    (E_conncb exEnv LCB_WRITE_EVENT
      (exAttemptE [(-1, 115), (-1, 4), (-1, 4), (-1, 106)])).iot.calls =
      [IOCall.create_event, IOCall.E_socket exA 11, IOCall.connect0 11 (some exA) (-1),
        IOCall.watch 11, IOCall.connect0 11 (some exA) (-1),
        IOCall.connect0 11 (some exA) (-1), IOCall.connect0 11 (some exA) (-1),
        IOCall.cancel_watch 11] :=
  ⟨by decide, by decide,
   ((intr_idempotence exEnv (exAttemptE [(-1, 115), (-1, 4), (-1, 4), (-1, 106)]) exA [exB]
      [(-1, 4), (-1, 4)] (-1, 106) [] (by decide) (by decide) (by decide) (by decide)
      (by decide)).1 LCB_WRITE_EVENT (by decide) (by decide) (by decide)).1,
   ((intr_idempotence exEnv (exAttemptE [(-1, 115), (-1, 4), (-1, 4), (-1, 106)]) exA [exB]
      [(-1, 4), (-1, 4)] (-1, 106) [] (by decide) (by decide) (by decide) (by decide)
      (by decide)).1 LCB_WRITE_EVENT (by decide) (by decide) (by decide)).2.2.1,
   ((intr_idempotence exEnv (exAttemptE [(-1, 115), (-1, 4), (-1, 4), (-1, 106)]) exA [exB]
      [(-1, 4), (-1, 4)] (-1, 106) [] (by decide) (by decide) (by decide) (by decide)
      (by decide)).1 LCB_WRITE_EVENT (by decide) (by decide) (by decide)).2.2.2.2⟩

/-! ## C8: the EINVAL retry -/

theorem clear_sock_fields_E_gen (w : World) (a : addrinfo) (rest : List addrinfo)
    (hE : w.iot.model = lcb_iomodel.LCB_IOMODEL_EVENT) (hai : w.cs.ai = a :: rest) :
    (clear_sock w).cs.ai = rest ∧
    (clear_sock w).cs.syserr = w.cs.syserr ∧
    (clear_sock w).iot.connects = w.iot.connects ∧
    (clear_sock w).iot.calls = w.iot.calls ++ E_clear_calls w rest ∧
    ioFrame (clear_sock w) = ioFrame w := by
  refine ⟨?_, ?_, ?_, ?_, ioFrame_clear_sock w⟩
  all_goals
    cases rest with
    | nil => rw [clear_sock_last w a hai]; try simp [E_clear_calls]
    | cons b rest2 =>
      obtain ⟨u1, u2, u3⟩ := unwatch_fields { w with cs := { w.cs with ai := b :: rest2 } }
      unfold clear_sock
      simp [hai, IOT_IS_EVENT, hE, E_close, World.log, u1, u2, u3, E_clear_calls,
        unwatch_calls]

theorem clear_sock_fields_C_gen (w : World) (a : addrinfo) (rest : List addrinfo)
    (hC : w.iot.model = lcb_iomodel.LCB_IOMODEL_COMPLETION) (hai : w.cs.ai = a :: rest) :
    (clear_sock w).cs.ai = rest ∧
    (clear_sock w).cs.syserr = w.cs.syserr ∧
    (clear_sock w).iot.connects = w.iot.connects ∧
    (clear_sock w).iot.calls = w.iot.calls ++ C_clear_calls w rest ∧
    ioFrame (clear_sock w) = ioFrame w := by
  refine ⟨?_, ?_, ?_, ?_, ioFrame_clear_sock w⟩
  all_goals
    cases rest with
    | nil => rw [clear_sock_last w a hai]; try simp [C_clear_calls]
    | cons b rest2 =>
      unfold clear_sock
      simp only [hai, IOT_IS_EVENT, hC, C_close, World.log, C_clear_calls]
      split_ifs <;> simp_all

/-- Readiness driver: the first EINVAL of an invocation is followed by one
more connect on the same address; when that one succeeds the driver signals
success without moving the cursor. -/
theorem E_conncb_einval_retry (env : Env) (events : Nat)
    (hev : events &&& LCB_ERROR_EVENT = 0) (w : World) (a : addrinfo) (rest : List addrinfo)
    (p fin : Int × Int) (more : List (Int × Int))
    (hE : w.iot.model = lcb_iomodel.LCB_IOMODEL_EVENT) (hai : w.cs.ai = a :: rest)
    (hfd : E_entry_fd env w a ≠ INVALID_SOCKET)
    (hst : w.cs.state = State.CS_PENDING)
    (hcon : w.iot.connects = p :: fin :: more)
    (hp : p.1 ≠ 0 ∧ env.mkcserr p.2 = lcbio_CSERR.LCBIO_CSERR_EINVAL)
    (hfin : fin.1 = 0 ∨ (fin.1 ≠ 0 ∧ env.mkcserr fin.2 = lcbio_CSERR.LCBIO_CSERR_CONNECTED)) :
    (E_conncb env events w).cs.state = State.CS_CONNECTED ∧
    (E_conncb env events w).cs.ai = a :: rest ∧
    (E_conncb env events w).sock.fd = E_entry_fd env w a ∧
    (E_conncb env events w).iot.calls =
      w.iot.calls ++ E_entry_calls env w a ++
        [IOCall.connect0 (E_entry_fd env w a) (some a) p.1,
          IOCall.connect0 (E_entry_fd env w a) (some a) fin.1] ++
        (if w.cs.sock && w.cs.ev_active then [IOCall.cancel_watch (E_entry_fd env w a)]
         else []) := by
  obtain ⟨n, hn⟩ : ∃ n, driver_fuel w = n + 3 :=
    ⟨driver_fuel w - 3, by simp [driver_fuel]⟩
  unfold E_conncb
  rw [hn]
  obtain ⟨a1, a2, a3, a4⟩ := ensure_sock_entry_E env w a rest hE hai hfd
  rw [E_go_next_connect env events _ false [] w (ensure_sock env w).1 (Prod.ext rfl a1) hev]
  have hai1 : (ensure_sock env w).1.cs.ai = a :: rest := by rw [a2]; exact hai
  rw [hai1]
  generalize (ensure_sock env w).1 = w1 at *
  obtain ⟨rv, e⟩ := p
  simp only at hp
  obtain ⟨b1, b2, b3, _, b5, b6, b7⟩ :=
    IOT_connect0_fields (a :: rest) w1 rv e (fin :: more) (by rw [a4]; exact hcon) hp.1
  rw [E_go_connect_einval_first env events (n + 1) (a :: rest) w1 (IOT_connect0 (a :: rest) w1).2
    rv (Prod.ext b1 rfl) hp.1 (by rw [b5]; exact hp.2), b5]
  have m1 : (lcbio_mksyserr e (IOT_connect0 (a :: rest) w1).2).cs =
      { w.cs with syserr := e } := by
    simp [lcbio_mksyserr, b2, a2]
  have m2 : (lcbio_mksyserr e (IOT_connect0 (a :: rest) w1).2).sock =
      { w.sock with fd := E_entry_fd env w a } := by
    simp [lcbio_mksyserr, b3, a3]
  have m3 : (lcbio_mksyserr e (IOT_connect0 (a :: rest) w1).2).iot.calls =
      w.iot.calls ++ E_entry_calls env w a ++
        [IOCall.connect0 (E_entry_fd env w a) (some a) rv] := by
    simp [lcbio_mksyserr, b7, a3, a4]
  have m4 : (lcbio_mksyserr e (IOT_connect0 (a :: rest) w1).2).iot.connects = fin :: more := b6
  generalize lcbio_mksyserr e (IOT_connect0 (a :: rest) w1).2 = m at *
  obtain ⟨f1, _, f3, f4, f5⟩ := E_go_connect_final env events n true (a :: rest) m fin more
    (by rw [m1]; exact hst) m4 hfin
  refine ⟨f1, ?_, ?_, ?_⟩
  · rw [f3, m1]; exact hai
  · rw [f4, m2]
  · rw [f5, m3]
    simp [unwatch_calls, m1, m2, List.append_assoc]

/-- Readiness driver: the second EINVAL on the address is treated as EFAIL:
after two connects on the address the cursor is advanced once and the driver
goes on at `GT_NEXTSOCK` with `retry_once` set. -/
theorem E_conncb_einval_twice (env : Env) (events : Nat)
    (hev : events &&& LCB_ERROR_EVENT = 0) (w : World) (a : addrinfo) (rest : List addrinfo)
    (p q : Int × Int) (more : List (Int × Int))
    (hE : w.iot.model = lcb_iomodel.LCB_IOMODEL_EVENT) (hai : w.cs.ai = a :: rest)
    (hfd : E_entry_fd env w a ≠ INVALID_SOCKET)
    (hcon : w.iot.connects = p :: q :: more)
    (hp : p.1 ≠ 0 ∧ env.mkcserr p.2 = lcbio_CSERR.LCBIO_CSERR_EINVAL)
    (hq : q.1 ≠ 0 ∧ env.mkcserr q.2 = lcbio_CSERR.LCBIO_CSERR_EINVAL) :
    ∃ (W0 W : World) (n : Nat),
      E_conncb env events w = E_conncb_go env events n Label.GT_NEXTSOCK true (a :: rest) W ∧
      2 * rest.length + more.length + 1 ≤ n ∧
      W = clear_sock W0 ∧
      W0.iot.calls = w.iot.calls ++ E_entry_calls env w a ++
        [IOCall.connect0 (E_entry_fd env w a) (some a) p.1,
          IOCall.connect0 (E_entry_fd env w a) (some a) q.1] ∧
      W.cs.ai = rest ∧ W.cs.syserr = q.2 ∧ W.iot.connects = more ∧
      W.iot.calls = W0.iot.calls ++ E_clear_calls W0 rest ∧
      ioFrame W = ioFrame w := by
  obtain ⟨n, hn⟩ : ∃ n, driver_fuel w = n + 3 :=
    ⟨driver_fuel w - 3, by simp [driver_fuel]⟩
  have hn2 : 2 * rest.length + more.length + 1 ≤ n := by
    simp [driver_fuel, hai, hcon] at hn
    omega
  unfold E_conncb
  rw [hn]
  obtain ⟨a1, a2, a3, a4⟩ := ensure_sock_entry_E env w a rest hE hai hfd
  have hio1 := ioFrame_ensure_sock env w
  rw [E_go_next_connect env events _ false [] w (ensure_sock env w).1 (Prod.ext rfl a1) hev]
  have hai1 : (ensure_sock env w).1.cs.ai = a :: rest := by rw [a2]; exact hai
  rw [hai1]
  generalize (ensure_sock env w).1 = w1 at *
  obtain ⟨rv, e⟩ := p
  obtain ⟨rv2, e2⟩ := q
  simp only at hp hq
  obtain ⟨b1, b2, b3, b4, b5, b6, b7⟩ :=
    IOT_connect0_fields (a :: rest) w1 rv e ((rv2, e2) :: more) (by rw [a4]; exact hcon) hp.1
  have hio2 := ioFrame_connect0 (a :: rest) w1
  rw [E_go_connect_einval_first env events (n + 1) (a :: rest) w1 (IOT_connect0 (a :: rest) w1).2
    rv (Prod.ext b1 rfl) hp.1 (by rw [b5]; exact hp.2), b5]
  have m1 : (lcbio_mksyserr e (IOT_connect0 (a :: rest) w1).2).cs =
      { w.cs with syserr := e } := by
    simp [lcbio_mksyserr, b2, a2]
  have m2 : (lcbio_mksyserr e (IOT_connect0 (a :: rest) w1).2).sock =
      { w.sock with fd := E_entry_fd env w a } := by
    simp [lcbio_mksyserr, b3, a3]
  have m3 : (lcbio_mksyserr e (IOT_connect0 (a :: rest) w1).2).iot.calls =
      w.iot.calls ++ E_entry_calls env w a ++
        [IOCall.connect0 (E_entry_fd env w a) (some a) rv] := by
    simp [lcbio_mksyserr, b7, a3, a4]
  have m4 : (lcbio_mksyserr e (IOT_connect0 (a :: rest) w1).2).iot.connects =
      (rv2, e2) :: more := b6
  have m5 : (lcbio_mksyserr e (IOT_connect0 (a :: rest) w1).2).iot.model =
      lcb_iomodel.LCB_IOMODEL_EVENT := by
    simp [lcbio_mksyserr, b4, a4, hE]
  have m6 : ioFrame (lcbio_mksyserr e (IOT_connect0 (a :: rest) w1).2) = ioFrame w := by
    rw [ioFrame_mksyserr, hio2, hio1]
  generalize lcbio_mksyserr e (IOT_connect0 (a :: rest) w1).2 = m at *
  obtain ⟨c1, c2, c3, c4, c5, c6, c7⟩ :=
    IOT_connect0_fields (a :: rest) m rv2 e2 more m4 hq.1
  rw [E_go_connect_einval_again env events n (a :: rest) m (IOT_connect0 (a :: rest) m).2
    rv2 (Prod.ext c1 rfl) hq.1 (by rw [c5]; exact hq.2), c5]
  obtain ⟨d1, d2, d3, d4, d5⟩ := clear_sock_fields_E_gen
    (lcbio_mksyserr e2 (IOT_connect0 (a :: rest) m).2) a rest
    (by simp [lcbio_mksyserr, c4, m5]) (by simp [lcbio_mksyserr, c2, m1, hai])
  refine ⟨lcbio_mksyserr e2 (IOT_connect0 (a :: rest) m).2, _, n, rfl, hn2, rfl, ?_, d1, ?_,
    ?_, d4, ?_⟩
  · simp [lcbio_mksyserr, c7, m3, m2]
  · rw [d2]; rfl
  · rw [d3]; simp [lcbio_mksyserr, c6]
  · rw [d5, ioFrame_mksyserr, ioFrame_connect0, m6]

/-- Readiness driver: once `retry_once` is set, a connect that fails with
EINVAL is not re-issued: after that one connect the cursor is advanced. -/
theorem E_go_einval_no_retry (env : Env) (events n : Nat) (ai : List addrinfo) (w : World)
    (a : addrinfo) (rest : List addrinfo) (p : Int × Int) (more : List (Int × Int))
    (hE : w.iot.model = lcb_iomodel.LCB_IOMODEL_EVENT) (hai : w.cs.ai = a :: rest)
    (hcon : w.iot.connects = p :: more)
    (hp : p.1 ≠ 0 ∧ env.mkcserr p.2 = lcbio_CSERR.LCBIO_CSERR_EINVAL) :
    ∃ W0 W : World,
      E_conncb_go env events (n + 1) Label.GT_CONNECT true ai w =
        E_conncb_go env events n Label.GT_NEXTSOCK true ai W ∧
      W = clear_sock W0 ∧
      W0.iot.calls = w.iot.calls ++ [IOCall.connect0 w.sock.fd ai.head? p.1] ∧
      W.cs.ai = rest ∧ W.iot.connects = more ∧
      W.iot.calls = W0.iot.calls ++ E_clear_calls W0 rest := by
  obtain ⟨rv, e⟩ := p
  simp only at hp
  obtain ⟨c1, c2, c3, c4, c5, c6, c7⟩ := IOT_connect0_fields ai w rv e more hcon hp.1
  rw [E_go_connect_einval_again env events n ai w (IOT_connect0 ai w).2
    rv (Prod.ext c1 rfl) hp.1 (by rw [c5]; exact hp.2), c5]
  obtain ⟨d1, _, d3, d4, _⟩ := clear_sock_fields_E_gen
    (lcbio_mksyserr e (IOT_connect0 ai w).2) a rest
    (by simp [lcbio_mksyserr, c4, hE]) (by simp [lcbio_mksyserr, c2, hai])
  refine ⟨lcbio_mksyserr e (IOT_connect0 ai w).2, _, rfl, rfl, ?_, d1, ?_, d4⟩
  · simp [lcbio_mksyserr, c7]
  · rw [d3]; simp [lcbio_mksyserr, c6]

/-- Completion driver: the first EINVAL of an invocation is followed by one
more connect on the same address, without moving the cursor; a re-issued
connect that fails with an errno classified CONNECTED signals success, one
that returns 0 is a submission. -/
theorem C_connect_einval_retry (env : Env) (w : World) (a : addrinfo) (rest : List addrinfo)
    (p fin : Int × Int) (more : List (Int × Int))
    (hC : w.iot.model = lcb_iomodel.LCB_IOMODEL_COMPLETION) (hai : w.cs.ai = a :: rest)
    (hsd : C_entry_sd env w a ≠ none)
    (hst : w.cs.state = State.CS_PENDING)
    (hcon : w.iot.connects = p :: fin :: more)
    (hp : p.1 ≠ 0 ∧ env.mkcserr p.2 = lcbio_CSERR.LCBIO_CSERR_EINVAL)
    (hfin : fin.1 = 0 ∨ (fin.1 ≠ 0 ∧ env.mkcserr fin.2 = lcbio_CSERR.LCBIO_CSERR_CONNECTED)) :
    (C_connect env w).cs.ai = a :: rest ∧
    (C_connect env w).sock.sd = C_entry_sd env w a ∧
    (C_connect env w).iot.calls =
      w.iot.calls ++ C_entry_calls env w a ++
        [IOCall.C_connect (C_entry_sd env w a) (some a) p.1,
          IOCall.C_connect (C_entry_sd env w a) (some a) fin.1] ∧
    (fin.1 ≠ 0 → (C_connect env w).cs.state = State.CS_CONNECTED) ∧
    (fin.1 = 0 → (C_connect env w).cs.state = State.CS_PENDING ∧
      (C_connect env w).pending = w.pending + 1) := by
  obtain ⟨n, hn⟩ : ∃ n, driver_fuel w = n + 3 :=
    ⟨driver_fuel w - 3, by simp [driver_fuel]⟩
  unfold C_connect
  rw [hn]
  obtain ⟨a1, a2, a3, a4⟩ := ensure_sock_entry_C env w a rest hC hai hsd
  have a5 : (ensure_sock env w).1.pending = w.pending :=
    congrArg (fun x => x.pending) (ioFrame_ensure_sock env w)
  rw [C_go_next_connect env _ false w (ensure_sock env w).1 (Prod.ext rfl a1)]
  generalize (ensure_sock env w).1 = w1 at *
  obtain ⟨rv, e⟩ := p
  simp only at hp
  obtain ⟨b1, b2, b3, b4, b5, b6, b7, _⟩ :=
    IOT_connect_fields w1 rv e (fin :: more) (by rw [a4]; exact hcon)
  rw [if_neg hp.1] at b4
  rw [C_go_connect_einval_first env (n + 1) w1 (IOT_connect w1).2
    rv (Prod.ext b1 rfl) hp.1 (by rw [b4]; exact hp.2), b4]
  have m1 : (lcbio_mksyserr e (IOT_connect w1).2).cs = { w.cs with syserr := e } := by
    simp [lcbio_mksyserr, b2, a2]
  have m2 : (lcbio_mksyserr e (IOT_connect w1).2).sock =
      { w.sock with sd := C_entry_sd env w a } := by
    simp [lcbio_mksyserr, b3, a3]
  have m3 : (lcbio_mksyserr e (IOT_connect w1).2).iot.calls =
      w.iot.calls ++ C_entry_calls env w a ++
        [IOCall.C_connect (C_entry_sd env w a) (some a) rv] := by
    simp [lcbio_mksyserr, b6, a3, a4, a2, hai]
  have m4 : (lcbio_mksyserr e (IOT_connect w1).2).iot.connects = fin :: more := b5
  have m5 : (lcbio_mksyserr e (IOT_connect w1).2).pending = w.pending := by
    simp [lcbio_mksyserr, b7, a5]
  generalize lcbio_mksyserr e (IOT_connect w1).2 = m at *
  obtain ⟨rv2, e2⟩ := fin
  obtain ⟨c1, c2, c3, c4, _, c6, c7, _⟩ := IOT_connect_fields m rv2 e2 more m4
  have hcalls : (IOT_connect m).2.iot.calls =
      w.iot.calls ++ C_entry_calls env w a ++
        [IOCall.C_connect (C_entry_sd env w a) (some a) rv,
          IOCall.C_connect (C_entry_sd env w a) (some a) rv2] := by
    rw [c6, m3, m2, m1]
    simp [hai, List.append_assoc]
  rcases hfin with h0 | ⟨hrv, hc⟩
  · simp only at h0
    subst h0
    rw [C_go_connect_submit env n true m (IOT_connect m).2 (Prod.ext c1 rfl)]
    refine ⟨?_, ?_, hcalls, fun h => absurd rfl h, fun _ => ⟨?_, ?_⟩⟩
    · show (IOT_connect m).2.cs.ai = _
      rw [c2, m1]; exact hai
    · show (IOT_connect m).2.sock.sd = _
      rw [c3, m2]
    · show (IOT_connect m).2.cs.state = _
      rw [c2, m1]; exact hst
    · show (IOT_connect m).2.pending + 1 = _
      rw [c7, m5]
  · simp only at hrv hc
    rw [if_neg hrv] at c4
    rw [C_go_connect_connected env n true m (IOT_connect m).2 rv2 (Prod.ext c1 rfl) hrv
      (by rw [c4]; exact hc)]
    rw [notify_success_of_pending _ (by simp [lcbio_mksyserr, c2, m1, hst])]
    refine ⟨?_, ?_, hcalls, fun _ => rfl, fun h => absurd h hrv⟩
    · show (IOT_connect m).2.cs.ai = _
      rw [c2, m1]; exact hai
    · show (IOT_connect m).2.sock.sd = _
      rw [c3, m2]

/-- Completion driver: once `retry_once` is set, a connect that fails with
EINVAL is not re-issued: after that one connect the cursor is advanced. -/
theorem C_go_einval_no_retry (env : Env) (n : Nat) (w : World)
    (a : addrinfo) (rest : List addrinfo) (p : Int × Int) (more : List (Int × Int))
    (hC : w.iot.model = lcb_iomodel.LCB_IOMODEL_COMPLETION) (hai : w.cs.ai = a :: rest)
    (hcon : w.iot.connects = p :: more)
    (hp : p.1 ≠ 0 ∧ env.mkcserr p.2 = lcbio_CSERR.LCBIO_CSERR_EINVAL) :
    ∃ W0 W : World,
      C_connect_go env (n + 1) Label.GT_CONNECT true w =
        C_connect_go env n Label.GT_NEXTSOCK true W ∧
      W = clear_sock W0 ∧
      W0.iot.calls = w.iot.calls ++ [IOCall.C_connect w.sock.sd (some a) p.1] ∧
      W.cs.ai = rest ∧ W.iot.connects = more ∧
      W.iot.calls = W0.iot.calls ++ C_clear_calls W0 rest := by
  obtain ⟨rv, e⟩ := p
  simp only at hp
  obtain ⟨c1, c2, c3, c4, c5, c6, c7, c8⟩ := IOT_connect_fields w rv e more hcon
  rw [if_neg hp.1] at c4
  rw [C_go_connect_einval_again env n w (IOT_connect w).2
    rv (Prod.ext c1 rfl) hp.1 (by rw [c4]; exact hp.2), c4]
  obtain ⟨d1, _, d3, d4, _⟩ := clear_sock_fields_C_gen
    (lcbio_mksyserr e (IOT_connect w).2) a rest
    (by
      have := congrArg (fun x => x.iot.model) c8
      simp only [ioFrame] at this
      simp [lcbio_mksyserr, this, hC])
    (by simp [lcbio_mksyserr, c2, hai])
  refine ⟨lcbio_mksyserr e (IOT_connect w).2, _, rfl, rfl, ?_, d1, ?_, d4⟩
  · simp [lcbio_mksyserr, c6, hai]
  · rw [d3]; simp [lcbio_mksyserr, c5]

/-- Completion driver: the second EINVAL on the address is treated as EFAIL:
after two connects on the address the cursor is advanced once and the driver
goes on at `GT_NEXTSOCK` with `retry_once` set. -/
theorem C_connect_einval_twice (env : Env) (w : World) (a : addrinfo) (rest : List addrinfo)
    (p q : Int × Int) (more : List (Int × Int))
    (hC : w.iot.model = lcb_iomodel.LCB_IOMODEL_COMPLETION) (hai : w.cs.ai = a :: rest)
    (hsd : C_entry_sd env w a ≠ none)
    (hcon : w.iot.connects = p :: q :: more)
    (hp : p.1 ≠ 0 ∧ env.mkcserr p.2 = lcbio_CSERR.LCBIO_CSERR_EINVAL)
    (hq : q.1 ≠ 0 ∧ env.mkcserr q.2 = lcbio_CSERR.LCBIO_CSERR_EINVAL) :
    ∃ (W0 W : World) (n : Nat),
      C_connect env w = C_connect_go env n Label.GT_NEXTSOCK true W ∧
      2 * rest.length + more.length + 1 ≤ n ∧
      W = clear_sock W0 ∧
      W0.iot.calls = w.iot.calls ++ C_entry_calls env w a ++
        [IOCall.C_connect (C_entry_sd env w a) (some a) p.1,
          IOCall.C_connect (C_entry_sd env w a) (some a) q.1] ∧
      W.cs.ai = rest ∧ W.iot.connects = more ∧
      W.iot.calls = W0.iot.calls ++ C_clear_calls W0 rest := by
  obtain ⟨n, hn⟩ : ∃ n, driver_fuel w = n + 3 :=
    ⟨driver_fuel w - 3, by simp [driver_fuel]⟩
  have hn2 : 2 * rest.length + more.length + 1 ≤ n := by
    simp [driver_fuel, hai, hcon] at hn
    omega
  unfold C_connect
  rw [hn]
  obtain ⟨a1, a2, a3, a4⟩ := ensure_sock_entry_C env w a rest hC hai hsd
  rw [C_go_next_connect env _ false w (ensure_sock env w).1 (Prod.ext rfl a1)]
  generalize (ensure_sock env w).1 = w1 at *
  obtain ⟨rv, e⟩ := p
  simp only at hp
  obtain ⟨b1, b2, b3, b4, b5, b6, b7, b8⟩ :=
    IOT_connect_fields w1 rv e (q :: more) (by rw [a4]; exact hcon)
  rw [if_neg hp.1] at b4
  rw [C_go_connect_einval_first env (n + 1) w1 (IOT_connect w1).2
    rv (Prod.ext b1 rfl) hp.1 (by rw [b4]; exact hp.2), b4]
  have m1 : (lcbio_mksyserr e (IOT_connect w1).2).cs = { w.cs with syserr := e } := by
    simp [lcbio_mksyserr, b2, a2]
  have m2 : (lcbio_mksyserr e (IOT_connect w1).2).sock =
      { w.sock with sd := C_entry_sd env w a } := by
    simp [lcbio_mksyserr, b3, a3]
  have m3 : (lcbio_mksyserr e (IOT_connect w1).2).iot.calls =
      w.iot.calls ++ C_entry_calls env w a ++
        [IOCall.C_connect (C_entry_sd env w a) (some a) rv] := by
    simp [lcbio_mksyserr, b6, a3, a4, a2, hai]
  have m4 : (lcbio_mksyserr e (IOT_connect w1).2).iot.connects = q :: more := b5
  have m5 : (lcbio_mksyserr e (IOT_connect w1).2).iot.model =
      lcb_iomodel.LCB_IOMODEL_COMPLETION := by
    have := congrArg (fun x => x.iot.model) b8
    simp only [ioFrame] at this
    simp [lcbio_mksyserr, this, a4, hC]
  generalize lcbio_mksyserr e (IOT_connect w1).2 = m at *
  obtain ⟨W0, W, g1, g2, g3, g4, g5, g6⟩ := C_go_einval_no_retry env n m a rest q more m5
    (by rw [m1]; exact hai) m4 hq
  refine ⟨W0, W, n, g1, hn2, g2, ?_, g4, g5, g6⟩
  rw [g3, m3, m2]
  simp [List.append_assoc]

/-- C8, as stated, fails for an address reached later in the same driver
invocation: A answers EINVAL (errno 22) twice, so the cursor advances to B;
the connect on B answers EINVAL once and is not re-issued although the next
connect would have returned 0: B sees a single connect and the attempt ends in
ERROR with the last scripted answer unused. -/
theorem einval_retry_is_per_invocation :
    (exAttemptE [(-1, 22), (-1, 22), (-1, 22), (0, 0)]).iot.calls =
      [IOCall.create_event, IOCall.E_socket exA 11, IOCall.connect0 11 (some exA) (-1),
        IOCall.connect0 11 (some exA) (-1), IOCall.E_close 11, IOCall.E_socket exB 12,
        IOCall.connect0 12 (some exB) (-1)] ∧
    (exAttemptE [(-1, 22), (-1, 22), (-1, 22), (0, 0)]).cs.state = State.CS_ERROR ∧
    (exAttemptE [(-1, 22), (-1, 22), (-1, 22), (0, 0)]).cs.ai = [] ∧
    (exAttemptE [(-1, 22), (-1, 22), (-1, 22), (0, 0)]).iot.connects = [(0, 0)] ∧
    (exAttemptC [(-1, 22), (-1, 22), (-1, 22), (0, 0)]).iot.calls =
      [IOCall.C_socket exA (some 11), IOCall.C_connect (some 11) (some exA) (-1),
        IOCall.C_connect (some 11) (some exA) (-1), IOCall.C_close (some 11),
        IOCall.C_socket exB (some 12), IOCall.C_connect (some 12) (some exB) (-1)] ∧
    (exAttemptC [(-1, 22), (-1, 22), (-1, 22), (0, 0)]).cs.state = State.CS_ERROR := by
  decide

/-- C8, amended: in both drivers the EINVAL retry is granted once per driver
invocation. With the cursor on `a` and a first connect that answers EINVAL:
(1) the connect is re-issued on the same address and descriptor, and when the
re-issued connect succeeds the cursor is not advanced (the readiness driver
signals success; the completion driver signals success for an errno classified
CONNECTED and submits for a return of 0); (2) when the re-issued connect
answers EINVAL again, it is treated as EFAIL: after exactly two connects on
`a` the cursor is advanced exactly once and the driver goes on at
`GT_NEXTSOCK` with `retry_once` set; (3) wherever the driver is with
`retry_once` set, also on a later address, a connect that answers EINVAL is
not re-issued: the cursor is advanced after that single connect. -/
theorem einval_retry_once (env : Env) (w : World) (a : addrinfo) (rest : List addrinfo)
    (p : Int × Int) (hai : w.cs.ai = a :: rest)
    (hp : p.1 ≠ 0 ∧ env.mkcserr p.2 = lcbio_CSERR.LCBIO_CSERR_EINVAL) :
    (∀ (events : Nat) (fin : Int × Int) (more : List (Int × Int)),
      w.iot.model = lcb_iomodel.LCB_IOMODEL_EVENT → events &&& LCB_ERROR_EVENT = 0 →
      E_entry_fd env w a ≠ INVALID_SOCKET → w.cs.state = State.CS_PENDING →
      w.iot.connects = p :: fin :: more →
      (fin.1 = 0 ∨ (fin.1 ≠ 0 ∧ env.mkcserr fin.2 = lcbio_CSERR.LCBIO_CSERR_CONNECTED)) →
      (E_conncb env events w).cs.state = State.CS_CONNECTED ∧
      (E_conncb env events w).cs.ai = a :: rest ∧
      (E_conncb env events w).sock.fd = E_entry_fd env w a ∧
      (E_conncb env events w).iot.calls =
        w.iot.calls ++ E_entry_calls env w a ++
          [IOCall.connect0 (E_entry_fd env w a) (some a) p.1,
            IOCall.connect0 (E_entry_fd env w a) (some a) fin.1] ++
          (if w.cs.sock && w.cs.ev_active then [IOCall.cancel_watch (E_entry_fd env w a)]
           else [])) ∧
    (∀ (events : Nat) (q : Int × Int) (more : List (Int × Int)),
      w.iot.model = lcb_iomodel.LCB_IOMODEL_EVENT → events &&& LCB_ERROR_EVENT = 0 →
      E_entry_fd env w a ≠ INVALID_SOCKET →
      w.iot.connects = p :: q :: more →
      q.1 ≠ 0 ∧ env.mkcserr q.2 = lcbio_CSERR.LCBIO_CSERR_EINVAL →
      ∃ (W0 W : World) (n : Nat),
        E_conncb env events w =
          E_conncb_go env events n Label.GT_NEXTSOCK true (a :: rest) W ∧
        2 * rest.length + more.length + 1 ≤ n ∧
        W = clear_sock W0 ∧
        W0.iot.calls = w.iot.calls ++ E_entry_calls env w a ++
          [IOCall.connect0 (E_entry_fd env w a) (some a) p.1,
            IOCall.connect0 (E_entry_fd env w a) (some a) q.1] ∧
        W.cs.ai = rest ∧ W.cs.syserr = q.2 ∧ W.iot.connects = more ∧
        W.iot.calls = W0.iot.calls ++ E_clear_calls W0 rest ∧
        ioFrame W = ioFrame w) ∧
    (∀ (events n : Nat) (ai : List addrinfo) (more : List (Int × Int)),
      w.iot.model = lcb_iomodel.LCB_IOMODEL_EVENT → w.iot.connects = p :: more →
      ∃ W0 W : World,
        E_conncb_go env events (n + 1) Label.GT_CONNECT true ai w =
          E_conncb_go env events n Label.GT_NEXTSOCK true ai W ∧
        W = clear_sock W0 ∧
        W0.iot.calls = w.iot.calls ++ [IOCall.connect0 w.sock.fd ai.head? p.1] ∧
        W.cs.ai = rest ∧ W.iot.connects = more ∧
        W.iot.calls = W0.iot.calls ++ E_clear_calls W0 rest) ∧
    (∀ (fin : Int × Int) (more : List (Int × Int)),
      w.iot.model = lcb_iomodel.LCB_IOMODEL_COMPLETION →
      C_entry_sd env w a ≠ none → w.cs.state = State.CS_PENDING →
      w.iot.connects = p :: fin :: more →
      (fin.1 = 0 ∨ (fin.1 ≠ 0 ∧ env.mkcserr fin.2 = lcbio_CSERR.LCBIO_CSERR_CONNECTED)) →
      (C_connect env w).cs.ai = a :: rest ∧
      (C_connect env w).sock.sd = C_entry_sd env w a ∧
      (C_connect env w).iot.calls =
        w.iot.calls ++ C_entry_calls env w a ++
          [IOCall.C_connect (C_entry_sd env w a) (some a) p.1,
            IOCall.C_connect (C_entry_sd env w a) (some a) fin.1] ∧
      (fin.1 ≠ 0 → (C_connect env w).cs.state = State.CS_CONNECTED) ∧
      (fin.1 = 0 → (C_connect env w).cs.state = State.CS_PENDING ∧
        (C_connect env w).pending = w.pending + 1)) ∧
    (∀ (q : Int × Int) (more : List (Int × Int)),
      w.iot.model = lcb_iomodel.LCB_IOMODEL_COMPLETION → C_entry_sd env w a ≠ none →
      w.iot.connects = p :: q :: more →
      q.1 ≠ 0 ∧ env.mkcserr q.2 = lcbio_CSERR.LCBIO_CSERR_EINVAL →
      ∃ (W0 W : World) (n : Nat),
        C_connect env w = C_connect_go env n Label.GT_NEXTSOCK true W ∧
        2 * rest.length + more.length + 1 ≤ n ∧
        W = clear_sock W0 ∧
        W0.iot.calls = w.iot.calls ++ C_entry_calls env w a ++
          [IOCall.C_connect (C_entry_sd env w a) (some a) p.1,
            IOCall.C_connect (C_entry_sd env w a) (some a) q.1] ∧
        W.cs.ai = rest ∧ W.iot.connects = more ∧
        W.iot.calls = W0.iot.calls ++ C_clear_calls W0 rest) ∧
    (∀ (n : Nat) (more : List (Int × Int)),
      w.iot.model = lcb_iomodel.LCB_IOMODEL_COMPLETION → w.iot.connects = p :: more →
      ∃ W0 W : World,
        C_connect_go env (n + 1) Label.GT_CONNECT true w =
          C_connect_go env n Label.GT_NEXTSOCK true W ∧
        W = clear_sock W0 ∧
        W0.iot.calls = w.iot.calls ++ [IOCall.C_connect w.sock.sd (some a) p.1] ∧
        W.cs.ai = rest ∧ W.iot.connects = more ∧
        W.iot.calls = W0.iot.calls ++ C_clear_calls W0 rest) :=
  ⟨fun events fin more hE hev hfd hst hcon hfin =>
      E_conncb_einval_retry env events hev w a rest p fin more hE hai hfd hst hcon hp hfin,
   fun events q more hE hev hfd hcon hq =>
      E_conncb_einval_twice env events hev w a rest p q more hE hai hfd hcon hp hq,
   fun events n ai more hE hcon =>
      E_go_einval_no_retry env events n ai w a rest p more hE hai hcon hp,
   fun fin more hC hsd hst hcon hfin =>
      C_connect_einval_retry env w a rest p fin more hC hai hsd hst hcon hp hfin,
   fun q more hC hsd hcon hq =>
      C_connect_einval_twice env w a rest p q more hC hai hsd hcon hp hq,
   fun n more hC hcon => C_go_einval_no_retry env n w a rest p more hC hai hcon hp⟩

/-- Witness of C8 (amended): the first pass of the readiness driver on a
fresh attempt whose connect on A answers EINVAL and then 0. -/
theorem einval_retry_once_witness :
    (E_conncb exEnv LCB_WRITE_EVENT
      (Connstart_resolved (exTableE [(-1, 22), (0, 0)]) exSettings [exA, exB] 1000
        { cancels := 1, refs := false } 7)).cs.state = State.CS_CONNECTED ∧
    (E_conncb exEnv LCB_WRITE_EVENT
      (Connstart_resolved (exTableE [(-1, 22), (0, 0)]) exSettings [exA, exB] 1000
        { cancels := 1, refs := false } 7)).cs.ai = [exA, exB] ∧
    (E_conncb exEnv LCB_WRITE_EVENT
      (Connstart_resolved (exTableE [(-1, 22), (0, 0)]) exSettings [exA, exB] 1000
        { cancels := 1, refs := false } 7)).iot.calls =
      [IOCall.create_event, IOCall.E_socket exA 11, IOCall.connect0 11 (some exA) (-1),
        IOCall.connect0 11 (some exA) 0] :=
  ⟨((einval_retry_once exEnv
      (Connstart_resolved (exTableE [(-1, 22), (0, 0)]) exSettings [exA, exB] 1000
        { cancels := 1, refs := false } 7) exA [exB] (-1, 22) (by decide) (by decide)).1
      LCB_WRITE_EVENT (0, 0) [] (by decide) (by decide) (by decide) (by decide) (by decide)
      (by decide)).1,
   ((einval_retry_once exEnv
      (Connstart_resolved (exTableE [(-1, 22), (0, 0)]) exSettings [exA, exB] 1000
        { cancels := 1, refs := false } 7) exA [exB] (-1, 22) (by decide) (by decide)).1
      LCB_WRITE_EVENT (0, 0) [] (by decide) (by decide) (by decide) (by decide) (by decide)
      (by decide)).2.1,
   ((einval_retry_once exEnv
      (Connstart_resolved (exTableE [(-1, 22), (0, 0)]) exSettings [exA, exB] 1000
        { cancels := 1, refs := false } 7) exA [exB] (-1, 22) (by decide) (by decide)).1
      LCB_WRITE_EVENT (0, 0) [] (by decide) (by decide) (by decide) (by decide) (by decide)
      (by decide)).2.2.2⟩

/-! ## C1: the user callback is invoked at most once -/

theorem ioFrame_pending {w w1 : World} (h : ioFrame w1 = ioFrame w) : w1.pending = w.pending :=
  congrArg (fun x => x.pending) h

theorem ioFrame_sockptr {w w1 : World} (h : ioFrame w1 = ioFrame w) : w1.cs.sock = w.cs.sock :=
  congrArg (fun x => x.cs.sock) h

theorem ioFrame_refcount {w w1 : World} (h : ioFrame w1 = ioFrame w) :
    w1.sock.refcount = w.sock.refcount :=
  congrArg (fun x => x.sock.refcount) h

theorem ioFrame_freed {w w1 : World} (h : ioFrame w1 = ioFrame w) :
    w1.sock.freed = w.sock.freed :=
  congrArg (fun x => x.sock.freed) h

theorem ioFrame_is_event {w w1 : World} (h : ioFrame w1 = ioFrame w) :
    IOT_IS_EVENT w1.iot = IOT_IS_EVENT w.iot := by
  have : w1.iot.model = w.iot.model := congrArg (fun x => x.iot.model) h
  simp [IOT_IS_EVENT, this]

theorem sigFrame_is_event {w w1 : World} (h : sigFrame w1 = sigFrame w) :
    IOT_IS_EVENT w1.iot = IOT_IS_EVENT w.iot := by
  have : w1.iot.model = w.iot.model := congrArg (fun x => x.iot.model) h
  simp [IOT_IS_EVENT, this]

/-- The readiness driver keeps the invariant of an attempt on a readiness
table. -/
theorem Inv_E_conncb (env : Env) (events : Nat) (w : World) (hi : Inv w)
    (hE : IOT_IS_EVENT w.iot = true) : Inv (E_conncb env events w) := by
  have hfr : sigFrame (E_conncb env events w) = sigFrame w :=
    sigFrame_E_conncb_go env events _ Label.GT_NEXTSOCK false [] w
  have hu : (E_conncb env events w).ucalls = w.ucalls := congrArg (fun x => x.ucalls) hfr
  have hd : (E_conncb env events w).cs_deleted = w.cs_deleted :=
    congrArg (fun x => x.cs_deleted) hfr
  have hk : (E_conncb env events w).cs.sock = w.cs.sock := congrArg (fun x => x.cs.sock) hfr
  have hp : (E_conncb env events w).pending = w.pending := congrArg (fun x => x.pending) hfr
  have hr : (E_conncb env events w).sock.refcount = w.sock.refcount :=
    congrArg (fun x => x.sock.refcount) hfr
  have hf : (E_conncb env events w).sock.freed = w.sock.freed :=
    congrArg (fun x => x.sock.freed) hfr
  have he := sigFrame_is_event hfr
  obtain ⟨i1, i2, i3, i4⟩ := hi
  have hp0 : w.pending = 0 := i4 hE
  refine ⟨by rw [hu]; exact i1, ?_, ?_, ?_⟩
  · intro h
    rw [hd] at h
    obtain ⟨j1, j2, _, _⟩ := i2 h
    refine ⟨by rw [hu]; exact j1, by rw [hk]; exact j2, by rw [hp, hp0]; exact Nat.zero_le _, ?_⟩
    intro h1
    rw [hp, hp0] at h1
    exact absurd h1 (by decide)
  · intro _ h2
    rw [hp, hp0] at h2
    exact absurd h2 (by decide)
  · intro _
    rw [hp]; exact hp0

theorem Idle_ioFrame (w w1 : World) (h : ioFrame w1 = ioFrame w) (hw : Idle w) : Idle w1 := by
  obtain ⟨a, b, c, d, e, f, g⟩ := hw
  exact ⟨(ioFrame_ucalls h).trans a, (ioFrame_deleted h).trans b, (ioFrame_sockptr h).trans c,
    (ioFrame_pending h).trans d, (ioFrame_state h).trans e,
    by rw [ioFrame_refcount h]; exact f, (ioFrame_is_event h).trans g⟩

theorem Inv_of_Idle_signal (s : State) (e : lcb_error_t) (w : World) (hw : Idle w) :
    Inv (state_signal s e w) := by
  obtain ⟨a, b, c, d, _, _, g⟩ := hw
  have hio : sigFrame (state_signal s e w) = sigFrame w := by
    unfold state_signal; split_ifs <;> rfl
  have hu : (state_signal s e w).ucalls = w.ucalls := congrArg (fun x => x.ucalls) hio
  have hd : (state_signal s e w).cs_deleted = w.cs_deleted :=
    congrArg (fun x => x.cs_deleted) hio
  have hk : (state_signal s e w).cs.sock = w.cs.sock := congrArg (fun x => x.cs.sock) hio
  have hp : (state_signal s e w).pending = w.pending := congrArg (fun x => x.pending) hio
  refine ⟨by rw [hu, a]; exact Nat.zero_le _, ?_, ?_, ?_⟩
  · intro _
    refine ⟨by rw [hu]; exact a, by rw [hk]; exact c, by rw [hp, d]; exact Nat.zero_le _, ?_⟩
    intro h1
    rw [hp, d] at h1
    exact absurd h1 (by decide)
  · intro h
    rw [hd, b] at h
    exact absurd h (by decide)
  · intro _
    rw [hp]; exact d

/-- The completion driver started on an idle attempt establishes the
invariant. -/
theorem Inv_C_connect_go (env : Env) (n : Nat) (l : Label) (r : Bool) (w : World)
    (hw : Idle w) : Inv (C_connect_go env n l r w) := by
  refine C_connect_go_induct env Idle Inv Idle_ioFrame ?_ ?_ ?_ ?_ ?_ n l r w hw
  · intro x ⟨a, b, c, d, _, _, _⟩
    refine ⟨by rw [a]; exact Nat.zero_le _, fun _ => ⟨a, c, by rw [d]; exact Nat.zero_le _, ?_⟩,
      ?_, fun _ => d⟩
    · intro h1
      rw [d] at h1
      exact absurd h1 (by decide)
    · intro h
      rw [b] at h
      exact absurd h (by decide)
  · intro x hx
    exact Inv_of_Idle_signal _ _ x hx
  · intro x hx
    exact Inv_of_Idle_signal _ _ x hx
  · intro x ⟨a, b, c, d, e, f, g⟩
    refine ⟨by show x.ucalls.length ≤ 1; rw [a]; exact Nat.zero_le _,
      fun _ => ⟨a, c, ?_, fun _ => ⟨e, ?_⟩⟩, ?_, ?_⟩
    · show x.pending + 1 ≤ 1
      rw [d]
    · show x.sock.refcount + 1 ≤ 2
      omega
    · intro h
      have : x.cs_deleted = true := h
      rw [b] at this
      exact absurd this (by decide)
    · intro h
      have : IOT_IS_EVENT x.iot = true := h
      rw [g] at this
      exact absurd this (by decide)
  · intro x ⟨a, b, c, d, e, f, g⟩
    refine ⟨by show x.ucalls.length ≤ 1; rw [a]; exact Nat.zero_le _,
      fun _ => ⟨a, c, ?_, fun _ => ⟨e, ?_⟩⟩, ?_, ?_⟩
    · show x.pending + 1 ≤ 1
      rw [d]
    · show x.sock.refcount ≤ 2
      omega
    · intro h
      have : x.cs_deleted = true := h
      rw [b] at this
      exact absurd this (by decide)
    · intro h
      have : IOT_IS_EVENT x.iot = true := h
      rw [g] at this
      exact absurd this (by decide)

theorem dtor_pending (w : World) : (Connstart_dtor w).pending = w.pending := by
  simp only [Connstart_dtor, timer_release, lcbio_unref, lcbio__destroy, lcbio_shutdown, lcbio__protoctx_delall,
    E_close, C_close, World.log]
  split_ifs <;> rfl

theorem dtor_is_event (w : World) :
    IOT_IS_EVENT (Connstart_dtor w).iot = IOT_IS_EVENT w.iot := by
  simp only [Connstart_dtor, timer_release, lcbio_unref, lcbio__destroy, lcbio_shutdown, lcbio__protoctx_delall,
    E_close, C_close, World.log, IOT_IS_EVENT]
  split_ifs <;> rfl

/-- After the teardown of an attempt that has a socket, a socket that is not
freed has lost exactly one reference and has at least one left. -/
theorem dtor_not_freed (w : World) (hs : w.cs.sock = true)
    (hf : (Connstart_dtor w).sock.freed = false) :
    (Connstart_dtor w).sock.refcount = w.sock.refcount - 1 ∧ w.sock.refcount - 1 ≠ 0 := by
  simp only [Connstart_dtor, timer_release, lcbio_unref, lcbio__destroy, lcbio_shutdown, lcbio__protoctx_delall,
    E_close, C_close, World.log, hs] at hf ⊢
  split_ifs at hf ⊢ <;> simp_all

theorem call_user_pending (err : lcb_error_t) (w : World) :
    (call_user err w).pending = w.pending := by
  unfold call_user
  simp only []
  split_ifs <;> rfl

theorem call_user_is_event (err : lcb_error_t) (w : World) :
    IOT_IS_EVENT (call_user err w).iot = IOT_IS_EVENT w.iot := by
  unfold call_user
  simp only []
  split_ifs <;> rfl

theorem call_user_refcount_failure (err : lcb_error_t) (w : World)
    (h : err ≠ lcb_error_t.LCB_SUCCESS) :
    (call_user err w).sock.refcount = w.sock.refcount := by
  unfold call_user
  simp [h]

theorem handler_pending (env : Env) (w : World) : (handler env w).pending = w.pending := by
  unfold handler
  rw [handler_go_succ]
  split
  · rw [dtor_pending]
    split
    · exact ioFrame_pending
        (show ioFrame ((unwatch w).log IOCall.destroy_event) = ioFrame w by simp)
    · rfl
  · simp only [dtor_pending]
    show (call_user _ _).pending = _
    rw [call_user_pending]
    show (handler_pre env w).pending = _
    exact ioFrame_pending (ioFrame_handler_pre env w)

theorem handler_is_event (env : Env) (w : World) :
    IOT_IS_EVENT (handler env w).iot = IOT_IS_EVENT w.iot := by
  unfold handler
  rw [handler_go_succ]
  split
  · rw [dtor_is_event]
    split
    · exact ioFrame_is_event
        (show ioFrame ((unwatch w).log IOCall.destroy_event) = ioFrame w by simp)
    · rfl
  · simp only [dtor_is_event]
    show IOT_IS_EVENT (call_user _ _).iot = _
    rw [call_user_is_event]
    show IOT_IS_EVENT (handler_pre env w).iot = _
    exact ioFrame_is_event (ioFrame_handler_pre env w)

/-- The handler run on an attempt that is PENDING or CANCELLED and whose socket
has at most two references leaves a freed socket or a socket with one
reference. -/
theorem handler_not_freed (env : Env) (w : World) (hs : w.cs.sock = true)
    (hst : w.cs.state = State.CS_PENDING ∨ w.cs.state = State.CS_CANCELLED)
    (hr : w.sock.refcount ≤ 2) (hf : (handler env w).sock.freed = false) :
    (handler env w).sock.refcount = 1 := by
  unfold handler at hf ⊢
  rw [handler_go_succ] at hf ⊢
  split at hf
  · rename_i hc
    rw [if_pos hc]
    have hio : ioFrame (if (w.cs.sock && w.cs.event) = true then
        (unwatch w).log IOCall.destroy_event else w) = ioFrame w := by
      split <;> simp
    obtain ⟨h1, h2⟩ := dtor_not_freed _ ((ioFrame_sockptr hio).trans hs) hf
    rw [h1]
    rw [ioFrame_refcount hio] at h2 ⊢
    omega
  · rename_i hc
    rw [if_neg hc]
    have hp : w.cs.state = State.CS_PENDING := hst.resolve_right hc
    have herr : handler_err env w = lcb_error_t.LCB_ETIMEDOUT := by
      simp [handler_err, hp]
    have hio := ioFrame_handler_pre env w
    simp only [herr] at hf ⊢
    have hk : ({ call_user lcb_error_t.LCB_ETIMEDOUT
        { handler_pre env w with cs := { (handler_pre env w).cs with in_uhandler := true } } with
        cs := { (call_user lcb_error_t.LCB_ETIMEDOUT
          { handler_pre env w with
            cs := { (handler_pre env w).cs with in_uhandler := true } }).cs with
          in_uhandler := false } } : World).cs.sock = true := by
      simp only [call_user_cs]
      exact (ioFrame_sockptr hio).trans hs
    obtain ⟨h1, h2⟩ := dtor_not_freed _ hk hf
    rw [h1]
    have hrc : ({ call_user lcb_error_t.LCB_ETIMEDOUT
        { handler_pre env w with cs := { (handler_pre env w).cs with in_uhandler := true } } with
        cs := { (call_user lcb_error_t.LCB_ETIMEDOUT
          { handler_pre env w with
            cs := { (handler_pre env w).cs with in_uhandler := true } }).cs with
          in_uhandler := false } } : World).sock.refcount = w.sock.refcount := by
      show (call_user _ _).sock.refcount = _
      rw [call_user_refcount_failure _ _ (by decide)]
      show (handler_pre env w).sock.refcount = _
      exact ioFrame_refcount hio
    rw [hrc] at h2 ⊢
    omega

/-- The handler run on a live attempt that made no callback yet establishes
the invariant, provided an awaited connect comes with a state PENDING or
CANCELLED and at most two references. -/
theorem Inv_handler (env : Env) (w : World) (hu : w.ucalls = []) (hs : w.cs.sock = true)
    (hp : 0 < w.pending →
      (w.cs.state = State.CS_PENDING ∨ w.cs.state = State.CS_CANCELLED) ∧
        w.sock.refcount ≤ 2)
    (he : IOT_IS_EVENT w.iot = true → w.pending = 0) : Inv (handler env w) := by
  refine ⟨?_, ?_, ?_, ?_⟩
  · by_cases hc : w.cs.state = State.CS_CANCELLED
    · rw [handler_ucalls_cancelled env w hc, hu]
      exact Nat.zero_le _
    · rw [handler_ucalls env w hc, hu]
      simp
  · intro h
    rw [handler_deleted] at h
    exact absurd h (by decide)
  · intro _ h2 h3
    rw [handler_pending] at h2
    exact handler_not_freed env w hs (hp h2).1 (hp h2).2 h3
  · intro h
    rw [handler_is_event] at h
    rw [handler_pending]
    exact he h

theorem Inv_fresh (w : World) (hu : w.ucalls = []) (hd : w.cs_deleted = false)
    (hs : w.cs.sock = true) (hp : w.pending = 0) : Inv w := by
  refine ⟨by rw [hu]; exact Nat.zero_le _, fun _ => ⟨hu, hs, by rw [hp]; exact Nat.zero_le _, ?_⟩,
    ?_, fun _ => hp⟩
  · intro h1
    rw [hp] at h1
    exact absurd h1 (by decide)
  · intro h
    rw [hd] at h
    exact absurd h (by decide)

/-- The constructor establishes the invariant. -/
theorem Inv_Connstart_new (env : Env) (iot_ : lcbio_TABLE) (settings_ : lcb_settings)
    (getaddrinfo : ai_family_t → Int × List addrinfo) (timeout : Nat)
    (handler_ : UserHandler) (arg : Nat) :
    Inv (Connstart_new env iot_ settings_ getaddrinfo timeout handler_ arg) := by
  unfold Connstart_new
  simp only []
  split
  · have hsig : ∀ w : World, w.ucalls = [] → w.cs_deleted = false → w.cs.sock = true →
        w.pending = 0 → Inv (notify_error lcb_error_t.LCB_UNKNOWN_HOST w) := by
      intro w hu hd hs hp
      have hio : sigFrame (notify_error lcb_error_t.LCB_UNKNOWN_HOST w) = sigFrame w := by
        unfold notify_error state_signal; split_ifs <;> rfl
      exact Inv_fresh _ ((congrArg (fun x => x.ucalls) hio).trans hu)
        ((congrArg (fun x => x.cs_deleted) hio).trans hd)
        ((congrArg (fun x => x.cs.sock) hio).trans hs)
        ((congrArg (fun x => x.pending) hio).trans hp)
    apply hsig
    all_goals split <;> rfl
  · split
    · rename_i hE
      apply Inv_E_conncb
      · apply Inv_fresh <;> simp [hE, World.log]
      · simp only [hE, if_true, World.log]
        exact hE
    · rename_i hE
      apply Inv_C_connect_go
      refine ⟨?_, ?_, ?_, ?_, ?_, ?_, ?_⟩ <;> simp [hE]

theorem Inv_destroy (w : World) (hi : Inv w) (hp : 0 < w.pending) (err : Int) :
    Inv (lcbio__destroy
      { w with
          sock := { w.sock with refcount := w.sock.refcount - 1 }
          pending := w.pending - 1
          iot := { w.iot with errno := err } }) := by
  obtain ⟨i1, i2, _, i4⟩ := hi
  have hfr : ∀ x : World,
      (lcbio__destroy x).ucalls = x.ucalls ∧ (lcbio__destroy x).cs_deleted = x.cs_deleted ∧
      (lcbio__destroy x).cs = x.cs ∧ (lcbio__destroy x).pending = x.pending ∧
      (lcbio__destroy x).sock.freed = true ∧
      IOT_IS_EVENT (lcbio__destroy x).iot = IOT_IS_EVENT x.iot := by
    intro x
    simp only [lcbio__destroy, lcbio_shutdown, lcbio__protoctx_delall, E_close, C_close, World.log, IOT_IS_EVENT]
    split_ifs <;> simp
  obtain ⟨f1, f2, f3, f4, f5, f6⟩ := hfr
    { w with
        sock := { w.sock with refcount := w.sock.refcount - 1 }
        pending := w.pending - 1
        iot := { w.iot with errno := err } }
  refine ⟨by rw [f1]; exact i1, ?_, ?_, ?_⟩
  · intro h
    rw [f2] at h
    obtain ⟨j1, j2, j3, _⟩ := i2 h
    refine ⟨by rw [f1]; exact j1, by rw [f3]; exact j2, by rw [f4]; show w.pending - 1 ≤ 1; omega,
      ?_⟩
    intro h1
    rw [f4] at h1
    have : w.pending - 1 = 1 := h1
    omega
  · intro _ _ h3
    rw [f5] at h3
    exact absurd h3 (by decide)
  · intro h
    rw [f6] at h
    have := i4 h
    omega

/-- The completion callback delivered for an awaited connect keeps the
invariant. -/
theorem Inv_completion (env : Env) (status err : Int) (w : World) (hi : Inv w)
    (hp : 0 < w.pending) (hf : w.sock.freed = false) :
    Inv (C_conncb env status
      { w with pending := w.pending - 1, iot := { w.iot with errno := err } }) := by
  unfold C_conncb
  simp only []
  split
  · exact Inv_destroy w hi hp err
  · rename_i hrc
    have hrc1 : w.sock.refcount - 1 ≠ 0 := hrc
    obtain ⟨i1, i2, i3, i4⟩ := hi
    have hd : w.cs_deleted = false := by
      cases h : w.cs_deleted
      · rfl
      · have := i3 h hp hf
        omega
    obtain ⟨j1, j2, j3, j4⟩ := i2 hd
    have hp1 : w.pending = 1 := by omega
    obtain ⟨k1, k2⟩ := j4 hp1
    have hne : IOT_IS_EVENT w.iot = false := by
      cases h : IOT_IS_EVENT w.iot
      · rfl
      · have := i4 h
        omega
    split
    · apply Inv_handler
      · exact j1
      · exact j2
      · intro h
        have h0 : w.pending - 1 = 0 := by omega
        have : 0 < w.pending - 1 := h
        omega
      · intro _
        show w.pending - 1 = 0
        omega
    · unfold C_connect
      apply Inv_C_connect_go
      have hidle : Idle
          { w with
              sock := { w.sock with refcount := w.sock.refcount - 1 }
              pending := w.pending - 1
              iot := { w.iot with errno := err } } :=
        ⟨j1, hd, j2, by show w.pending - 1 = 0; omega, k1,
          by show w.sock.refcount - 1 ≤ 1; omega, hne⟩
      exact Idle_ioFrame _ _ (by simp) hidle

/-- Every event keeps the invariant. -/
theorem Inv_step (env : Env) (e : Event) (w : World) (hi : Inv w) : Inv (step env e w) := by
  cases e with
  | watch_cb events =>
    simp only [step]
    split
    · rename_i h
      simp only [Bool.and_eq_true] at h
      exact Inv_E_conncb env events w hi h.2
    · exact hi
  | completion_cb status err =>
    simp only [step]
    split
    · rename_i h
      simp only [Bool.and_eq_true, decide_eq_true_eq, Bool.not_eq_true'] at h
      exact Inv_completion env status err w hi h.1 h.2
    · exact hi
  | timer_cb =>
    simp only [step]
    split
    · rename_i h
      simp only [Bool.not_eq_true'] at h
      obtain ⟨_, i2, _, i4⟩ := hi
      obtain ⟨j1, j2, j3, j4⟩ := i2 h
      have hp1 : 0 < w.pending → w.pending = 1 := fun hp => by omega
      exact Inv_handler env w j1 j2
        (fun hp => ⟨Or.inl (j4 (hp1 hp)).1, (j4 (hp1 hp)).2⟩) i4
    · exact hi
  | cancel_call =>
    simp only [step]
    split
    · rename_i h
      simp only [Bool.not_eq_true'] at h
      rw [cancel_eq]
      split
      · exact hi
      · obtain ⟨_, i2, _, i4⟩ := hi
        obtain ⟨j1, j2, j3, j4⟩ := i2 h
        have hp1 : 0 < w.pending → w.pending = 1 := fun hp => by omega
        exact Inv_handler env _ j1 j2 (fun hp => ⟨Or.inr rfl, (j4 (hp1 hp)).2⟩) i4
    · exact hi

theorem Inv_run (env : Env) (events : List Event) :
    ∀ w : World, Inv w → Inv (run env events w) := by
  induction events with
  | nil => intro w hi; exact hi
  | cons e es ih => intro w hi; exact ih _ (Inv_step env e w hi)

/-- C1: for every attempt (every table, settings, resolver answer, timeout and
user callback given to the constructor) and every sequence of events applied
to it (watch callbacks, completion callbacks, timer expiry or deferred
dispatch, external cancel; the user callback may itself call cancel and take a
reference on the socket), the user callback is invoked at most once. -/
theorem callback_at_most_once (env : Env) (iot_ : lcbio_TABLE) (settings_ : lcb_settings)
    (getaddrinfo : ai_family_t → Int × List addrinfo) (timeout : Nat)
    (handler_ : UserHandler) (arg : Nat) (events : List Event) :
    (run env events
      (Connstart_new env iot_ settings_ getaddrinfo timeout handler_ arg)).ucalls.length ≤ 1 :=
  (Inv_run env events _
    (Inv_Connstart_new env iot_ settings_ getaddrinfo timeout handler_ arg)).1

/-! ## The bound on the jumps of a driver is sufficient -/

theorem ai2sock_E_cursor (env : Env) :
    ∀ (ai : List addrinfo) (errno : Int) (log : List IOCall),
      (lcbio_E_ai2sock env ai errno log).2.1.length ≤ ai.length ∧
      ((lcbio_E_ai2sock env ai errno log).1 = INVALID_SOCKET →
        (lcbio_E_ai2sock env ai errno log).2.1 = []) ∧
      ((lcbio_E_ai2sock env ai errno log).1 ≠ INVALID_SOCKET →
        (lcbio_E_ai2sock env ai errno log).2.1 ≠ []) := by
  intro ai
  induction ai with
  | nil => intro errno log; simp [lcbio_E_ai2sock]
  | cons a rest ih =>
    intro errno log
    unfold lcbio_E_ai2sock
    split
    · rename_i h
      simp [h]
    · obtain ⟨h1, h2, h3⟩ := ih (env.socket_errno a) (log ++ [IOCall.E_socket a INVALID_SOCKET])
      exact ⟨Nat.le_succ_of_le h1, h2, h3⟩

theorem ai2sock_C_cursor (env : Env) :
    ∀ (ai : List addrinfo) (errno : Int) (log : List IOCall),
      (lcbio_C_ai2sock env ai errno log).2.1.length ≤ ai.length ∧
      ((lcbio_C_ai2sock env ai errno log).1 = none →
        (lcbio_C_ai2sock env ai errno log).2.1 = []) ∧
      ((lcbio_C_ai2sock env ai errno log).1 ≠ none →
        (lcbio_C_ai2sock env ai errno log).2.1 ≠ []) := by
  intro ai
  induction ai with
  | nil => intro errno log; simp [lcbio_C_ai2sock]
  | cons a rest ih =>
    intro errno log
    unfold lcbio_C_ai2sock
    split
    · simp
    · obtain ⟨h1, h2, h3⟩ := ih (env.socket_errno a) (log ++ [IOCall.C_socket a none])
      exact ⟨Nat.le_succ_of_le h1, h2, h3⟩

theorem ensure_sock_E_while_cursor (env : Env) (n : Nat) :
    ∀ w : World,
      (ensure_sock_E_while env n w).1.cs.ai.length ≤ w.cs.ai.length ∧
      (ensure_sock_E_while env n w).1.iot.connects = w.iot.connects ∧
      ((ensure_sock_E_while env n w).2 = true → (ensure_sock_E_while env n w).1.cs.ai ≠ []) := by
  induction n with
  | zero => intro w; simp [ensure_sock_E_while]
  | succ n ih =>
    intro w
    unfold ensure_sock_E_while
    simp only []
    obtain ⟨c1, _, c3⟩ := ai2sock_E_cursor env w.cs.ai w.iot.errno w.iot.calls
    split
    · split
      · rename_i h
        exact ⟨c1, rfl, fun _ => c3 h⟩
      · obtain ⟨h1, h2, h3⟩ := ih
          { w with
              sock := { w.sock with
                fd := (lcbio_E_ai2sock env w.cs.ai w.iot.errno w.iot.calls).1 }
              cs := { w.cs with
                ai := (lcbio_E_ai2sock env w.cs.ai w.iot.errno w.iot.calls).2.1 }
              iot := { w.iot with
                errno := (lcbio_E_ai2sock env w.cs.ai w.iot.errno w.iot.calls).2.2.1,
                calls := (lcbio_E_ai2sock env w.cs.ai w.iot.errno w.iot.calls).2.2.2 } }
        exact ⟨Nat.le_trans h1 c1, h2, h3⟩
    · simp

theorem ensure_sock_C_while_cursor (env : Env) (n : Nat) :
    ∀ w : World,
      (ensure_sock_C_while env n w).1.cs.ai.length ≤ w.cs.ai.length ∧
      (ensure_sock_C_while env n w).1.iot.connects = w.iot.connects ∧
      ((ensure_sock_C_while env n w).2 = true → (ensure_sock_C_while env n w).1.cs.ai ≠ []) := by
  induction n with
  | zero => intro w; simp [ensure_sock_C_while]
  | succ n ih =>
    intro w
    unfold ensure_sock_C_while
    simp only []
    obtain ⟨c1, _, c3⟩ := ai2sock_C_cursor env w.cs.ai w.iot.errno w.iot.calls
    split
    · split
      · rename_i h
        exact ⟨c1, rfl, fun _ => c3 h⟩
      · obtain ⟨h1, h2, h3⟩ := ih
          { w with
              sock := { w.sock with
                sd := (lcbio_C_ai2sock env w.cs.ai w.iot.errno w.iot.calls).1 }
              cs := { w.cs with
                ai := (lcbio_C_ai2sock env w.cs.ai w.iot.errno w.iot.calls).2.1 }
              iot := { w.iot with
                errno := (lcbio_C_ai2sock env w.cs.ai w.iot.errno w.iot.calls).2.2.1,
                calls := (lcbio_C_ai2sock env w.cs.ai w.iot.errno w.iot.calls).2.2.2 } }
        exact ⟨Nat.le_trans h1 c1, h2, h3⟩
    · simp

/-- The function `ensure_sock` only moves the cursor forward, consumes no
connect answer, and returns true only with a non-NULL cursor. -/
theorem ensure_sock_cursor (env : Env) (w : World) :
    (ensure_sock env w).1.cs.ai.length ≤ w.cs.ai.length ∧
    (ensure_sock env w).1.iot.connects = w.iot.connects ∧
    ((ensure_sock env w).2 = true → (ensure_sock env w).1.cs.ai ≠ []) := by
  unfold ensure_sock
  obtain ⟨e1, e2, e3⟩ := ensure_sock_E_while_cursor env (w.cs.ai.length + 1) w
  obtain ⟨c1, c2, c3⟩ := ensure_sock_C_while_cursor env (w.cs.ai.length + 1) w
  split
  · simp
  · rename_i hai
    simp only []
    split_ifs <;> simp_all [lcbio_mksyserr]

theorem clear_sock_cursor (w : World) :
    (clear_sock w).cs.ai = w.cs.ai.tail ∧ (clear_sock w).iot.connects = w.iot.connects := by
  unfold clear_sock
  simp only []
  cases hai : w.cs.ai with
  | nil => simp [hai]
  | cons a rest =>
    simp only [hai, E_close, C_close, World.log, unwatch]
    split_ifs <;> simp_all

theorem IOT_connect0_cursor (ai : List addrinfo) (w : World) :
    (IOT_connect0 ai w).2.cs = w.cs ∧
    ((IOT_connect0 ai w).1 ≠ 0 →
      (IOT_connect0 ai w).2.iot.connects.length + 1 = w.iot.connects.length) := by
  unfold IOT_connect0
  split
  · simp [World.log]
  · rename_i rv e rest h
    simp [h]

theorem IOT_connect_cursor (w : World) :
    (IOT_connect w).2.cs = w.cs ∧
    ((IOT_connect w).1 ≠ 0 →
      (IOT_connect w).2.iot.connects.length + 1 = w.iot.connects.length) := by
  unfold IOT_connect
  split
  · simp [World.log]
  · rename_i rv e rest h
    simp [h]

theorem getsockopt_cursor (w : World) :
    (getsockopt w).2.cs = w.cs ∧ (getsockopt w).2.iot.connects = w.iot.connects := by
  unfold getsockopt
  split <;> simp [World.log]

theorem jumps_left_pos (l : Label) (w : World) : 0 < jumps_left l w := by
  unfold jumps_left
  cases l
  · simp only []
    split <;> omega
  · simp only []
    omega

/-- After `clear_sock` behind a failed connect, fewer jumps are left. -/
theorem jumps_left_clear (w w1 : World) (hcs : w1.cs.ai = w.cs.ai)
    (hc : w1.iot.connects.length + 1 = w.iot.connects.length) :
    jumps_left Label.GT_NEXTSOCK (clear_sock w1) < jumps_left Label.GT_CONNECT w := by
  obtain ⟨c1, c2⟩ := clear_sock_cursor w1
  simp only [jumps_left, c1, c2, hcs]
  cases hai : w.cs.ai with
  | nil => simp; omega
  | cons a rest =>
    simp only [List.tail_cons, List.length_cons]
    split <;> omega

/-- The result of the readiness driver does not depend on the bound on its
jumps once the bound is at least `jumps_left`: the driver always returns by
itself. -/
theorem E_conncb_go_fuel (env : Env) (events : Nat) :
    ∀ (n m : Nat) (l : Label) (r : Bool) (ai : List addrinfo) (w : World),
      jumps_left l w ≤ n → jumps_left l w ≤ m →
      E_conncb_go env events n l r ai w = E_conncb_go env events m l r ai w := by
  intro n
  induction n with
  | zero =>
    intro m l r ai w hn _
    have := jumps_left_pos l w
    omega
  | succ n ih =>
    intro m l r ai w hn hm
    cases m with
    | zero =>
      have := jumps_left_pos l w
      omega
    | succ m =>
      cases l with
      | GT_NEXTSOCK =>
        obtain ⟨e1, e2, e3⟩ := ensure_sock_cursor env w
        conv_lhs => rw [E_conncb_go]
        conv_rhs => rw [E_conncb_go]
        simp only []
        by_cases hens : (ensure_sock env w).2 = true
        · have hne := e3 hens
          have hwne : w.cs.ai ≠ [] := by
            intro h
            rw [h] at e1
            exact hne (List.length_eq_zero.mp (Nat.le_zero.mp e1))
          have hpos : 0 < (ensure_sock env w).1.cs.ai.length := List.length_pos.mpr hne
          simp only [jumps_left, if_neg hwne] at hn hm
          simp only [hens, Bool.not_true, Bool.false_eq_true, if_false]
          split
          · obtain ⟨g1, g2⟩ := getsockopt_cursor (ensure_sock env w).1
            obtain ⟨c1, c2⟩ := clear_sock_cursor
              (lcbio_mksyserr (getsockopt (ensure_sock env w).1).1
                (getsockopt (ensure_sock env w).1).2)
            have hXai : (clear_sock (lcbio_mksyserr (getsockopt (ensure_sock env w).1).1
                  (getsockopt (ensure_sock env w).1).2)).cs.ai =
                (ensure_sock env w).1.cs.ai.tail := by
              rw [c1]; simp [lcbio_mksyserr, g1]
            have hXc : (clear_sock (lcbio_mksyserr (getsockopt (ensure_sock env w).1).1
                  (getsockopt (ensure_sock env w).1).2)).iot.connects = w.iot.connects := by
              rw [c2]; simp [lcbio_mksyserr, g2, e2]
            have hb : jumps_left Label.GT_NEXTSOCK
                (clear_sock (lcbio_mksyserr (getsockopt (ensure_sock env w).1).1
                  (getsockopt (ensure_sock env w).1).2)) ≤
                2 * w.cs.ai.length + w.iot.connects.length + 1 := by
              simp only [jumps_left, hXai, hXc]
              have ht : (ensure_sock env w).1.cs.ai.tail.length + 1 =
                  (ensure_sock env w).1.cs.ai.length := by
                cases hai1 : (ensure_sock env w).1.cs.ai with
                | nil => exact absurd hai1 hne
                | cons a rest => simp
              split <;> omega
            exact ih m _ _ _ _ (by omega) (by omega)
          · have hb : jumps_left Label.GT_CONNECT (ensure_sock env w).1 ≤
                2 * w.cs.ai.length + w.iot.connects.length + 1 := by
              simp only [jumps_left, e2]
              omega
            exact ih m _ _ _ _ (by omega) (by omega)
        · simp only [Bool.not_eq_true] at hens
          simp [hens]
      | GT_CONNECT =>
        obtain ⟨k1, k2⟩ := IOT_connect0_cursor ai w
        conv_lhs => rw [E_conncb_go]
        conv_rhs => rw [E_conncb_go]
        simp only []
        by_cases hrv : (IOT_connect0 ai w).1 = 0
        · simp [hrv]
        · have hlen := k2 hrv
          simp only [hrv, if_false]
          have hC : jumps_left Label.GT_CONNECT
              (lcbio_mksyserr (IOT_connect0 ai w).2.iot.errno (IOT_connect0 ai w).2) <
              jumps_left Label.GT_CONNECT w := by
            simp only [jumps_left, lcbio_mksyserr, k1]
            omega
          have hN := jumps_left_clear w
            (lcbio_mksyserr (IOT_connect0 ai w).2.iot.errno (IOT_connect0 ai w).2)
            (by simp [lcbio_mksyserr, k1]) (by simpa [lcbio_mksyserr] using hlen)
          split
          · exact ih m _ _ _ _ (by omega) (by omega)
          · rfl
          · rfl
          · split
            · exact ih m _ _ _ _ (by omega) (by omega)
            · exact ih m _ _ _ _ (by omega) (by omega)
          · exact ih m _ _ _ _ (by omega) (by omega)

/-- The function `E_conncb` returns by itself: a larger bound on the jumps
gives the same result. -/
theorem E_conncb_fuel (env : Env) (events : Nat) (w : World) (k : Nat) :
    E_conncb_go env events (driver_fuel w + k) Label.GT_NEXTSOCK false [] w =
      E_conncb env events w := by
  unfold E_conncb
  apply E_conncb_go_fuel
  all_goals
    simp only [jumps_left, driver_fuel]
    split <;> omega

/-- The result of the completion driver does not depend on the bound on its
jumps once the bound is at least `jumps_left`. -/
theorem C_connect_go_fuel (env : Env) :
    ∀ (n m : Nat) (l : Label) (r : Bool) (w : World),
      jumps_left l w ≤ n → jumps_left l w ≤ m →
      C_connect_go env n l r w = C_connect_go env m l r w := by
  intro n
  induction n with
  | zero =>
    intro m l r w hn _
    have := jumps_left_pos l w
    omega
  | succ n ih =>
    intro m l r w hn hm
    cases m with
    | zero =>
      have := jumps_left_pos l w
      omega
    | succ m =>
      cases l with
      | GT_NEXTSOCK =>
        obtain ⟨e1, e2, e3⟩ := ensure_sock_cursor env w
        conv_lhs => rw [C_connect_go]
        conv_rhs => rw [C_connect_go]
        by_cases hens : (ensure_sock env w).2 = true
        · have hne := e3 hens
          have hwne : w.cs.ai ≠ [] := by
            intro h
            rw [h] at e1
            exact hne (List.length_eq_zero.mp (Nat.le_zero.mp e1))
          simp only [jumps_left, if_neg hwne] at hn hm
          simp only [hens, Bool.not_true, Bool.false_eq_true, if_false]
          have hb : jumps_left Label.GT_CONNECT (ensure_sock env w).1 ≤
              2 * w.cs.ai.length + w.iot.connects.length + 1 := by
            simp only [jumps_left, e2]
            omega
          exact ih m _ _ _ (by omega) (by omega)
        · simp only [Bool.not_eq_true] at hens
          simp [hens]
      | GT_CONNECT =>
        obtain ⟨k1, k2⟩ := IOT_connect_cursor w
        conv_lhs => rw [C_connect_go]
        conv_rhs => rw [C_connect_go]
        simp only []
        by_cases hrv : (IOT_connect w).1 = 0
        · simp [hrv]
        · have hlen := k2 hrv
          simp only [hrv, if_false]
          have hC : jumps_left Label.GT_CONNECT
              (lcbio_mksyserr (IOT_connect w).2.iot.errno (IOT_connect w).2) <
              jumps_left Label.GT_CONNECT w := by
            simp only [jumps_left, lcbio_mksyserr, k1]
            omega
          have hN := jumps_left_clear w
            (lcbio_mksyserr (IOT_connect w).2.iot.errno (IOT_connect w).2)
            (by simp [lcbio_mksyserr, k1]) (by simpa [lcbio_mksyserr] using hlen)
          split
          · exact ih m _ _ _ (by omega) (by omega)
          · rfl
          · rfl
          · split
            · exact ih m _ _ _ (by omega) (by omega)
            · exact ih m _ _ _ (by omega) (by omega)
          · exact ih m _ _ _ (by omega) (by omega)

/-- The function `C_connect` returns by itself: a larger bound on the jumps
gives the same result. -/
theorem C_connect_fuel (env : Env) (w : World) (k : Nat) :
    C_connect_go env (driver_fuel w + k) Label.GT_NEXTSOCK false w = C_connect env w := by
  unfold C_connect
  apply C_connect_go_fuel
  all_goals
    simp only [jumps_left, driver_fuel]
    split <;> omega

/-- The loop of `ensure_sock` in the readiness flavor is left by itself after
one iteration: every bound of at least 1 gives the same result. -/
theorem ensure_sock_E_while_fuel (env : Env) (n : Nat) (w : World) :
    ensure_sock_E_while env (n + 1) w = ensure_sock_E_while env 1 w := by
  obtain ⟨_, c2, _⟩ := ai2sock_E_cursor env w.cs.ai w.iot.errno w.iot.calls
  conv_lhs => rw [ensure_sock_E_while]
  conv_rhs => rw [ensure_sock_E_while]
  simp only []
  split
  · split
    · rfl
    · rename_i h
      simp only [ne_eq, not_not] at h
      have hai := c2 h
      cases n with
      | zero => rfl
      | succ n =>
        rw [ensure_sock_E_while]
        simp [hai, ensure_sock_E_while]
  · rfl

/-- The loop of `ensure_sock` in the completion flavor is left by itself after
one iteration. -/
theorem ensure_sock_C_while_fuel (env : Env) (n : Nat) (w : World) :
    ensure_sock_C_while env (n + 1) w = ensure_sock_C_while env 1 w := by
  obtain ⟨_, c2, _⟩ := ai2sock_C_cursor env w.cs.ai w.iot.errno w.iot.calls
  conv_lhs => rw [ensure_sock_C_while]
  conv_rhs => rw [ensure_sock_C_while]
  simp only []
  split
  · split
    · rfl
    · rename_i h
      simp only [ne_eq, not_not] at h
      have hai := c2 h
      cases n with
      | zero => rfl
      | succ n =>
        rw [ensure_sock_C_while]
        simp [hai, ensure_sock_C_while]
  · rfl

/-- The depth bound of `handler` is sufficient: every positive bound gives the
same result. -/
theorem handler_fuel (env : Env) (n : Nat) (w : World) :
    handler_go env (n + 1) w = handler env w := by
  unfold handler
  rw [handler_go_succ, handler_go_succ]

/-- The depth bound of `cancel` is sufficient: every bound of at least 2 gives
the same result. -/
theorem cancel_fuel (env : Env) (n : Nat) (w : World) :
    cancel_go env (n + 2) w = cancel env w := by
  unfold cancel
  rw [cancel_go, cancel_go, handler_fuel, handler_fuel]

/-! ## Live attempts between two events -/

theorem state_signal_not_cancelled (s : State) (e : lcb_error_t) (w : World)
    (hs : s ≠ State.CS_CANCELLED) (h : w.cs.state ≠ State.CS_CANCELLED) :
    (state_signal s e w).cs.state ≠ State.CS_CANCELLED := by
  unfold state_signal
  split
  · exact h
  · simp only [timer_signal]
    exact hs

theorem state_signal_in_uhandler (s : State) (e : lcb_error_t) (w : World) :
    (state_signal s e w).cs.in_uhandler = w.cs.in_uhandler := by
  unfold state_signal
  split
  · rfl
  · simp only [timer_signal]
    split_ifs <;> rfl

theorem state_signal_deleted (s : State) (e : lcb_error_t) (w : World) :
    (state_signal s e w).cs_deleted = w.cs_deleted := by
  unfold state_signal
  split
  · rfl
  · simp only [timer_signal]
    split_ifs <;> rfl

theorem ioFrame_in_uhandler {w w1 : World} (h : ioFrame w1 = ioFrame w) :
    w1.cs.in_uhandler = w.cs.in_uhandler :=
  congrArg (fun x => x.cs.in_uhandler) h

theorem Calm_ioFrame (w w1 : World) (h : ioFrame w1 = ioFrame w) (hw : Calm w) : Calm w1 :=
  ⟨(ioFrame_deleted h).trans hw.1, (ioFrame_in_uhandler h).trans hw.2.1,
    by rw [ioFrame_state h]; exact hw.2.2⟩

theorem Calm_state_signal (s : State) (e : lcb_error_t) (w : World)
    (hs : s ≠ State.CS_CANCELLED) (hw : Calm w) : Calm (state_signal s e w) :=
  ⟨(state_signal_deleted s e w).trans hw.1, (state_signal_in_uhandler s e w).trans hw.2.1,
    state_signal_not_cancelled s e w hs hw.2.2⟩

theorem Calm_E_conncb_go (env : Env) (events n : Nat) (l : Label) (r : Bool)
    (ai : List addrinfo) (w : World) (hw : Calm w) : Calm (E_conncb_go env events n l r ai w) := by
  refine E_conncb_go_induct env events Calm Calm Calm_ioFrame ?_ ?_ ?_ n l r ai w hw
  · intro x hx; exact hx
  · intro x hx; exact Calm_state_signal _ _ _ (by decide) hx
  · intro x hx; exact Calm_state_signal _ _ _ (by decide) hx

theorem Calm_C_connect_go (env : Env) (n : Nat) (l : Label) (r : Bool) (w : World)
    (hw : Calm w) : Calm (C_connect_go env n l r w) := by
  refine C_connect_go_induct env Calm Calm Calm_ioFrame ?_ ?_ ?_ ?_ ?_ n l r w hw
  · intro x hx; exact hx
  · intro x hx; exact Calm_state_signal _ _ _ (by decide) hx
  · intro x hx; exact Calm_state_signal _ _ _ (by decide) hx
  · intro x hx; exact hx
  · intro x hx; exact hx

theorem Calm_Connstart_new (env : Env) (iot_ : lcbio_TABLE) (settings_ : lcb_settings)
    (getaddrinfo : ai_family_t → Int × List addrinfo) (timeout : Nat)
    (handler_ : UserHandler) (arg : Nat) :
    Calm (Connstart_new env iot_ settings_ getaddrinfo timeout handler_ arg) := by
  unfold Connstart_new
  simp only []
  split
  · apply Calm_state_signal _ _ _ (by decide)
    split <;> exact ⟨rfl, rfl, by simp [World.log]⟩
  · split
    · rename_i hE
      apply Calm_E_conncb_go
      refine ⟨?_, ?_, ?_⟩ <;> simp [hE, World.log]
    · rename_i hE
      apply Calm_C_connect_go
      refine ⟨?_, ?_, ?_⟩ <;> simp [hE]

theorem destroy_fields (x : World) :
    (lcbio__destroy x).ucalls = x.ucalls ∧ (lcbio__destroy x).cs_deleted = x.cs_deleted ∧
    (lcbio__destroy x).cs = x.cs ∧ (lcbio__destroy x).pending = x.pending ∧
    (lcbio__destroy x).sock.freed = true ∧
    (lcbio__destroy x).sock.refcount = x.sock.refcount := by
  simp only [lcbio__destroy, lcbio_shutdown, lcbio__protoctx_delall, E_close, C_close,
    World.log, IOT_IS_EVENT]
  split_ifs <;> simp

/-- Once the attempt is destroyed no event reaches it: an event can only
destroy the socket. -/
theorem step_dead (env : Env) (e : Event) (w : World) (hi : Inv w)
    (hd : w.cs_deleted = true) :
    (step env e w).cs_deleted = true ∧ (step env e w).ucalls = w.ucalls := by
  cases e with
  | watch_cb events => simp [step, hd]
  | timer_cb => simp [step, hd]
  | cancel_call => simp [step, hd]
  | completion_cb status err =>
    simp only [step]
    split
    · rename_i h
      simp only [Bool.and_eq_true, decide_eq_true_eq, Bool.not_eq_true'] at h
      have hrc := hi.2.2.1 hd h.1 h.2
      unfold C_conncb
      simp only []
      rw [if_pos (show w.sock.refcount - 1 = 0 by omega)]
      obtain ⟨f1, f2, _, _, _, _⟩ := destroy_fields
        { w with
            sock := { w.sock with refcount := w.sock.refcount - 1 }
            pending := w.pending - 1
            iot := { w.iot with errno := err } }
      exact ⟨f2.trans hd, f1⟩
    · exact ⟨hd, rfl⟩

/-- An event applied to a live attempt: an external cancel destroys it without
a callback; every other event either leaves it alive or destroys it after one
invocation of the callback. -/
theorem step_alive (env : Env) (e : Event) (w : World) (hi : Inv w) (hc : Calm w) :
    (e = Event.cancel_call →
      (step env e w).cs_deleted = true ∧ (step env e w).ucalls = []) ∧
    (e ≠ Event.cancel_call →
      Calm (step env e w) ∨
        ((step env e w).cs_deleted = true ∧ (step env e w).ucalls ≠ [])) := by
  obtain ⟨c1, c2, c3⟩ := hc
  have hu : w.ucalls = [] := (hi.2.1 c1).1
  cases e with
  | watch_cb events =>
    refine ⟨fun h => (by cases h), fun _ => Or.inl ?_⟩
    simp only [step]
    split
    · exact Calm_E_conncb_go env events _ _ _ _ w ⟨c1, c2, c3⟩
    · exact ⟨c1, c2, c3⟩
  | timer_cb =>
    refine ⟨fun h => (by cases h), fun _ => Or.inr ?_⟩
    simp only [step, c1, Bool.not_false, if_true]
    refine ⟨handler_deleted env w, ?_⟩
    rw [handler_ucalls env w c3, hu]
    simp
  | cancel_call =>
    refine ⟨fun _ => ?_, fun h => absurd rfl h⟩
    simp only [step, c1, Bool.not_false, if_true]
    rw [cancel_eq, c2]
    simp only [Bool.false_eq_true, if_false]
    exact ⟨handler_deleted env _, (handler_ucalls_cancelled env _ rfl).trans hu⟩
  | completion_cb status err =>
    refine ⟨fun h => (by cases h), fun _ => ?_⟩
    simp only [step]
    split
    · unfold C_conncb
      simp only []
      split
      · left
        obtain ⟨_, f2, f3, _, _, _⟩ := destroy_fields
          { w with
              sock := { w.sock with refcount := w.sock.refcount - 1 }
              pending := w.pending - 1
              iot := { w.iot with errno := err } }
        exact ⟨f2.trans c1, by rw [f3]; exact c2, by rw [f3]; exact c3⟩
      · split
        · right
          refine ⟨handler_deleted env _, ?_⟩
          rw [handler_ucalls]
          · simp
          · split
            · simp
            · exact c3
        · left
          unfold C_connect
          apply Calm_C_connect_go
          exact Calm_ioFrame _ _ (by simp)
            (show Calm { w with
              sock := { w.sock with refcount := w.sock.refcount - 1 }
              pending := w.pending - 1
              iot := { w.iot with errno := err } } from ⟨c1, c2, c3⟩)
    · exact Or.inl ⟨c1, c2, c3⟩

theorem Quiet_step (env : Env) (e : Event) (w : World) (hi : Inv w) (hq : Quiet w) :
    Quiet (step env e w) := by
  intro hd
  cases hw : w.cs_deleted with
  | true => rw [(step_dead env e w hi hw).1] at hd; cases hd
  | false =>
    obtain ⟨q1, q2⟩ := hq hw
    obtain ⟨s1, s2⟩ := step_alive env e w hi ⟨hw, q1, q2⟩
    by_cases he : e = Event.cancel_call
    · rw [(s1 he).1] at hd; cases hd
    · rcases s2 he with h | h
      · exact h.2
      · rw [h.1] at hd; cases hd

/-- In an execution that has destroyed the attempt, the callback was not
invoked exactly when the attempt was destroyed without a callback at the start
or a cancel call reached it while it was alive. -/
theorem silent_iff_cancel (env : Env) (es : List Event) :
    ∀ w : World, Inv w → Quiet w → (run env es w).cs_deleted = true →
      ((run env es w).ucalls = [] ↔
        (w.cs_deleted = true ∧ w.ucalls = []) ∨ cancel_reaches env es w = true) := by
  induction es with
  | nil =>
    intro w _ _ hd
    simp only [run, cancel_reaches] at hd ⊢
    simp [hd]
  | cons e es ih =>
    intro w hi hq hd
    simp only [run] at hd ⊢
    rw [ih _ (Inv_step env e w hi) (Quiet_step env e w hi hq) hd]
    simp only [cancel_reaches, Bool.or_eq_true, Bool.and_eq_true, decide_eq_true_eq,
      Bool.not_eq_true']
    cases hw : w.cs_deleted with
    | true =>
      obtain ⟨d1, d2⟩ := step_dead env e w hi hw
      simp [d1, d2]
    | false =>
      obtain ⟨q1, q2⟩ := hq hw
      obtain ⟨s1, s2⟩ := step_alive env e w hi ⟨hw, q1, q2⟩
      by_cases he : e = Event.cancel_call
      · have t1 := (s1 he).1
        have t2 := (s1 he).2
        rw [he] at t1 t2
        simp [t1, t2, he]
      · rcases s2 he with h | h
        · simp [h.1, he]
        · simp [h.1, h.2, he]

/-! ## C11: when the callback is not invoked -/

/-- C11, counterexample: the first connect of the attempt returns 0, so the
constructor leaves it in state CONNECTED with the handler scheduled; a cancel
call that arrives before the handler runs destroys the attempt and the
callback is never invoked, although the attempt was not cancelled while
PENDING. -/
theorem cancel_after_success_is_silent :
    (exAttemptE []).cs.state = State.CS_CONNECTED ∧
    (exAttemptE []).cs.timer = Timer.signalled ∧
    (run exEnv [Event.cancel_call] (exAttemptE [])).cs_deleted = true ∧
    (run exEnv [Event.cancel_call, Event.timer_cb] (exAttemptE [])).ucalls = [] := by
  decide

/-- C11 (amended): in every execution that has destroyed the attempt, the user
callback was invoked zero times if and only if a cancel call reached the
attempt while it was alive, whatever its state was at that moment (PENDING,
CONNECTED or ERROR); in every other such execution it was invoked exactly
once. -/
theorem silent_iff_cancelled (env : Env) (iot_ : lcbio_TABLE) (settings_ : lcb_settings)
    (getaddrinfo : ai_family_t → Int × List addrinfo) (timeout : Nat)
    (handler_ : UserHandler) (arg : Nat) (es : List Event)
    (hd : (run env es
      (Connstart_new env iot_ settings_ getaddrinfo timeout handler_ arg)).cs_deleted = true) :
    ((run env es
        (Connstart_new env iot_ settings_ getaddrinfo timeout handler_ arg)).ucalls = [] ↔
      cancel_reaches env es
        (Connstart_new env iot_ settings_ getaddrinfo timeout handler_ arg) = true) ∧
    ((run env es
        (Connstart_new env iot_ settings_ getaddrinfo timeout handler_ arg)).ucalls.length = 1 ↔
      cancel_reaches env es
        (Connstart_new env iot_ settings_ getaddrinfo timeout handler_ arg) = false) := by
  have hi := Inv_Connstart_new env iot_ settings_ getaddrinfo timeout handler_ arg
  have hc := Calm_Connstart_new env iot_ settings_ getaddrinfo timeout handler_ arg
  have hlen := (Inv_run env es _ hi).1
  have h := silent_iff_cancel env es _ hi (fun _ => hc.2) hd
  simp only [hc.1, Bool.false_eq_true, false_and, false_or] at h
  refine ⟨h, ?_⟩
  rw [← Bool.not_eq_true, ← h]
  constructor
  · intro h1 h2
    rw [h2] at h1
    exact absurd h1 (by decide)
  · intro h1
    cases hu : (run env es
        (Connstart_new env iot_ settings_ getaddrinfo timeout handler_ arg)).ucalls with
    | nil => exact absurd hu h1
    | cons c cs =>
      rw [hu] at hlen
      simp only [List.length_cons] at hlen ⊢
      omega

theorem silent_iff_cancelled_witness :
    (run exEnv [Event.cancel_call] (exAttemptE [(-1, 111), (-1, 111)])).cs_deleted = true ∧
    ((run exEnv [Event.cancel_call] (exAttemptE [(-1, 111), (-1, 111)])).ucalls = [] ↔
      cancel_reaches exEnv [Event.cancel_call] (exAttemptE [(-1, 111), (-1, 111)]) = true) :=
  ⟨by decide,
    (silent_iff_cancelled exEnv (exTableE [(-1, 111), (-1, 111)]) exSettings
      (fun _ => (0, [exA, exB])) 1000 { cancels := 1, refs := false } 7 [Event.cancel_call]
      (by decide)).1⟩

/-! ## C12: the teardown of the attempt and the reference on the socket -/

theorem dtor_freed (w : World) (hs : w.cs.sock = true) :
    (Connstart_dtor w).sock.freed = (w.sock.freed || decide (w.sock.refcount - 1 = 0)) := by
  simp only [Connstart_dtor, timer_release, lcbio_unref, lcbio__destroy, lcbio_shutdown,
    lcbio__protoctx_delall, E_close, C_close, World.log, hs]
  split_ifs <;> simp_all

theorem call_user_sock (err : lcb_error_t) (w : World) :
    (call_user err w).sock.refcount =
      (if w.cs.user_handler.refs = true ∧ err = lcb_error_t.LCB_SUCCESS ∧ w.cs.sock = true
        then w.sock.refcount + 1 else w.sock.refcount) ∧
    (call_user err w).sock.freed = w.sock.freed := by
  unfold call_user lcbio_ref
  simp only []
  split_ifs <;> simp_all

/-- The reference count and the freed flag of the socket after `handler`. -/
theorem handler_sock (env : Env) (w : World) (hs : w.cs.sock = true) :
    (handler env w).sock.refcount =
      (if w.cs.state ≠ State.CS_CANCELLED ∧ w.cs.user_handler.refs = true ∧
          handler_err env w = lcb_error_t.LCB_SUCCESS
        then w.sock.refcount + 1 else w.sock.refcount) - 1 ∧
    (handler env w).sock.freed =
      (w.sock.freed || decide ((handler env w).sock.refcount = 0)) := by
  unfold handler
  rw [handler_go_succ]
  split
  · rename_i hc
    have hio : ioFrame (if (w.cs.sock && w.cs.event) = true then
        (unwatch w).log IOCall.destroy_event else w) = ioFrame w := by
      split <;> simp
    have hk := (ioFrame_sockptr hio).trans hs
    rw [dtor_refcount _ hk, dtor_freed _ hk, ioFrame_refcount hio, ioFrame_freed hio]
    simp [hc]
  · rename_i hc
    have hio := ioFrame_handler_pre env w
    have key : ∀ x : World, x.cs.user_handler = w.cs.user_handler → x.cs.sock = true →
        x.sock.refcount = w.sock.refcount → x.sock.freed = w.sock.freed →
        (Connstart_dtor { call_user (handler_err env w) x with
          cs := { (call_user (handler_err env w) x).cs with in_uhandler := false } }).sock.refcount =
          (if w.cs.state ≠ State.CS_CANCELLED ∧ w.cs.user_handler.refs = true ∧
              handler_err env w = lcb_error_t.LCB_SUCCESS
            then w.sock.refcount + 1 else w.sock.refcount) - 1 ∧
        (Connstart_dtor { call_user (handler_err env w) x with
          cs := { (call_user (handler_err env w) x).cs with in_uhandler := false } }).sock.freed =
          (w.sock.freed || decide ((Connstart_dtor { call_user (handler_err env w) x with
            cs := { (call_user (handler_err env w) x).cs with
              in_uhandler := false } }).sock.refcount = 0)) := by
      intro x h1 h2 h3 h4
      have hk : ({ call_user (handler_err env w) x with
          cs := { (call_user (handler_err env w) x).cs with in_uhandler := false } } :
            World).cs.sock = true := by
        simp only [call_user_cs]
        exact h2
      rw [dtor_refcount _ hk, dtor_freed _ hk]
      show (call_user (handler_err env w) x).sock.refcount - 1 = _ ∧
        ((call_user (handler_err env w) x).sock.freed ||
          decide ((call_user (handler_err env w) x).sock.refcount - 1 = 0)) = _
      obtain ⟨u1, u2⟩ := call_user_sock (handler_err env w) x
      rw [u1, u2, h1, h2, h3, h4]
      by_cases k1 : w.cs.user_handler.refs = true <;>
        by_cases k2 : handler_err env w = lcb_error_t.LCB_SUCCESS <;> simp [hc, k1, k2]
    exact key _
      (show (handler_pre env w).cs.user_handler = _ from congrArg (fun x => x.cs.user_handler) hio)
      (show (handler_pre env w).cs.sock = _ from (ioFrame_sockptr hio).trans hs)
      (show (handler_pre env w).sock.refcount = _ from ioFrame_refcount hio)
      (show (handler_pre env w).sock.freed = _ from ioFrame_freed hio)

/-- C12, counterexample: the first connect succeeds and the handler delivers
SUCCESS with the socket to a callback that leaves the reference count as it
is; the teardown of the attempt drops the only reference and the socket is
destroyed. -/
theorem success_teardown_unrefs :
    (exAttemptE []).sock.refcount = 1 ∧
    (run exEnv [Event.timer_cb] (exAttemptE [])).ucalls =
      [UserCall.mk true 7 lcb_error_t.LCB_SUCCESS 0] ∧
    (run exEnv [Event.timer_cb] (exAttemptE [])).cs_deleted = true ∧
    (run exEnv [Event.timer_cb] (exAttemptE [])).sock.refcount = 0 ∧
    (run exEnv [Event.timer_cb] (exAttemptE [])).sock.freed = true := by
  decide

/-- C12 (amended): the teardown that ends `handler` releases the reference of
the attempt on every outcome, success included. With a callback that leaves
the count as it is the socket has one reference less after `handler`; with a
callback that takes a reference on the socket it is handed on success the
count is the same as before; and the socket is destroyed exactly when the
count has reached zero. -/
theorem teardown_always_unrefs (env : Env) (w : World) (hs : w.cs.sock = true) :
    (w.cs.user_handler.refs = false →
      (handler env w).sock.refcount = w.sock.refcount - 1) ∧
    (w.cs.user_handler.refs = true → w.cs.state = State.CS_CONNECTED →
      (handler env w).sock.refcount = w.sock.refcount) ∧
    ((handler env w).sock.freed = true ↔
      w.sock.freed = true ∨ (handler env w).sock.refcount = 0) := by
  obtain ⟨h1, h2⟩ := handler_sock env w hs
  refine ⟨?_, ?_, ?_⟩
  · intro hr
    rw [h1]
    simp [hr]
  · intro hr hst
    rw [h1]
    have herr : handler_err env w = lcb_error_t.LCB_SUCCESS := by
      simp [handler_err, hst]
    simp [hr, hst, herr]
  · rw [h2]
    simp

theorem teardown_always_unrefs_witness :
    (exAttemptE []).cs.sock = true ∧
    (exAttemptE []).cs.state = State.CS_CONNECTED ∧
    (handler exEnv (exAttemptE [])).sock.refcount = (exAttemptE []).sock.refcount - 1 :=
  ⟨by decide, by decide, (teardown_always_unrefs exEnv (exAttemptE []) (by decide)).1 (by decide)⟩

/-! ## C13: the timeout while a submitted connect is outstanding -/

theorem destroy_cs_indep (x : World) (c : Connstart) :
    lcbio__destroy { x with cs := c } = { lcbio__destroy x with cs := c } := by
  simp only [lcbio__destroy, lcbio_shutdown, lcbio__protoctx_delall, E_close, C_close,
    World.log, IOT_IS_EVENT]
  split_ifs <;> rfl

/-- The completion callback delivered on a socket that has one reference left
destroys the socket and returns. -/
theorem C_conncb_last_ref (env : Env) (status : Int) (w : World) (h : w.sock.refcount = 1) :
    C_conncb env status w =
      lcbio__destroy { w with sock := { w.sock with refcount := 0 } } := by
  unfold C_conncb
  simp only [h]
  rfl

/-- C13: in the completion flavor, let the timer fire while the state is
PENDING and a submitted connect is outstanding, the socket having two
references. The callback receives (null, ETIMEDOUT, syserr), the attempt is
destroyed and its teardown leaves the socket alive with one reference. The
completion callback delivered afterwards drops the count to zero and destroys
the socket; it invokes no user callback, does not write the attempt, and its
effect is the same whatever the attempt object contains (it does not read it,
and so does not run `handler`). -/
theorem timeout_precedence_completion (env : Env) (w : World) (status err : Int)
    (hE : IOT_IS_EVENT w.iot = false) (hd : w.cs_deleted = false) (hs : w.cs.sock = true)
    (hst : w.cs.state = State.CS_PENDING) (hrc : w.sock.refcount = 2) (hp : 0 < w.pending)
    (hf : w.sock.freed = false) :
    (step env Event.timer_cb w).ucalls =
      w.ucalls ++ [UserCall.mk false w.cs.user_arg lcb_error_t.LCB_ETIMEDOUT w.cs.syserr] ∧
    (step env Event.timer_cb w).cs_deleted = true ∧
    (step env Event.timer_cb w).sock.refcount = 1 ∧
    (step env Event.timer_cb w).sock.freed = false ∧
    IOT_IS_EVENT (step env Event.timer_cb w).iot = false ∧
    (step env (Event.completion_cb status err) (step env Event.timer_cb w)).sock.refcount = 0 ∧
    (step env (Event.completion_cb status err) (step env Event.timer_cb w)).sock.freed = true ∧
    (step env (Event.completion_cb status err) (step env Event.timer_cb w)).ucalls =
      (step env Event.timer_cb w).ucalls ∧
    (step env (Event.completion_cb status err) (step env Event.timer_cb w)).cs =
      (step env Event.timer_cb w).cs ∧
    (∀ c : Connstart,
      step env (Event.completion_cb status err) { step env Event.timer_cb w with cs := c } =
        { step env (Event.completion_cb status err) (step env Event.timer_cb w) with
          cs := c }) := by
  have hstep : step env Event.timer_cb w = handler env w := by
    simp [step, hd]
  rw [hstep]
  have hc : w.cs.state ≠ State.CS_CANCELLED := by rw [hst]; decide
  have herr : handler_err env w = lcb_error_t.LCB_ETIMEDOUT := by simp [handler_err, hst]
  have hu := handler_ucalls env w hc
  rw [herr] at hu
  simp only [reduceCtorEq, if_false] at hu
  obtain ⟨s1, s2⟩ := handler_sock env w hs
  rw [herr] at s1
  simp only [reduceCtorEq, and_false, if_false, hrc] at s1
  rw [s1, hf] at s2
  simp only [Bool.false_or] at s2
  have s3 : (handler env w).sock.freed = false := by rw [s2]; decide
  have hpd := handler_pending env w
  have hev := (handler_is_event env w).trans hE
  have hcomp : ∀ x : World, x.sock.refcount = 1 → x.sock.freed = false → 0 < x.pending →
      step env (Event.completion_cb status err) x =
        lcbio__destroy
          { x with
              sock := { x.sock with refcount := 0 }
              pending := x.pending - 1
              iot := { x.iot with errno := err } } := by
    intro x h1 h2 h3
    show (if (decide (0 < x.pending) && !x.sock.freed) = true then
        C_conncb env status
          { x with pending := x.pending - 1, iot := { x.iot with errno := err } }
      else x) = _
    rw [if_pos (by simp [h2, h3])]
    exact C_conncb_last_ref env status
      { x with pending := x.pending - 1, iot := { x.iot with errno := err } } h1
  have hw2 := hcomp (handler env w) s1 s3 (by rw [hpd]; exact hp)
  obtain ⟨f1, _, f3, _, f5, f6⟩ := destroy_fields
    { handler env w with
        sock := { (handler env w).sock with refcount := 0 }
        pending := (handler env w).pending - 1
        iot := { (handler env w).iot with errno := err } }
  refine ⟨hu, handler_deleted env w, s1, s3, hev, ?_, ?_, ?_, ?_, ?_⟩
  · rw [hw2, f6]
  · rw [hw2, f5]
  · rw [hw2, f1]
  · rw [hw2, f3]
  · intro c
    rw [hw2, hcomp { handler env w with cs := c } s1 s3 (by show 0 < (handler env w).pending
                                                            rw [hpd]; exact hp)]
    exact destroy_cs_indep
      { handler env w with
          sock := { (handler env w).sock with refcount := 0 }
          pending := (handler env w).pending - 1
          iot := { (handler env w).iot with errno := err } } c

theorem timeout_precedence_completion_witness :
    (exAttemptC []).sock.refcount = 2 ∧ (exAttemptC []).pending = 1 ∧
    (step exEnv Event.timer_cb (exAttemptC [])).ucalls =
      [UserCall.mk false 7 lcb_error_t.LCB_ETIMEDOUT 0] ∧
    (step exEnv (Event.completion_cb 0 0) (step exEnv Event.timer_cb (exAttemptC []))).ucalls =
      (step exEnv Event.timer_cb (exAttemptC [])).ucalls :=
  ⟨by decide, by decide,
    (timeout_precedence_completion exEnv (exAttemptC []) 0 0 (by decide) (by decide) (by decide)
      (by decide) (by decide) (by decide) (by decide)).1,
    (timeout_precedence_completion exEnv (exAttemptC []) 0 0 (by decide) (by decide) (by decide)
      (by decide) (by decide) (by decide) (by decide)).2.2.2.2.2.2.2.1⟩

/-! ## C14: the watch and the terminal transitions of the readiness driver -/

theorem ensure_sock_false (env : Env) (w : World) (h : (ensure_sock env w).2 = false) :
    (ensure_sock env w).1.cs.ai = [] := by
  unfold ensure_sock at h ⊢
  simp only [] at h ⊢
  by_cases hai : w.cs.ai = []
  · rw [if_pos hai]
    exact hai
  · rw [if_neg hai] at h ⊢
    generalize (if IOT_IS_EVENT w.iot = true then
        if w.sock.fd ≠ INVALID_SOCKET then (w, true)
        else ensure_sock_E_while env (w.cs.ai.length + 1) w
      else
        if w.sock.sd ≠ none then (w, true)
        else ensure_sock_C_while env (w.cs.ai.length + 1) w) = r at h ⊢
    by_cases hr : r.2 = true
    · rw [if_pos hr] at h
      rw [h] at hr
      cases hr
    · rw [if_neg hr] at h ⊢
      by_cases h3 : r.1.cs.ai = []
      · rw [if_pos h3]
        exact h3
      · rw [if_neg h3] at h
        cases h

theorem state_signal_fields (s : State) (e : lcb_error_t) (w : World) :
    (state_signal s e w).cs.ai = w.cs.ai ∧
    (state_signal s e w).cs.ev_active = w.cs.ev_active ∧
    (w.cs.state = State.CS_PENDING → (state_signal s e w).cs.state = s) := by
  unfold state_signal timer_signal
  split
  · rename_i h
    exact ⟨rfl, rfl, fun h1 => absurd h1 h⟩
  · simp only []
    split_ifs <;> simp

theorem unwatch_ev_active (w : World) (hs : w.cs.sock = true) :
    (unwatch w).cs.ev_active = false := by
  rw [(unwatch_fields w).1, hs]
  simp

/-- A readiness driver entered with the state PENDING: if it leaves the state
CONNECTED, the watch is cancelled; if it leaves the state ERROR, the cursor is
null. -/
theorem E_conncb_go_watch (env : Env) (events : Nat) (n : Nat) :
    ∀ (l : Label) (r : Bool) (ai : List addrinfo) (w : World),
      w.cs.state = State.CS_PENDING → w.cs.sock = true →
      ((E_conncb_go env events n l r ai w).cs.state = State.CS_CONNECTED →
        (E_conncb_go env events n l r ai w).cs.ev_active = false) ∧
      ((E_conncb_go env events n l r ai w).cs.state = State.CS_ERROR →
        (E_conncb_go env events n l r ai w).cs.ai = []) := by
  have hio : ∀ w w1 : World, ioFrame w1 = ioFrame w →
      w.cs.state = State.CS_PENDING ∧ w.cs.sock = true →
      w1.cs.state = State.CS_PENDING ∧ w1.cs.sock = true := by
    intro w w1 h hw
    exact ⟨(ioFrame_state h).trans hw.1, (ioFrame_sockptr h).trans hw.2⟩
  have hok : ∀ x : World, x.cs.state = State.CS_PENDING ∧ x.cs.sock = true →
      ((notify_success (unwatch x)).cs.state = State.CS_CONNECTED →
        (notify_success (unwatch x)).cs.ev_active = false) ∧
      ((notify_success (unwatch x)).cs.state = State.CS_ERROR →
        (notify_success (unwatch x)).cs.ai = []) := by
    intro x hx
    obtain ⟨f1, f2, f3⟩ := state_signal_fields State.CS_CONNECTED lcb_error_t.LCB_SUCCESS
      (unwatch x)
    have hp : (unwatch x).cs.state = State.CS_PENDING :=
      (ioFrame_state (ioFrame_unwatch x)).trans hx.1
    unfold notify_success
    rw [f2, f3 hp, unwatch_ev_active x hx.2]
    exact ⟨fun _ => rfl, fun h => (by cases h)⟩
  induction n with
  | zero =>
    intro l r ai w hst _
    have : E_conncb_go env events 0 l r ai w = w := by unfold E_conncb_go; rfl
    rw [this, hst]
    exact ⟨fun h => (by cases h), fun h => (by cases h)⟩
  | succ n ih =>
    intro l r ai w hst hs
    have hw : w.cs.state = State.CS_PENDING ∧ w.cs.sock = true := ⟨hst, hs⟩
    cases l with
    | GT_NEXTSOCK =>
      unfold E_conncb_go
      simp only []
      split
      · rename_i hr
        have hr2 : (ensure_sock env w).2 = false := by simpa using hr
        have hai := ensure_sock_false env w hr2
        have hp := (hio w (ensure_sock env w).1 (by simp) hw).1
        obtain ⟨f1, f2, f3⟩ := state_signal_fields State.CS_ERROR
          lcb_error_t.LCB_CONNECT_ERROR (ensure_sock env w).1
        unfold notify_error
        rw [f1, f3 hp, hai]
        exact ⟨fun h => (by cases h), fun _ => rfl⟩
      · split
        · exact ih _ _ _ _ (hio w _ (by simp) hw).1 (hio w _ (by simp) hw).2
        · exact ih _ _ _ _ (hio w _ (by simp) hw).1 (hio w _ (by simp) hw).2
    | GT_CONNECT =>
      unfold E_conncb_go
      simp only []
      split
      · exact hok _ (hio w _ (by simp) hw)
      · split
        · exact ih _ _ _ _ (hio w _ (by simp) hw).1 (hio w _ (by simp) hw).2
        · exact hok _ (hio w _ (by simp) hw)
        · have hp : (IOT_connect0 ai w).2.cs.state = State.CS_PENDING :=
            (hio w _ (by simp) hw).1
          refine ⟨fun h => ?_, fun h => ?_⟩
          · have h2 : (IOT_connect0 ai w).2.cs.state = State.CS_CONNECTED := h
            rw [hp] at h2
            cases h2
          · have h2 : (IOT_connect0 ai w).2.cs.state = State.CS_ERROR := h
            rw [hp] at h2
            cases h2
        · split
          · exact ih _ _ _ _ (hio w _ (by simp) hw).1 (hio w _ (by simp) hw).2
          · exact ih _ _ _ _ (hio w _ (by simp) hw).1 (hio w _ (by simp) hw).2
        · exact ih _ _ _ _ (hio w _ (by simp) hw).1 (hio w _ (by simp) hw).2

/-- A readiness driver entered with a null cursor and a state that is not
PENDING changes nothing. -/
theorem E_conncb_idle (env : Env) (events : Nat) (w : World) (hai : w.cs.ai = [])
    (hst : w.cs.state ≠ State.CS_PENDING) : E_conncb env events w = w := by
  unfold E_conncb driver_fuel
  rw [E_go_next_fail env events _ false [] w w (ensure_sock_null env w hai)]
  exact state_signal_of_ne _ _ _ hst

theorem step_is_event (env : Env) (e : Event) (w : World) (hi : Inv w)
    (hE : IOT_IS_EVENT w.iot = true) : IOT_IS_EVENT (step env e w).iot = true := by
  cases e with
  | watch_cb events =>
    simp only [step]
    split
    · exact (sigFrame_is_event (sigFrame_E_conncb_go env events _ _ _ _ w)).trans hE
    · exact hE
  | completion_cb status err =>
    have hp := hi.2.2.2 hE
    simp [step, hp, hE]
  | timer_cb =>
    simp only [step]
    split
    · exact (handler_is_event env w).trans hE
    · exact hE
  | cancel_call =>
    simp only [step]
    split
    · rw [cancel_eq]
      split
      · exact hE
      · exact (handler_is_event env _).trans hE
    · exact hE

/-- A watch callback delivered to a live readiness attempt whose state is not
PENDING changes nothing. -/
theorem watch_cb_idle (env : Env) (events : Nat) (w : World) (hq : Quiet w)
    (hu : Unwatched w) (hst : w.cs.state ≠ State.CS_PENDING) :
    step env (Event.watch_cb events) w = w := by
  simp only [step]
  split
  · rename_i h
    simp only [Bool.and_eq_true, Bool.not_eq_true'] at h
    obtain ⟨⟨h1, h2⟩, _⟩ := h
    obtain ⟨u1, u2⟩ := hu.2 h1
    cases hs : w.cs.state with
    | CS_PENDING => exact absurd hs hst
    | CS_CANCELLED => exact absurd hs (hq h1).2
    | CS_CONNECTED =>
      rw [u1 hs] at h2
      cases h2
    | CS_ERROR => exact E_conncb_idle env events w (u2 hs) hst
  · rfl

theorem Unwatched_step (env : Env) (e : Event) (w : World) (hi : Inv w) (hq : Quiet w)
    (hu : Unwatched w) : Unwatched (step env e w) := by
  refine ⟨step_is_event env e w hi hu.1, ?_⟩
  intro hd
  cases e with
  | watch_cb events =>
    by_cases hst : w.cs.state = State.CS_PENDING
    · simp only [step] at hd ⊢
      split at hd
      · rename_i h
        rw [if_pos h]
        simp only [Bool.and_eq_true, Bool.not_eq_true'] at h
        exact E_conncb_go_watch env events _ _ _ _ w hst (hi.2.1 h.1.1).2.1
      · rename_i h
        rw [if_neg h]
        exact hu.2 hd
    · rw [watch_cb_idle env events w hq hu hst] at hd ⊢
      exact hu.2 hd
  | completion_cb status err =>
    have hp := hi.2.2.2 hu.1
    have hw : step env (Event.completion_cb status err) w = w := by simp [step, hp]
    rw [hw] at hd ⊢
    exact hu.2 hd
  | timer_cb =>
    simp only [step] at hd ⊢
    split at hd
    · rw [handler_deleted] at hd
      cases hd
    · rename_i h
      rw [if_neg h]
      exact hu.2 hd
  | cancel_call =>
    simp only [step] at hd ⊢
    split at hd
    · rename_i h
      simp only [Bool.not_eq_true'] at h
      rw [cancel_eq, (hq h).1] at hd
      simp only [Bool.false_eq_true, if_false] at hd
      rw [handler_deleted] at hd
      cases hd
    · rename_i h
      rw [if_neg h]
      exact hu.2 hd

theorem Unwatched_Connstart_new (env : Env) (iot_ : lcbio_TABLE) (settings_ : lcb_settings)
    (getaddrinfo : ai_family_t → Int × List addrinfo) (timeout : Nat)
    (handler_ : UserHandler) (arg : Nat) (hE : IOT_IS_EVENT iot_ = true) :
    Unwatched (Connstart_new env iot_ settings_ getaddrinfo timeout handler_ arg) := by
  by_cases hr : (getaddrinfo (hints_ai_family settings_)).1 = 0
  · have hres : getaddrinfo (hints_ai_family settings_) =
        (0, (getaddrinfo (hints_ai_family settings_)).2) := Prod.ext hr rfl
    rw [Connstart_new_resolved env iot_ settings_ getaddrinfo timeout handler_ arg _ hres,
      if_pos hE]
    refine ⟨?_, fun _ => ?_⟩
    · refine (sigFrame_is_event (sigFrame_E_conncb_go env _ _ _ _ _ _)).trans ?_
      simp only [Connstart_resolved, hE, if_true]
      exact hE
    · exact E_conncb_go_watch env _ _ _ _ _ _ rfl rfl
  · have hw : (Connstart_new env iot_ settings_ getaddrinfo timeout handler_ arg).cs.ai = [] ∧
        IOT_IS_EVENT
          (Connstart_new env iot_ settings_ getaddrinfo timeout handler_ arg).iot = true ∧
        (Connstart_new env iot_ settings_ getaddrinfo timeout handler_ arg).cs.ev_active =
          false := by
      simp only [Connstart_new, if_pos hr, notify_error, state_signal, timer_signal, World.log,
        hE, if_true]
      simp [IOT_IS_EVENT] at hE ⊢
      exact hE
    exact ⟨hw.2.1, fun _ => ⟨fun _ => hw.2.2, fun _ => hw.1⟩⟩

theorem Watch_run (env : Env) (es : List Event) :
    ∀ w : World, Inv w → Quiet w → Unwatched w →
      Quiet (run env es w) ∧ Unwatched (run env es w) := by
  induction es with
  | nil => intro w _ hq hu; exact ⟨hq, hu⟩
  | cons e es ih =>
    intro w hi hq hu
    exact ih _ (Inv_step env e w hi) (Quiet_step env e w hi hq) (Unwatched_step env e w hi hq hu)

/-- C14, counterexample: the connect to A is refused and the connect to B, the
last address, is in progress, so the constructor registers the watch. The
watch callback finds the connect to B refused: `clear_sock` moves the cursor
past the last address and returns at once, the driver signals ERROR, and the
watch is still registered on an attempt whose state is not PENDING. -/
theorem exhaustion_keeps_watch :
    (exAttemptE [(-1, 111), (-1, 115), (-1, 111)]).cs.state = State.CS_PENDING ∧
    (exAttemptE [(-1, 111), (-1, 115), (-1, 111)]).cs.ev_active = true ∧
    (run exEnv [Event.watch_cb LCB_WRITE_EVENT]
      (exAttemptE [(-1, 111), (-1, 115), (-1, 111)])).cs.state = State.CS_ERROR ∧
    (run exEnv [Event.watch_cb LCB_WRITE_EVENT]
      (exAttemptE [(-1, 111), (-1, 115), (-1, 111)])).cs.ev_active = true ∧
    (run exEnv [Event.watch_cb LCB_WRITE_EVENT]
      (exAttemptE [(-1, 111), (-1, 115), (-1, 111)])).cs_deleted = false := by
  decide

/-- C14 (amended): in the readiness flavor, after the construction and after
every sequence of events, a live attempt whose state is CONNECTED has no
registered watch; the state ERROR can come with a registered watch (it comes
with a null cursor), and a watch callback delivered to a live attempt whose
state is not PENDING changes nothing. -/
theorem terminal_watch (env : Env) (iot_ : lcbio_TABLE) (settings_ : lcb_settings)
    (getaddrinfo : ai_family_t → Int × List addrinfo) (timeout : Nat)
    (handler_ : UserHandler) (arg : Nat) (es : List Event)
    (hE : IOT_IS_EVENT iot_ = true)
    (hd : (run env es
      (Connstart_new env iot_ settings_ getaddrinfo timeout handler_ arg)).cs_deleted = false) :
    ((run env es
        (Connstart_new env iot_ settings_ getaddrinfo timeout handler_ arg)).cs.state =
          State.CS_CONNECTED →
      (run env es
        (Connstart_new env iot_ settings_ getaddrinfo timeout handler_ arg)).cs.ev_active =
          false) ∧
    ((run env es
        (Connstart_new env iot_ settings_ getaddrinfo timeout handler_ arg)).cs.state =
          State.CS_ERROR →
      (run env es
        (Connstart_new env iot_ settings_ getaddrinfo timeout handler_ arg)).cs.ai = []) ∧
    ((run env es
        (Connstart_new env iot_ settings_ getaddrinfo timeout handler_ arg)).cs.state ≠
          State.CS_PENDING →
      ∀ events : Nat,
        step env (Event.watch_cb events)
          (run env es (Connstart_new env iot_ settings_ getaddrinfo timeout handler_ arg)) =
        run env es (Connstart_new env iot_ settings_ getaddrinfo timeout handler_ arg)) := by
  obtain ⟨hq, hu⟩ := Watch_run env es _
    (Inv_Connstart_new env iot_ settings_ getaddrinfo timeout handler_ arg)
    (fun _ => (Calm_Connstart_new env iot_ settings_ getaddrinfo timeout handler_ arg).2)
    (Unwatched_Connstart_new env iot_ settings_ getaddrinfo timeout handler_ arg hE)
  exact ⟨(hu.2 hd).1, (hu.2 hd).2, fun hst events => watch_cb_idle env events _ hq hu hst⟩

theorem terminal_watch_witness :
    (run exEnv [Event.watch_cb LCB_WRITE_EVENT] (exAttemptE [(-1, 115)])).cs_deleted = false ∧
    (run exEnv [Event.watch_cb LCB_WRITE_EVENT] (exAttemptE [(-1, 115)])).cs.state =
      State.CS_CONNECTED ∧
    (run exEnv [Event.watch_cb LCB_WRITE_EVENT] (exAttemptE [(-1, 115)])).cs.ev_active = false :=
  ⟨by decide, by decide,
    (terminal_watch exEnv (exTableE [(-1, 115)]) exSettings (fun _ => (0, [exA, exB])) 1000
      { cancels := 1, refs := false } 7 [Event.watch_cb LCB_WRITE_EVENT] (by decide)
      (by decide)).1 (by decide)⟩

/-! ## C15: shutdown is idempotent -/

/-- C15: in both I/O flavors, after `lcbio_shutdown` the descriptor field of
the flavor is invalid (`INVALID_SOCKET`, NULL), the close operation of the
flavor has been issued exactly once if the descriptor was valid and not at all
otherwise, no protocol context is attached, and a second `lcbio_shutdown`
changes nothing: it issues no call and leaves the socket as it is. -/
theorem shutdown_idempotent (w : World) :
    (if IOT_IS_EVENT w.iot then (lcbio_shutdown w).sock.fd = INVALID_SOCKET
      else (lcbio_shutdown w).sock.sd = none) ∧
    (lcbio_shutdown w).iot.calls =
      w.iot.calls ++
        (if IOT_IS_EVENT w.iot then
          (if w.sock.fd ≠ INVALID_SOCKET then [IOCall.E_close w.sock.fd] else [])
        else
          (if w.sock.sd ≠ none then [IOCall.C_close w.sock.sd] else [])) ∧
    (lcbio_shutdown w).sock.protos = [] ∧
    lcbio_shutdown (lcbio_shutdown w) = lcbio_shutdown w ∧
    (lcbio_shutdown (lcbio_shutdown w)).iot.calls = (lcbio_shutdown w).iot.calls ∧
    (lcbio_shutdown (lcbio_shutdown w)).sock = (lcbio_shutdown w).sock := by
  have key : lcbio_shutdown (lcbio_shutdown w) = lcbio_shutdown w := by
    simp only [lcbio_shutdown, lcbio__protoctx_delall, E_close, C_close, World.log, IOT_IS_EVENT]
    split_ifs <;> simp_all
  refine ⟨?_, ?_, ?_, key, by rw [key], by rw [key]⟩
  · simp only [lcbio_shutdown, lcbio__protoctx_delall, E_close, C_close, World.log, IOT_IS_EVENT]
    split_ifs <;> simp_all
  · simp only [lcbio_shutdown, lcbio__protoctx_delall, E_close, C_close, World.log, IOT_IS_EVENT]
    split_ifs <;> simp_all
  · simp only [lcbio_shutdown, lcbio__protoctx_delall, E_close, C_close, World.log, IOT_IS_EVENT]
    split_ifs <;> simp_all

/-! ## The drivers preserve what their primitive steps preserve -/

/-- A property kept by every primitive step of the readiness driver is kept by
the driver. -/
theorem E_conncb_go_preserves (env : Env) (events : Nat) (P : World → Prop)
    (h_ens : ∀ w : World, P w → P (ensure_sock env w).1)
    (h_gso : ∀ w : World, P w → P (getsockopt w).2)
    (h_sys : ∀ (e : Int) (w : World), P w → P (lcbio_mksyserr e w))
    (h_clr : ∀ w : World, P w → P (clear_sock w))
    (h_con : ∀ (ai : List addrinfo) (w : World), P w → P (IOT_connect0 ai w).2)
    (h_unw : ∀ w : World, P w → P (unwatch w))
    (h_sig : ∀ (s : State) (e : lcb_error_t) (w : World), P w → P (state_signal s e w))
    (h_watch : ∀ w : World, P w →
      P { w.log (IOCall.watch w.sock.fd) with
          cs := { (w.log (IOCall.watch w.sock.fd)).cs with ev_active := true } })
    (n : Nat) :
    ∀ (l : Label) (r : Bool) (ai : List addrinfo) (w : World),
      P w → P (E_conncb_go env events n l r ai w) := by
  induction n with
  | zero =>
    intro l r ai w hw
    have : E_conncb_go env events 0 l r ai w = w := by unfold E_conncb_go; rfl
    rw [this]
    exact hw
  | succ n ih =>
    intro l r ai w hw
    cases l with
    | GT_NEXTSOCK =>
      unfold E_conncb_go
      simp only []
      split
      · exact h_sig _ _ _ (h_ens w hw)
      · split
        · exact ih _ _ _ _ (h_clr _ (h_sys _ _ (h_gso _ (h_ens w hw))))
        · exact ih _ _ _ _ (h_ens w hw)
    | GT_CONNECT =>
      unfold E_conncb_go
      simp only []
      split
      · exact h_sig _ _ _ (h_unw _ (h_con ai w hw))
      · split
        · exact ih _ _ _ _ (h_sys _ _ (h_con ai w hw))
        · exact h_sig _ _ _ (h_unw _ (h_sys _ _ (h_con ai w hw)))
        · exact h_watch _ (h_sys _ _ (h_con ai w hw))
        · split
          · exact ih _ _ _ _ (h_sys _ _ (h_con ai w hw))
          · exact ih _ _ _ _ (h_clr _ (h_sys _ _ (h_con ai w hw)))
        · exact ih _ _ _ _ (h_clr _ (h_sys _ _ (h_con ai w hw)))

/-- A property kept by every primitive step of the completion driver is kept
by the driver. -/
theorem C_connect_go_preserves (env : Env) (P : World → Prop)
    (h_ens : ∀ w : World, P w → P (ensure_sock env w).1)
    (h_sys : ∀ (e : Int) (w : World), P w → P (lcbio_mksyserr e w))
    (h_clr : ∀ w : World, P w → P (clear_sock w))
    (h_con : ∀ w : World, P w → P (IOT_connect w).2)
    (h_sig : ∀ (s : State) (e : lcb_error_t) (w : World), P w → P (state_signal s e w))
    (h_ref : ∀ w : World, P w → P (submit_ref w))
    (h_busy : ∀ w : World, P w → P (submit_busy w))
    (n : Nat) :
    ∀ (l : Label) (r : Bool) (w : World), P w → P (C_connect_go env n l r w) := by
  induction n with
  | zero =>
    intro l r w hw
    have : C_connect_go env 0 l r w = w := by unfold C_connect_go; rfl
    rw [this]
    exact hw
  | succ n ih =>
    intro l r w hw
    cases l with
    | GT_NEXTSOCK =>
      unfold C_connect_go
      simp only []
      split
      · exact h_sig _ _ _ (h_sys _ _ (h_ens w hw))
      · exact ih _ _ _ (h_ens w hw)
    | GT_CONNECT =>
      unfold C_connect_go
      simp only []
      split
      · exact h_ref _ (h_con w hw)
      · split
        · exact ih _ _ _ (h_sys _ _ (h_con w hw))
        · exact h_sig _ _ _ (h_sys _ _ (h_con w hw))
        · exact h_busy _ (h_sys _ _ (h_con w hw))
        · split
          · exact ih _ _ _ (h_sys _ _ (h_con w hw))
          · exact ih _ _ _ (h_clr _ (h_sys _ _ (h_con w hw)))
        · exact ih _ _ _ (h_clr _ (h_sys _ _ (h_con w hw)))

/-! ## C16: the address family filter -/

theorem Narrows_refl (w : World) : Narrows w w := ⟨rfl, List.suffix_refl _⟩

theorem Narrows_trans {a b c : World} (h1 : Narrows a b) (h2 : Narrows b c) : Narrows a c :=
  ⟨h2.1.trans h1.1, List.IsSuffix.trans h2.2 h1.2⟩

theorem Narrows_of_cs {w w1 : World} (h : w1.cs.ai_root = w.cs.ai_root) (h2 : w1.cs.ai = w.cs.ai) :
    Narrows w w1 := ⟨h, h2 ▸ List.suffix_refl _⟩

theorem ai2sock_E_suffix (env : Env) :
    ∀ (ai : List addrinfo) (errno : Int) (log : List IOCall),
      List.IsSuffix (lcbio_E_ai2sock env ai errno log).2.1 ai := by
  intro ai
  induction ai with
  | nil => intro errno log; simp [lcbio_E_ai2sock]
  | cons a rest ih =>
    intro errno log
    unfold lcbio_E_ai2sock
    split
    · exact List.suffix_refl _
    · exact List.IsSuffix.trans (ih _ _) (List.suffix_cons a rest)

theorem ai2sock_C_suffix (env : Env) :
    ∀ (ai : List addrinfo) (errno : Int) (log : List IOCall),
      List.IsSuffix (lcbio_C_ai2sock env ai errno log).2.1 ai := by
  intro ai
  induction ai with
  | nil => intro errno log; simp [lcbio_C_ai2sock]
  | cons a rest ih =>
    intro errno log
    unfold lcbio_C_ai2sock
    split
    · exact List.suffix_refl _
    · exact List.IsSuffix.trans (ih _ _) (List.suffix_cons a rest)

theorem ensure_sock_E_while_suffix (env : Env) (n : Nat) :
    ∀ w : World, List.IsSuffix (ensure_sock_E_while env n w).1.cs.ai w.cs.ai := by
  induction n with
  | zero => intro w; exact List.suffix_refl _
  | succ n ih =>
    intro w
    unfold ensure_sock_E_while
    simp only []
    have c1 := ai2sock_E_suffix env w.cs.ai w.iot.errno w.iot.calls
    split
    · split
      · exact c1
      · exact List.IsSuffix.trans (ih _) c1
    · exact List.suffix_refl _

theorem ensure_sock_C_while_suffix (env : Env) (n : Nat) :
    ∀ w : World, List.IsSuffix (ensure_sock_C_while env n w).1.cs.ai w.cs.ai := by
  induction n with
  | zero => intro w; exact List.suffix_refl _
  | succ n ih =>
    intro w
    unfold ensure_sock_C_while
    simp only []
    have c1 := ai2sock_C_suffix env w.cs.ai w.iot.errno w.iot.calls
    split
    · split
      · exact c1
      · exact List.IsSuffix.trans (ih _) c1
    · exact List.suffix_refl _

theorem ensure_sock_suffix (env : Env) (w : World) :
    List.IsSuffix (ensure_sock env w).1.cs.ai w.cs.ai := by
  unfold ensure_sock
  have e1 := ensure_sock_E_while_suffix env (w.cs.ai.length + 1) w
  have c1 := ensure_sock_C_while_suffix env (w.cs.ai.length + 1) w
  split
  · exact List.suffix_refl _
  · simp only []
    split_ifs <;> first | exact List.suffix_refl _ | exact e1 | exact c1

theorem ioFrame_ai_root {w w1 : World} (h : ioFrame w1 = ioFrame w) :
    w1.cs.ai_root = w.cs.ai_root :=
  congrArg (fun x => x.cs.ai_root) h

theorem Narrows_ensure_sock (env : Env) (w : World) : Narrows w (ensure_sock env w).1 :=
  ⟨ioFrame_ai_root (ioFrame_ensure_sock env w), ensure_sock_suffix env w⟩

theorem Narrows_clear_sock (w : World) : Narrows w (clear_sock w) :=
  ⟨ioFrame_ai_root (ioFrame_clear_sock w), by
    rw [(clear_sock_cursor w).1]; exact List.tail_suffix _⟩

theorem Narrows_state_signal (s : State) (e : lcb_error_t) (w : World) :
    Narrows w (state_signal s e w) := by
  refine Narrows_of_cs ?_ (state_signal_fields s e w).1
  unfold state_signal timer_signal
  split
  · rfl
  · simp only []
    split_ifs <;> rfl

theorem Narrows_E_conncb_go (env : Env) (events n : Nat) (l : Label) (r : Bool)
    (ai : List addrinfo) (w : World) : Narrows w (E_conncb_go env events n l r ai w) := by
  refine E_conncb_go_preserves env events (Narrows w) ?_ ?_ ?_ ?_ ?_ ?_ ?_ ?_ n l r ai w
    (Narrows_refl w)
  · intro x hx; exact Narrows_trans hx (Narrows_ensure_sock env x)
  · intro x hx
    exact Narrows_trans hx (Narrows_of_cs (by rw [(getsockopt_cursor x).1])
      (by rw [(getsockopt_cursor x).1]))
  · intro e x hx; exact Narrows_trans hx (Narrows_of_cs rfl rfl)
  · intro x hx; exact Narrows_trans hx (Narrows_clear_sock x)
  · intro a x hx
    exact Narrows_trans hx (Narrows_of_cs (by rw [(IOT_connect0_cursor a x).1])
      (by rw [(IOT_connect0_cursor a x).1]))
  · intro x hx
    exact Narrows_trans hx (Narrows_of_cs (by rw [(unwatch_fields x).1])
      (by rw [(unwatch_fields x).1]))
  · intro s e x hx; exact Narrows_trans hx (Narrows_state_signal s e x)
  · intro x hx; exact Narrows_trans hx (Narrows_of_cs rfl rfl)

theorem Narrows_C_connect_go (env : Env) (n : Nat) (l : Label) (r : Bool) (w : World) :
    Narrows w (C_connect_go env n l r w) := by
  refine C_connect_go_preserves env (Narrows w) ?_ ?_ ?_ ?_ ?_ ?_ ?_ n l r w (Narrows_refl w)
  · intro x hx; exact Narrows_trans hx (Narrows_ensure_sock env x)
  · intro e x hx; exact Narrows_trans hx (Narrows_of_cs rfl rfl)
  · intro x hx; exact Narrows_trans hx (Narrows_clear_sock x)
  · intro x hx
    exact Narrows_trans hx (Narrows_of_cs (by rw [(IOT_connect_cursor x).1])
      (by rw [(IOT_connect_cursor x).1]))
  · intro s e x hx; exact Narrows_trans hx (Narrows_state_signal s e x)
  · intro x hx; exact Narrows_trans hx (Narrows_of_cs rfl rfl)
  · intro x hx; exact Narrows_trans hx (Narrows_of_cs rfl rfl)

theorem handler_pre_cursor (env : Env) (w : World) : (handler_pre env w).cs.ai = w.cs.ai := by
  unfold handler_pre
  simp only []
  split_ifs <;> simp [World.log, (unwatch_fields w).1]

theorem Narrows_handler (env : Env) (w : World) : Narrows w (handler env w) := by
  unfold handler
  rw [handler_go_succ]
  split
  · refine Narrows_of_cs ?_ ?_
    · rw [dtor_cs]
      split
      · exact ioFrame_ai_root
          (show ioFrame ((unwatch w).log IOCall.destroy_event) = ioFrame w by simp)
      · rfl
    · rw [dtor_cs]
      split
      · show (unwatch w).cs.ai = _
        rw [(unwatch_fields w).1]
      · rfl
  · refine Narrows_of_cs ?_ ?_
    · simp only [dtor_cs, call_user_cs]
      exact ioFrame_ai_root (ioFrame_handler_pre env w)
    · simp only [dtor_cs, call_user_cs]
      exact handler_pre_cursor env w

theorem Narrows_step (env : Env) (e : Event) (w : World) : Narrows w (step env e w) := by
  cases e with
  | watch_cb events =>
    simp only [step]
    split
    · exact Narrows_E_conncb_go env events _ _ _ _ w
    · exact Narrows_refl w
  | completion_cb status err =>
    simp only [step]
    split
    · unfold C_conncb
      simp only []
      split
      · exact Narrows_of_cs (by rw [(destroy_fields _).2.2.1]) (by rw [(destroy_fields _).2.2.1])
      · split
        · refine Narrows_trans ?_ (Narrows_handler env _)
          split <;> exact Narrows_of_cs rfl rfl
        · unfold C_connect
          refine Narrows_trans ?_ (Narrows_C_connect_go env _ _ _ _)
          exact Narrows_trans (Narrows_of_cs rfl rfl) (Narrows_clear_sock _)
    · exact Narrows_refl w
  | timer_cb =>
    simp only [step]
    split
    · exact Narrows_handler env w
    · exact Narrows_refl w
  | cancel_call =>
    simp only [step]
    split
    · rw [cancel_eq]
      split
      · exact Narrows_refl w
      · exact Narrows_trans (Narrows_of_cs rfl rfl) (Narrows_handler env _)
    · exact Narrows_refl w

theorem Narrows_run (env : Env) (es : List Event) :
    ∀ w : World, Narrows w (run env es w) := by
  induction es with
  | nil => intro w; exact Narrows_refl w
  | cons e es ih => intro w; exact Narrows_trans (Narrows_step env e w) (ih _)

/-- The address list of a constructed attempt is the answer of the resolver
(empty when resolution failed), and the cursor is a suffix of it. -/
theorem Connstart_new_addrs (env : Env) (iot_ : lcbio_TABLE) (settings_ : lcb_settings)
    (getaddrinfo : ai_family_t → Int × List addrinfo) (timeout : Nat)
    (handler_ : UserHandler) (arg : Nat) :
    List.IsSuffix (Connstart_new env iot_ settings_ getaddrinfo timeout handler_ arg).cs.ai_root
      (getaddrinfo (hints_ai_family settings_)).2 ∧
    List.IsSuffix (Connstart_new env iot_ settings_ getaddrinfo timeout handler_ arg).cs.ai
      (getaddrinfo (hints_ai_family settings_)).2 := by
  by_cases hr : (getaddrinfo (hints_ai_family settings_)).1 = 0
  · have hres : getaddrinfo (hints_ai_family settings_) =
        (0, (getaddrinfo (hints_ai_family settings_)).2) := Prod.ext hr rfl
    rw [Connstart_new_resolved env iot_ settings_ getaddrinfo timeout handler_ arg _ hres]
    split
    · obtain ⟨n1, n2⟩ := Narrows_E_conncb_go env LCB_WRITE_EVENT
        (driver_fuel (Connstart_resolved iot_ settings_
          (getaddrinfo (hints_ai_family settings_)).2 timeout handler_ arg))
        Label.GT_NEXTSOCK false []
        (Connstart_resolved iot_ settings_ (getaddrinfo (hints_ai_family settings_)).2 timeout
          handler_ arg)
      exact ⟨by unfold E_conncb; rw [n1]; exact List.suffix_refl _, n2⟩
    · obtain ⟨n1, n2⟩ := Narrows_C_connect_go env
        (driver_fuel (Connstart_resolved iot_ settings_
          (getaddrinfo (hints_ai_family settings_)).2 timeout handler_ arg))
        Label.GT_NEXTSOCK false
        (Connstart_resolved iot_ settings_ (getaddrinfo (hints_ai_family settings_)).2 timeout
          handler_ arg)
      exact ⟨by unfold C_connect; rw [n1]; exact List.suffix_refl _, n2⟩
  · have hw : (Connstart_new env iot_ settings_ getaddrinfo timeout handler_ arg).cs.ai_root =
          [] ∧
        (Connstart_new env iot_ settings_ getaddrinfo timeout handler_ arg).cs.ai = [] := by
      simp only [Connstart_new, if_pos hr, notify_error, state_signal, timer_signal, World.log]
      split_ifs <;> simp
    rw [hw.1, hw.2]
    exact ⟨List.nil_suffix, List.nil_suffix⟩

theorem exResolver_honours (f : ai_family_t) (a : addrinfo) (ha : a ∈ (exResolver f).2)
    (hf : f ≠ ai_family_t.AF_UNSPEC) : a.ai_family = f := by
  cases f with
  | AF_UNSPEC => exact absurd rfl hf
  | AF_INET =>
    simp only [exResolver, reduceCtorEq, if_false, List.mem_cons, List.mem_singleton,
      List.not_mem_nil, or_false] at ha
    rcases ha with h | h <;> rw [h] <;> rfl
  | AF_INET6 =>
    simp [exResolver] at ha

/-- C16: the family the constructor passes to name resolution is `AF_INET`
when `settings.ipv6` is DISABLED, `AF_INET6` when it is ONLY and `AF_UNSPEC`
for every other value. Hence, with a resolver that honours the filter (every
address it returns for a family other than `AF_UNSPEC` has that family), after
the construction and after every sequence of events every address of the
address list of the attempt and of its cursor is IPv4 when IPv6 is DISABLED
and IPv6 when it is ONLY. -/
theorem ipv6_policy (env : Env) (iot_ : lcbio_TABLE) (settings_ : lcb_settings)
    (getaddrinfo : ai_family_t → Int × List addrinfo) (timeout : Nat)
    (handler_ : UserHandler) (arg : Nat) (es : List Event)
    (hres : ∀ (f : ai_family_t) (a : addrinfo),
      a ∈ (getaddrinfo f).2 → f ≠ ai_family_t.AF_UNSPEC → a.ai_family = f) :
    (hints_ai_family settings_ =
      match settings_.ipv6 with
      | lcb_ipv6_t.LCB_IPV6_DISABLED => ai_family_t.AF_INET
      | lcb_ipv6_t.LCB_IPV6_ONLY => ai_family_t.AF_INET6
      | lcb_ipv6_t.LCB_IPV6_ALLOW => ai_family_t.AF_UNSPEC) ∧
    (∀ a : addrinfo,
      a ∈ (run env es
          (Connstart_new env iot_ settings_ getaddrinfo timeout handler_ arg)).cs.ai_root ∨
        a ∈ (run env es
          (Connstart_new env iot_ settings_ getaddrinfo timeout handler_ arg)).cs.ai →
      (settings_.ipv6 = lcb_ipv6_t.LCB_IPV6_DISABLED → a.ai_family = ai_family_t.AF_INET) ∧
      (settings_.ipv6 = lcb_ipv6_t.LCB_IPV6_ONLY → a.ai_family = ai_family_t.AF_INET6)) := by
  have hh : hints_ai_family settings_ =
      match settings_.ipv6 with
      | lcb_ipv6_t.LCB_IPV6_DISABLED => ai_family_t.AF_INET
      | lcb_ipv6_t.LCB_IPV6_ONLY => ai_family_t.AF_INET6
      | lcb_ipv6_t.LCB_IPV6_ALLOW => ai_family_t.AF_UNSPEC := by
    unfold hints_ai_family
    cases settings_.ipv6 <;> simp
  refine ⟨hh, ?_⟩
  intro a ha
  obtain ⟨a1, a2⟩ := Connstart_new_addrs env iot_ settings_ getaddrinfo timeout handler_ arg
  obtain ⟨n1, n2⟩ := Narrows_run env es
    (Connstart_new env iot_ settings_ getaddrinfo timeout handler_ arg)
  have hmem : a ∈ (getaddrinfo (hints_ai_family settings_)).2 := by
    rcases ha with h | h
    · rw [n1] at h
      exact a1.subset h
    · exact a2.subset (n2.subset h)
  constructor
  · intro hd
    have hf : hints_ai_family settings_ = ai_family_t.AF_INET := by rw [hh, hd]
    rw [hf] at hmem
    exact hres _ a hmem (by decide)
  · intro ho
    have hf : hints_ai_family settings_ = ai_family_t.AF_INET6 := by rw [hh, ho]
    rw [hf] at hmem
    exact hres _ a hmem (by decide)

theorem ipv6_policy_witness :
    hints_ai_family exSettings4 = ai_family_t.AF_INET ∧
    exB ∈ (run exEnv [] (Connstart_new exEnv (exTableE [(-1, 111)]) exSettings4 exResolver 1000
      { cancels := 0, refs := false } 7)).cs.ai ∧
    exB.ai_family = ai_family_t.AF_INET :=
  ⟨(ipv6_policy exEnv (exTableE [(-1, 111)]) exSettings4 exResolver 1000
      { cancels := 0, refs := false } 7 []
      exResolver_honours).1,
    by decide,
    ((ipv6_policy exEnv (exTableE [(-1, 111)]) exSettings4 exResolver 1000
      { cancels := 0, refs := false } 7 []
      exResolver_honours).2 exB
        (Or.inr (by decide))).1 rfl⟩

/-! ## C17: wrap_fd and the model of the table -/

/-- C17: `lcbio_wrap_fd` called with a completion table and the descriptor 5,
in every build. With `NDEBUG` the assertion is compiled out: the completion
table is accepted and a socket with one reference around the descriptor is
returned. Without `NDEBUG` the assertion assigns `LCB_IOMODEL_EVENT` to the
model tag of the table and tests the value of the enumerator: when that is
zero the process is aborted, for a readiness table as well; otherwise the
completion table is accepted and its tag has been overwritten. In no build is
the completion table rejected and the readiness table accepted. -/
theorem wrap_fd_does_not_check_model (ndebug : Bool) (event_value : Int) :
    lcbio_wrap_fd ndebug event_value true true (exTableC []) exSettings 5 =
      (if ndebug then
        Asserted.returned
          (some exWrapped, { exTableC [] with calls := [IOCall.load_socknames] })
      else if event_value = 0 then Asserted.aborted
      else
        Asserted.returned
          (some exWrapped, { exTableE [] with calls := [IOCall.load_socknames] })) ∧
    lcbio_wrap_fd ndebug event_value true true (exTableE []) exSettings 5 =
      (if !ndebug && decide (event_value = 0) then Asserted.aborted
      else
        Asserted.returned
          (some exWrapped, { exTableE [] with calls := [IOCall.load_socknames] })) ∧
    ¬ ((∀ (s : lcbio_SOCKET) (t : lcbio_TABLE),
          lcbio_wrap_fd ndebug event_value true true (exTableC []) exSettings 5 ≠
            Asserted.returned (some s, t)) ∧
        (∃ (s : lcbio_SOCKET) (t : lcbio_TABLE),
          lcbio_wrap_fd ndebug event_value true true (exTableE []) exSettings 5 =
            Asserted.returned (some s, t))) := by
  cases ndebug <;> by_cases h : event_value = 0 <;>
    simp [lcbio_wrap_fd, exWrapped, exTableC, exTableE, h]

/-! ## C18: advancing the cursor -/

/-- C18, counterexample: the attempt is on B, the last address of its list,
with the valid descriptor 12 bound to it. `clear_sock` moves the cursor to
NULL and returns: no close is issued and the descriptor field still holds
12. -/
theorem clear_sock_keeps_last_descriptor :
    (exAttemptE [(-1, 111), (-1, 115)]).cs.ai = [exB] ∧
    (exAttemptE [(-1, 111), (-1, 115)]).sock.fd = 12 ∧
    (clear_sock (exAttemptE [(-1, 111), (-1, 115)])).cs.ai = [] ∧
    (clear_sock (exAttemptE [(-1, 111), (-1, 115)])).sock.fd = 12 ∧
    (clear_sock (exAttemptE [(-1, 111), (-1, 115)])).iot.calls =
      (exAttemptE [(-1, 111), (-1, 115)]).iot.calls := by
  decide

/-- C18 (amended): `clear_sock` on a cursor `a :: rest` leaves the cursor on
`rest`. When `rest` is not empty, the descriptor bound to `a` is closed through
the I/O flavor (in the readiness flavor after the cancel of a live watch; in
the completion flavor if there is a descriptor object) and the descriptor
field is invalid. When `a` was the last address nothing else changes: no close
is issued and the descriptor stays in its field. -/
theorem advance_cursor (w : World) (a : addrinfo) (rest : List addrinfo)
    (hai : w.cs.ai = a :: rest) :
    (clear_sock w).cs.ai = rest ∧
    (rest = [] → clear_sock w = { w with cs := { w.cs with ai := [] } }) ∧
    (rest ≠ [] → IOT_IS_EVENT w.iot = true →
      (clear_sock w).iot.calls =
        w.iot.calls ++ unwatch_calls w ++ [IOCall.E_close w.sock.fd] ∧
      (clear_sock w).sock.fd = INVALID_SOCKET) ∧
    (rest ≠ [] → IOT_IS_EVENT w.iot = false → w.sock.sd ≠ none →
      (clear_sock w).iot.calls = w.iot.calls ++ [IOCall.C_close w.sock.sd] ∧
      (clear_sock w).sock.sd = none) := by
  refine ⟨?_, ?_, ?_, ?_⟩
  · rw [(clear_sock_cursor w).1, hai]
    rfl
  · intro hr
    rw [hr] at hai
    exact clear_sock_last w a hai
  · intro hr hE
    cases rest with
    | nil => exact absurd rfl hr
    | cons b rest2 =>
      obtain ⟨u1, u2, u3⟩ := unwatch_fields { w with cs := { w.cs with ai := b :: rest2 } }
      unfold clear_sock
      simp [hai, hE, E_close, World.log, u1, u2, u3, unwatch_calls]
  · intro hr hC hsd
    cases rest with
    | nil => exact absurd rfl hr
    | cons b rest2 =>
      unfold clear_sock
      simp [hai, hC, C_close, World.log, hsd]

theorem advance_cursor_witness :
    (exAttemptE [(-1, 115)]).cs.ai = [exA, exB] ∧
    (clear_sock (exAttemptE [(-1, 115)])).iot.calls =
      (exAttemptE [(-1, 115)]).iot.calls ++ unwatch_calls (exAttemptE [(-1, 115)]) ++
        [IOCall.E_close (exAttemptE [(-1, 115)]).sock.fd] ∧
    (clear_sock (exAttemptE [(-1, 115)])).sock.fd = INVALID_SOCKET :=
  ⟨by decide,
    (advance_cursor (exAttemptE [(-1, 115)]) exA [exB] (by decide)).2.2.1 (by decide)
      (by decide)⟩

/-! ## C19: a driver entered with a null cursor -/

theorem state_signal_frame (s : State) (e : lcb_error_t) (w : World) :
    (state_signal s e w).iot = w.iot ∧ (state_signal s e w).sock = w.sock ∧
    (state_signal s e w).cs.syserr = w.cs.syserr ∧
    (w.cs.state = State.CS_PENDING → (state_signal s e w).cs.timer = Timer.signalled) := by
  unfold state_signal timer_signal
  split
  · rename_i h
    exact ⟨rfl, rfl, rfl, fun h1 => absurd h1 h⟩
  · simp only []
    split_ifs <;> simp

/-- C19, as stated, fails for the completion driver. The constructor is given
a completion table whose errno is 111 and a resolver that succeeds with an
empty list, so it enters `C_connect` with a NULL cursor and `syserr` 0. The
driver makes no call through the table, and it does not only signal the error:
it first stores the errno of the table in `syserr`, which
`notify_error(CONNECT_ERROR)` alone leaves at 0. The write reaches the user:
the dispatch that follows delivers (NULL, NETWORK_ERROR, 111), where
`notify_error(CONNECT_ERROR)` alone would deliver (NULL, CONNECT_ERROR, 0). -/
theorem null_cursor_completion_writes_syserr :
    exNullC.cs.ai = [] ∧ IOT_IS_EVENT exNullC.iot = false ∧
    exNullC.cs.syserr = 0 ∧ exNullC.iot.errno = 111 ∧
    Connstart_new exEnv { exTableC [] with errno := 111 } exSettings (fun _ => (0, []))
      1000 { cancels := 1, refs := false } 7 = C_connect exEnv exNullC ∧
    (notify_error lcb_error_t.LCB_CONNECT_ERROR exNullC).cs.syserr = 0 ∧
    (C_connect exEnv exNullC).cs.syserr = 111 ∧
    C_connect exEnv exNullC ≠ notify_error lcb_error_t.LCB_CONNECT_ERROR exNullC ∧
    (C_connect exEnv exNullC).iot.calls = [] ∧
    (run exEnv [Event.timer_cb] (C_connect exEnv exNullC)).ucalls =
      [UserCall.mk false 7 lcb_error_t.LCB_NETWORK_ERROR 111] ∧
    (run exEnv [Event.timer_cb]
      (notify_error lcb_error_t.LCB_CONNECT_ERROR exNullC)).ucalls =
      [UserCall.mk false 7 lcb_error_t.LCB_CONNECT_ERROR 0] := by
  decide

/-- C19 (amended): when the cursor is null, `ensure_sock` returns false and
leaves the world as it is (no descriptor is asked for), and a driver entered in
that situation makes no call through the I/O table (no descriptor creation, no
connect, no watch) and leaves the socket and the watch flag as they are. The
readiness driver is exactly `notify_error(CONNECT_ERROR)`. The completion
driver is `notify_error(CONNECT_ERROR)` together with one more write: it
stores the current errno of the table in `syserr`, so it equals
`notify_error(CONNECT_ERROR)` exactly when `syserr` already held that errno;
state, last error and timer change as by `notify_error(CONNECT_ERROR)`. In
both drivers a PENDING attempt becomes ERROR with the handler scheduled. -/
theorem null_cursor_is_terminal (env : Env) (events : Nat) (w : World)
    (hai : w.cs.ai = []) :
    ensure_sock env w = (w, false) ∧
    E_conncb env events w = notify_error lcb_error_t.LCB_CONNECT_ERROR w ∧
    C_connect env w =
      notify_error lcb_error_t.LCB_CONNECT_ERROR (lcbio_mksyserr w.iot.errno w) ∧
    C_connect env w =
      lcbio_mksyserr w.iot.errno (notify_error lcb_error_t.LCB_CONNECT_ERROR w) ∧
    (C_connect env w).cs.syserr = w.iot.errno ∧
    (C_connect env w = notify_error lcb_error_t.LCB_CONNECT_ERROR w ↔
      w.cs.syserr = w.iot.errno) ∧
    (E_conncb env events w).iot = w.iot ∧ (C_connect env w).iot = w.iot ∧
    (E_conncb env events w).sock = w.sock ∧ (C_connect env w).sock = w.sock ∧
    (E_conncb env events w).cs.ev_active = w.cs.ev_active ∧
    (C_connect env w).cs.ev_active = w.cs.ev_active ∧
    (C_connect env w).cs.state = (notify_error lcb_error_t.LCB_CONNECT_ERROR w).cs.state ∧
    (C_connect env w).cs.last_error =
      (notify_error lcb_error_t.LCB_CONNECT_ERROR w).cs.last_error ∧
    (C_connect env w).cs.timer = (notify_error lcb_error_t.LCB_CONNECT_ERROR w).cs.timer ∧
    (w.cs.state = State.CS_PENDING →
      (E_conncb env events w).cs.state = State.CS_ERROR ∧
      (E_conncb env events w).cs.timer = Timer.signalled ∧
      (C_connect env w).cs.state = State.CS_ERROR ∧
      (C_connect env w).cs.timer = Timer.signalled) := by
  have hens := ensure_sock_null env w hai
  have hE : E_conncb env events w = notify_error lcb_error_t.LCB_CONNECT_ERROR w := by
    unfold E_conncb driver_fuel
    exact E_go_next_fail env events _ false [] w w hens
  have hC : C_connect env w =
      notify_error lcb_error_t.LCB_CONNECT_ERROR (lcbio_mksyserr w.iot.errno w) := by
    unfold C_connect driver_fuel
    exact C_go_next_fail env _ false w w hens
  have hsame : notify_error lcb_error_t.LCB_CONNECT_ERROR (lcbio_mksyserr w.iot.errno w) =
      lcbio_mksyserr w.iot.errno (notify_error lcb_error_t.LCB_CONNECT_ERROR w) := by
    unfold notify_error state_signal timer_signal lcbio_mksyserr
    simp only []
    split_ifs <;> rfl
  obtain ⟨f1, f2, f3, f4⟩ := state_signal_frame State.CS_ERROR lcb_error_t.LCB_CONNECT_ERROR w
  obtain ⟨g1, g2, g3⟩ := state_signal_fields State.CS_ERROR lcb_error_t.LCB_CONNECT_ERROR w
  have hsys : (C_connect env w).cs.syserr = w.iot.errno := by
    rw [hC, hsame]; rfl
  refine ⟨hens, hE, hC, hC.trans hsame, hsys, ?_, ?_, ?_, ?_, ?_, ?_, ?_, ?_, ?_, ?_, ?_⟩
  · constructor
    · intro h
      have h1 := congrArg (fun x => x.cs.syserr) h
      simp only [] at h1
      rw [hsys] at h1
      exact (h1.trans f3).symm
    · intro h
      rw [hC, hsame]
      have h2 : (notify_error lcb_error_t.LCB_CONNECT_ERROR w).cs.syserr = w.iot.errno :=
        f3.trans h
      unfold lcbio_mksyserr
      rw [← h2]
  · rw [hE]; exact f1
  · rw [hC, hsame]; exact f1
  · rw [hE]; exact f2
  · rw [hC, hsame]; exact f2
  · rw [hE]; exact g2
  · rw [hC, hsame]; exact g2
  · rw [hC, hsame]; rfl
  · rw [hC, hsame]; rfl
  · rw [hC, hsame]; rfl
  · intro hst
    refine ⟨?_, ?_, ?_, ?_⟩
    · rw [hE]; exact g3 hst
    · rw [hE]; exact f4 hst
    · rw [hC, hsame]; exact g3 hst
    · rw [hC, hsame]; exact f4 hst

theorem null_cursor_is_terminal_witness :
    exNullC.cs.ai = [] ∧ exNullC.cs.state = State.CS_PENDING ∧
    (C_connect exEnv exNullC).cs.syserr = exNullC.iot.errno ∧
    (C_connect exEnv exNullC).iot = exNullC.iot ∧
    (C_connect exEnv exNullC).cs.state = State.CS_ERROR ∧
    E_conncb exEnv LCB_WRITE_EVENT (clear_sock (exAttemptE [(-1, 111), (-1, 115)])) =
      notify_error lcb_error_t.LCB_CONNECT_ERROR
        (clear_sock (exAttemptE [(-1, 111), (-1, 115)])) :=
  ⟨by decide, by decide,
    (null_cursor_is_terminal exEnv LCB_WRITE_EVENT exNullC (by decide)).2.2.2.2.1,
    (null_cursor_is_terminal exEnv LCB_WRITE_EVENT exNullC (by decide)).2.2.2.2.2.2.2.1,
    ((null_cursor_is_terminal exEnv LCB_WRITE_EVENT exNullC
      (by decide)).2.2.2.2.2.2.2.2.2.2.2.2.2.2.2 (by decide)).2.2.1,
    (null_cursor_is_terminal exEnv LCB_WRITE_EVENT
      (clear_sock (exAttemptE [(-1, 111), (-1, 115)])) (by decide)).2.1⟩

/-! ## C20: the reference taken at the submission of a completion connect -/

/-- C20: a completion attempt whose first connect answers -1 with errno
EINPROGRESS takes the BUSY path of `C_connect`: it returns to wait for the
completion callback without taking a reference, so the socket still has one
reference (the path on which the connect returns 0 leaves two). The
completion callback that follows decrements the count to zero and destroys the
socket while the attempt is alive and PENDING; no handler runs and no callback
is made. -/
theorem busy_submission_takes_no_reference :
    (exAttemptC []).sock.refcount = 2 ∧
    (exAttemptC [(-1, 115)]).sock.refcount = 1 ∧
    (exAttemptC [(-1, 115)]).pending = 1 ∧
    (exAttemptC [(-1, 115)]).cs.state = State.CS_PENDING ∧
    (exAttemptC [(-1, 115)]).iot.calls =
      [IOCall.C_socket exA (some 11), IOCall.C_connect (some 11) (some exA) (-1)] ∧
    (run exEnv [Event.completion_cb 0 0] (exAttemptC [(-1, 115)])).sock.refcount = 0 ∧
    (run exEnv [Event.completion_cb 0 0] (exAttemptC [(-1, 115)])).sock.freed = true ∧
    (run exEnv [Event.completion_cb 0 0] (exAttemptC [(-1, 115)])).cs_deleted = false ∧
    (run exEnv [Event.completion_cb 0 0] (exAttemptC [(-1, 115)])).cs.state =
      State.CS_PENDING ∧
    (run exEnv [Event.completion_cb 0 0] (exAttemptC [(-1, 115)])).ucalls = [] := by
  decide

/-! ## C21: the watch callback entered with an error event -/

/-- A readiness driver entered with the error bit in its event mask goes
through the whole address list without a connect: no scripted connect answer
is consumed, the cursor ends null and a PENDING attempt ends in ERROR. -/
theorem E_go_error_event (env : Env) (events : Nat)
    (hev : events &&& LCB_ERROR_EVENT ≠ 0) (n : Nat) :
    ∀ (r : Bool) (ai : List addrinfo) (w : World), w.cs.ai.length < n →
      (E_conncb_go env events n Label.GT_NEXTSOCK r ai w).iot.connects = w.iot.connects ∧
      (E_conncb_go env events n Label.GT_NEXTSOCK r ai w).cs.ai = [] ∧
      (w.cs.state = State.CS_PENDING →
        (E_conncb_go env events n Label.GT_NEXTSOCK r ai w).cs.state = State.CS_ERROR) := by
  induction n with
  | zero => intro r ai w h; exact absurd h (Nat.not_lt_zero _)
  | succ n ih =>
    intro r ai w hn
    obtain ⟨e1, e2, e3⟩ := ensure_sock_cursor env w
    cases hr : (ensure_sock env w).2 with
    | false =>
      rw [E_go_next_fail env events n r ai w (ensure_sock env w).1 (Prod.ext rfl hr)]
      obtain ⟨f1, _, f3⟩ := state_signal_fields State.CS_ERROR lcb_error_t.LCB_CONNECT_ERROR
        (ensure_sock env w).1
      obtain ⟨g1, _, _, _⟩ := state_signal_frame State.CS_ERROR lcb_error_t.LCB_CONNECT_ERROR
        (ensure_sock env w).1
      unfold notify_error
      refine ⟨by rw [g1]; exact e2, by rw [f1]; exact ensure_sock_false env w hr, ?_⟩
      intro hst
      exact f3 ((ioFrame_state (ioFrame_ensure_sock env w)).trans hst)
    | true =>
      rw [E_go_next_error_event env events n r ai w (ensure_sock env w).1 (Prod.ext rfl hr) hev]
      obtain ⟨c1, c2⟩ := clear_sock_cursor
        (lcbio_mksyserr (getsockopt (ensure_sock env w).1).1 (getsockopt (ensure_sock env w).1).2)
      obtain ⟨k1, k2⟩ := getsockopt_cursor (ensure_sock env w).1
      have hai : (lcbio_mksyserr (getsockopt (ensure_sock env w).1).1
          (getsockopt (ensure_sock env w).1).2).cs.ai = (ensure_sock env w).1.cs.ai := by
        show (getsockopt (ensure_sock env w).1).2.cs.ai = _
        rw [k1]
      have hco : (lcbio_mksyserr (getsockopt (ensure_sock env w).1).1
          (getsockopt (ensure_sock env w).1).2).iot.connects = w.iot.connects := by
        show (getsockopt (ensure_sock env w).1).2.iot.connects = _
        rw [k2, e2]
      have hne := e3 hr
      have hlen : (clear_sock (lcbio_mksyserr (getsockopt (ensure_sock env w).1).1
          (getsockopt (ensure_sock env w).1).2)).cs.ai.length < n := by
        rw [c1, hai, List.length_tail]
        have : 0 < (ensure_sock env w).1.cs.ai.length := List.length_pos.mpr hne
        omega
      obtain ⟨i1, i2, i3⟩ := ih r ai _ hlen
      refine ⟨by rw [i1, c2, hco], i2, ?_⟩
      intro hst
      apply i3
      have h1 : ioFrame (clear_sock (lcbio_mksyserr (getsockopt (ensure_sock env w).1).1
          (getsockopt (ensure_sock env w).1).2)) = ioFrame w := by simp
      exact (ioFrame_state h1).trans hst

/-- The readiness driver entered with the error bit set issues no connect and
leaves a null cursor. -/
theorem E_conncb_error_event (env : Env) (events : Nat)
    (hev : events &&& LCB_ERROR_EVENT ≠ 0) (w : World) :
    (E_conncb env events w).iot.connects = w.iot.connects ∧
    (E_conncb env events w).cs.ai = [] ∧
    (w.cs.state = State.CS_PENDING → (E_conncb env events w).cs.state = State.CS_ERROR) := by
  unfold E_conncb
  apply E_go_error_event env events hev
  unfold driver_fuel
  omega

/-- C21: the watch callback is entered with `LCB_ERROR_EVENT` on an attempt
whose cursor is on A and is followed by B. The driver reads `SO_ERROR` (111)
into `syserr`, cancels the watch, closes the descriptor of A, moves the cursor
to B and creates a descriptor for B; as the event mask still has the error
bit, it then reads `SO_ERROR` of the new descriptor (0) into `syserr`, moves
the cursor past B and signals ERROR. No connect is issued to B. -/
theorem error_event_skips_every_address :
    exAttemptErr.cs.ai = [exA, exB] ∧
    exAttemptErr.cs.state = State.CS_PENDING ∧
    exAttemptErr.iot.calls =
      [IOCall.create_event, IOCall.E_socket exA 11, IOCall.connect0 11 (some exA) (-1),
        IOCall.watch 11] ∧
    (step exEnv (Event.watch_cb LCB_ERROR_EVENT) exAttemptErr).iot.calls =
      exAttemptErr.iot.calls ++
        [IOCall.getsockopt 11 111, IOCall.cancel_watch 11, IOCall.E_close 11,
          IOCall.E_socket exB 12, IOCall.getsockopt 12 0] ∧
    (step exEnv (Event.watch_cb LCB_ERROR_EVENT) exAttemptErr).cs.ai = [] ∧
    (step exEnv (Event.watch_cb LCB_ERROR_EVENT) exAttemptErr).cs.state = State.CS_ERROR ∧
    (step exEnv (Event.watch_cb LCB_ERROR_EVENT) exAttemptErr).cs.syserr = 0 ∧
    (run exEnv [Event.watch_cb LCB_ERROR_EVENT, Event.timer_cb] exAttemptErr).ucalls =
      [UserCall.mk false 7 lcb_error_t.LCB_CONNECT_ERROR 0] := by
  decide

/-! ## What `ensure_sock` returns with true -/

theorem ensure_sock_E_while_true (env : Env) (n : Nat) :
    ∀ w : World, (ensure_sock_E_while env n w).2 = true →
      (ensure_sock_E_while env n w).1.sock.fd ≠ INVALID_SOCKET ∧
      (ensure_sock_E_while env n w).1.cs.ai ≠ [] := by
  induction n with
  | zero => intro w h; simp [ensure_sock_E_while] at h
  | succ n ih =>
    intro w
    unfold ensure_sock_E_while
    simp only []
    obtain ⟨_, _, c3⟩ := ai2sock_E_cursor env w.cs.ai w.iot.errno w.iot.calls
    split
    · split
      · rename_i h
        intro _
        exact ⟨h, c3 h⟩
      · exact ih _
    · intro h
      cases h

theorem ensure_sock_C_while_true (env : Env) (n : Nat) :
    ∀ w : World, (ensure_sock_C_while env n w).2 = true →
      (ensure_sock_C_while env n w).1.sock.sd ≠ none ∧
      (ensure_sock_C_while env n w).1.cs.ai ≠ [] := by
  induction n with
  | zero => intro w h; simp [ensure_sock_C_while] at h
  | succ n ih =>
    intro w
    unfold ensure_sock_C_while
    simp only []
    obtain ⟨_, _, c3⟩ := ai2sock_C_cursor env w.cs.ai w.iot.errno w.iot.calls
    split
    · split
      · rename_i h
        intro _
        exact ⟨h, c3 h⟩
      · exact ih _
    · intro h
      cases h

theorem ensure_sock_E_while_null (env : Env) (n : Nat) (w : World) :
    (ensure_sock_E_while env n w).1.cs.ai = [] →
    (ensure_sock_E_while env n w).2 = false := by
  intro h
  cases hr : (ensure_sock_E_while env n w).2 with
  | false => rfl
  | true => exact absurd h (ensure_sock_E_while_true env n w hr).2

/-- The loop of `ensure_sock` entered without a descriptor ends with a
descriptor or with a null cursor. -/
theorem ensure_sock_E_while_false (env : Env) (n : Nat) (w : World)
    (hfd : w.sock.fd = INVALID_SOCKET)
    (h : (ensure_sock_E_while env (n + 1) w).2 = false) :
    (ensure_sock_E_while env (n + 1) w).1.cs.ai = [] := by
  unfold ensure_sock_E_while at h ⊢
  simp only [] at h ⊢
  obtain ⟨_, c2, _⟩ := ai2sock_E_cursor env w.cs.ai w.iot.errno w.iot.calls
  by_cases hc : w.sock.fd = INVALID_SOCKET ∧ w.cs.ai ≠ []
  · rw [if_pos hc] at h ⊢
    by_cases hv : (lcbio_E_ai2sock env w.cs.ai w.iot.errno w.iot.calls).1 ≠ INVALID_SOCKET
    · rw [if_pos hv] at h
      cases h
    · rw [if_neg hv]
      have hnull := c2 (not_not.mp hv)
      cases n with
      | zero => exact hnull
      | succ m =>
        unfold ensure_sock_E_while
        simp only []
        rw [if_neg (by simp [hnull])]
        exact hnull
  · rw [if_neg hc]
    by_contra hne
    exact hc ⟨hfd, hne⟩

theorem ensure_sock_C_while_false (env : Env) (n : Nat) (w : World)
    (hsd : w.sock.sd = none)
    (h : (ensure_sock_C_while env (n + 1) w).2 = false) :
    (ensure_sock_C_while env (n + 1) w).1.cs.ai = [] := by
  unfold ensure_sock_C_while at h ⊢
  simp only [] at h ⊢
  obtain ⟨_, c2, _⟩ := ai2sock_C_cursor env w.cs.ai w.iot.errno w.iot.calls
  by_cases hc : w.sock.sd = none ∧ w.cs.ai ≠ []
  · rw [if_pos hc] at h ⊢
    by_cases hv : (lcbio_C_ai2sock env w.cs.ai w.iot.errno w.iot.calls).1 ≠ none
    · rw [if_pos hv] at h
      cases h
    · rw [if_neg hv]
      have hnull := c2 (not_not.mp hv)
      cases n with
      | zero => exact hnull
      | succ m =>
        unfold ensure_sock_C_while
        simp only []
        rw [if_neg (by simp [hnull])]
        exact hnull
  · rw [if_neg hc]
    by_contra hne
    exact hc ⟨hsd, hne⟩

/-- Readiness flavor: `ensure_sock` returns true only with a valid descriptor
and a non-null cursor. -/
theorem ensure_sock_true_E (env : Env) (w : World) (hE : IOT_IS_EVENT w.iot = true)
    (h : (ensure_sock env w).2 = true) :
    (ensure_sock env w).1.sock.fd ≠ INVALID_SOCKET ∧ (ensure_sock env w).1.cs.ai ≠ [] := by
  unfold ensure_sock at h ⊢
  by_cases hai : w.cs.ai = []
  · rw [if_pos hai] at h
    cases h
  · rw [if_neg hai] at h ⊢
    simp only [hE, if_true] at h ⊢
    by_cases hfd : w.sock.fd ≠ INVALID_SOCKET
    · rw [if_pos hfd]
      exact ⟨hfd, hai⟩
    · rw [if_neg hfd] at h ⊢
      have hfd2 : w.sock.fd = INVALID_SOCKET := not_not.mp hfd
      cases hr : (ensure_sock_E_while env (w.cs.ai.length + 1) w).2 with
      | true =>
        simp only [hr, if_true]
        exact ensure_sock_E_while_true env _ w hr
      | false =>
        have hnull := ensure_sock_E_while_false env _ w hfd2 hr
        simp [hr, hnull] at h

/-- Completion flavor: `ensure_sock` returns true only with a descriptor
object and a non-null cursor. -/
theorem ensure_sock_true_C (env : Env) (w : World) (hE : IOT_IS_EVENT w.iot = false)
    (h : (ensure_sock env w).2 = true) :
    (ensure_sock env w).1.sock.sd ≠ none ∧ (ensure_sock env w).1.cs.ai ≠ [] := by
  unfold ensure_sock at h ⊢
  by_cases hai : w.cs.ai = []
  · rw [if_pos hai] at h
    cases h
  · rw [if_neg hai] at h ⊢
    simp only [hE, Bool.false_eq_true, if_false] at h ⊢
    by_cases hsd : w.sock.sd ≠ none
    · rw [if_pos hsd]
      exact ⟨hsd, hai⟩
    · rw [if_neg hsd] at h ⊢
      have hsd2 : w.sock.sd = none := not_not.mp hsd
      cases hr : (ensure_sock_C_while env (w.cs.ai.length + 1) w).2 with
      | true =>
        simp only [hr, if_true]
        exact ensure_sock_C_while_true env _ w hr
      | false =>
        have hnull := ensure_sock_C_while_false env _ w hsd2 hr
        simp [hr, hnull] at h

/-! ## The drivers reach the connect with a descriptor and an address -/

theorem IOT_connect0_sock (ai : List addrinfo) (w : World) :
    (IOT_connect0 ai w).2.sock = w.sock ∧
    IOT_IS_EVENT (IOT_connect0 ai w).2.iot = IOT_IS_EVENT w.iot := by
  unfold IOT_connect0
  split <;> exact ⟨rfl, rfl⟩

theorem IOT_connect_sock (w : World) :
    (IOT_connect w).2.sock = w.sock ∧
    IOT_IS_EVENT (IOT_connect w).2.iot = IOT_IS_EVENT w.iot := by
  unfold IOT_connect
  split <;> exact ⟨rfl, rfl⟩

/-- A property of readiness worlds kept by every primitive step of the
readiness driver, where the connect and the registration of the watch need
only keep it when they are made with a valid descriptor (and, for the
connect, an address), is kept by the driver. -/
theorem E_conncb_go_guarded (env : Env) (events : Nat) (P : World → Prop)
    (h_ev : ∀ w : World, P w → IOT_IS_EVENT w.iot = true)
    (h_ens : ∀ w : World, P w → P (ensure_sock env w).1)
    (h_gso : ∀ w : World, P w → P (getsockopt w).2)
    (h_sys : ∀ (e : Int) (w : World), P w → P (lcbio_mksyserr e w))
    (h_clr : ∀ w : World, P w → P (clear_sock w))
    (h_con : ∀ (ai : List addrinfo) (w : World), P w → w.sock.fd ≠ INVALID_SOCKET →
      ai ≠ [] → P (IOT_connect0 ai w).2)
    (h_unw : ∀ w : World, P w → P (unwatch w))
    (h_sig : ∀ (s : State) (e : lcb_error_t) (w : World), P w → P (state_signal s e w))
    (h_watch : ∀ w : World, P w → w.sock.fd ≠ INVALID_SOCKET →
      P { w.log (IOCall.watch w.sock.fd) with
          cs := { (w.log (IOCall.watch w.sock.fd)).cs with ev_active := true } })
    (n : Nat) :
    ∀ (l : Label) (r : Bool) (ai : List addrinfo) (w : World), P w →
      (l = Label.GT_CONNECT → w.sock.fd ≠ INVALID_SOCKET ∧ ai ≠ []) →
      P (E_conncb_go env events n l r ai w) := by
  induction n with
  | zero =>
    intro l r ai w hw _
    have : E_conncb_go env events 0 l r ai w = w := by unfold E_conncb_go; rfl
    rw [this]
    exact hw
  | succ n ih =>
    intro l r ai w hw hg
    have hno : Label.GT_NEXTSOCK = Label.GT_CONNECT →
        ∀ (x : World) (a : List addrinfo), x.sock.fd ≠ INVALID_SOCKET ∧ a ≠ [] :=
      fun h => (by cases h)
    cases l with
    | GT_NEXTSOCK =>
      unfold E_conncb_go
      simp only []
      split
      · exact h_sig _ _ _ (h_ens w hw)
      · rename_i hr
        have hr2 : (ensure_sock env w).2 = true := by simpa using hr
        split
        · exact ih _ _ _ _ (h_clr _ (h_sys _ _ (h_gso _ (h_ens w hw)))) (fun h => hno h _ _)
        · exact ih _ _ _ _ (h_ens w hw) (fun _ => ensure_sock_true_E env w (h_ev w hw) hr2)
    | GT_CONNECT =>
      obtain ⟨g1, g2⟩ := hg rfl
      have hc := h_con ai w hw g1 g2
      have hfd : ∀ e : Int, (lcbio_mksyserr e (IOT_connect0 ai w).2).sock.fd ≠ INVALID_SOCKET := by
        intro e
        show (IOT_connect0 ai w).2.sock.fd ≠ _
        rw [(IOT_connect0_sock ai w).1]
        exact g1
      unfold E_conncb_go
      simp only []
      split
      · exact h_sig _ _ _ (h_unw _ hc)
      · split
        · exact ih _ _ _ _ (h_sys _ _ hc) (fun _ => ⟨hfd _, g2⟩)
        · exact h_sig _ _ _ (h_unw _ (h_sys _ _ hc))
        · exact h_watch _ (h_sys _ _ hc) (hfd _)
        · split
          · exact ih _ _ _ _ (h_sys _ _ hc) (fun _ => ⟨hfd _, g2⟩)
          · exact ih _ _ _ _ (h_clr _ (h_sys _ _ hc)) (fun h => hno h _ _)
        · exact ih _ _ _ _ (h_clr _ (h_sys _ _ hc)) (fun h => hno h _ _)

/-- The completion counterpart of `E_conncb_go_guarded`. -/
theorem C_connect_go_guarded (env : Env) (P : World → Prop)
    (h_ev : ∀ w : World, P w → IOT_IS_EVENT w.iot = false)
    (h_ens : ∀ w : World, P w → P (ensure_sock env w).1)
    (h_sys : ∀ (e : Int) (w : World), P w → P (lcbio_mksyserr e w))
    (h_clr : ∀ w : World, P w → P (clear_sock w))
    (h_con : ∀ w : World, P w → w.sock.sd ≠ none → w.cs.ai ≠ [] → P (IOT_connect w).2)
    (h_sig : ∀ (s : State) (e : lcb_error_t) (w : World), P w → P (state_signal s e w))
    (h_ref : ∀ w : World, P w → P (submit_ref w))
    (h_busy : ∀ w : World, P w → P (submit_busy w))
    (n : Nat) :
    ∀ (l : Label) (r : Bool) (w : World), P w →
      (l = Label.GT_CONNECT → w.sock.sd ≠ none ∧ w.cs.ai ≠ []) →
      P (C_connect_go env n l r w) := by
  induction n with
  | zero =>
    intro l r w hw _
    have : C_connect_go env 0 l r w = w := by unfold C_connect_go; rfl
    rw [this]
    exact hw
  | succ n ih =>
    intro l r w hw hg
    have hno : Label.GT_NEXTSOCK = Label.GT_CONNECT →
        ∀ x : World, x.sock.sd ≠ none ∧ x.cs.ai ≠ [] :=
      fun h => (by cases h)
    cases l with
    | GT_NEXTSOCK =>
      unfold C_connect_go
      simp only []
      split
      · exact h_sig _ _ _ (h_sys _ _ (h_ens w hw))
      · rename_i hr
        have hr2 : (ensure_sock env w).2 = true := by simpa using hr
        exact ih _ _ _ (h_ens w hw) (fun _ => ensure_sock_true_C env w (h_ev w hw) hr2)
    | GT_CONNECT =>
      obtain ⟨g1, g2⟩ := hg rfl
      have hc := h_con w hw g1 g2
      have hsd : ∀ e : Int, (lcbio_mksyserr e (IOT_connect w).2).sock.sd ≠ none ∧
          (lcbio_mksyserr e (IOT_connect w).2).cs.ai ≠ [] := by
        intro e
        constructor
        · show (IOT_connect w).2.sock.sd ≠ _
          rw [(IOT_connect_sock w).1]
          exact g1
        · show (IOT_connect w).2.cs.ai ≠ _
          rw [(IOT_connect_cursor w).1]
          exact g2
      unfold C_connect_go
      simp only []
      split
      · exact h_ref _ hc
      · split
        · exact ih _ _ _ (h_sys _ _ hc) (fun _ => hsd _)
        · exact h_sig _ _ _ (h_sys _ _ hc)
        · exact h_busy _ (h_sys _ _ hc)
        · split
          · exact ih _ _ _ (h_sys _ _ hc) (fun _ => hsd _)
          · exact ih _ _ _ (h_clr _ (h_sys _ _ hc)) (fun h => hno h _)
        · exact ih _ _ _ (h_clr _ (h_sys _ _ hc)) (fun h => hno h _)

/-! ## The calls that the primitive steps add to the log -/

theorem GrowsBy_refl (q : IOCall → Bool) (w : World) : GrowsBy q w w :=
  ⟨rfl, [], by simp, by simp⟩

theorem GrowsBy_trans {q : IOCall → Bool} {a b c : World} (h1 : GrowsBy q a b)
    (h2 : GrowsBy q b c) : GrowsBy q a c := by
  obtain ⟨m1, n1, e1, q1⟩ := h1
  obtain ⟨m2, n2, e2, q2⟩ := h2
  refine ⟨m2.trans m1, n1 ++ n2, by rw [e2, e1, List.append_assoc], ?_⟩
  intro x hx
  rcases List.mem_append.mp hx with h | h
  · exact q1 x h
  · exact q2 x h

theorem GrowsBy_mono {q q1 : IOCall → Bool} (h : ∀ c, q c = true → q1 c = true) {a b : World}
    (h1 : GrowsBy q a b) : GrowsBy q1 a b := by
  obtain ⟨m1, n1, e1, p1⟩ := h1
  exact ⟨m1, n1, e1, fun c hc => h c (p1 c hc)⟩

theorem GrowsBy_of_iot (q : IOCall → Bool) {w w1 : World} (h : w1.iot = w.iot) :
    GrowsBy q w w1 :=
  ⟨by rw [h], [], by rw [h]; simp, by simp⟩

theorem GrowsBy_log (q : IOCall → Bool) (w : World) (c : IOCall) (hc : q c = true) :
    GrowsBy q w (w.log c) :=
  ⟨rfl, [c], rfl, by simpa using hc⟩

theorem ai2sock_E_calls (env : Env) :
    ∀ (ai : List addrinfo) (errno : Int) (log : List IOCall),
      ∃ new : List IOCall, (lcbio_E_ai2sock env ai errno log).2.2.2 = log ++ new ∧
        ∀ c ∈ new, plain_call c = true := by
  intro ai
  induction ai with
  | nil => intro errno log; exact ⟨[], by simp [lcbio_E_ai2sock], by simp⟩
  | cons a rest ih =>
    intro errno log
    unfold lcbio_E_ai2sock
    split
    · exact ⟨[IOCall.E_socket a (env.E_socket a)], rfl, by simp [plain_call]⟩
    · obtain ⟨new, e, p⟩ := ih (env.socket_errno a) (log ++ [IOCall.E_socket a INVALID_SOCKET])
      refine ⟨IOCall.E_socket a INVALID_SOCKET :: new, by rw [e]; simp, ?_⟩
      intro c hc
      rcases List.mem_cons.mp hc with h | h
      · rw [h]; rfl
      · exact p c h

theorem ai2sock_C_calls (env : Env) :
    ∀ (ai : List addrinfo) (errno : Int) (log : List IOCall),
      ∃ new : List IOCall, (lcbio_C_ai2sock env ai errno log).2.2.2 = log ++ new ∧
        ∀ c ∈ new, plain_call c = true := by
  intro ai
  induction ai with
  | nil => intro errno log; exact ⟨[], by simp [lcbio_C_ai2sock], by simp⟩
  | cons a rest ih =>
    intro errno log
    unfold lcbio_C_ai2sock
    split
    · rename_i sd _
      exact ⟨[IOCall.C_socket a (some sd)], rfl, by simp [plain_call]⟩
    · obtain ⟨new, e, p⟩ := ih (env.socket_errno a) (log ++ [IOCall.C_socket a none])
      refine ⟨IOCall.C_socket a none :: new, by rw [e]; simp, ?_⟩
      intro c hc
      rcases List.mem_cons.mp hc with h | h
      · rw [h]; rfl
      · exact p c h

theorem GrowsBy_ensure_sock_E_while (env : Env) (n : Nat) :
    ∀ w : World, GrowsBy plain_call w (ensure_sock_E_while env n w).1 := by
  induction n with
  | zero => intro w; exact GrowsBy_refl _ w
  | succ n ih =>
    intro w
    unfold ensure_sock_E_while
    simp only []
    obtain ⟨new, e, p⟩ := ai2sock_E_calls env w.cs.ai w.iot.errno w.iot.calls
    split
    · split
      · exact ⟨rfl, new, e, p⟩
      · refine GrowsBy_trans ?_ (ih _)
        exact ⟨rfl, new, e, p⟩
    · exact GrowsBy_refl _ w

theorem GrowsBy_ensure_sock_C_while (env : Env) (n : Nat) :
    ∀ w : World, GrowsBy plain_call w (ensure_sock_C_while env n w).1 := by
  induction n with
  | zero => intro w; exact GrowsBy_refl _ w
  | succ n ih =>
    intro w
    unfold ensure_sock_C_while
    simp only []
    obtain ⟨new, e, p⟩ := ai2sock_C_calls env w.cs.ai w.iot.errno w.iot.calls
    split
    · split
      · exact ⟨rfl, new, e, p⟩
      · refine GrowsBy_trans ?_ (ih _)
        exact ⟨rfl, new, e, p⟩
    · exact GrowsBy_refl _ w

theorem GrowsBy_ensure_sock (env : Env) (w : World) :
    GrowsBy plain_call w (ensure_sock env w).1 := by
  unfold ensure_sock
  have e1 := GrowsBy_ensure_sock_E_while env (w.cs.ai.length + 1) w
  have c1 := GrowsBy_ensure_sock_C_while env (w.cs.ai.length + 1) w
  split
  · exact GrowsBy_refl _ w
  · simp only []
    split_ifs <;> first | exact GrowsBy_refl _ w | exact e1 | exact c1

theorem GrowsBy_unwatch (w : World) : GrowsBy not_connect w (unwatch w) := by
  unfold unwatch
  split
  · exact GrowsBy_log _ w _ rfl
  · exact GrowsBy_refl _ w

theorem GrowsBy_getsockopt (w : World) : GrowsBy plain_call w (getsockopt w).2 := by
  unfold getsockopt
  split
  · exact GrowsBy_log _ w _ rfl
  · exact ⟨rfl, [_], rfl, by simp [plain_call]⟩

theorem GrowsBy_clear_sock (w : World) : GrowsBy not_connect w (clear_sock w) := by
  have hu : ∀ x : World, GrowsBy not_connect x
      { E_close (unwatch x) with sock := { (E_close (unwatch x)).sock with fd := INVALID_SOCKET } } :=
    fun x => GrowsBy_trans (GrowsBy_unwatch x) (GrowsBy_log _ _ _ rfl)
  have hc : ∀ x : World, GrowsBy not_connect x
      { C_close x with sock := { (C_close x).sock with sd := none } } :=
    fun x => GrowsBy_log _ _ _ rfl
  have ha : GrowsBy not_connect w
      (if w.cs.ai ≠ [] then { w with cs := { w.cs with ai := w.cs.ai.tail } } else w) := by
    split
    · exact GrowsBy_of_iot _ rfl
    · exact GrowsBy_refl _ w
  have key : ∀ w1 : World, GrowsBy not_connect w w1 →
      GrowsBy not_connect w
        (if w1.cs.ai = [] then w1
        else if IOT_IS_EVENT w1.iot then
          { E_close (unwatch w1) with
            sock := { (E_close (unwatch w1)).sock with fd := INVALID_SOCKET } }
        else
          if w1.sock.sd ≠ none then
            { C_close w1 with sock := { (C_close w1).sock with sd := none } }
          else w1) := by
    intro w1 h1
    split
    · exact h1
    · split
      · exact GrowsBy_trans h1 (hu _)
      · split
        · exact GrowsBy_trans h1 (hc _)
        · exact h1
  exact key _ ha

theorem GrowsBy_state_signal (q : IOCall → Bool) (s : State) (e : lcb_error_t) (w : World) :
    GrowsBy q w (state_signal s e w) :=
  GrowsBy_of_iot q (state_signal_frame s e w).1

theorem GrowsBy_connect0 (q : IOCall → Bool) (ai : List addrinfo) (w : World)
    (h : ∀ rv : Int, q (IOCall.connect0 w.sock.fd ai.head? rv) = true) :
    GrowsBy q w (IOT_connect0 ai w).2 := by
  unfold IOT_connect0
  split
  · exact GrowsBy_log q w _ (h 0)
  · rename_i rv e rest _
    exact ⟨rfl, [_], rfl, by simpa using h rv⟩

theorem GrowsBy_connect (q : IOCall → Bool) (w : World)
    (h : ∀ rv : Int, q (IOCall.C_connect w.sock.sd w.cs.ai.head? rv) = true) :
    GrowsBy q w (IOT_connect w).2 := by
  unfold IOT_connect
  split
  · exact GrowsBy_log q w _ (h 0)
  · rename_i rv e rest _
    exact ⟨rfl, [_], rfl, by simpa using h rv⟩

theorem GrowsBy_is_event {q : IOCall → Bool} {w w1 : World} (h : GrowsBy q w w1) :
    IOT_IS_EVENT w1.iot = IOT_IS_EVENT w.iot := by
  unfold IOT_IS_EVENT
  rw [h.1]

theorem not_connect_safe (c : IOCall) (h : not_connect c = true) : connect_safe c = true := by
  cases c <;> simp_all [not_connect, is_connect, connect_safe]

theorem plain_call_safe (c : IOCall) (h : plain_call c = true) : connect_safe c = true := by
  cases c <;> simp_all [plain_call, connect_safe]

/-- Every call that the readiness driver makes on a readiness table is safe,
from both labels. -/
theorem E_conncb_go_safe (env : Env) (events n : Nat) (l : Label) (r : Bool)
    (ai : List addrinfo) (w : World) (hE : IOT_IS_EVENT w.iot = true)
    (hg : l = Label.GT_CONNECT → w.sock.fd ≠ INVALID_SOCKET ∧ ai ≠ []) :
    GrowsBy connect_safe w (E_conncb_go env events n l r ai w) := by
  have hm := fun (x y : World) (h : GrowsBy not_connect x y) =>
    GrowsBy_mono not_connect_safe h
  have hp := fun (x y : World) (h : GrowsBy plain_call x y) =>
    GrowsBy_mono plain_call_safe h
  refine E_conncb_go_guarded env events (GrowsBy connect_safe w) ?_ ?_ ?_ ?_ ?_ ?_ ?_ ?_ ?_
    n l r ai w (GrowsBy_refl _ w) hg
  · intro x hx; exact (GrowsBy_is_event hx).trans hE
  · intro x hx; exact GrowsBy_trans hx (hp _ _ (GrowsBy_ensure_sock env x))
  · intro x hx; exact GrowsBy_trans hx (hp _ _ (GrowsBy_getsockopt x))
  · intro e x hx; exact GrowsBy_trans hx (GrowsBy_of_iot _ rfl)
  · intro x hx; exact GrowsBy_trans hx (hm _ _ (GrowsBy_clear_sock x))
  · intro a x hx hfd ha
    refine GrowsBy_trans hx (GrowsBy_connect0 _ a x ?_)
    intro rv
    cases a with
    | nil => exact absurd rfl ha
    | cons b rest => simp [connect_safe, hfd]
  · intro x hx; exact GrowsBy_trans hx (hm _ _ (GrowsBy_unwatch x))
  · intro s e x hx; exact GrowsBy_trans hx (GrowsBy_state_signal _ s e x)
  · intro x hx _
    exact GrowsBy_trans hx ⟨rfl, [IOCall.watch x.sock.fd], rfl, by simp [connect_safe]⟩

/-- Every call that the completion driver makes on a completion table is
safe, from both labels. -/
theorem C_connect_go_safe (env : Env) (n : Nat) (l : Label) (r : Bool) (w : World)
    (hE : IOT_IS_EVENT w.iot = false)
    (hg : l = Label.GT_CONNECT → w.sock.sd ≠ none ∧ w.cs.ai ≠ []) :
    GrowsBy connect_safe w (C_connect_go env n l r w) := by
  have hm := fun (x y : World) (h : GrowsBy not_connect x y) =>
    GrowsBy_mono not_connect_safe h
  have hp := fun (x y : World) (h : GrowsBy plain_call x y) =>
    GrowsBy_mono plain_call_safe h
  refine C_connect_go_guarded env (GrowsBy connect_safe w) ?_ ?_ ?_ ?_ ?_ ?_ ?_ ?_
    n l r w (GrowsBy_refl _ w) hg
  · intro x hx; exact (GrowsBy_is_event hx).trans hE
  · intro x hx; exact GrowsBy_trans hx (hp _ _ (GrowsBy_ensure_sock env x))
  · intro e x hx; exact GrowsBy_trans hx (GrowsBy_of_iot _ rfl)
  · intro x hx; exact GrowsBy_trans hx (hm _ _ (GrowsBy_clear_sock x))
  · intro x hx hsd ha
    refine GrowsBy_trans hx (GrowsBy_connect _ x ?_)
    intro rv
    cases hai : x.cs.ai with
    | nil => exact absurd hai ha
    | cons b rest =>
      cases hs : x.sock.sd with
      | none => exact absurd hs hsd
      | some d => simp [connect_safe]
  · intro s e x hx; exact GrowsBy_trans hx (GrowsBy_state_signal _ s e x)
  · intro x hx; exact GrowsBy_trans hx (GrowsBy_of_iot _ rfl)
  · intro x hx; exact GrowsBy_trans hx (GrowsBy_of_iot _ rfl)

/-! ## C22: every connect is made with a descriptor and an address -/

/-- C22: with a descriptor creation that, on success, leaves the cursor on the
address it created the descriptor for (`lcbio_E_ai2sock`, `lcbio_C_ai2sock`),
`ensure_sock` returns true only with a non-null cursor and a valid descriptor
of the flavor. Hence every connect that the readiness driver issues on a
readiness table, and every connect that the completion driver issues on a
completion table, is made on a valid descriptor and with an address: the log
of the driver is the log it was entered with followed by calls that are safe,
whatever the world the driver is entered with (first call, watch callback,
completion callback after a cursor advance) and whatever the number of
re-issues after INTR and EINVAL. -/
theorem connect_is_safe (env : Env) (events : Nat) (w : World) :
    ((ensure_sock env w).2 = true →
      (ensure_sock env w).1.cs.ai ≠ [] ∧
      (if IOT_IS_EVENT w.iot then (ensure_sock env w).1.sock.fd ≠ INVALID_SOCKET
        else (ensure_sock env w).1.sock.sd ≠ none)) ∧
    (IOT_IS_EVENT w.iot = true →
      ∃ new : List IOCall, (E_conncb env events w).iot.calls = w.iot.calls ++ new ∧
        ∀ c ∈ new, connect_safe c = true) ∧
    (IOT_IS_EVENT w.iot = false →
      ∃ new : List IOCall, (C_connect env w).iot.calls = w.iot.calls ++ new ∧
        ∀ c ∈ new, connect_safe c = true) := by
  refine ⟨?_, ?_, ?_⟩
  · intro h
    cases hE : IOT_IS_EVENT w.iot with
    | true =>
      obtain ⟨h1, h2⟩ := ensure_sock_true_E env w hE h
      exact ⟨h2, by simpa using h1⟩
    | false =>
      obtain ⟨h1, h2⟩ := ensure_sock_true_C env w hE h
      exact ⟨h2, by simpa using h1⟩
  · intro hE
    exact (E_conncb_go_safe env events _ Label.GT_NEXTSOCK false [] w hE
      (fun h => (by cases h))).2
  · intro hE
    exact (C_connect_go_safe env _ Label.GT_NEXTSOCK false w hE (fun h => (by cases h))).2

theorem connect_is_safe_witness :
    IOT_IS_EVENT (exAttemptE [(-1, 115)]).iot = true ∧
    ∃ new : List IOCall,
      (E_conncb exEnv LCB_WRITE_EVENT (exAttemptE [(-1, 115)])).iot.calls =
        (exAttemptE [(-1, 115)]).iot.calls ++ new ∧
      ∀ c ∈ new, connect_safe c = true :=
  ⟨by decide, (connect_is_safe exEnv LCB_WRITE_EVENT (exAttemptE [(-1, 115)])).2.1 (by decide)⟩

/-! ## A registered watch comes with a valid descriptor -/

theorem plain_watch_safe (c : IOCall) (h : plain_call c = true) : watch_safe c = true := by
  cases c <;> simp_all [plain_call, watch_safe]

theorem GrowsBy_all {q : IOCall → Bool} {w w1 : World} (h : GrowsBy q w w1)
    (hw : ∀ c ∈ w.iot.calls, q c = true) : ∀ c ∈ w1.iot.calls, q c = true := by
  obtain ⟨_, new, e, p⟩ := h
  intro c hc
  rw [e] at hc
  rcases List.mem_append.mp hc with h1 | h1
  · exact hw c h1
  · exact p c h1

theorem ioFrame_event {w w1 : World} (h : ioFrame w1 = ioFrame w) :
    w1.cs.event = w.cs.event :=
  congrArg (fun x => x.cs.event) h

theorem ev_active_ensure_sock_E_while (env : Env) (n : Nat) (w : World) :
    (ensure_sock_E_while env n w).1.cs.ev_active = w.cs.ev_active := by
  induction n generalizing w with
  | zero => rfl
  | succ n ih =>
    unfold ensure_sock_E_while
    simp only []
    split_ifs
    · rfl
    · rw [ih]
    · rfl

/-- Readiness flavor: `ensure_sock` leaves the watch flag as it is, and
changes nothing when the socket has a valid descriptor. -/
theorem ensure_sock_E_watch (env : Env) (w : World) (hE : IOT_IS_EVENT w.iot = true) :
    (ensure_sock env w).1.cs.ev_active = w.cs.ev_active ∧
    (w.sock.fd ≠ INVALID_SOCKET → (ensure_sock env w).1.sock.fd = w.sock.fd) := by
  unfold ensure_sock
  by_cases hai : w.cs.ai = []
  · rw [if_pos hai]
    exact ⟨rfl, fun _ => rfl⟩
  · rw [if_neg hai]
    simp only [hE, if_true]
    by_cases hfd : w.sock.fd ≠ INVALID_SOCKET
    · rw [if_pos hfd]
      exact ⟨rfl, fun _ => rfl⟩
    · rw [if_neg hfd]
      have hev := ev_active_ensure_sock_E_while env (w.cs.ai.length + 1) w
      refine ⟨?_, fun h => absurd h hfd⟩
      split_ifs <;> exact hev

theorem Armed_ensure_sock (env : Env) (w : World) (hw : Armed w) :
    Armed (ensure_sock env w).1 := by
  obtain ⟨a1, a2, a3, a4, a5⟩ := hw
  have hio := ioFrame_ensure_sock env w
  obtain ⟨e1, e2⟩ := ensure_sock_E_watch env w a1
  refine ⟨(ioFrame_is_event hio).trans a1, (ioFrame_sockptr hio).trans a2,
    (ioFrame_event hio).trans a3, ?_,
    GrowsBy_all (GrowsBy_mono plain_watch_safe (GrowsBy_ensure_sock env w)) a5⟩
  intro h
  rw [e1] at h
  rw [e2 (a4 h)]
  exact a4 h

theorem Armed_of_same (w w1 : World) (hw : Armed w) (h1 : w1.cs = w.cs) (h2 : w1.sock = w.sock)
    (h3 : GrowsBy watch_safe w w1) : Armed w1 := by
  obtain ⟨a1, a2, a3, a4, a5⟩ := hw
  refine ⟨(GrowsBy_is_event h3).trans a1, by rw [h1]; exact a2, by rw [h1]; exact a3, ?_,
    GrowsBy_all h3 a5⟩
  rw [h1, h2]
  exact a4

theorem getsockopt_sock (w : World) : (getsockopt w).2.sock = w.sock := by
  unfold getsockopt
  split <;> rfl

theorem Armed_getsockopt (w : World) (hw : Armed w) : Armed (getsockopt w).2 :=
  Armed_of_same w _ hw (getsockopt_cursor w).1 (getsockopt_sock w)
    (GrowsBy_mono plain_watch_safe (GrowsBy_getsockopt w))

theorem Armed_mksyserr (e : Int) (w : World) (hw : Armed w) : Armed (lcbio_mksyserr e w) :=
  ⟨hw.1, hw.2.1, hw.2.2.1, hw.2.2.2.1, hw.2.2.2.2⟩

theorem Armed_connect0 (ai : List addrinfo) (w : World) (hw : Armed w) :
    Armed (IOT_connect0 ai w).2 :=
  Armed_of_same w _ hw (IOT_connect0_cursor ai w).1 (IOT_connect0_sock ai w).1
    (GrowsBy_connect0 _ ai w (fun _ => rfl))

/-- The function `unwatch` on a world that has the invariant: the cancel it
issues is on a valid descriptor, and the watch flag is false afterwards. -/
theorem Armed_unwatch (w : World) (hw : Armed w) :
    Armed (unwatch w) ∧ (unwatch w).cs.ev_active = false := by
  obtain ⟨a1, a2, a3, a4, a5⟩ := hw
  obtain ⟨u1, u2, u3⟩ := unwatch_fields w
  have hev : (unwatch w).cs.ev_active = false := unwatch_ev_active w a2
  refine ⟨⟨?_, by rw [u1]; exact a2, by rw [u1]; exact a3, ?_, ?_⟩, hev⟩
  · unfold IOT_IS_EVENT at a1 ⊢
    rw [u3]
    exact a1
  · intro h
    rw [hev] at h
    cases h
  · rw [u3]
    intro c hc
    rcases List.mem_append.mp hc with h | h
    · exact a5 c h
    · cases hact : w.cs.ev_active with
      | true =>
        simp only [a2, hact, Bool.and_self, if_true, List.mem_singleton] at h
        rw [h]
        simpa [watch_safe] using a4 hact
      | false =>
        simp only [a2, hact, Bool.and_false, Bool.false_eq_true, if_false,
          List.not_mem_nil] at h

/-- A step that keeps the flags of the attempt and adds only safe calls keeps
the invariant of an attempt whose watch is cancelled, whatever it does to the
socket. -/
theorem Disarmed_step (w w1 : World) (h : Disarmed w) (hs : w1.cs.sock = w.cs.sock)
    (he : w1.cs.event = w.cs.event) (ha : w1.cs.ev_active = w.cs.ev_active)
    (hg : GrowsBy watch_safe w w1) : Disarmed w1 := by
  obtain ⟨⟨a1, a2, a3, _, a5⟩, a6⟩ := h
  refine ⟨⟨(GrowsBy_is_event hg).trans a1, hs.trans a2, he.trans a3, ?_, GrowsBy_all hg a5⟩,
    ha.trans a6⟩
  intro h1
  rw [ha, a6] at h1
  cases h1

theorem Armed_clear_sock (w : World) (hw : Armed w) : Armed (clear_sock w) := by
  have ha : Armed
      (if w.cs.ai ≠ [] then { w with cs := { w.cs with ai := w.cs.ai.tail } } else w) := by
    split
    · exact ⟨hw.1, hw.2.1, hw.2.2.1, hw.2.2.2.1, hw.2.2.2.2⟩
    · exact hw
  have key : ∀ w1 : World, Armed w1 →
      Armed
        (if w1.cs.ai = [] then w1
        else if IOT_IS_EVENT w1.iot then
          { E_close (unwatch w1) with
            sock := { (E_close (unwatch w1)).sock with fd := INVALID_SOCKET } }
        else
          if w1.sock.sd ≠ none then
            { C_close w1 with sock := { (C_close w1).sock with sd := none } }
          else w1) := by
    intro w1 h1
    split
    · exact h1
    · rw [if_pos h1.1]
      obtain ⟨u1, u2⟩ := Armed_unwatch w1 h1
      have h2 := Disarmed_step (unwatch w1)
        { E_close (unwatch w1) with
          sock := { (E_close (unwatch w1)).sock with fd := INVALID_SOCKET } }
        ⟨u1, u2⟩ rfl rfl rfl ⟨rfl, [IOCall.E_close (unwatch w1).sock.fd], rfl, by simp [watch_safe]⟩
      exact h2.1
  exact key _ ha

theorem state_signal_flags (s : State) (e : lcb_error_t) (w : World) :
    (state_signal s e w).cs.sock = w.cs.sock ∧ (state_signal s e w).cs.event = w.cs.event := by
  unfold state_signal timer_signal
  split
  · exact ⟨rfl, rfl⟩
  · simp only []
    split_ifs <;> simp

theorem Armed_state_signal (s : State) (e : lcb_error_t) (w : World) (hw : Armed w) :
    Armed (state_signal s e w) := by
  obtain ⟨a1, a2, a3, a4, a5⟩ := hw
  obtain ⟨f1, f2, _, _⟩ := state_signal_frame s e w
  obtain ⟨g1, g2⟩ := state_signal_flags s e w
  obtain ⟨_, k2, _⟩ := state_signal_fields s e w
  refine ⟨by rw [f1]; exact a1, g1.trans a2, g2.trans a3, ?_, by rw [f1]; exact a5⟩
  rw [k2, f2]
  exact a4

theorem Armed_E_conncb_go (env : Env) (events n : Nat) (l : Label) (r : Bool)
    (ai : List addrinfo) (w : World) (hw : Armed w)
    (hg : l = Label.GT_CONNECT → w.sock.fd ≠ INVALID_SOCKET ∧ ai ≠ []) :
    Armed (E_conncb_go env events n l r ai w) := by
  refine E_conncb_go_guarded env events Armed ?_ ?_ ?_ ?_ ?_ ?_ ?_ ?_ ?_ n l r ai w hw hg
  · intro x hx; exact hx.1
  · intro x hx; exact Armed_ensure_sock env x hx
  · intro x hx; exact Armed_getsockopt x hx
  · intro e x hx; exact Armed_mksyserr e x hx
  · intro x hx; exact Armed_clear_sock x hx
  · intro a x hx _ _; exact Armed_connect0 a x hx
  · intro x hx; exact (Armed_unwatch x hx).1
  · intro s e x hx; exact Armed_state_signal s e x hx
  · intro x hx hfd
    obtain ⟨a1, a2, a3, _, a5⟩ := hx
    refine ⟨a1, a2, a3, fun _ => hfd, ?_⟩
    intro c hc
    rcases List.mem_append.mp hc with h | h
    · exact a5 c h
    · rw [List.mem_singleton.mp h]
      rfl

theorem GrowsBy_dtor (w : World) : GrowsBy plain_call w (Connstart_dtor w) := by
  simp only [Connstart_dtor, timer_release, lcbio_unref, lcbio__destroy, lcbio_shutdown,
    lcbio__protoctx_delall, E_close, C_close, World.log]
  split_ifs <;>
    first
    | (refine ⟨rfl, [], ?_, ?_⟩ <;> simp; done)
    | (refine ⟨rfl, [_], rfl, ?_⟩; simp [plain_call])

theorem Disarmed_dtor (w : World) (h : Disarmed w) : Disarmed (Connstart_dtor w) :=
  Disarmed_step w _ h (by rw [dtor_cs]) (by rw [dtor_cs]) (by rw [dtor_cs])
    (GrowsBy_mono plain_watch_safe (GrowsBy_dtor w))

theorem Disarmed_log (w : World) (c : IOCall) (hc : watch_safe c = true) (h : Disarmed w) :
    Disarmed (w.log c) :=
  Disarmed_step w _ h rfl rfl rfl (GrowsBy_log _ w c hc)

theorem Disarmed_handler_pre (env : Env) (w : World) (hw : Armed w) :
    Disarmed (handler_pre env w) := by
  obtain ⟨u1, u2⟩ := Armed_unwatch w hw
  have h1 : Disarmed ((unwatch w).log IOCall.destroy_event) :=
    Disarmed_log _ _ rfl ⟨u1, u2⟩
  unfold handler_pre
  simp only [hw.2.1, hw.2.2.1, Bool.and_self, if_true]
  rw [if_pos (show ((unwatch w).log IOCall.destroy_event).cs.sock = true from h1.1.2.1)]
  have h2 : Disarmed (((unwatch w).log IOCall.destroy_event).log IOCall.load_socknames) :=
    Disarmed_log _ _ rfl h1
  split
  · split
    · exact Disarmed_log _ _ rfl h2
    · exact h2
  · exact h2

/-- The function `handler` on a world that has the invariant: every cancel of
a watch it issues is on a valid descriptor, and it leaves the watch
cancelled. -/
theorem Disarmed_handler (env : Env) (w : World) (hw : Armed w) :
    Disarmed (handler env w) := by
  unfold handler
  rw [handler_go_succ]
  split
  · simp only [hw.2.1, hw.2.2.1, Bool.and_self, if_true]
    obtain ⟨u1, u2⟩ := Armed_unwatch w hw
    exact Disarmed_dtor _ (Disarmed_log _ _ rfl ⟨u1, u2⟩)
  · have hp := Disarmed_handler_pre env w hw
    apply Disarmed_dtor
    have hin : Disarmed
        { handler_pre env w with cs := { (handler_pre env w).cs with in_uhandler := true } } :=
      Disarmed_step _ _ hp rfl rfl rfl (GrowsBy_of_iot _ rfl)
    have hcu : Disarmed (call_user (handler_err env w)
        { handler_pre env w with cs := { (handler_pre env w).cs with in_uhandler := true } }) := by
      refine Disarmed_step _ _ hin (by rw [call_user_cs]) (by rw [call_user_cs])
        (by rw [call_user_cs]) (GrowsBy_of_iot _ ?_)
      unfold call_user lcbio_ref
      simp only []
      split_ifs <;> rfl
    exact Disarmed_step _ _ hcu rfl rfl rfl (GrowsBy_of_iot _ rfl)

theorem Armed_step (env : Env) (e : Event) (w : World) (hi : Inv w) (ha : Armed w) :
    Armed (step env e w) := by
  cases e with
  | watch_cb events =>
    simp only [step]
    split
    · exact Armed_E_conncb_go env events _ Label.GT_NEXTSOCK false [] w ha
        (fun h => (by cases h))
    · exact ha
  | completion_cb status err =>
    have hp := hi.2.2.2 ha.1
    have hw : step env (Event.completion_cb status err) w = w := by simp [step, hp]
    rw [hw]
    exact ha
  | timer_cb =>
    simp only [step]
    split
    · exact (Disarmed_handler env w ha).1
    · exact ha
  | cancel_call =>
    simp only [step]
    split
    · rw [cancel_eq]
      split
      · exact ha
      · exact (Disarmed_handler env
          { w with cs := { w.cs with state := State.CS_CANCELLED } }
          ⟨ha.1, ha.2.1, ha.2.2.1, ha.2.2.2.1, ha.2.2.2.2⟩).1
    · exact ha

theorem Armed_run (env : Env) (es : List Event) :
    ∀ w : World, Inv w → Armed w → Armed (run env es w) := by
  induction es with
  | nil => intro w _ ha; exact ha
  | cons e es ih =>
    intro w hi ha
    exact ih _ (Inv_step env e w hi) (Armed_step env e w hi ha)

theorem Armed_Connstart_new (env : Env) (iot_ : lcbio_TABLE) (settings_ : lcb_settings)
    (getaddrinfo : ai_family_t → Int × List addrinfo) (timeout : Nat)
    (handler_ : UserHandler) (arg : Nat) (hE : IOT_IS_EVENT iot_ = true)
    (hlog : ∀ c ∈ iot_.calls, watch_safe c = true) :
    Armed (Connstart_new env iot_ settings_ getaddrinfo timeout handler_ arg) := by
  have hres : ∀ as : List addrinfo,
      Armed (Connstart_resolved iot_ settings_ as timeout handler_ arg) := by
    intro as
    refine ⟨?_, rfl, hE, fun h => (by cases h), ?_⟩
    · simp only [Connstart_resolved, hE, if_true]
      exact hE
    · simp only [Connstart_resolved, hE, if_true]
      intro c hc
      rcases List.mem_append.mp hc with h | h
      · exact hlog c h
      · rw [List.mem_singleton.mp h]
        rfl
  by_cases hr : (getaddrinfo (hints_ai_family settings_)).1 = 0
  · have hq : getaddrinfo (hints_ai_family settings_) =
        (0, (getaddrinfo (hints_ai_family settings_)).2) := Prod.ext hr rfl
    rw [Connstart_new_resolved env iot_ settings_ getaddrinfo timeout handler_ arg _ hq,
      if_pos hE]
    exact Armed_E_conncb_go env _ _ Label.GT_NEXTSOCK false [] _ (hres _)
      (fun h => (by cases h))
  · have ha := hres []
    have hw : Connstart_new env iot_ settings_ getaddrinfo timeout handler_ arg =
        notify_error lcb_error_t.LCB_UNKNOWN_HOST
          { Connstart_resolved iot_ settings_ [] timeout handler_ arg with
            cs := { (Connstart_resolved iot_ settings_ [] timeout handler_ arg).cs with
              ai_root := [] } } := by
      unfold Connstart_new Connstart_resolved
      simp only [if_pos hr, hE, if_true, World.log]
    rw [hw]
    exact Armed_state_signal _ _ _ ⟨ha.1, ha.2.1, ha.2.2.1, ha.2.2.2.1, ha.2.2.2.2⟩

/-! ## C23: the assertion of unwatch -/

/-- C23: in every state of a readiness attempt reached from the construction
(on a table whose log has no unsafe cancel, for instance an empty log) by
watch callbacks, timer expiry, cancel calls and stray completion callbacks, a
registered watch comes with a valid descriptor, and every cancel of a watch
that `unwatch` has issued on the way (from the drivers, `clear_sock` and the
handler) was on a valid descriptor: the assertion of `unwatch` never fails.
In such a state `unwatch` leaves the watch flag false and changes no other
field of the attempt, nothing of the socket, and of the table only the log,
which gains the cancel if the watch was registered. -/
theorem unwatch_assertion_holds (env : Env) (iot_ : lcbio_TABLE) (settings_ : lcb_settings)
    (getaddrinfo : ai_family_t → Int × List addrinfo) (timeout : Nat)
    (handler_ : UserHandler) (arg : Nat) (es : List Event)
    (hE : IOT_IS_EVENT iot_ = true) (hlog : ∀ c ∈ iot_.calls, watch_safe c = true) :
    ((run env es
        (Connstart_new env iot_ settings_ getaddrinfo timeout handler_ arg)).cs.ev_active =
          true →
      (run env es
        (Connstart_new env iot_ settings_ getaddrinfo timeout handler_ arg)).sock.fd ≠
          INVALID_SOCKET) ∧
    (∀ c ∈ (run env es
        (Connstart_new env iot_ settings_ getaddrinfo timeout handler_ arg)).iot.calls,
      watch_safe c = true) ∧
    (unwatch (run env es
        (Connstart_new env iot_ settings_ getaddrinfo timeout handler_ arg))).cs =
      { (run env es
          (Connstart_new env iot_ settings_ getaddrinfo timeout handler_ arg)).cs with
        ev_active := false } ∧
    (unwatch (run env es
        (Connstart_new env iot_ settings_ getaddrinfo timeout handler_ arg))).sock =
      (run env es (Connstart_new env iot_ settings_ getaddrinfo timeout handler_ arg)).sock ∧
    (unwatch (run env es
        (Connstart_new env iot_ settings_ getaddrinfo timeout handler_ arg))).iot =
      { (run env es
          (Connstart_new env iot_ settings_ getaddrinfo timeout handler_ arg)).iot with
        calls :=
          (run env es
            (Connstart_new env iot_ settings_ getaddrinfo timeout handler_ arg)).iot.calls ++
          (if (run env es
              (Connstart_new env iot_ settings_ getaddrinfo timeout handler_ arg)).cs.ev_active
            then
              [IOCall.cancel_watch (run env es
                (Connstart_new env iot_ settings_ getaddrinfo timeout handler_ arg)).sock.fd]
            else []) } ∧
    (unwatch (run env es
        (Connstart_new env iot_ settings_ getaddrinfo timeout handler_ arg))).ucalls =
      (run env es
        (Connstart_new env iot_ settings_ getaddrinfo timeout handler_ arg)).ucalls ∧
    (unwatch (run env es
        (Connstart_new env iot_ settings_ getaddrinfo timeout handler_ arg))).cs_deleted =
      (run env es
        (Connstart_new env iot_ settings_ getaddrinfo timeout handler_ arg)).cs_deleted ∧
    (unwatch (run env es
        (Connstart_new env iot_ settings_ getaddrinfo timeout handler_ arg))).pending =
      (run env es
        (Connstart_new env iot_ settings_ getaddrinfo timeout handler_ arg)).pending := by
  have ha := Armed_run env es _
    (Inv_Connstart_new env iot_ settings_ getaddrinfo timeout handler_ arg)
    (Armed_Connstart_new env iot_ settings_ getaddrinfo timeout handler_ arg hE hlog)
  generalize run env es
    (Connstart_new env iot_ settings_ getaddrinfo timeout handler_ arg) = w at ha
  obtain ⟨a1, a2, a3, a4, a5⟩ := ha
  obtain ⟨u1, u2, u3⟩ := unwatch_fields w
  have hio := ioFrame_unwatch w
  refine ⟨a4, a5, ?_, u2, ?_, ioFrame_ucalls hio, ioFrame_deleted hio, ioFrame_pending hio⟩
  · rw [u1, a2]
    simp
  · rw [u3, a2]
    simp

theorem unwatch_assertion_holds_witness :
    (run exEnv [Event.watch_cb LCB_WRITE_EVENT]
      (exAttemptE [(-1, 111), (-1, 115), (-1, 111)])).cs.ev_active = true ∧
    (run exEnv [Event.watch_cb LCB_WRITE_EVENT]
      (exAttemptE [(-1, 111), (-1, 115), (-1, 111)])).sock.fd ≠ INVALID_SOCKET :=
  ⟨by decide,
    (unwatch_assertion_holds exEnv (exTableE [(-1, 111), (-1, 115), (-1, 111)]) exSettings
      (fun _ => (0, [exA, exB])) 1000 { cancels := 1, refs := false } 7
      [Event.watch_cb LCB_WRITE_EVENT] (by decide) (by decide)).1 (by decide)⟩

/-! ## The error event: no connect is issued -/

theorem plain_not_connect (c : IOCall) (h : plain_call c = true) : not_connect c = true := by
  cases c <;> simp_all [plain_call, not_connect, is_connect]

/-- A readiness driver entered with the error bit in its event mask adds no
connect to the log, from the label `GT_NEXTSOCK`. -/
theorem E_go_error_event_calls (env : Env) (events : Nat)
    (hev : events &&& LCB_ERROR_EVENT ≠ 0) (n : Nat) :
    ∀ (r : Bool) (ai : List addrinfo) (w : World),
      GrowsBy not_connect w (E_conncb_go env events n Label.GT_NEXTSOCK r ai w) := by
  induction n with
  | zero =>
    intro r ai w
    have : E_conncb_go env events 0 Label.GT_NEXTSOCK r ai w = w := by unfold E_conncb_go; rfl
    rw [this]
    exact GrowsBy_refl _ w
  | succ n ih =>
    intro r ai w
    have he := GrowsBy_mono plain_not_connect (GrowsBy_ensure_sock env w)
    cases hr : (ensure_sock env w).2 with
    | false =>
      rw [E_go_next_fail env events n r ai w (ensure_sock env w).1 (Prod.ext rfl hr)]
      exact GrowsBy_trans he (GrowsBy_state_signal _ _ _ _)
    | true =>
      rw [E_go_next_error_event env events n r ai w (ensure_sock env w).1 (Prod.ext rfl hr) hev]
      refine GrowsBy_trans (GrowsBy_trans (GrowsBy_trans he
        (GrowsBy_mono plain_not_connect (GrowsBy_getsockopt _))) ?_) (ih _ _ _)
      exact GrowsBy_trans
        (GrowsBy_of_iot not_connect
          (show (lcbio_mksyserr (getsockopt (ensure_sock env w).1).1
            (getsockopt (ensure_sock env w).1).2).iot = (getsockopt (ensure_sock env w).1).2.iot
            from rfl))
        (GrowsBy_clear_sock _)

/-- The readiness driver entered with the error bit set: every call it adds
to the log is something else than a connect. -/
theorem E_conncb_error_event_calls (env : Env) (events : Nat)
    (hev : events &&& LCB_ERROR_EVENT ≠ 0) (w : World) :
    ∃ new : List IOCall, (E_conncb env events w).iot.calls = w.iot.calls ++ new ∧
      ∀ c ∈ new, is_connect c = false := by
  obtain ⟨_, new, e, p⟩ := E_go_error_event_calls env events hev (driver_fuel w) false [] w
  refine ⟨new, e, ?_⟩
  intro c hc
  have := p c hc
  simpa [not_connect] using this

/-! ## The header callbacks of `lcbht.c` -/

theorem with_last_header_append (f : lcbht_MIMEHDR → lcbht_MIMEHDR)
    (hs : List lcbht_MIMEHDR) (h : lcbht_MIMEHDR) :
    with_last_header f (hs ++ [h]) = some (hs ++ [f h]) := by
  induction hs with
  | nil => rfl
  | cons a rest ih =>
    cases rest with
    | nil => rfl
    | cons b rest2 =>
      show (with_last_header f (b :: rest2 ++ [h])).map (fun r => a :: r) = _
      rw [ih]
      rfl

/-- Further fragments of a key are appended to the string of the last
header. -/
theorem feed_key_more (fs : List (List Nat)) :
    ∀ (p : lcbht_PARSER) (hs : List lcbht_MIMEHDR) (h : lcbht_MIMEHDR),
      p.lastcall = last_call_type.CB_HDR_KEY → p.resp.headers = hs ++ [h] →
      ∃ p1 : lcbht_PARSER, feed_key fs p = some p1 ∧
        p1.lastcall = last_call_type.CB_HDR_KEY ∧
        p1.resp.headers = hs ++ [{ h with buf_ := h.buf_ ++ fs.flatten }] := by
  induction fs with
  | nil =>
    intro p hs h hl hh
    exact ⟨p, rfl, hl, by simp [hh]⟩
  | cons f rest ih =>
    intro p hs h hl hh
    have hk : on_hdr_key p f =
        some { p with
          resp := { p.resp with headers := hs ++ [lcb_string_append h f] }
          lastcall := last_call_type.CB_HDR_KEY } := by
      unfold on_hdr_key
      rw [if_neg (by simp [hl]), hh, with_last_header_append]
    obtain ⟨p1, e1, l1, h1⟩ := ih
      { p with
        resp := { p.resp with headers := hs ++ [lcb_string_append h f] }
        lastcall := last_call_type.CB_HDR_KEY } hs (lcb_string_append h f) rfl rfl
    refine ⟨p1, ?_, l1, ?_⟩
    · show (match on_hdr_key p f with
        | none => none
        | some p1 => feed_key rest p1) = _
      rw [hk]
      exact e1
    · rw [h1]
      simp [lcb_string_append, List.append_assoc]

/-- The fragments of a key that follows a value (or nothing) make a new
header, appended to the list, whose string is the key. -/
theorem feed_key_first (f : List Nat) (fs : List (List Nat)) (p : lcbht_PARSER)
    (hl : p.lastcall ≠ last_call_type.CB_HDR_KEY) :
    ∃ p1 : lcbht_PARSER, feed_key (f :: fs) p = some p1 ∧
      p1.lastcall = last_call_type.CB_HDR_KEY ∧
      p1.resp.headers =
        p.resp.headers ++ [{ buf_ := (f :: fs).flatten, key := none, value := none }] := by
  have hk : on_hdr_key p f =
      some { p with
        resp := { p.resp with headers := p.resp.headers ++
          [lcb_string_append { buf_ := [], key := none, value := none } f] }
        lastcall := last_call_type.CB_HDR_KEY } := by
    unfold on_hdr_key
    rw [if_pos hl]
  obtain ⟨p1, e1, l1, h1⟩ := feed_key_more fs
    { p with
      resp := { p.resp with headers := p.resp.headers ++
        [lcb_string_append { buf_ := [], key := none, value := none } f] }
      lastcall := last_call_type.CB_HDR_KEY } p.resp.headers
    (lcb_string_append { buf_ := [], key := none, value := none } f) rfl rfl
  refine ⟨p1, ?_, l1, ?_⟩
  · show (match on_hdr_key p f with
      | none => none
      | some p1 => feed_key fs p1) = _
    rw [hk]
    exact e1
  · rw [h1]
    simp [lcb_string_append]

/-- Further fragments of a value are appended to the string of the last
header. -/
theorem feed_value_more (gs : List (List Nat)) :
    ∀ (p : lcbht_PARSER) (hs : List lcbht_MIMEHDR) (h : lcbht_MIMEHDR),
      p.lastcall = last_call_type.CB_HDR_VALUE → p.resp.headers = hs ++ [h] →
      ∃ p1 : lcbht_PARSER, feed_value gs p = some p1 ∧
        p1.lastcall = last_call_type.CB_HDR_VALUE ∧
        p1.resp.headers = hs ++ [{ h with buf_ := h.buf_ ++ gs.flatten }] := by
  induction gs with
  | nil =>
    intro p hs h hl hh
    exact ⟨p, rfl, hl, by simp [hh]⟩
  | cons g rest ih =>
    intro p hs h hl hh
    have hv : on_hdr_value p g =
        some { p with
          resp := { p.resp with headers := hs ++ [lcb_string_append h g] }
          lastcall := last_call_type.CB_HDR_VALUE } := by
      unfold on_hdr_value
      rw [hh, with_last_header_append]
      simp [hl]
    obtain ⟨p1, e1, l1, h1⟩ := ih
      { p with
        resp := { p.resp with headers := hs ++ [lcb_string_append h g] }
        lastcall := last_call_type.CB_HDR_VALUE } hs (lcb_string_append h g) rfl rfl
    refine ⟨p1, ?_, l1, ?_⟩
    · show (match on_hdr_value p g with
        | none => none
        | some p1 => feed_value rest p1) = _
      rw [hv]
      exact e1
    · rw [h1]
      simp [lcb_string_append, List.append_assoc]

/-- The fragments of the value that follows a key: a `:` and the value are
appended to the string of the last header. -/
theorem feed_value_first (g : List Nat) (gs : List (List Nat)) (p : lcbht_PARSER)
    (hs : List lcbht_MIMEHDR) (h : lcbht_MIMEHDR)
    (hl : p.lastcall = last_call_type.CB_HDR_KEY) (hh : p.resp.headers = hs ++ [h]) :
    ∃ p1 : lcbht_PARSER, feed_value (g :: gs) p = some p1 ∧
      p1.lastcall = last_call_type.CB_HDR_VALUE ∧
      p1.resp.headers = hs ++ [{ h with buf_ := h.buf_ ++ COLON :: (g :: gs).flatten }] := by
  have hv : on_hdr_value p g =
      some { p with
        resp := { p.resp with headers :=
          hs ++ [lcb_string_append (lcb_string_append h [COLON]) g] }
        lastcall := last_call_type.CB_HDR_VALUE } := by
    unfold on_hdr_value
    rw [hh, with_last_header_append]
    simp [hl]
  obtain ⟨p1, e1, l1, h1⟩ := feed_value_more gs
    { p with
      resp := { p.resp with headers :=
        hs ++ [lcb_string_append (lcb_string_append h [COLON]) g] }
      lastcall := last_call_type.CB_HDR_VALUE } hs
    (lcb_string_append (lcb_string_append h [COLON]) g) rfl rfl
  refine ⟨p1, ?_, l1, ?_⟩
  · show (match on_hdr_value p g with
      | none => none
      | some p1 => feed_value gs p1) = _
    rw [hv]
    exact e1
  · rw [h1]
    simp [lcb_string_append, List.append_assoc]

/-- The callbacks for a sequence of headers, each with at least one fragment
of key and of value, append one header per element, whose string is the key,
a `:` and the value. -/
theorem feed_headers_raw (hs : List (List (List Nat) × List (List Nat))) :
    ∀ p : lcbht_PARSER, p.lastcall ≠ last_call_type.CB_HDR_KEY →
      (∀ h ∈ hs, h.1 ≠ [] ∧ h.2 ≠ []) →
      ∃ p1 : lcbht_PARSER, feed_headers hs p = some p1 ∧
        p1.lastcall ≠ last_call_type.CB_HDR_KEY ∧
        p1.status_code = p.status_code ∧
        p1.resp.headers = p.resp.headers ++ hs.map raw_header := by
  induction hs with
  | nil =>
    intro p hl _
    exact ⟨p, rfl, hl, rfl, by simp⟩
  | cons h rest ih =>
    intro p hl hwf
    obtain ⟨k1, v1⟩ := hwf h (List.mem_cons_self _ _)
    obtain ⟨kf, vf⟩ := h
    cases kf with
    | nil => exact absurd rfl k1
    | cons f fs =>
      cases vf with
      | nil => exact absurd rfl v1
      | cons g gs =>
        obtain ⟨p1, e1, l1, h1⟩ := feed_key_first f fs p hl
        obtain ⟨p2, e2, l2, h2⟩ := feed_value_first g gs p1 p.resp.headers _ l1 h1
        have hsc : p2.status_code = p.status_code := by
          have a1 : ∀ (xs : List (List Nat)) (q q1 : lcbht_PARSER),
              feed_key xs q = some q1 → q1.status_code = q.status_code := by
            intro xs
            induction xs with
            | nil => intro q q1 hq; cases hq; rfl
            | cons x xs ihx =>
              intro q q1 hq
              unfold feed_key at hq
              cases hk : on_hdr_key q x with
              | none => rw [hk] at hq; cases hq
              | some q2 =>
                rw [hk] at hq
                have hq2 : q2.status_code = q.status_code := by
                  unfold on_hdr_key at hk
                  split at hk
                  · cases hk; rfl
                  · split at hk
                    · cases hk
                    · cases hk; rfl
                exact (ihx q2 q1 hq).trans hq2
          have a2 : ∀ (xs : List (List Nat)) (q q1 : lcbht_PARSER),
              feed_value xs q = some q1 → q1.status_code = q.status_code := by
            intro xs
            induction xs with
            | nil => intro q q1 hq; cases hq; rfl
            | cons x xs ihx =>
              intro q q1 hq
              unfold feed_value at hq
              cases hk : on_hdr_value q x with
              | none => rw [hk] at hq; cases hq
              | some q2 =>
                rw [hk] at hq
                have hq2 : q2.status_code = q.status_code := by
                  unfold on_hdr_value at hk
                  split at hk
                  · cases hk
                  · cases hk; rfl
                exact (ihx q2 q1 hq).trans hq2
          exact (a2 _ _ _ e2).trans (a1 _ _ _ e1)
        obtain ⟨p3, e3, l3, s3, h3⟩ := ih p2 (by rw [l2]; decide)
          (fun x hx => hwf x (List.mem_cons_of_mem _ hx))
        refine ⟨p3, ?_, l3, s3.trans hsc, ?_⟩
        · show (match feed_key (f :: fs) p with
            | none => none
            | some p1 =>
              match feed_value (g :: gs) p1 with
              | none => none
              | some p2 => feed_headers rest p2) = _
          rw [e1]
          simp only []
          rw [e2]
          exact e3
        · rw [h3, h2]
          simp [raw_header, List.append_assoc]

theorem strstr_colon_at (k v : List Nat) (hc : COLON ∉ k) (hz : 0 ∉ k) :
    strstr_colon (k ++ COLON :: v) = some k.length := by
  induction k with
  | nil => simp [strstr_colon, COLON]
  | cons b rest ih =>
    have hb0 : b ≠ 0 := fun h => hz (by simp [h])
    have hbc : b ≠ COLON := fun h => hc (by simp [h])
    have ih1 := ih (fun h => hc (List.mem_cons_of_mem _ h))
      (fun h => hz (List.mem_cons_of_mem _ h))
    show strstr_colon (b :: (rest ++ COLON :: v)) = _
    unfold strstr_colon
    rw [if_neg hb0, if_neg hbc, ih1]
    rfl

theorem set_at_colon (k v : List Nat) :
    (k ++ COLON :: v).set k.length 0 = k ++ 0 :: v := by
  induction k with
  | nil => rfl
  | cons b rest ih =>
    show b :: (rest ++ COLON :: v).set rest.length 0 = _
    rw [ih]
    rfl

theorem cstr_of_no_nul (v : List Nat) (hz : 0 ∉ v) : cstr v = v := by
  induction v with
  | nil => rfl
  | cons b rest ih =>
    have hb0 : b ≠ 0 := fun h => hz (by simp [h])
    unfold cstr
    rw [if_neg hb0, ih (fun h => hz (List.mem_cons_of_mem _ h))]

theorem cstr_until_nul (k v : List Nat) (hz : 0 ∉ k) : cstr (k ++ 0 :: v) = k := by
  induction k with
  | nil => simp [cstr]
  | cons b rest ih =>
    have hb0 : b ≠ 0 := fun h => hz (by simp [h])
    show cstr (b :: (rest ++ 0 :: v)) = _
    unfold cstr
    rw [if_neg hb0, ih (fun h => hz (List.mem_cons_of_mem _ h))]

theorem drop_after_nul (k v : List Nat) : (k ++ 0 :: v).drop (k.length + 1) = v := by
  induction k with
  | nil => rfl
  | cons b rest ih =>
    show (rest ++ 0 :: v).drop (rest.length + 1) = v
    exact ih

/-- The loop body of `on_hdr_done` on the string of a well formed header: the
key is the key and the value is the value. -/
theorem format_raw_header (h : List (List Nat) × List (List Nat)) (hw : well_formed h) :
    header_pair (format_header (raw_header h)) = (some h.1.flatten, some h.2.flatten) := by
  obtain ⟨_, _, hc, hz, hv⟩ := hw
  unfold format_header raw_header header_pair
  simp only [strstr_colon_at _ _ hc hz, set_at_colon, cstr_until_nul _ _ hz, drop_after_nul,
    cstr_of_no_nul _ hv]

/-! ## C24: header reassembly is independent of fragmentation -/

/-- C24: let the header callbacks be delivered for a sequence of headers, each
key in one or more fragments without `:` and NUL and each value in one or more
fragments without NUL, to a parser that has no header yet and whose last
callback was not a key fragment (as after `lcbht_new`). The callbacks do not
fail, and after `on_hdr_done` the header list holds one header per element, in
the order of arrival, with the concatenation of the key fragments as its key
and the concatenation of the value fragments as its value: the result depends
on the fragments only through their concatenations, and a `:` inside a value
is kept. -/
theorem header_reassembly (hs : List (List (List Nat) × List (List Nat)))
    (p : lcbht_PARSER) (hl : p.lastcall ≠ last_call_type.CB_HDR_KEY)
    (hempty : p.resp.headers = []) (hwf : ∀ h ∈ hs, well_formed h) :
    ∃ p1 : lcbht_PARSER, feed_headers hs p = some p1 ∧
      (on_hdr_done p1).resp.headers.map header_pair =
        hs.map (fun h => (some h.1.flatten, some h.2.flatten)) ∧
      (on_hdr_done p1).resp.headers.length = hs.length := by
  obtain ⟨p1, e1, _, _, h1⟩ := feed_headers_raw hs p hl (fun h hh => ⟨(hwf h hh).1, (hwf h hh).2.1⟩)
  refine ⟨p1, e1, ?_, ?_⟩
  · show (p1.resp.headers.map format_header).map header_pair = _
    rw [h1, hempty, List.nil_append, List.map_map, List.map_map]
    apply List.map_congr_left
    intro h hh
    exact format_raw_header h (hwf h hh)
  · show (p1.resp.headers.map format_header).length = _
    rw [h1, hempty]
    simp

theorem header_reassembly_witness :
    lcbht_new.lastcall ≠ last_call_type.CB_HDR_KEY ∧
    ∃ p1 : lcbht_PARSER, feed_headers exHeaders lcbht_new = some p1 ∧
      (on_hdr_done p1).resp.headers.map header_pair =
        exHeaders.map (fun h => (some h.1.flatten, some h.2.flatten)) ∧
      (on_hdr_done p1).resp.headers.length = exHeaders.length :=
  ⟨by decide,
    header_reassembly exHeaders lcbht_new (by decide) rfl
      (by
        intro h hh
        simp only [exHeaders, List.mem_cons, List.mem_singleton, List.not_mem_nil,
          or_false] at hh
        rcases hh with rfl | rfl <;> simp [well_formed, COLON])⟩

end Lcbio
